import Mathlib

/-!
Round-robin scheduler with feedback (src/main.c)

A shallow embedding of the simulator in `src/main.c`: the process table, the five
circular queues, the per-tick I/O pass, the quantum executor and the scheduler
loop, followed by theorems about them.

Modelling conventions.
* The globals `proc`, `N`, the five queues and `tempo` are the fields of `State`.
* `rand()` is a stream `rnd : Nat → Nat` of the non-negative values it returns,
  together with the cursor `State.rnd_pos` counting the calls made so far.
* A `Fila *` argument is a `FilaId`, the name of one of the five global queues.
* `PCB` fields and pids are C `int`s and are modelled as `Int`; the queue control
  fields `inicio`, `fim`, `qtd` and the clock are counters that the code keeps
  non-negative and are modelled as `Nat`. The decrements of `cpu_restante` and
  `io_restante` are guarded by `> 0` and cannot overflow; the arithmetic of
  `rnd_range`, whose operands are arbitrary arguments, is modelled with 32-bit
  wrap-around (`int32`).
* `printf` calls are omitted.
* An access `proc[pid]` outside `0 .. MAX_PROCESSOS-1` is undefined in C; the model
  reads the zero PCB there and ignores the write.
-/

namespace Escalonador

/-! ## Constants -/

abbrev MAX_PROCESSOS : Nat := 8
abbrev QUANTUM : Nat := 3
abbrev CPU_MIN : Int := 8
abbrev CPU_MAX : Int := 25
abbrev IO_CHANCE_PCT : Nat := 25
abbrev DUR_DISCO_MIN : Int := 3
abbrev DUR_DISCO_MAX : Int := 7
abbrev DUR_FITA_MIN : Int := 4
abbrev DUR_FITA_MAX : Int := 9
abbrev DUR_IMPR_MIN : Int := 5
abbrev DUR_IMPR_MAX : Int := 10

abbrev PRIORIDADE_BAIXA : Int := 0
abbrev PRIORIDADE_ALTA : Int := 1

abbrev STATUS_PRONTO : Int := 0
abbrev STATUS_EXEC : Int := 1
abbrev STATUS_BLOQ : Int := 2
abbrev STATUS_FIM : Int := 3

abbrev INT_MIN : Int := -2147483648
abbrev INT_MAX : Int := 2147483647

abbrev IO_NENHUM : Int := 0
abbrev IO_DISCO : Int := 1
abbrev IO_FITA : Int := 2
abbrev IO_IMPRESSORA : Int := 3

/-! ## Data model -/

/-- Process control block (`PCB` in the source). -/
structure PCB where
  pid : Int
  ppid : Int
  prioridade : Int
  status : Int
  cpu_total : Int
  cpu_restante : Int
  tipo_io : Int
  io_restante : Int
deriving DecidableEq, Repr

/-- The zero PCB: what static storage holds before `gerar_processos`. -/
instance : Inhabited PCB := ⟨⟨0, 0, 0, 0, 0, 0, 0, 0⟩⟩

/-- Circular queue of pids (`Fila` in the source). -/
structure Fila where
  idx : List Int
  inicio : Nat
  fim : Nat
  qtd : Nat
deriving DecidableEq, Repr

/-- Names of the five global queues. -/
inductive FilaId where
  | alta
  | baixa
  | io_disco
  | io_fita
  | io_impr
deriving DecidableEq, Repr

/-- The global variables of the program, plus the cursor into the random stream. -/
structure State where
  proc : List PCB
  N : Nat
  fila_alta : Fila
  fila_baixa : Fila
  fila_io_disco : Fila
  fila_io_fita : Fila
  fila_io_impr : Fila
  tempo : Nat
  rnd_pos : Nat
deriving DecidableEq, Repr

/-- Dereference of a queue pointer. -/
def getFila (s : State) : FilaId → Fila
  | .alta => s.fila_alta
  | .baixa => s.fila_baixa
  | .io_disco => s.fila_io_disco
  | .io_fita => s.fila_io_fita
  | .io_impr => s.fila_io_impr

/-- Store through a queue pointer. -/
def setFila (s : State) (f : FilaId) (q : Fila) : State :=
  match f with
  | .alta => { s with fila_alta := q }
  | .baixa => { s with fila_baixa := q }
  | .io_disco => { s with fila_io_disco := q }
  | .io_fita => { s with fila_io_fita := q }
  | .io_impr => { s with fila_io_impr := q }

/-- Read of `proc[pid]`. -/
def getProc (s : State) (pid : Int) : PCB :=
  if 0 ≤ pid then s.proc.getD pid.toNat default else default

/-- Write of `proc[pid]`. -/
def setProc (s : State) (pid : Int) (p : PCB) : State :=
  if 0 ≤ pid then { s with proc := s.proc.set pid.toNat p } else s

/-! ## Queue operations -/

/-- Function `fila_init`: resets the three control fields, leaves the array alone. -/
def fila_init (q : Fila) : Fila :=
  { q with inicio := 0, fim := 0, qtd := 0 }

/-- Function `fila_vazia`. -/
def fila_vazia (q : Fila) : Bool := q.qtd == 0

/-- Function `fila_cheia`. -/
def fila_cheia (q : Fila) : Bool := q.qtd == MAX_PROCESSOS

/-- Function `fila_push`: the returned integer and the queue afterwards. -/
def fila_push (q : Fila) (pid : Int) : Int × Fila :=
  if fila_cheia q then (0, q)
  else (1, { idx := q.idx.set q.fim pid
             inicio := q.inicio
             fim := (q.fim + 1) % MAX_PROCESSOS
             qtd := q.qtd + 1 })

/-- Function `fila_pop`: the returned integer, the queue afterwards and the content of
`*pid_out` afterwards (`pid_out` is its content before the call). -/
def fila_pop (q : Fila) (pid_out : Int) : Int × Fila × Int :=
  if fila_vazia q then (0, q, pid_out)
  else (1, { idx := q.idx
             inicio := (q.inicio + 1) % MAX_PROCESSOS
             fim := q.fim
             qtd := q.qtd - 1 },
        q.idx.getD q.inicio 0)

/-- A `fila_push` on a global queue whose return value the caller discards. -/
def pushTo (s : State) (f : FilaId) (pid : Int) : State :=
  setFila s f (fila_push (getFila s f) pid).2

/-! ## Random helpers -/

/-- The value of an `int` expression whose mathematical value is `x`: `int` is 32
bits wide and arithmetic on it wraps around in two's complement: a value in the range
of `int` is itself, any other value is reduced modulo `2^32` into that range. (The C
standard leaves signed overflow undefined; wrapping is what the usual platforms do.) -/
def int32 (x : Int) : Int :=
  if INT_MIN ≤ x ∧ x ≤ INT_MAX then x else (x + 2147483648) % 4294967296 - 2147483648

/-- Function `rnd_range`, given the value `r` that its call of `rand()` returned.
Each of its three `int` operations is followed by `int32`; `%` is C's truncating
remainder. When the modulus wraps to 0 the C expression is undefined and `Int.tmod`
gives `r`; no statement relies on that value. -/
def rnd_range (r : Nat) (duracao_min duracao_max : Int) : Int :=
  int32 (duracao_min + Int.tmod (r : Int) (int32 (int32 (duracao_max - duracao_min) + 1)))

/-- Function `duracao_io`: the duration and the cursor after the call. -/
def duracao_io (rnd : Nat → Nat) (pos : Nat) (tipo_io : Int) : Int × Nat :=
  if tipo_io = IO_DISCO then (rnd_range (rnd pos) DUR_DISCO_MIN DUR_DISCO_MAX, pos + 1)
  else if tipo_io = IO_FITA then (rnd_range (rnd pos) DUR_FITA_MIN DUR_FITA_MAX, pos + 1)
  else if tipo_io = IO_IMPRESSORA then (rnd_range (rnd pos) DUR_IMPR_MIN DUR_IMPR_MAX, pos + 1)
  else (0, pos)

/-- Function `processo_pede_io`, given the value `r` that its call of `rand()` returned. -/
def processo_pede_io (r : Nat) : Bool := decide (r % 100 < IO_CHANCE_PCT)

/-! ## Process creation -/

/-- The body of the `for` loop of `gerar_processos`, for index `i`. -/
def gerar_corpo (rnd : Nat → Nat) (s : State) (i : Nat) : State :=
  let cpu := rnd_range (rnd s.rnd_pos) CPU_MIN CPU_MAX
  let processo : PCB :=
    { pid := (i : Int)
      ppid := if i = 0 then -1 else 0
      prioridade := PRIORIDADE_ALTA
      status := STATUS_PRONTO
      cpu_total := cpu
      cpu_restante := cpu
      tipo_io := IO_NENHUM
      io_restante := 0 }
  let s1 := { s with rnd_pos := s.rnd_pos + 1 }
  let s2 := setProc s1 (i : Int) processo
  pushTo s2 .alta processo.pid

/-- The `for` loop of `gerar_processos`: `k` iterations remain, the next index is
`MAX_PROCESSOS - k`. -/
def gerar_loop (rnd : Nat → Nat) : Nat → State → State
  | 0, s => s
  | k + 1, s => gerar_loop rnd k (gerar_corpo rnd s (MAX_PROCESSOS - (k + 1)))

/-- Function `gerar_processos` (the seeding of the generator is the choice of `rnd`). -/
def gerar_processos (rnd : Nat → Nat) (s : State) : State :=
  let s1 :=
    { s with
      fila_alta := fila_init s.fila_alta
      fila_baixa := fila_init s.fila_baixa
      fila_io_disco := fila_init s.fila_io_disco
      fila_io_fita := fila_init s.fila_io_fita
      fila_io_impr := fila_init s.fila_io_impr
      N := MAX_PROCESSOS }
  gerar_loop rnd MAX_PROCESSOS s1

/-- Static storage at program start: everything zero. -/
def estado_zero : State :=
  let q : Fila := { idx := List.replicate MAX_PROCESSOS 0, inicio := 0, fim := 0, qtd := 0 }
  { proc := List.replicate MAX_PROCESSOS default
    N := 0
    fila_alta := q, fila_baixa := q, fila_io_disco := q, fila_io_fita := q, fila_io_impr := q
    tempo := 0
    rnd_pos := 0 }

/-! ## I/O advancement -/

/-- One iteration of the `for` loop of `tick_io_de_fila`. The local `pid` is
uninitialised in C before `fila_pop`; the model starts it at 0 (the pop inside the
loop always succeeds, so the value is never read). -/
def tick_corpo (s : State) (f : FilaId) (tipo : Int) : State :=
  let r := fila_pop (getFila s f) 0
  let pid := r.2.2
  let s1 := setFila s f r.2.1
  let processo := getProc s1 pid
  if processo.status ≠ STATUS_BLOQ then
    pushTo s1 f pid
  else
    let p1 : PCB :=
      if processo.io_restante > 0 then
        { processo with io_restante := processo.io_restante - 1 }
      else processo
    if p1.io_restante = 0 then
      let p2 : PCB := { p1 with tipo_io := IO_NENHUM, status := STATUS_PRONTO }
      if tipo = IO_DISCO then
        pushTo (setProc s1 pid { p2 with prioridade := PRIORIDADE_BAIXA }) .baixa pid
      else
        pushTo (setProc s1 pid { p2 with prioridade := PRIORIDADE_ALTA }) .alta pid
    else
      pushTo (setProc s1 pid p1) f pid

/-- The `for` loop of `tick_io_de_fila` with `n` iterations left. -/
def tick_loop : Nat → State → FilaId → Int → State
  | 0, s, _, _ => s
  | n + 1, s, f, tipo => tick_loop n (tick_corpo s f tipo) f tipo

/-- Function `tick_io_de_fila`: the number of iterations is the `qtd` read at entry. -/
def tick_io_de_fila (s : State) (f : FilaId) (tipo : Int) : State :=
  tick_loop (getFila s f).qtd s f tipo

/-- The three passes, disk then tape then printer. -/
def tick_todos (s : State) : State :=
  tick_io_de_fila
    (tick_io_de_fila (tick_io_de_fila s .io_disco IO_DISCO) .io_fita IO_FITA)
    .io_impr IO_IMPRESSORA

/-- Function `atualizar_ios`. -/
def atualizar_ios (s : State) : State :=
  tick_todos { s with tempo := s.tempo + 1 }

/-! ## Quantum execution -/

/-- The I/O-request branch of `executar_quantum` (lines 227-240), given that
`processo_pede_io` already consumed one random value. -/
def pedir_io (rnd : Nat → Nat) (s : State) (pid : Int) : State :=
  let tipo := rnd_range (rnd s.rnd_pos) IO_DISCO IO_IMPRESSORA
  let d := duracao_io rnd (s.rnd_pos + 1) tipo
  let p := getProc s pid
  let s1 := setProc { s with rnd_pos := d.2 } pid
    { p with status := STATUS_BLOQ, tipo_io := tipo, io_restante := d.1 }
  let meu_pid := (getProc s1 pid).pid
  if tipo = IO_DISCO then pushTo s1 .io_disco meu_pid
  else if tipo = IO_FITA then pushTo s1 .io_fita meu_pid
  else pushTo s1 .io_impr meu_pid

/-- One clock tick of the running process (lines 216-223): the clock advances, one
unit of CPU is consumed, the three device queues are advanced. -/
def quantum_tick (s : State) (pid : Int) : State :=
  let s1 := { s with tempo := s.tempo + 1 }
  let p := getProc s1 pid
  tick_todos (setProc s1 pid { p with cpu_restante := p.cpu_restante - 1 })

/-- The `while` loop of `executar_quantum`; the first argument is
`QUANTUM - executado`. Returns `some 2` when the loop was left by the `return 2`
and `none` when its condition became false. -/
def quantum_loop (rnd : Nat → Nat) : Nat → State → Int → Option Int × State
  | 0, s, _ => (none, s)
  | k + 1, s, pid =>
    if (getProc s pid).cpu_restante > 0 then
      let s3 := quantum_tick s pid
      if (getProc s3 pid).cpu_restante > 0 then
        let pede := processo_pede_io (rnd s3.rnd_pos)
        let s4 := { s3 with rnd_pos := s3.rnd_pos + 1 }
        if pede then (some 2, pedir_io rnd s4 pid)
        else quantum_loop rnd k s4 pid
      else quantum_loop rnd k s3 pid
    else (none, s)

/-- Function `executar_quantum` on `&proc[pid]`: the return value and the state afterwards. -/
def executar_quantum (rnd : Nat → Nat) (s : State) (pid : Int) : Int × State :=
  let s0 := setProc s pid { getProc s pid with status := STATUS_EXEC }
  match quantum_loop rnd QUANTUM s0 pid with
  | (some r, s1) => (r, s1)
  | (none, s1) =>
    if (getProc s1 pid).cpu_restante = 0 then
      (0, setProc s1 pid { getProc s1 pid with status := STATUS_FIM })
    else
      (1, setProc s1 pid { getProc s1 pid with status := STATUS_PRONTO })

/-! ## Scheduler -/

/-- The part of an iteration of `escalonador_rr_feedback` after a pid was selected. -/
def despachar (rnd : Nat → Nat) (s : State) (pid : Int) (finalizados : Nat) : State × Nat :=
  let r := executar_quantum rnd s pid
  if r.1 = 0 then (r.2, finalizados + 1)
  else if r.1 = 2 then (r.2, finalizados)
  else
    (pushTo (setProc r.2 pid { getProc r.2 pid with prioridade := PRIORIDADE_BAIXA }) .baixa pid,
     finalizados)

/-- The selection at the top of an iteration of `escalonador_rr_feedback` (lines
263-272): the popped pid and the state after the pop, or `none` when both ready
queues are empty. -/
def selecionar (s : State) : Option (Int × State) :=
  if !fila_vazia s.fila_alta then
    let r := fila_pop s.fila_alta (-1)
    some (r.2.2, { s with fila_alta := r.2.1 })
  else if !fila_vazia s.fila_baixa then
    let r := fila_pop s.fila_baixa (-1)
    some (r.2.2, { s with fila_baixa := r.2.1 })
  else none

/-- One iteration of the `while` loop of `escalonador_rr_feedback`. -/
def sched_iter (rnd : Nat → Nat) (s : State) (finalizados : Nat) : State × Nat :=
  match selecionar s with
  | some (pid, s1) => despachar rnd s1 pid finalizados
  | none => (atualizar_ios s, finalizados)

/-- The `while (finalizados < N)` loop, run for at most `fuel` iterations; `none`
when the fuel runs out before the loop condition becomes false. -/
def escalonador_loop (rnd : Nat → Nat) : Nat → State → Nat → Option (State × Nat)
  | 0, s, finalizados => if finalizados < s.N then none else some (s, finalizados)
  | fuel + 1, s, finalizados =>
    if finalizados < s.N then
      escalonador_loop rnd fuel (sched_iter rnd s finalizados).1 (sched_iter rnd s finalizados).2
    else some (s, finalizados)

/-- Function `escalonador_rr_feedback` with a bound on the number of iterations. -/
def escalonador_rr_feedback (rnd : Nat → Nat) (fuel : Nat) (s : State) : Option (State × Nat) :=
  escalonador_loop rnd fuel s 0

/-- The state at the `n`-th iteration boundary of the scheduler loop started in `s`
with counter `f`; `none` if the loop has exited before. -/
def fronteira (rnd : Nat → Nat) : Nat → State → Nat → Option (State × Nat)
  | 0, s, f => some (s, f)
  | n + 1, s, f =>
    match fronteira rnd n s f with
    | some (s1, f1) => if f1 < s1.N then some (sched_iter rnd s1 f1) else none
    | none => none

/-! ## Abstraction of the queues and auxiliary notions for the statements -/

/-- The pids a circular queue holds, oldest first. -/
def Fila.toList (q : Fila) : List Int :=
  (List.range q.qtd).map (fun k => q.idx.getD ((q.inicio + k) % MAX_PROCESSOS) 0)

/-- Consistency of the control fields of a circular queue. -/
def Fila.wf (q : Fila) : Prop :=
  q.idx.length = MAX_PROCESSOS ∧ q.inicio < MAX_PROCESSOS ∧ q.qtd ≤ MAX_PROCESSOS ∧
    q.fim = (q.inicio + q.qtd) % MAX_PROCESSOS

instance (q : Fila) : Decidable q.wf := by
  unfold Fila.wf; infer_instance

/-- Content of a global queue as a list. -/
def conteudo (s : State) (f : FilaId) : List Int := (getFila s f).toList

/-- Content of the two ready queues. -/
def prontos (s : State) : List Int := conteudo s .alta ++ conteudo s .baixa

/-- Content of the three device queues. -/
def bloqueados (s : State) : List Int :=
  conteudo s .io_disco ++ (conteudo s .io_fita ++ conteudo s .io_impr)

/-- Content of all five queues. -/
def todas (s : State) : List Int := prontos s ++ bloqueados s

/-- The table has `MAX_PROCESSOS` entries and the five queues are consistent. -/
def WF (s : State) : Prop :=
  s.proc.length = MAX_PROCESSOS ∧ ∀ f, (getFila s f).wf

/-- A pid that indexes the process table. -/
def valido (i : Int) : Prop := 0 ≤ i ∧ i < (MAX_PROCESSOS : Int)

instance (i : Int) : Decidable (valido i) := by
  unfold valido; infer_instance

/-- Lines 167: one unit of I/O progress on a PCB, floored at 0. -/
def io_passo (p : PCB) : PCB :=
  if p.io_restante > 0 then { p with io_restante := p.io_restante - 1 } else p

/-- The PCB completes its I/O in the pass that visits it (lines 162-170). -/
def conclui (p : PCB) : Bool :=
  decide (p.status = STATUS_BLOQ) && decide ((io_passo p).io_restante = 0)

/-- What one visit of `tick_io_de_fila` with device `tipo` makes of a PCB
(lines 162-187, the table side). -/
def pcb_tick (tipo : Int) (p : PCB) : PCB :=
  if p.status ≠ STATUS_BLOQ then p
  else if (io_passo p).io_restante = 0 then
    { io_passo p with
      tipo_io := IO_NENHUM
      status := STATUS_PRONTO
      prioridade := if tipo = IO_DISCO then PRIORIDADE_BAIXA else PRIORIDADE_ALTA }
  else io_passo p

/-- The ready queue a completion on device `tipo` is routed to (lines 173-184). -/
def destino (tipo : Int) : FilaId := if tipo = IO_DISCO then .baixa else .alta

/-- The three device queues. -/
def dispositivo (f : FilaId) : Prop := f = .io_disco ∨ f = .io_fita ∨ f = .io_impr

instance (f : FilaId) : Decidable (dispositivo f) := by
  unfold dispositivo; infer_instance

/-- The scheduler invariant. `run` is the process that the scheduler has taken
out of the ready queues and not yet put back (none at an iteration boundary); every
other process sits in the queues its status asks for.
* the table and the queues are well formed, and `N` processes exist;
* no pid occurs twice in the five queues, and every queued pid indexes the table;
* `proc[i].pid = i`;
* a process other than `run` is READY, BLOCKED or FINISHED; it is READY iff it is in
  a ready queue and BLOCKED iff it is in a device queue;
* `run` is in no queue;
* a process other than `run` that is not FINISHED still has CPU time to consume,
  and a BLOCKED one has a non-negative I/O time left. -/
structure Inv (s : State) (run : Option Int) : Prop where
  wf : WF s
  hN : s.N = MAX_PROCESSOS
  nodup : (todas s).Nodup
  faixa : ∀ i ∈ todas s, valido i
  pidf : ∀ i, valido i → (getProc s i).pid = i
  pronto : ∀ i, valido i → some i ≠ run →
    ((getProc s i).status = STATUS_PRONTO ↔ i ∈ prontos s)
  bloq : ∀ i, valido i → some i ≠ run →
    ((getProc s i).status = STATUS_BLOQ ↔ i ∈ bloqueados s)
  estados : ∀ i, valido i → some i ≠ run →
    (getProc s i).status = STATUS_PRONTO ∨ (getProc s i).status = STATUS_BLOQ ∨
      (getProc s i).status = STATUS_FIM
  fora : ∀ r, run = some r → valido r ∧ r ∉ todas s
  cpu : ∀ i, valido i → some i ≠ run → (getProc s i).status ≠ STATUS_FIM →
    0 < (getProc s i).cpu_restante
  io : ∀ i, valido i → some i ≠ run → (getProc s i).status = STATUS_BLOQ →
    0 ≤ (getProc s i).io_restante

/-- The device queue an I/O request of kind `tipo` is put on (lines 233-235). -/
def fila_do_tipo (tipo : Int) : FilaId :=
  if tipo = IO_DISCO then .io_disco else if tipo = IO_FITA then .io_fita else .io_impr

/-- How the PCB and the queue membership of a process that is not being dispatched
can differ between two states `s` and `s'` of one scheduler iteration: its
identity and CPU fields are the same, and either
1. nothing about it changed, or
2. it was and still is BLOCKED in the same queue, with less I/O time left, or
3. it was BLOCKED in the disk queue and is now READY in `fila_baixa` with low
   priority, or
4. it was BLOCKED in the tape or printer queue and is now READY in `fila_alta` with
   high priority. -/
def Ev (s s' : State) (i : Int) : Prop :=
  (getProc s' i).pid = (getProc s i).pid ∧ (getProc s' i).ppid = (getProc s i).ppid ∧
  (getProc s' i).cpu_total = (getProc s i).cpu_total ∧
  (getProc s' i).cpu_restante = (getProc s i).cpu_restante ∧
  ((getProc s' i = getProc s i ∧ ∀ g, i ∈ conteudo s' g ↔ i ∈ conteudo s g) ∨
   ((getProc s i).status = STATUS_BLOQ ∧ (getProc s' i).status = STATUS_BLOQ ∧
      (getProc s' i).prioridade = (getProc s i).prioridade ∧
      (getProc s' i).tipo_io = (getProc s i).tipo_io ∧
      (getProc s' i).io_restante < (getProc s i).io_restante ∧
      0 < (getProc s' i).io_restante ∧
      ∀ g, i ∈ conteudo s' g ↔ i ∈ conteudo s g) ∨
   ((getProc s i).status = STATUS_BLOQ ∧ i ∈ conteudo s .io_disco ∧
      (getProc s' i).status = STATUS_PRONTO ∧
      (getProc s' i).prioridade = PRIORIDADE_BAIXA ∧
      (getProc s' i).tipo_io = IO_NENHUM ∧ (getProc s' i).io_restante = 0 ∧
      i ∈ conteudo s' .baixa) ∨
   ((getProc s i).status = STATUS_BLOQ ∧
      (i ∈ conteudo s .io_fita ∨ i ∈ conteudo s .io_impr) ∧
      (getProc s' i).status = STATUS_PRONTO ∧
      (getProc s' i).prioridade = PRIORIDADE_ALTA ∧
      (getProc s' i).tipo_io = IO_NENHUM ∧ (getProc s' i).io_restante = 0 ∧
      i ∈ conteudo s' .alta))

/-- CPU time a PCB still has to consume before it is FINISHED. -/
def custo_cpu (p : PCB) : Nat := if p.status = STATUS_FIM then 0 else p.cpu_restante.toNat

/-- I/O ticks a BLOCKED PCB still needs before it leaves its device queue. -/
def custo_io (p : PCB) : Nat :=
  if p.status = STATUS_BLOQ then p.io_restante.toNat + 1 else 0

/-- Contribution of one PCB to the termination measure. -/
def termo (p : PCB) : Nat := 12 * custo_cpu p + custo_io p

/-- Termination measure of the scheduler loop: every clock tick of a dispatch
lowers the contribution of the running process by 12, a new I/O request raises it
by at most 11, and an idle tick lowers the contribution of every blocked process. -/
def medida (s : State) : Nat :=
  ((List.range MAX_PROCESSOS).map (fun (i : Nat) => termo (getProc s (i : Int)))).sum

/-- Number of processes whose status is FINISHED. -/
def num_fim (s : State) : Nat :=
  (List.range s.N).countP (fun (i : Nat) => decide ((getProc s (i : Int)).status = STATUS_FIM))

/-- An I/O request is triggered during a quantum that starts with `c` CPU units
left and with the random cursor at `pos`: the draw of `processo_pede_io` succeeds
at one of the ticks that leave CPU time to consume (tick `j + 1` with `j + 1 < c`),
the draws being consecutive values of the stream. -/
def gatilho (rnd : Nat → Nat) (pos : Nat) (c : Int) : Prop :=
  ∃ j : Nat, j < QUANTUM ∧ (j : Int) + 1 < c ∧ processo_pede_io (rnd (pos + j)) = true

instance (rnd : Nat → Nat) (pos : Nat) (c : Int) : Decidable (gatilho rnd pos c) := by
  unfold gatilho; infer_instance

/-- Loop invariant of the `while` loop of `executar_quantum`, for a dispatch of `pid`
from the state `s`, with `k` ticks of the quantum left: the ticks consumed so far
are `QUANTUM - k`, none of the draws made so far triggered an I/O request. -/
def InvQuantum (rnd : Nat → Nat) (s : State) (pid : Int) (k : Nat) (s1 : State) : Prop :=
  k ≤ QUANTUM ∧ Inv s1 (some pid) ∧
  getProc s1 pid =
    { getProc s pid with
      status := STATUS_EXEC
      cpu_restante := (getProc s pid).cpu_restante - ((QUANTUM - k : Nat) : Int) } ∧
  ((QUANTUM - k : Nat) : Int) ≤ (getProc s pid).cpu_restante ∧
  s1.tempo = s.tempo + (QUANTUM - k) ∧ s1.N = s.N ∧
  s1.rnd_pos = s.rnd_pos + min (QUANTUM - k) ((getProc s pid).cpu_restante - 1).toNat ∧
  (∀ j : Nat, j < QUANTUM - k → (j : Int) + 1 < (getProc s pid).cpu_restante →
    processo_pede_io (rnd (s.rnd_pos + j)) = false) ∧
  (∀ i, i ≠ pid → Ev s s1 i) ∧
  (∀ g, pid ∉ conteudo s1 g)

/-- Outcome BLOCKED of a dispatch of `pid` from `s`: the request fired at tick
`m + 1`, after `m` draws that did not fire. -/
def SaidaBloq (rnd : Nat → Nat) (s : State) (pid : Int) (s' : State) : Prop :=
  ∃ m : Nat, m < QUANTUM ∧ (m : Int) + 1 < (getProc s pid).cpu_restante ∧
    (∀ j : Nat, j < m → processo_pede_io (rnd (s.rnd_pos + j)) = false) ∧
    processo_pede_io (rnd (s.rnd_pos + m)) = true ∧
    Inv s' none ∧
    getProc s' pid =
      { getProc s pid with
        status := STATUS_BLOQ
        cpu_restante := (getProc s pid).cpu_restante - ((m : Int) + 1)
        tipo_io := rnd_range (rnd (s.rnd_pos + m + 1)) IO_DISCO IO_IMPRESSORA
        io_restante := (duracao_io rnd (s.rnd_pos + m + 2)
          (rnd_range (rnd (s.rnd_pos + m + 1)) IO_DISCO IO_IMPRESSORA)).1 } ∧
    s'.tempo = s.tempo + m + 1 ∧ s'.N = s.N ∧ s'.rnd_pos = s.rnd_pos + m + 3 ∧
    (∀ i, i ≠ pid → Ev s s' i) ∧
    (∃ l, conteudo s'
      (fila_do_tipo (rnd_range (rnd (s.rnd_pos + m + 1)) IO_DISCO IO_IMPRESSORA)) = l ++ [pid])

/-- Outcome DONE of a dispatch of `pid` from `s`. -/
def SaidaFim (rnd : Nat → Nat) (s : State) (pid : Int) (s' : State) : Prop :=
  (getProc s pid).cpu_restante ≤ QUANTUM ∧
    ¬ gatilho rnd s.rnd_pos (getProc s pid).cpu_restante ∧
    Inv s' (some pid) ∧
    getProc s' pid = { getProc s pid with status := STATUS_FIM, cpu_restante := 0 } ∧
    s'.tempo = s.tempo + (getProc s pid).cpu_restante.toNat ∧ s'.N = s.N ∧
    s'.rnd_pos = s.rnd_pos + ((getProc s pid).cpu_restante - 1).toNat ∧
    (∀ i, i ≠ pid → Ev s s' i) ∧
    (∀ g, pid ∉ conteudo s' g)

/-- Outcome PREEMPTED of a dispatch of `pid` from `s`. -/
def SaidaPreempt (rnd : Nat → Nat) (s : State) (pid : Int) (s' : State) : Prop :=
  (QUANTUM : Int) < (getProc s pid).cpu_restante ∧
    ¬ gatilho rnd s.rnd_pos (getProc s pid).cpu_restante ∧
    Inv s' (some pid) ∧
    getProc s' pid =
      { getProc s pid with
        status := STATUS_PRONTO
        cpu_restante := (getProc s pid).cpu_restante - QUANTUM } ∧
    s'.tempo = s.tempo + QUANTUM ∧ s'.N = s.N ∧
    s'.rnd_pos = s.rnd_pos + QUANTUM ∧
    (∀ i, i ≠ pid → Ev s s' i) ∧
    (∀ g, pid ∉ conteudo s' g)

/-- What one scheduler iteration does to the process it dispatches: the process was
READY with CPU time to consume; it keeps its identity, consumes at least one unit
of CPU, and ends FINISHED (out of every queue), BLOCKED (in a device queue) or
READY again (preempted, demoted to `fila_baixa`). -/
def Despachado (s s' : State) (i : Int) : Prop :=
  (getProc s i).status = STATUS_PRONTO ∧ 0 < (getProc s i).cpu_restante ∧ i ∈ prontos s ∧
  (getProc s' i).pid = (getProc s i).pid ∧ (getProc s' i).ppid = (getProc s i).ppid ∧
  (getProc s' i).cpu_total = (getProc s i).cpu_total ∧
  0 ≤ (getProc s' i).cpu_restante ∧
  (getProc s' i).cpu_restante < (getProc s i).cpu_restante ∧
  (((getProc s' i).status = STATUS_FIM ∧ (getProc s' i).cpu_restante = 0 ∧
      (getProc s' i).prioridade = (getProc s i).prioridade ∧
      (getProc s' i).tipo_io = (getProc s i).tipo_io ∧
      (getProc s' i).io_restante = (getProc s i).io_restante ∧
      ∀ g, i ∉ conteudo s' g) ∨
   ((getProc s' i).status = STATUS_BLOQ ∧ 0 < (getProc s' i).cpu_restante ∧
      (getProc s' i).prioridade = (getProc s i).prioridade ∧
      DUR_DISCO_MIN ≤ (getProc s' i).io_restante ∧
      (getProc s' i).io_restante ≤ DUR_IMPR_MAX ∧
      i ∈ bloqueados s') ∨
   ((getProc s' i).status = STATUS_PRONTO ∧
      (getProc s' i).cpu_restante = (getProc s i).cpu_restante - QUANTUM ∧
      0 < (getProc s' i).cpu_restante ∧
      (getProc s' i).prioridade = PRIORIDADE_BAIXA ∧
      (getProc s' i).tipo_io = (getProc s i).tipo_io ∧
      (getProc s' i).io_restante = (getProc s i).io_restante ∧
      i ∈ conteudo s' .baixa))

/-- The invariant of an iteration boundary of `escalonador_rr_feedback`: the
scheduler invariant, the counter equal to the number of FINISHED processes, and no
CPU time left in a FINISHED process. -/
def InvF (s : State) (f : Nat) : Prop :=
  Inv s none ∧ f = num_fim s ∧
    ∀ i, valido i → (getProc s i).status = STATUS_FIM → (getProc s i).cpu_restante = 0

/-- The arrays have the sizes their C declarations give them. -/
def Dimensionado (s : State) : Prop :=
  s.proc.length = MAX_PROCESSOS ∧ ∀ g, (getFila s g).idx.length = MAX_PROCESSOS

instance (s : State) : Decidable (Dimensionado s) := by
  unfold Dimensionado
  have : ∀ p : FilaId → Prop, [DecidablePred p] → Decidable (∀ g, p g) := by
    intro p _
    exact decidable_of_iff (p .alta ∧ p .baixa ∧ p .io_disco ∧ p .io_fita ∧ p .io_impr)
      ⟨fun h g => by cases g <;> simp [h], fun h => ⟨h _, h _, h _, h _, h _⟩⟩
  infer_instance

/-- The PCB that `gerar_processos` writes at index `i` (lines 132-142) when the
random cursor was at `pos` on entry. -/
def pcb_inicial (rnd : Nat → Nat) (pos : Nat) (i : Nat) : PCB :=
  { pid := (i : Int)
    ppid := if i = 0 then -1 else 0
    prioridade := PRIORIDADE_ALTA
    status := STATUS_PRONTO
    cpu_total := rnd_range (rnd (pos + i)) CPU_MIN CPU_MAX
    cpu_restante := rnd_range (rnd (pos + i)) CPU_MIN CPU_MAX
    tipo_io := IO_NENHUM
    io_restante := 0 }

/-- The queue-membership invariant of an iteration boundary, together with "every
process that is not FINISHED has CPU time to consume": this is `Inv s none` without
its clause on `io_restante`. Its clauses: the queues are consistent, there are
`MAX_PROCESSOS` processes, no pid is queued twice, every queued pid indexes the
process table, `proc[i].pid = i` for every process, a process is READY iff it is in
a ready queue and BLOCKED iff it is in a device queue, and every status is READY,
BLOCKED or FINISHED. -/
def InvFilas (s : State) : Prop :=
  WF s ∧ s.N = MAX_PROCESSOS ∧ (todas s).Nodup ∧ (∀ i ∈ todas s, valido i) ∧
  (∀ i, valido i → (getProc s i).pid = i) ∧
  (∀ i, valido i → ((getProc s i).status = STATUS_PRONTO ↔ i ∈ prontos s)) ∧
  (∀ i, valido i → ((getProc s i).status = STATUS_BLOQ ↔ i ∈ bloqueados s)) ∧
  (∀ i, valido i → (getProc s i).status = STATUS_PRONTO ∨
    (getProc s i).status = STATUS_BLOQ ∨ (getProc s i).status = STATUS_FIM) ∧
  (∀ i, valido i → (getProc s i).status ≠ STATUS_FIM → 0 < (getProc s i).cpu_restante)

/-- Eight processes, all BLOCKED on the disk with `io_restante = io` and 5 units
of CPU left; the clock shows `t`. -/
def estado_no_disco (io : Int) (t : Nat) : State :=
  let vazia : Fila := { idx := List.replicate MAX_PROCESSOS 0, inicio := 0, fim := 0, qtd := 0 }
  { proc := (List.range MAX_PROCESSOS).map (fun (i : Nat) =>
      ({ pid := (i : Int), ppid := if i = 0 then -1 else 0, prioridade := PRIORIDADE_ALTA,
         status := STATUS_BLOQ, cpu_total := 8, cpu_restante := 5, tipo_io := IO_DISCO,
         io_restante := io } : PCB))
    N := MAX_PROCESSOS
    fila_alta := vazia
    fila_baixa := vazia
    fila_io_disco := { idx := [0, 1, 2, 3, 4, 5, 6, 7], inicio := 0, fim := 0, qtd := 8 }
    fila_io_fita := vazia
    fila_io_impr := vazia
    tempo := t
    rnd_pos := 0 }

/-- The state in which `executar_quantum` is called for the first time in the run
from the zero store: process 0 has been popped from `fila_alta`. -/
def estado_despacho (rnd : Nat → Nat) : State :=
  { gerar_processos rnd estado_zero with
    fila_alta := (fila_pop (gerar_processos rnd estado_zero).fila_alta (-1)).2.1 }

/-- Eight processes, all FINISHED with no CPU time left, and five empty queues. -/
def estado_tudo_fim : State :=
  let vazia : Fila := { idx := List.replicate MAX_PROCESSOS 0, inicio := 0, fim := 0, qtd := 0 }
  { proc := (List.range MAX_PROCESSOS).map (fun (i : Nat) =>
      ({ pid := (i : Int), ppid := if i = 0 then -1 else 0, prioridade := PRIORIDADE_BAIXA,
         status := STATUS_FIM, cpu_total := 8, cpu_restante := 0, tipo_io := IO_NENHUM,
         io_restante := 0 } : PCB))
    N := MAX_PROCESSOS
    fila_alta := vazia
    fila_baixa := vazia
    fila_io_disco := vazia
    fila_io_fita := vazia
    fila_io_impr := vazia
    tempo := 0
    rnd_pos := 0 }

/-- CPU time consumed so far: the sum over the `N` processes of
`cpu_total - cpu_restante`. -/
def cpu_consumida (s : State) : Int :=
  ((List.range s.N).map (fun (i : Nat) =>
    (getProc s (i : Int)).cpu_total - (getProc s (i : Int)).cpu_restante)).sum

/-- The sum over the `N` processes of `cpu_total`. -/
def soma_cpu_total (s : State) : Int :=
  ((List.range s.N).map (fun (i : Nat) => (getProc s (i : Int)).cpu_total)).sum

/-- An iteration of `escalonador_rr_feedback` started in `s` is an idle tick: both
ready queues are empty and the `else` branch of lines 268-272 runs. -/
def ocioso (s : State) : Bool := (selecionar s).isNone

/-- Number of idle ticks performed during the first `n` iterations of the scheduler
loop started in `s` with counter `f`. -/
def ociosos (rnd : Nat → Nat) : Nat → State → Nat → Nat
  | 0, _, _ => 0
  | n + 1, s, f =>
    ociosos rnd n s f +
      (match fronteira rnd n s f with
       | some (s1, f1) => if f1 < s1.N ∧ ocioso s1 = true then 1 else 0
       | none => 0)

/-- A population of one: process 0 is READY at the head of `fila_alta` with `c`
units of CPU to consume, and the clock shows 0. -/
def estado_um (c : Int) : State :=
  let vazia : Fila := { idx := List.replicate MAX_PROCESSOS 0, inicio := 0, fim := 0, qtd := 0 }
  { proc := ({ pid := 0, ppid := -1, prioridade := PRIORIDADE_ALTA, status := STATUS_PRONTO,
               cpu_total := c, cpu_restante := c, tipo_io := IO_NENHUM,
               io_restante := 0 } : PCB) :: List.replicate 7 default
    N := 1
    fila_alta := { idx := List.replicate MAX_PROCESSOS 0, inicio := 0, fim := 1, qtd := 1 }
    fila_baixa := vazia
    fila_io_disco := vazia
    fila_io_fita := vazia
    fila_io_impr := vazia
    tempo := 0
    rnd_pos := 0 }

/-- No draw of `processo_pede_io` on the stream ever triggers an I/O request. -/
def SemPedido (rnd : Nat → Nat) : Prop := ∀ k, processo_pede_io (rnd k) = false

/-! ## Clock-tick trace -/

/-- The `while` loop of `executar_quantum`, recording the state at the end of each
pass through its body (lines 216-241): one state per clock tick. -/
def quantum_traco (rnd : Nat → Nat) : Nat → State → Int → List State
  | 0, _, _ => []
  | k + 1, s, pid =>
    if (getProc s pid).cpu_restante > 0 then
      let s3 := quantum_tick s pid
      if (getProc s3 pid).cpu_restante > 0 then
        let pede := processo_pede_io (rnd s3.rnd_pos)
        let s4 := { s3 with rnd_pos := s3.rnd_pos + 1 }
        if pede then [pedir_io rnd s4 pid]
        else s4 :: quantum_traco rnd k s4 pid
      else s3 :: quantum_traco rnd k s3 pid
    else []

/-- The states at the end of each clock tick of one iteration of
`escalonador_rr_feedback`: the ticks of the quantum of the selected process, or the
single idle tick. -/
def iter_traco (rnd : Nat → Nat) (s : State) : List State :=
  match selecionar s with
  | some (pid, s1) =>
    quantum_traco rnd QUANTUM
      (setProc s1 pid { getProc s1 pid with status := STATUS_EXEC }) pid
  | none => [atualizar_ios s]

/-- The states at the end of each clock tick of the first `fuel` iterations of the
scheduler loop, in order. -/
def traco (rnd : Nat → Nat) : Nat → State → Nat → List State
  | 0, _, _ => []
  | fuel + 1, s, f =>
    if f < s.N then
      iter_traco rnd s ++ traco rnd fuel (sched_iter rnd s f).1 (sched_iter rnd s f).2
    else []

/-- The last state of a trace that starts in `a`. -/
def ultimo : State → List State → State
  | a, [] => a
  | _, b :: l => ultimo b l

/-- No clock tick lies between `a` and `b`: the clock is the same and the PCB of
every process that is BLOCKED in `a` is the same. -/
def Quieto (a b : State) : Prop :=
  b.tempo = a.tempo ∧
    ∀ i, valido i → (getProc a i).status = STATUS_BLOQ → getProc b i = getProc a i

/-- Exactly one clock tick lies between `a` and `b`, seen from the processes that are
BLOCKED in `a`: the clock advanced by one; a process with two or more ticks of I/O
left is still BLOCKED, on the same device, with one tick less; a process with at
most one tick left is READY. -/
def Tique (a b : State) : Prop :=
  b.tempo = a.tempo + 1 ∧
    ∀ i, valido i → (getProc a i).status = STATUS_BLOQ →
      (2 ≤ (getProc a i).io_restante →
        (getProc b i).status = STATUS_BLOQ ∧
        (getProc b i).tipo_io = (getProc a i).tipo_io ∧
        (getProc b i).io_restante = (getProc a i).io_restante - 1) ∧
      ((getProc a i).io_restante ≤ 1 → (getProc b i).status = STATUS_PRONTO)

/-- Consecutive states of the trace `a :: l` are one clock tick apart. -/
def Encadeado : State → List State → Prop
  | _, [] => True
  | a, b :: l => Tique a b ∧ Encadeado b l

/-! ## The queue as a bounded FIFO -/

/-- Specification side of the refinement: `push` on a list of at most
`MAX_PROCESSOS` pids, returning the result code and the list afterwards. -/
def fifo_push (l : List Int) (pid : Int) : Int × List Int :=
  if l.length = MAX_PROCESSOS then (0, l) else (1, l ++ [pid])

/-- Specification side of the refinement: `pop` on a list of pids, returning the
result code, the list afterwards and the content of the output cell afterwards. -/
def fifo_pop (l : List Int) (pid_out : Int) : Int × List Int × Int :=
  match l with
  | [] => (0, [], pid_out)
  | a :: t => (1, t, a)

/-- A call made by a client of the queue. -/
inductive Op where
  | push (pid : Int)
  | pop
deriving DecidableEq, Repr

/-- A client that performs the calls `ops` on a circular queue: the pids its
successful pops returned, the pids its successful pushes stored, both in call
order, and the queue afterwards. -/
def fila_exec : List Op → Fila → List Int × List Int × Fila
  | [], q => ([], [], q)
  | Op.push x :: ops, q =>
    ((fila_exec ops (fila_push q x).2).1,
     (if (fila_push q x).1 = 1 then x :: (fila_exec ops (fila_push q x).2).2.1
      else (fila_exec ops (fila_push q x).2).2.1),
     (fila_exec ops (fila_push q x).2).2.2)
  | Op.pop :: ops, q =>
    ((if (fila_pop q 0).1 = 1 then (fila_pop q 0).2.2 :: (fila_exec ops (fila_pop q 0).2.1).1
      else (fila_exec ops (fila_pop q 0).2.1).1),
     (fila_exec ops (fila_pop q 0).2.1).2.1,
     (fila_exec ops (fila_pop q 0).2.1).2.2)

/-- The same client on the specification side. -/
def fifo_exec : List Op → List Int → List Int × List Int × List Int
  | [], l => ([], [], l)
  | Op.push x :: ops, l =>
    ((fifo_exec ops (fifo_push l x).2).1,
     (if (fifo_push l x).1 = 1 then x :: (fifo_exec ops (fifo_push l x).2).2.1
      else (fifo_exec ops (fifo_push l x).2).2.1),
     (fifo_exec ops (fifo_push l x).2).2.2)
  | Op.pop :: ops, l =>
    ((if (fifo_pop l 0).1 = 1 then (fifo_pop l 0).2.2 :: (fifo_exec ops (fifo_pop l 0).2.1).1
      else (fifo_exec ops (fifo_pop l 0).2.1).1),
     (fifo_exec ops (fifo_pop l 0).2.1).2.1,
     (fifo_exec ops (fifo_pop l 0).2.1).2.2)

/-- Twelve pushes and twelve pops arranged so that `fim` and `inicio` both wrap
around the array: 8 pushes, 4 pops, 4 pushes, 8 pops. -/
def ops_volta : List Op :=
  [Op.push 10, Op.push 11, Op.push 12, Op.push 13, Op.push 14, Op.push 15, Op.push 16,
   Op.push 17, Op.pop, Op.pop, Op.pop, Op.pop, Op.push 18, Op.push 19, Op.push 20,
   Op.push 21, Op.pop, Op.pop, Op.pop, Op.pop, Op.pop, Op.pop, Op.pop, Op.pop]

/-! ## Return values of the queue calls made in a run

The model of the run discards the value returned by `fila_push` and `fila_pop`, as
the source does. The functions below follow the same control flow and check, at
every call site, that the call returns 1 and that a popped pid indexes the table. -/

/-- The `fila_push` executed by `pushTo s f pid` returns 1. -/
def push_ok (s : State) (f : FilaId) (pid : Int) : Bool :=
  decide ((fila_push (getFila s f) pid).1 = 1)

/-- The body of the `for` loop of `gerar_processos`: the push of line 147 returns 1. -/
def gerar_corpo_ok (rnd : Nat → Nat) (s : State) (i : Nat) : Bool :=
  let cpu := rnd_range (rnd s.rnd_pos) CPU_MIN CPU_MAX
  let processo : PCB :=
    { pid := (i : Int)
      ppid := if i = 0 then -1 else 0
      prioridade := PRIORIDADE_ALTA
      status := STATUS_PRONTO
      cpu_total := cpu
      cpu_restante := cpu
      tipo_io := IO_NENHUM
      io_restante := 0 }
  let s1 := { s with rnd_pos := s.rnd_pos + 1 }
  let s2 := setProc s1 (i : Int) processo
  push_ok s2 .alta processo.pid

/-- The `for` loop of `gerar_processos`: every push returns 1. -/
def gerar_loop_ok (rnd : Nat → Nat) : Nat → State → Bool
  | 0, _ => true
  | k + 1, s =>
    gerar_corpo_ok rnd s (MAX_PROCESSOS - (k + 1)) &&
      gerar_loop_ok rnd k (gerar_corpo rnd s (MAX_PROCESSOS - (k + 1)))

/-- Function `gerar_processos`: every push returns 1. -/
def gerar_processos_ok (rnd : Nat → Nat) (s : State) : Bool :=
  gerar_loop_ok rnd MAX_PROCESSOS
    { s with
      fila_alta := fila_init s.fila_alta
      fila_baixa := fila_init s.fila_baixa
      fila_io_disco := fila_init s.fila_io_disco
      fila_io_fita := fila_init s.fila_io_fita
      fila_io_impr := fila_init s.fila_io_impr
      N := MAX_PROCESSOS }

/-- One iteration of the `for` loop of `tick_io_de_fila`: the pop of line 159 returns
1, the popped pid satisfies `0 ≤ pid < N`, and the push executed (line 163, 176, 181
or 186) returns 1. -/
def tick_corpo_ok (s : State) (f : FilaId) (tipo : Int) : Bool :=
  let r := fila_pop (getFila s f) 0
  let pid := r.2.2
  let s1 := setFila s f r.2.1
  let processo := getProc s1 pid
  decide (r.1 = 1) && decide (0 ≤ pid ∧ pid < (s.N : Int)) &&
  (if processo.status ≠ STATUS_BLOQ then
    push_ok s1 f pid
  else
    let p1 : PCB :=
      if processo.io_restante > 0 then
        { processo with io_restante := processo.io_restante - 1 }
      else processo
    if p1.io_restante = 0 then
      let p2 : PCB := { p1 with tipo_io := IO_NENHUM, status := STATUS_PRONTO }
      if tipo = IO_DISCO then
        push_ok (setProc s1 pid { p2 with prioridade := PRIORIDADE_BAIXA }) .baixa pid
      else
        push_ok (setProc s1 pid { p2 with prioridade := PRIORIDADE_ALTA }) .alta pid
    else
      push_ok (setProc s1 pid p1) f pid)

/-- The `for` loop of `tick_io_de_fila` with `n` iterations left: every call returns 1. -/
def tick_loop_ok : Nat → State → FilaId → Int → Bool
  | 0, _, _, _ => true
  | n + 1, s, f, tipo => tick_corpo_ok s f tipo && tick_loop_ok n (tick_corpo s f tipo) f tipo

/-- Function `tick_io_de_fila`: every call returns 1. -/
def tick_io_de_fila_ok (s : State) (f : FilaId) (tipo : Int) : Bool :=
  tick_loop_ok (getFila s f).qtd s f tipo

/-- The three passes of one clock tick: every call returns 1. -/
def tick_todos_ok (s : State) : Bool :=
  tick_io_de_fila_ok s .io_disco IO_DISCO &&
  tick_io_de_fila_ok (tick_io_de_fila s .io_disco IO_DISCO) .io_fita IO_FITA &&
  tick_io_de_fila_ok
    (tick_io_de_fila (tick_io_de_fila s .io_disco IO_DISCO) .io_fita IO_FITA)
    .io_impr IO_IMPRESSORA

/-- The I/O-request branch of `executar_quantum`: the push of lines 233-235 returns 1. -/
def pedir_io_ok (rnd : Nat → Nat) (s : State) (pid : Int) : Bool :=
  let tipo := rnd_range (rnd s.rnd_pos) IO_DISCO IO_IMPRESSORA
  let d := duracao_io rnd (s.rnd_pos + 1) tipo
  let p := getProc s pid
  let s1 := setProc { s with rnd_pos := d.2 } pid
    { p with status := STATUS_BLOQ, tipo_io := tipo, io_restante := d.1 }
  let meu_pid := (getProc s1 pid).pid
  if tipo = IO_DISCO then push_ok s1 .io_disco meu_pid
  else if tipo = IO_FITA then push_ok s1 .io_fita meu_pid
  else push_ok s1 .io_impr meu_pid

/-- One clock tick of the running process: every call of its three passes returns 1. -/
def quantum_tick_ok (s : State) (pid : Int) : Bool :=
  let s1 := { s with tempo := s.tempo + 1 }
  let p := getProc s1 pid
  tick_todos_ok (setProc s1 pid { p with cpu_restante := p.cpu_restante - 1 })

/-- The `while` loop of `executar_quantum`: every call returns 1. -/
def quantum_loop_ok (rnd : Nat → Nat) : Nat → State → Int → Bool
  | 0, _, _ => true
  | k + 1, s, pid =>
    if (getProc s pid).cpu_restante > 0 then
      quantum_tick_ok s pid &&
      (let s3 := quantum_tick s pid
       if (getProc s3 pid).cpu_restante > 0 then
         let pede := processo_pede_io (rnd s3.rnd_pos)
         let s4 := { s3 with rnd_pos := s3.rnd_pos + 1 }
         if pede then pedir_io_ok rnd s4 pid
         else quantum_loop_ok rnd k s4 pid
       else quantum_loop_ok rnd k s3 pid)
    else true

/-- Function `executar_quantum` on `&proc[pid]`: every call returns 1. -/
def executar_quantum_ok (rnd : Nat → Nat) (s : State) (pid : Int) : Bool :=
  quantum_loop_ok rnd QUANTUM (setProc s pid { getProc s pid with status := STATUS_EXEC }) pid

/-- The part of an iteration of `escalonador_rr_feedback` after the selection: every
call of the dispatch returns 1, and so does the push of line 288. -/
def despachar_ok (rnd : Nat → Nat) (s : State) (pid : Int) : Bool :=
  executar_quantum_ok rnd s pid &&
  (if (executar_quantum rnd s pid).1 = 0 then true
   else if (executar_quantum rnd s pid).1 = 2 then true
   else
     push_ok (setProc (executar_quantum rnd s pid).2 pid
       { getProc (executar_quantum rnd s pid).2 pid with prioridade := PRIORIDADE_BAIXA })
       .baixa pid)

/-- The selection of lines 263-272: the pop executed returns 1 and the popped pid
satisfies `0 ≤ pid < N`. -/
def selecionar_ok (s : State) : Bool :=
  if !fila_vazia s.fila_alta then
    decide ((fila_pop s.fila_alta (-1)).1 = 1) &&
      decide (0 ≤ (fila_pop s.fila_alta (-1)).2.2 ∧
        (fila_pop s.fila_alta (-1)).2.2 < (s.N : Int))
  else if !fila_vazia s.fila_baixa then
    decide ((fila_pop s.fila_baixa (-1)).1 = 1) &&
      decide (0 ≤ (fila_pop s.fila_baixa (-1)).2.2 ∧
        (fila_pop s.fila_baixa (-1)).2.2 < (s.N : Int))
  else true

/-- One iteration of the `while` loop of `escalonador_rr_feedback`: every call
returns 1. -/
def sched_iter_ok (rnd : Nat → Nat) (s : State) : Bool :=
  selecionar_ok s &&
  (match selecionar s with
   | some (pid, s1) => despachar_ok rnd s1 pid
   | none => tick_todos_ok { s with tempo := s.tempo + 1 })

/-- The first `fuel` iterations of the scheduler loop: every call returns 1. -/
def escalonador_loop_ok (rnd : Nat → Nat) : Nat → State → Nat → Bool
  | 0, _, _ => true
  | fuel + 1, s, finalizados =>
    if finalizados < s.N then
      sched_iter_ok rnd s &&
        escalonador_loop_ok rnd fuel (sched_iter rnd s finalizados).1
          (sched_iter rnd s finalizados).2
    else true

/-! ## States for the I/O pass -/

/-- A state whose disk queue holds pid 0 twice: process 0 is BLOCKED on the disk with
`io` ticks of I/O left, the other seven processes are FINISHED and the other four
queues are empty. -/
def estado_duplicado (io : Int) : State :=
  let vazia : Fila := { idx := List.replicate MAX_PROCESSOS 0, inicio := 0, fim := 0, qtd := 0 }
  { proc := (List.range MAX_PROCESSOS).map (fun (i : Nat) =>
      ({ pid := (i : Int), ppid := if i = 0 then -1 else 0, prioridade := PRIORIDADE_ALTA,
         status := if i = 0 then STATUS_BLOQ else STATUS_FIM, cpu_total := 8,
         cpu_restante := if i = 0 then 5 else 0,
         tipo_io := if i = 0 then IO_DISCO else IO_NENHUM,
         io_restante := if i = 0 then io else 0 } : PCB))
    N := MAX_PROCESSOS
    fila_alta := vazia
    fila_baixa := vazia
    fila_io_disco := { idx := List.replicate MAX_PROCESSOS 0, inicio := 0, fim := 2, qtd := 2 }
    fila_io_fita := vazia
    fila_io_impr := vazia
    tempo := 0
    rnd_pos := 0 }

/-- A state whose `fila_baixa` is full: process 0 is BLOCKED on the disk with one
tick of I/O left and is the only entry of the disk queue; the other seven processes
are READY with priority LOW; `fila_baixa` holds the eight entries
`1, 2, 3, 4, 5, 6, 7, 1`. -/
def estado_baixa_cheia : State :=
  let vazia : Fila := { idx := List.replicate MAX_PROCESSOS 0, inicio := 0, fim := 0, qtd := 0 }
  { proc := (List.range MAX_PROCESSOS).map (fun (i : Nat) =>
      ({ pid := (i : Int), ppid := if i = 0 then -1 else 0,
         prioridade := if i = 0 then PRIORIDADE_ALTA else PRIORIDADE_BAIXA,
         status := if i = 0 then STATUS_BLOQ else STATUS_PRONTO, cpu_total := 8,
         cpu_restante := 5,
         tipo_io := if i = 0 then IO_DISCO else IO_NENHUM,
         io_restante := if i = 0 then 1 else 0 } : PCB))
    N := MAX_PROCESSOS
    fila_alta := vazia
    fila_baixa := { idx := [1, 2, 3, 4, 5, 6, 7, 1], inicio := 0, fim := 0, qtd := 8 }
    fila_io_disco := { idx := List.replicate MAX_PROCESSOS 0, inicio := 0, fim := 1, qtd := 1 }
    fila_io_fita := vazia
    fila_io_impr := vazia
    tempo := 0
    rnd_pos := 0 }

instance (s : State) : Decidable (WF s) := by
  unfold WF
  have : ∀ p : FilaId → Prop, [DecidablePred p] → Decidable (∀ g, p g) := by
    intro p _
    exact decidable_of_iff (p .alta ∧ p .baixa ∧ p .io_disco ∧ p .io_fita ∧ p .io_impr)
      ⟨fun h g => by cases g <;> simp [h], fun h => ⟨h _, h _, h _, h _, h _⟩⟩
  infer_instance

/-- A state whose `fila_baixa` has one free slot: processes 0 and 1 are BLOCKED on the
disk with one tick of I/O left and are the two entries of the disk queue; the other
six processes are READY with priority LOW; `fila_baixa` holds the seven entries
`2, 3, 4, 5, 6, 7, 2`. -/
def estado_baixa_quase_cheia : State :=
  let vazia : Fila := { idx := List.replicate MAX_PROCESSOS 0, inicio := 0, fim := 0, qtd := 0 }
  { proc := (List.range MAX_PROCESSOS).map (fun (i : Nat) =>
      ({ pid := (i : Int), ppid := if i = 0 then -1 else 0,
         prioridade := if i < 2 then PRIORIDADE_ALTA else PRIORIDADE_BAIXA,
         status := if i < 2 then STATUS_BLOQ else STATUS_PRONTO, cpu_total := 8,
         cpu_restante := 5,
         tipo_io := if i < 2 then IO_DISCO else IO_NENHUM,
         io_restante := if i < 2 then 1 else 0 } : PCB))
    N := MAX_PROCESSOS
    fila_alta := vazia
    fila_baixa := { idx := [2, 3, 4, 5, 6, 7, 2, 0], inicio := 0, fim := 7, qtd := 7 }
    fila_io_disco := { idx := [0, 1, 0, 0, 0, 0, 0, 0], inicio := 0, fim := 2, qtd := 2 }
    fila_io_fita := vazia
    fila_io_impr := vazia
    tempo := 0
    rnd_pos := 0 }

/-- The clauses of `InvFilas` other than `proc[i].pid = i`: consistent queues, eight
processes, no pid queued twice, every queued pid an index of the process table,
READY iff in a ready queue, BLOCKED iff in a device queue, every status one of
READY, BLOCKED, FINISHED, and CPU time left in every process that is not FINISHED. -/
def InvFilasSemPid (s : State) : Prop :=
  WF s ∧ s.N = MAX_PROCESSOS ∧ (todas s).Nodup ∧ (∀ i ∈ todas s, valido i) ∧
  (∀ i, valido i → ((getProc s i).status = STATUS_PRONTO ↔ i ∈ prontos s)) ∧
  (∀ i, valido i → ((getProc s i).status = STATUS_BLOQ ↔ i ∈ bloqueados s)) ∧
  (∀ i, valido i → (getProc s i).status = STATUS_PRONTO ∨
    (getProc s i).status = STATUS_BLOQ ∨ (getProc s i).status = STATUS_FIM) ∧
  (∀ i, valido i → (getProc s i).status ≠ STATUS_FIM → 0 < (getProc s i).cpu_restante)

theorem Fila.wf_iff (q : Fila) :
    q.wf ↔ q.idx.length = 8 ∧ q.inicio < 8 ∧ q.qtd ≤ 8 ∧ q.fim = (q.inicio + q.qtd) % 8 :=
  Iff.rfl

theorem Fila.length_toList (q : Fila) : q.toList.length = q.qtd := by
  simp [Fila.toList]

theorem fila_push_ok (q : Fila) (x : Int) (hw : q.wf) (hq : q.qtd < MAX_PROCESSOS) :
    (fila_push q x).1 = 1 ∧ (fila_push q x).2.wf ∧
      (fila_push q x).2.toList = q.toList ++ [x] := by
  obtain ⟨hl, hi, _, hf⟩ := hw
  simp only [MAX_PROCESSOS] at *
  have hc : fila_cheia q = false := by
    simp only [fila_cheia, beq_eq_false_iff_ne, MAX_PROCESSOS]; omega
  simp only [fila_push, hc, Bool.false_eq_true, if_false, MAX_PROCESSOS]
  refine ⟨trivial, (Fila.wf_iff _).2 ⟨by simp [hl], hi, by simp only; omega, by simp only; omega⟩, ?_⟩
  simp only [Fila.toList, List.range_succ, List.map_append, List.map_cons, List.map_nil,
    MAX_PROCESSOS]
  congr 1
  · apply List.map_congr_left
    intro k hk
    rw [List.mem_range] at hk
    simp only [List.getD_eq_getElem?_getD, List.getElem?_set]
    have : q.fim ≠ (q.inicio + k) % 8 := by omega
    simp [this]
  · simp only [List.getD_eq_getElem?_getD, List.getElem?_set]
    have h1 : q.fim = (q.inicio + q.qtd) % 8 := hf
    have h2 : q.fim < q.idx.length := by omega
    simp [← h1, h2]

theorem fila_push_cheia (q : Fila) (x : Int) (hq : q.qtd = MAX_PROCESSOS) :
    fila_push q x = (0, q) := by
  simp [fila_push, fila_cheia, hq]

theorem fila_pop_ok (q : Fila) (d a : Int) (t : List Int) (hw : q.wf)
    (hl : q.toList = a :: t) :
    (fila_pop q d).1 = 1 ∧ (fila_pop q d).2.2 = a ∧ (fila_pop q d).2.1.wf ∧
      (fila_pop q d).2.1.toList = t := by
  obtain ⟨hlen, hi, hq, hf⟩ := hw
  simp only [MAX_PROCESSOS] at *
  have hpos : q.qtd ≠ 0 := by
    intro h0
    have := q.length_toList
    rw [hl, h0] at this
    simp at this
  have hv : fila_vazia q = false := by
    simp only [fila_vazia, beq_eq_false_iff_ne]; exact hpos
  simp only [fila_pop, hv, Bool.false_eq_true, if_false, MAX_PROCESSOS]
  obtain ⟨n, hn⟩ : ∃ n, q.qtd = n + 1 := ⟨q.qtd - 1, by omega⟩
  have hl2 := hl
  simp only [Fila.toList, hn, List.range_succ_eq_map, List.map_cons, List.map_map,
    List.cons.injEq, MAX_PROCESSOS] at hl2
  obtain ⟨ha, ht⟩ := hl2
  refine ⟨trivial, ?_, (Fila.wf_iff _).2 ⟨hlen, by simp only; omega, by simp only; omega,
    by simp only; omega⟩, ?_⟩
  · have h8 : q.inicio % 8 = q.inicio := Nat.mod_eq_of_lt hi
    simpa [h8] using ha
  · simp only [Fila.toList, hn, Nat.add_sub_cancel, MAX_PROCESSOS]
    rw [← ht]
    apply List.map_congr_left
    intro k _
    simp only [Function.comp]
    congr 1
    omega

theorem fila_pop_vazia (q : Fila) (d : Int) (hq : q.qtd = 0) :
    fila_pop q d = (0, q, d) := by
  simp [fila_pop, fila_vazia, hq]

theorem fila_init_ok (q : Fila) (hl : q.idx.length = MAX_PROCESSOS) :
    (fila_init q).wf ∧ (fila_init q).toList = [] := by
  refine ⟨⟨hl, by simp [fila_init], by simp [fila_init], by simp [fila_init]⟩, ?_⟩
  simp [Fila.toList, fila_init]

/-! ## Lemmas: reads and writes of the globals -/

@[simp] theorem getFila_setFila (s : State) (f g : FilaId) (q : Fila) :
    getFila (setFila s f q) g = if g = f then q else getFila s g := by
  cases f <;> cases g <;> simp [getFila, setFila]

@[simp] theorem getFila_setProc (s : State) (i : Int) (p : PCB) (g : FilaId) :
    getFila (setProc s i p) g = getFila s g := by
  unfold setProc
  split <;> cases g <;> rfl

@[simp] theorem getProc_setFila (s : State) (f : FilaId) (q : Fila) (i : Int) :
    getProc (setFila s f q) i = getProc s i := by
  cases f <;> rfl

@[simp] theorem proc_setFila (s : State) (f : FilaId) (q : Fila) :
    (setFila s f q).proc = s.proc := by
  cases f <;> rfl

@[simp] theorem tempo_setFila (s : State) (f : FilaId) (q : Fila) :
    (setFila s f q).tempo = s.tempo := by
  cases f <;> rfl

@[simp] theorem N_setFila (s : State) (f : FilaId) (q : Fila) :
    (setFila s f q).N = s.N := by
  cases f <;> rfl

@[simp] theorem rnd_pos_setFila (s : State) (f : FilaId) (q : Fila) :
    (setFila s f q).rnd_pos = s.rnd_pos := by
  cases f <;> rfl

@[simp] theorem tempo_setProc (s : State) (i : Int) (p : PCB) :
    (setProc s i p).tempo = s.tempo := by
  unfold setProc; split <;> rfl

@[simp] theorem N_setProc (s : State) (i : Int) (p : PCB) :
    (setProc s i p).N = s.N := by
  unfold setProc; split <;> rfl

@[simp] theorem rnd_pos_setProc (s : State) (i : Int) (p : PCB) :
    (setProc s i p).rnd_pos = s.rnd_pos := by
  unfold setProc; split <;> rfl

@[simp] theorem length_proc_setProc (s : State) (i : Int) (p : PCB) :
    (setProc s i p).proc.length = s.proc.length := by
  unfold setProc; split <;> simp

theorem getProc_default : (default : PCB).status = STATUS_PRONTO := rfl

/-- A read outside the table gives the zero PCB. -/
theorem getProc_fora (s : State) (i : Int) (h : ¬ (0 ≤ i ∧ i.toNat < s.proc.length)) :
    getProc s i = default := by
  unfold getProc
  split
  · rename_i h0
    have : ¬ i.toNat < s.proc.length := fun h1 => h ⟨h0, h1⟩
    simp [List.getD_eq_getElem?_getD, List.getElem?_eq_none (Nat.le_of_not_lt this)]
  · rfl

theorem getProc_setProc_eq (s : State) (i : Int) (p : PCB)
    (h : 0 ≤ i ∧ i.toNat < s.proc.length) : getProc (setProc s i p) i = p := by
  simp [getProc, setProc, h.1, List.getD_eq_getElem?_getD, List.getElem?_set, h.2]

theorem getProc_setProc_ne (s : State) (i j : Int) (p : PCB) (h : j ≠ i) :
    getProc (setProc s i p) j = getProc s j := by
  unfold getProc setProc
  by_cases hi : 0 ≤ i <;> by_cases hj : 0 ≤ j <;> simp [hi, hj]
  have : i.toNat ≠ j.toNat := by omega
  simp [List.getD_eq_getElem?_getD, List.getElem?_set, this]

/-- A process whose status is not the zero one lies inside the table. -/
theorem dentro_of_status (s : State) (i : Int) (h : (getProc s i).status ≠ STATUS_PRONTO) :
    0 ≤ i ∧ i.toNat < s.proc.length := by
  by_contra hc
  rw [getProc_fora s i hc] at h
  exact h rfl

@[simp] theorem conteudo_setProc (s : State) (i : Int) (p : PCB) (g : FilaId) :
    conteudo (setProc s i p) g = conteudo s g := by
  simp [conteudo]

theorem conteudo_setFila (s : State) (f g : FilaId) (q : Fila) :
    conteudo (setFila s f q) g = if g = f then q.toList else conteudo s g := by
  simp only [conteudo, getFila_setFila]
  split <;> rfl

theorem WF_setFila (s : State) (f : FilaId) (q : Fila) (h : WF s) (hq : q.wf) :
    WF (setFila s f q) := by
  refine ⟨by simpa using h.1, fun g => ?_⟩
  rw [getFila_setFila]
  split
  · exact hq
  · exact h.2 g

theorem WF_setProc (s : State) (i : Int) (p : PCB) (h : WF s) : WF (setProc s i p) :=
  ⟨by simpa using h.1, fun g => by simpa using h.2 g⟩

/-- A discarded push on a queue that is not full appends the pid. -/
theorem pushTo_ok (s : State) (f : FilaId) (x : Int) (h : WF s)
    (hq : (conteudo s f).length < MAX_PROCESSOS) :
    WF (pushTo s f x) ∧ conteudo (pushTo s f x) f = conteudo s f ++ [x] ∧
      (∀ g, g ≠ f → getFila (pushTo s f x) g = getFila s g) ∧
      (pushTo s f x).proc = s.proc ∧ (pushTo s f x).tempo = s.tempo ∧
      (pushTo s f x).N = s.N ∧ (pushTo s f x).rnd_pos = s.rnd_pos := by
  have hq2 : (getFila s f).qtd < MAX_PROCESSOS := by
    rw [← Fila.length_toList]; exact hq
  obtain ⟨_, hw, hl⟩ := fila_push_ok (getFila s f) x (h.2 f) hq2
  refine ⟨WF_setFila _ _ _ h hw, ?_, ?_, by simp [pushTo], by simp [pushTo], by simp [pushTo],
    by simp [pushTo]⟩
  · simp [pushTo, conteudo, hl]
  · intro g hg
    simp [pushTo, hg]

@[simp] theorem getProc_pushTo (s : State) (f : FilaId) (x i : Int) :
    getProc (pushTo s f x) i = getProc s i := by
  simp [pushTo]

theorem WF_congr (s s' : State) (hp : s'.proc = s.proc)
    (hq : ∀ g, getFila s' g = getFila s g) (h : WF s) : WF s' :=
  ⟨by rw [hp]; exact h.1, fun g => by rw [hq]; exact h.2 g⟩

/-! ## Lemmas: one visit and one pass of `tick_io_de_fila` -/

theorem destino_nao_dispositivo (tipo : Int) : ¬ dispositivo (destino tipo) := by
  unfold destino dispositivo
  split <;> simp

/-- The body of the pass, phrased with `pcb_tick`, `conclui` and `destino`. -/
theorem tick_corpo_eq (s : State) (f : FilaId) (tipo : Int) :
    tick_corpo s f tipo =
      if conclui (getProc s (fila_pop (getFila s f) 0).2.2) then
        pushTo (setProc (setFila s f (fila_pop (getFila s f) 0).2.1)
          (fila_pop (getFila s f) 0).2.2
          (pcb_tick tipo (getProc s (fila_pop (getFila s f) 0).2.2)))
          (destino tipo) (fila_pop (getFila s f) 0).2.2
      else if (getProc s (fila_pop (getFila s f) 0).2.2).status = STATUS_BLOQ then
        pushTo (setProc (setFila s f (fila_pop (getFila s f) 0).2.1)
          (fila_pop (getFila s f) 0).2.2
          (pcb_tick tipo (getProc s (fila_pop (getFila s f) 0).2.2)))
          f (fila_pop (getFila s f) 0).2.2
      else
        pushTo (setFila s f (fila_pop (getFila s f) 0).2.1) f (fila_pop (getFila s f) 0).2.2 := by
  unfold tick_corpo
  simp only [getProc_setFila]
  generalize (fila_pop (getFila s f) 0).2.2 = pid
  generalize (fila_pop (getFila s f) 0).2.1 = q
  generalize getProc s pid = p
  unfold conclui pcb_tick io_passo destino
  by_cases hb : p.status = STATUS_BLOQ
  · by_cases h1 : p.io_restante > 0
    · by_cases h3 : p.io_restante - 1 = 0
      · by_cases ht : tipo = IO_DISCO
        · simp [hb, h1, h3, ht]
        · simp [hb, h1, h3, ht]
      · simp [hb, h1, h3]
    · by_cases h2 : p.io_restante = 0
      · by_cases ht : tipo = IO_DISCO
        · simp [hb, h1, h2, ht]
        · simp [hb, h1, h2, ht]
      · simp [hb, h1, h2]
  · simp [hb]

theorem pcb_tick_of_not_bloq (tipo : Int) (p : PCB) (h : p.status ≠ STATUS_BLOQ) :
    pcb_tick tipo p = p := by
  simp [pcb_tick, h]

theorem conclui_bloq (p : PCB) (h : conclui p = true) : p.status = STATUS_BLOQ := by
  simp only [conclui, Bool.and_eq_true, decide_eq_true_eq] at h
  exact h.1

/-- The table after one visit: only the visited entry changes, by `pcb_tick`. -/
theorem tick_corpo_proc (s : State) (f : FilaId) (tipo : Int) (j : Int) :
    getProc (tick_corpo s f tipo) j =
      if j = (fila_pop (getFila s f) 0).2.2 then
        pcb_tick tipo (getProc s (fila_pop (getFila s f) 0).2.2)
      else getProc s j := by
  rw [tick_corpo_eq]
  generalize (fila_pop (getFila s f) 0).2.2 = pid
  generalize hq : (fila_pop (getFila s f) 0).2.1 = q
  have hset : ∀ g x, (getProc s pid).status = STATUS_BLOQ →
      getProc (pushTo (setProc (setFila s f q) pid (pcb_tick tipo (getProc s pid))) g x) j
        = if j = pid then pcb_tick tipo (getProc s pid) else getProc s j := by
    intro g x hb
    have hin := dentro_of_status s pid (by rw [hb]; decide)
    have hin2 : 0 ≤ pid ∧ pid.toNat < (setFila s f q).proc.length := by simpa using hin
    rw [getProc_pushTo]
    by_cases hj : j = pid
    · subst hj
      rw [getProc_setProc_eq _ _ _ hin2, if_pos rfl]
    · rw [getProc_setProc_ne _ _ _ _ hj, if_neg hj, getProc_setFila]
  by_cases hc : conclui (getProc s pid) = true
  · rw [if_pos hc]
    exact hset _ _ (conclui_bloq _ hc)
  · rw [if_neg hc]
    by_cases hb : (getProc s pid).status = STATUS_BLOQ
    · rw [if_pos hb]
      exact hset _ _ hb
    · rw [if_neg hb, getProc_pushTo, getProc_setFila]
      by_cases hj : j = pid
      · subst hj
        rw [if_pos rfl, pcb_tick_of_not_bloq _ _ hb]
      · rw [if_neg hj]

theorem tick_corpo_frame (s : State) (f : FilaId) (tipo : Int) :
    (tick_corpo s f tipo).tempo = s.tempo ∧ (tick_corpo s f tipo).N = s.N ∧
      (tick_corpo s f tipo).rnd_pos = s.rnd_pos ∧
      (tick_corpo s f tipo).proc.length = s.proc.length := by
  rw [tick_corpo_eq]
  simp only [pushTo]
  split_ifs <;> simp

/-- The queues after one visit. -/
theorem tick_corpo_filas (s : State) (f : FilaId) (tipo : Int) (p : Int) (rest : List Int)
    (h : WF s) (hf : dispositivo f) (hl : conteudo s f = p :: rest)
    (hcap : (conteudo s (destino tipo)).length < MAX_PROCESSOS) :
    WF (tick_corpo s f tipo) ∧
      conteudo (tick_corpo s f tipo) f
        = rest ++ (if conclui (getProc s p) then [] else [p]) ∧
      conteudo (tick_corpo s f tipo) (destino tipo)
        = conteudo s (destino tipo) ++ (if conclui (getProc s p) then [p] else []) ∧
      (∀ g, g ≠ f → g ≠ destino tipo → getFila (tick_corpo s f tipo) g = getFila s g) := by
  obtain ⟨_, hpid, hwq, hlq⟩ := fila_pop_ok (getFila s f) 0 p rest (h.2 f) hl
  have hfd : destino tipo ≠ f := fun e => destino_nao_dispositivo tipo (e ▸ hf)
  have h1 : WF (setFila s f (fila_pop (getFila s f) 0).2.1) := WF_setFila _ _ _ h hwq
  have hc1 : conteudo (setFila s f (fila_pop (getFila s f) 0).2.1) f = rest := by
    rw [conteudo_setFila]; simpa using hlq
  have hrest : rest.length < MAX_PROCESSOS := by
    have := (h.2 f).2.2.1
    have h2 := (getFila s f).length_toList
    have h3 : (getFila s f).toList = p :: rest := hl
    rw [h3] at h2
    simp only [List.length_cons] at h2
    omega
  rw [tick_corpo_eq, hpid]
  generalize hq : (fila_pop (getFila s f) 0).2.1 = q at h1 hc1
  -- requeue on the same device queue
  have volta : ∀ s1 : State, WF s1 → conteudo s1 f = rest →
      (∀ g, g ≠ f → getFila s1 g = getFila s g) →
      WF (pushTo s1 f p) ∧ conteudo (pushTo s1 f p) f = rest ++ [p] ∧
        conteudo (pushTo s1 f p) (destino tipo) = conteudo s (destino tipo) ++ [] ∧
        (∀ g, g ≠ f → g ≠ destino tipo → getFila (pushTo s1 f p) g = getFila s g) := by
    intro s1 hw hc hg
    obtain ⟨a, b, c, _⟩ := pushTo_ok s1 f p hw (by rw [hc]; exact hrest)
    refine ⟨a, by rw [b, hc], ?_, ?_⟩
    · rw [List.append_nil, conteudo, c _ hfd, hg _ hfd]; rfl
    · intro g hg1 _
      rw [c g hg1, hg g hg1]
  by_cases hc : conclui (getProc s p) = true
  · simp only [hc, if_true, List.append_nil]
    have hw2 := WF_setProc _ p (pcb_tick tipo (getProc s p)) h1
    have hcd : conteudo (setProc (setFila s f q) p (pcb_tick tipo (getProc s p)))
        (destino tipo) = conteudo s (destino tipo) := by
      rw [conteudo_setProc, conteudo_setFila]; simp [hfd]
    obtain ⟨a, b, c, _⟩ := pushTo_ok _ (destino tipo) p hw2 (by rw [hcd]; exact hcap)
    refine ⟨a, ?_, by rw [b, hcd], ?_⟩
    · have := c f (Ne.symm hfd)
      simp only [conteudo, this, getFila_setProc]
      simpa [conteudo] using hc1
    · intro g hg hgd
      rw [c g hgd]
      simp [hg]
  · simp only [hc, if_false, Bool.false_eq_true]
    by_cases hb : (getProc s p).status = STATUS_BLOQ
    · rw [if_pos hb]
      exact volta _ (WF_setProc _ _ _ h1) (by rw [conteudo_setProc, hc1])
        (fun g hg => by simp [hg])
    · rw [if_neg hb]
      exact volta _ h1 hc1 (fun g hg => by simp [hg])

/-- One pass over a device queue whose first `l.length` entries are the distinct
pids `l`: exact description of the queues and of the table afterwards. -/
theorem tick_loop_spec (tipo : Int) (f : FilaId) (hf : dispositivo f) :
    ∀ (l : List Int) (s : State) (acc : List Int),
      WF s → conteudo s f = l ++ acc → l.Nodup →
      (conteudo s (destino tipo)).length + l.length ≤ MAX_PROCESSOS →
      WF (tick_loop l.length s f tipo) ∧
      conteudo (tick_loop l.length s f tipo) f
        = acc ++ l.filter (fun p => !conclui (getProc s p)) ∧
      conteudo (tick_loop l.length s f tipo) (destino tipo)
        = conteudo s (destino tipo) ++ l.filter (fun p => conclui (getProc s p)) ∧
      (∀ g, g ≠ f → g ≠ destino tipo → getFila (tick_loop l.length s f tipo) g = getFila s g) ∧
      (∀ j, getProc (tick_loop l.length s f tipo) j
        = if j ∈ l then pcb_tick tipo (getProc s j) else getProc s j) ∧
      (tick_loop l.length s f tipo).tempo = s.tempo ∧
      (tick_loop l.length s f tipo).N = s.N ∧
      (tick_loop l.length s f tipo).rnd_pos = s.rnd_pos := by
  intro l
  induction l with
  | nil =>
    intro s acc h hl _ _
    simp only [List.length_nil, tick_loop, List.filter_nil, List.append_nil, List.not_mem_nil,
      if_false]
    exact ⟨h, by simpa using hl, trivial, fun _ _ _ => trivial, fun _ => trivial, trivial,
      trivial, trivial⟩
  | cons p l ih =>
    intro s acc h hl hnd hcap
    have hl' : conteudo s f = p :: (l ++ acc) := by simpa using hl
    have hcap1 : (conteudo s (destino tipo)).length < MAX_PROCESSOS := by
      simp only [List.length_cons] at hcap; omega
    obtain ⟨hw1, hf1, hd1, hg1⟩ := tick_corpo_filas s f tipo p (l ++ acc) h hf hl' hcap1
    obtain ⟨_, hpid, _, _⟩ := fila_pop_ok (getFila s f) 0 p (l ++ acc) (h.2 f) hl'
    have hp1 : ∀ j, getProc (tick_corpo s f tipo) j
        = if j = p then pcb_tick tipo (getProc s p) else getProc s j := by
      intro j
      rw [tick_corpo_proc, hpid]
    obtain ⟨ht1, hN1, hr1, _⟩ := tick_corpo_frame s f tipo
    have hpl : p ∉ l := (List.nodup_cons.1 hnd).1
    have hsame : ∀ j ∈ l, getProc (tick_corpo s f tipo) j = getProc s j := by
      intro j hj
      rw [hp1, if_neg]
      rintro rfl
      exact hpl hj
    have hcap2 : (conteudo (tick_corpo s f tipo) (destino tipo)).length + l.length
        ≤ MAX_PROCESSOS := by
      rw [hd1]
      simp only [List.length_cons, List.length_append] at hcap ⊢
      split <;> simp <;> omega
    obtain ⟨a, b, c, d, e, f1, f2, f3⟩ := ih (tick_corpo s f tipo)
      (acc ++ (if conclui (getProc s p) then [] else [p])) hw1
      (by rw [hf1]; simp) (List.nodup_cons.1 hnd).2 hcap2
    simp only [List.length_cons, tick_loop]
    have hfa : l.filter (fun q => conclui (getProc (tick_corpo s f tipo) q))
        = l.filter (fun q => conclui (getProc s q)) :=
      List.filter_congr (fun q hq => by rw [hsame q hq])
    have hfb : l.filter (fun q => !conclui (getProc (tick_corpo s f tipo) q))
        = l.filter (fun q => !conclui (getProc s q)) :=
      List.filter_congr (fun q hq => by rw [hsame q hq])
    refine ⟨a, ?_, ?_, ?_, ?_, by rw [f1, ht1], by rw [f2, hN1], by rw [f3, hr1]⟩
    · rw [b, hfb]
      by_cases hc : conclui (getProc s p) = true <;> simp [List.filter_cons, hc]
    · rw [c, hd1, hfa]
      by_cases hc : conclui (getProc s p) = true <;> simp [List.filter_cons, hc]
    · intro g hg hgd
      rw [d g hg hgd, hg1 g hg hgd]
    · intro j
      rw [e j]
      by_cases hj : j ∈ l
      · have hjp : j ≠ p := by rintro rfl; exact hpl hj
        simp [hj, hsame j hj]
      · rw [if_neg hj, hp1]
        by_cases hjp : j = p
        · simp [hjp]
        · simp [hjp, hj]


/-- Function `tick_io_de_fila` on a device queue with distinct entries. -/
theorem tick_io_de_fila_spec (s : State) (f : FilaId) (tipo : Int) (hf : dispositivo f)
    (h : WF s) (hnd : (conteudo s f).Nodup)
    (hcap : (conteudo s (destino tipo)).length + (conteudo s f).length ≤ MAX_PROCESSOS) :
    WF (tick_io_de_fila s f tipo) ∧
      conteudo (tick_io_de_fila s f tipo) f
        = (conteudo s f).filter (fun p => !conclui (getProc s p)) ∧
      conteudo (tick_io_de_fila s f tipo) (destino tipo)
        = conteudo s (destino tipo) ++ (conteudo s f).filter (fun p => conclui (getProc s p)) ∧
      (∀ g, g ≠ f → g ≠ destino tipo → getFila (tick_io_de_fila s f tipo) g = getFila s g) ∧
      (∀ j, getProc (tick_io_de_fila s f tipo) j
        = if j ∈ conteudo s f then pcb_tick tipo (getProc s j) else getProc s j) ∧
      (tick_io_de_fila s f tipo).tempo = s.tempo ∧
      (tick_io_de_fila s f tipo).N = s.N ∧
      (tick_io_de_fila s f tipo).rnd_pos = s.rnd_pos := by
  have hq : (getFila s f).qtd = (conteudo s f).length := by
    rw [conteudo, Fila.length_toList]
  have := tick_loop_spec tipo f hf (conteudo s f) s [] h (by simp) hnd hcap
  simpa only [tick_io_de_fila, hq, List.nil_append] using this

theorem conteudo_congr (s s' : State) (g : FilaId) (h : getFila s' g = getFila s g) :
    conteudo s' g = conteudo s g := by
  simp [conteudo, h]

/-- The three passes of one clock tick, on a state whose device queues hold
pairwise distinct pids and whose ready queues have room for them. -/
theorem tick_todos_spec (s : State) (h : WF s) (hnd : (bloqueados s).Nodup)
    (hcb : (conteudo s .baixa).length + (conteudo s .io_disco).length ≤ MAX_PROCESSOS)
    (hca : (conteudo s .alta).length + (conteudo s .io_fita).length
      + (conteudo s .io_impr).length ≤ MAX_PROCESSOS) :
    WF (tick_todos s) ∧
      conteudo (tick_todos s) .io_disco
        = (conteudo s .io_disco).filter (fun p => !conclui (getProc s p)) ∧
      conteudo (tick_todos s) .io_fita
        = (conteudo s .io_fita).filter (fun p => !conclui (getProc s p)) ∧
      conteudo (tick_todos s) .io_impr
        = (conteudo s .io_impr).filter (fun p => !conclui (getProc s p)) ∧
      conteudo (tick_todos s) .baixa
        = conteudo s .baixa ++ (conteudo s .io_disco).filter (fun p => conclui (getProc s p)) ∧
      conteudo (tick_todos s) .alta
        = conteudo s .alta ++ ((conteudo s .io_fita).filter (fun p => conclui (getProc s p))
            ++ (conteudo s .io_impr).filter (fun p => conclui (getProc s p))) ∧
      (∀ j, getProc (tick_todos s) j
        = if j ∈ conteudo s .io_disco then pcb_tick IO_DISCO (getProc s j)
          else if j ∈ conteudo s .io_fita then pcb_tick IO_FITA (getProc s j)
          else if j ∈ conteudo s .io_impr then pcb_tick IO_IMPRESSORA (getProc s j)
          else getProc s j) ∧
      (tick_todos s).tempo = s.tempo ∧ (tick_todos s).N = s.N ∧
      (tick_todos s).rnd_pos = s.rnd_pos := by
  unfold tick_todos
  unfold bloqueados at hnd
  rw [List.nodup_append] at hnd
  obtain ⟨ndD, ndFI, disD⟩ := hnd
  rw [List.nodup_append] at ndFI
  obtain ⟨ndF, ndI, disFI⟩ := ndFI
  have dD : destino IO_DISCO = .baixa := rfl
  have dF : destino IO_FITA = .alta := rfl
  have dI : destino IO_IMPRESSORA = .alta := rfl
  -- disk pass
  obtain ⟨w1, a1, b1, c1, p1, t1, n1, r1⟩ :=
    tick_io_de_fila_spec s .io_disco IO_DISCO (Or.inl rfl) h ndD (by rw [dD]; exact hcb)
  rw [dD] at b1 c1
  generalize tick_io_de_fila s .io_disco IO_DISCO = s1 at *
  have eF1 : conteudo s1 .io_fita = conteudo s .io_fita :=
    conteudo_congr _ _ _ (c1 _ (by decide) (by decide))
  have eI1 : conteudo s1 .io_impr = conteudo s .io_impr :=
    conteudo_congr _ _ _ (c1 _ (by decide) (by decide))
  have eA1 : conteudo s1 .alta = conteudo s .alta :=
    conteudo_congr _ _ _ (c1 _ (by decide) (by decide))
  -- tape pass
  obtain ⟨w2, a2, b2, c2, p2, t2, n2, r2⟩ :=
    tick_io_de_fila_spec s1 .io_fita IO_FITA (Or.inr (Or.inl rfl)) w1 (by rw [eF1]; exact ndF)
      (by rw [dF, eA1, eF1]; omega)
  rw [dF] at b2 c2
  generalize tick_io_de_fila s1 .io_fita IO_FITA = s2 at *
  have eD2 : conteudo s2 .io_disco = conteudo s1 .io_disco :=
    conteudo_congr _ _ _ (c2 _ (by decide) (by decide))
  have eI2 : conteudo s2 .io_impr = conteudo s1 .io_impr :=
    conteudo_congr _ _ _ (c2 _ (by decide) (by decide))
  have eB2 : conteudo s2 .baixa = conteudo s1 .baixa :=
    conteudo_congr _ _ _ (c2 _ (by decide) (by decide))
  -- printer pass
  have hlenF : ((conteudo s .io_fita).filter (fun p => conclui (getProc s1 p))).length
      ≤ (conteudo s .io_fita).length := List.length_filter_le _ _
  obtain ⟨w3, a3, b3, c3, p3, t3, n3, r3⟩ :=
    tick_io_de_fila_spec s2 .io_impr IO_IMPRESSORA (Or.inr (Or.inr rfl)) w2
      (by rw [eI2, eI1]; exact ndI)
      (by rw [dI, b2, eA1, eF1, eI2, eI1, List.length_append]; omega)
  rw [dI] at b3 c3
  generalize tick_io_de_fila s2 .io_impr IO_IMPRESSORA = s3 at *
  have eD3 : conteudo s3 .io_disco = conteudo s2 .io_disco :=
    conteudo_congr _ _ _ (c3 _ (by decide) (by decide))
  have eF3 : conteudo s3 .io_fita = conteudo s2 .io_fita :=
    conteudo_congr _ _ _ (c3 _ (by decide) (by decide))
  have eB3 : conteudo s3 .baixa = conteudo s2 .baixa :=
    conteudo_congr _ _ _ (c3 _ (by decide) (by decide))
  -- PCBs of the tape and printer residents are untouched by the earlier passes
  have gF : ∀ j ∈ conteudo s .io_fita, getProc s1 j = getProc s j := by
    intro j hj
    rw [p1, if_neg]
    intro hD
    exact disD hD (List.mem_append_left _ hj)
  have gI1 : ∀ j ∈ conteudo s .io_impr, getProc s1 j = getProc s j := by
    intro j hj
    rw [p1, if_neg]
    intro hD
    exact disD hD (List.mem_append_right _ hj)
  have gI : ∀ j ∈ conteudo s .io_impr, getProc s2 j = getProc s j := by
    intro j hj
    rw [p2, if_neg, gI1 j hj]
    rw [eF1]
    intro hF
    exact disFI hF hj
  refine ⟨w3, ?_, ?_, ?_, ?_, ?_, ?_, by rw [t3, t2, t1], by rw [n3, n2, n1],
    by rw [r3, r2, r1]⟩
  · rw [eD3, eD2, a1]
  · rw [eF3, a2, eF1]
    exact List.filter_congr (fun j hj => by rw [gF j hj])
  · rw [a3, eI2, eI1]
    exact List.filter_congr (fun j hj => by rw [gI j hj])
  · rw [eB3, eB2, b1]
  · rw [b3, b2, eA1, eF1, eI2, eI1, List.append_assoc]
    congr 2
    · exact List.filter_congr (fun j hj => by rw [gF j hj])
    · exact List.filter_congr (fun j hj => by rw [gI j hj])
  · intro j
    rw [p3, eI2, eI1, p2, eF1, p1]
    by_cases hD : j ∈ conteudo s .io_disco
    · have hF : j ∉ conteudo s .io_fita := fun hF => disD hD (List.mem_append_left _ hF)
      have hI : j ∉ conteudo s .io_impr := fun hI => disD hD (List.mem_append_right _ hI)
      simp [hD, hF, hI]
    · by_cases hF : j ∈ conteudo s .io_fita
      · have hI : j ∉ conteudo s .io_impr := fun hI => disFI hF hI
        simp [hD, hF, hI]
      · by_cases hI : j ∈ conteudo s .io_impr
        · simp [hD, hF, hI]
        · simp [hD, hF, hI]


/-! ## Lemmas: one pass of `tick_io_de_fila`, whatever room the ready queue has -/

/-- A discarded push on a full queue changes nothing. -/
theorem pushTo_cheia (s : State) (g : FilaId) (x : Int)
    (hq : (getFila s g).qtd = MAX_PROCESSOS) : pushTo s g x = s := by
  unfold pushTo
  rw [fila_push_cheia _ x hq]
  cases g <;> rfl

/-- A discarded push keeps the queues consistent and touches only its queue. -/
theorem pushTo_geral (s : State) (g : FilaId) (x : Int) (h : WF s) :
    WF (pushTo s g x) ∧ (∀ g', g' ≠ g → getFila (pushTo s g x) g' = getFila s g') := by
  by_cases hq : (getFila s g).qtd = MAX_PROCESSOS
  · rw [pushTo_cheia s g x hq]
    exact ⟨h, fun _ _ => rfl⟩
  · have hw := ((Fila.wf_iff _).1 (h.2 g)).2.2.1
    obtain ⟨a, _, c, _⟩ := pushTo_ok s g x h (by
      rw [conteudo, Fila.length_toList]
      simp only [MAX_PROCESSOS] at hq ⊢
      omega)
    exact ⟨a, c⟩

/-- The queues after one visit, with no assumption on the room left in the ready
queue: the device queue is as described; the ready queue is as described when it
has room for a completing pid. -/
theorem tick_corpo_geral (s : State) (f : FilaId) (tipo : Int) (p : Int) (rest : List Int)
    (h : WF s) (hf : dispositivo f) (hl : conteudo s f = p :: rest) :
    WF (tick_corpo s f tipo) ∧
      conteudo (tick_corpo s f tipo) f
        = rest ++ (if conclui (getProc s p) then [] else [p]) ∧
      ((conclui (getProc s p) = true → (conteudo s (destino tipo)).length < MAX_PROCESSOS) →
        conteudo (tick_corpo s f tipo) (destino tipo)
          = conteudo s (destino tipo) ++ (if conclui (getProc s p) then [p] else [])) ∧
      (∀ g, g ≠ f → g ≠ destino tipo → getFila (tick_corpo s f tipo) g = getFila s g) := by
  by_cases hcap : (conteudo s (destino tipo)).length < MAX_PROCESSOS
  · obtain ⟨a, b, c, d⟩ := tick_corpo_filas s f tipo p rest h hf hl hcap
    exact ⟨a, b, fun _ => c, d⟩
  · obtain ⟨_, hpid, hwq, hlq⟩ := fila_pop_ok (getFila s f) 0 p rest (h.2 f) hl
    have hfd : destino tipo ≠ f := fun e => destino_nao_dispositivo tipo (e ▸ hf)
    have h1 : WF (setFila s f (fila_pop (getFila s f) 0).2.1) := WF_setFila _ _ _ h hwq
    have hc1 : conteudo (setFila s f (fila_pop (getFila s f) 0).2.1) f = rest := by
      rw [conteudo_setFila]; simpa using hlq
    have hrest : rest.length < MAX_PROCESSOS := by
      have := (h.2 f).2.2.1
      have h2 := (getFila s f).length_toList
      have h3 : (getFila s f).toList = p :: rest := hl
      rw [h3] at h2
      simp only [List.length_cons] at h2
      omega
    rw [tick_corpo_eq, hpid]
    generalize hq : (fila_pop (getFila s f) 0).2.1 = q at h1 hc1
    have volta : ∀ s1 : State, WF s1 → conteudo s1 f = rest →
        (∀ g, g ≠ f → getFila s1 g = getFila s g) →
        WF (pushTo s1 f p) ∧ conteudo (pushTo s1 f p) f = rest ++ [p] ∧
          conteudo (pushTo s1 f p) (destino tipo) = conteudo s (destino tipo) ++ [] ∧
          (∀ g, g ≠ f → g ≠ destino tipo → getFila (pushTo s1 f p) g = getFila s g) := by
      intro s1 hw hc hg
      obtain ⟨a, b, c, _⟩ := pushTo_ok s1 f p hw (by rw [hc]; exact hrest)
      refine ⟨a, by rw [b, hc], ?_, ?_⟩
      · rw [List.append_nil, conteudo, c _ hfd, hg _ hfd]; rfl
      · intro g hg1 _
        rw [c g hg1, hg g hg1]
    by_cases hc : conclui (getProc s p) = true
    · simp only [hc, if_true, List.append_nil]
      have hw2 := WF_setProc _ p (pcb_tick tipo (getProc s p)) h1
      obtain ⟨a, c⟩ := pushTo_geral _ (destino tipo) p hw2
      refine ⟨a, ?_, fun hx => absurd (hx trivial) hcap, ?_⟩
      · have := c f (Ne.symm hfd)
        simp only [conteudo, this, getFila_setProc]
        simpa [conteudo] using hc1
      · intro g hg hgd
        rw [c g hgd]
        simp [hg]
    · simp only [hc, if_false, Bool.false_eq_true]
      by_cases hb : (getProc s p).status = STATUS_BLOQ
      · rw [if_pos hb]
        have v := volta (setProc (setFila s f q) p (pcb_tick tipo (getProc s p)))
          (WF_setProc _ _ _ h1) (by rw [conteudo_setProc, hc1]) (fun g hg => by simp [hg])
        exact ⟨v.1, v.2.1, fun _ => v.2.2.1, v.2.2.2⟩
      · rw [if_neg hb]
        have v := volta (setFila s f q) h1 hc1 (fun g hg => by simp [hg])
        exact ⟨v.1, v.2.1, fun _ => v.2.2.1, v.2.2.2⟩

/-- One pass over a device queue whose first `l.length` entries are the distinct
pids `l`, with no assumption on the room left in the ready queue: the device queue
and the table are as described; the ready queue is as described when it has room
for the pids that complete. -/
theorem tick_loop_geral (tipo : Int) (f : FilaId) (hf : dispositivo f) :
    ∀ (l : List Int) (s : State) (acc : List Int),
      WF s → conteudo s f = l ++ acc → l.Nodup →
      WF (tick_loop l.length s f tipo) ∧
      conteudo (tick_loop l.length s f tipo) f
        = acc ++ l.filter (fun p => !conclui (getProc s p)) ∧
      ((conteudo s (destino tipo)).length + (l.filter (fun p => conclui (getProc s p))).length
          ≤ MAX_PROCESSOS →
        conteudo (tick_loop l.length s f tipo) (destino tipo)
          = conteudo s (destino tipo) ++ l.filter (fun p => conclui (getProc s p))) ∧
      (∀ g, g ≠ f → g ≠ destino tipo → getFila (tick_loop l.length s f tipo) g = getFila s g) ∧
      (∀ j, getProc (tick_loop l.length s f tipo) j
        = if j ∈ l then pcb_tick tipo (getProc s j) else getProc s j) ∧
      (tick_loop l.length s f tipo).tempo = s.tempo ∧
      (tick_loop l.length s f tipo).N = s.N ∧
      (tick_loop l.length s f tipo).rnd_pos = s.rnd_pos := by
  intro l
  induction l with
  | nil =>
    intro s acc h hl _
    simp only [List.length_nil, tick_loop, List.filter_nil, List.append_nil, List.not_mem_nil,
      if_false]
    exact ⟨h, by simpa using hl, fun _ => trivial, fun _ _ _ => trivial, fun _ => trivial,
      trivial, trivial, trivial⟩
  | cons p l ih =>
    intro s acc h hl hnd
    have hl' : conteudo s f = p :: (l ++ acc) := by simpa using hl
    obtain ⟨hw1, hf1, hd1, hg1⟩ := tick_corpo_geral s f tipo p (l ++ acc) h hf hl'
    obtain ⟨_, hpid, _, _⟩ := fila_pop_ok (getFila s f) 0 p (l ++ acc) (h.2 f) hl'
    have hp1 : ∀ j, getProc (tick_corpo s f tipo) j
        = if j = p then pcb_tick tipo (getProc s p) else getProc s j := by
      intro j
      rw [tick_corpo_proc, hpid]
    obtain ⟨ht1, hN1, hr1, _⟩ := tick_corpo_frame s f tipo
    have hpl : p ∉ l := (List.nodup_cons.1 hnd).1
    have hsame : ∀ j ∈ l, getProc (tick_corpo s f tipo) j = getProc s j := by
      intro j hj
      rw [hp1, if_neg]
      rintro rfl
      exact hpl hj
    obtain ⟨a, b, c, d, e, f1, f2, f3⟩ := ih (tick_corpo s f tipo)
      (acc ++ (if conclui (getProc s p) then [] else [p])) hw1
      (by rw [hf1]; simp) (List.nodup_cons.1 hnd).2
    simp only [List.length_cons, tick_loop]
    have hfa : l.filter (fun q => conclui (getProc (tick_corpo s f tipo) q))
        = l.filter (fun q => conclui (getProc s q)) :=
      List.filter_congr (fun q hq => by rw [hsame q hq])
    have hfb : l.filter (fun q => !conclui (getProc (tick_corpo s f tipo) q))
        = l.filter (fun q => !conclui (getProc s q)) :=
      List.filter_congr (fun q hq => by rw [hsame q hq])
    refine ⟨a, ?_, ?_, ?_, ?_, by rw [f1, ht1], by rw [f2, hN1], by rw [f3, hr1]⟩
    · rw [b, hfb]
      by_cases hc : conclui (getProc s p) = true <;> simp [List.filter_cons, hc]
    · intro hcap
      have hd1' := hd1 (by
        intro hc
        simp only [List.filter_cons, hc, if_true, List.length_cons, MAX_PROCESSOS] at hcap ⊢
        omega)
      rw [c (by
        rw [hd1', hfa]
        by_cases hc : conclui (getProc s p) = true
        · simp only [List.filter_cons, hc, if_true, List.length_cons, List.length_append,
            List.length_singleton, List.length_nil, MAX_PROCESSOS] at hcap ⊢
          omega
        · simp only [List.filter_cons, hc, if_false, List.append_nil,
            Bool.false_eq_true] at hcap ⊢
          exact hcap), hd1', hfa]
      by_cases hc : conclui (getProc s p) = true <;> simp [List.filter_cons, hc]
    · intro g hg hgd
      rw [d g hg hgd, hg1 g hg hgd]
    · intro j
      rw [e j]
      by_cases hj : j ∈ l
      · have hjp : j ≠ p := by rintro rfl; exact hpl hj
        simp [hj, hsame j hj]
      · rw [if_neg hj, hp1]
        by_cases hjp : j = p
        · simp [hjp]
        · simp [hjp, hj]

/-- Function `tick_io_de_fila` on a device queue with distinct entries, with no
assumption on the room left in the ready queue. -/
theorem tick_io_de_fila_geral (s : State) (f : FilaId) (tipo : Int) (hf : dispositivo f)
    (h : WF s) (hnd : (conteudo s f).Nodup) :
    WF (tick_io_de_fila s f tipo) ∧
      conteudo (tick_io_de_fila s f tipo) f
        = (conteudo s f).filter (fun p => !conclui (getProc s p)) ∧
      ((conteudo s (destino tipo)).length
          + ((conteudo s f).filter (fun p => conclui (getProc s p))).length ≤ MAX_PROCESSOS →
        conteudo (tick_io_de_fila s f tipo) (destino tipo)
          = conteudo s (destino tipo)
            ++ (conteudo s f).filter (fun p => conclui (getProc s p))) ∧
      (∀ g, g ≠ f → g ≠ destino tipo → getFila (tick_io_de_fila s f tipo) g = getFila s g) ∧
      (∀ j, getProc (tick_io_de_fila s f tipo) j
        = if j ∈ conteudo s f then pcb_tick tipo (getProc s j) else getProc s j) ∧
      (tick_io_de_fila s f tipo).tempo = s.tempo ∧
      (tick_io_de_fila s f tipo).N = s.N ∧
      (tick_io_de_fila s f tipo).rnd_pos = s.rnd_pos := by
  have hq : (getFila s f).qtd = (conteudo s f).length := by
    rw [conteudo, Fila.length_toList]
  have := tick_loop_geral tipo f hf (conteudo s f) s [] h (by simp) hnd
  simpa only [tick_io_de_fila, hq, List.nil_append] using this


/-! ## Lemmas: `pcb_tick` field by field -/

theorem pcb_tick_status (t : Int) (p : PCB) :
    (pcb_tick t p).status = if conclui p then STATUS_PRONTO else p.status := by
  unfold pcb_tick conclui io_passo
  by_cases hb : p.status = STATUS_BLOQ <;> by_cases h1 : p.io_restante > 0 <;>
    by_cases h2 : p.io_restante = 0 <;> by_cases h3 : p.io_restante - 1 = 0 <;>
    simp [hb, h1, h2, h3]

theorem pcb_tick_prioridade (t : Int) (p : PCB) :
    (pcb_tick t p).prioridade =
      if conclui p then (if t = IO_DISCO then PRIORIDADE_BAIXA else PRIORIDADE_ALTA)
      else p.prioridade := by
  unfold pcb_tick conclui io_passo
  by_cases hb : p.status = STATUS_BLOQ <;> by_cases h1 : p.io_restante > 0 <;>
    by_cases h2 : p.io_restante = 0 <;> by_cases h3 : p.io_restante - 1 = 0 <;>
    simp [hb, h1, h2, h3]

theorem pcb_tick_tipo_io (t : Int) (p : PCB) :
    (pcb_tick t p).tipo_io = if conclui p then IO_NENHUM else p.tipo_io := by
  unfold pcb_tick conclui io_passo
  by_cases hb : p.status = STATUS_BLOQ <;> by_cases h1 : p.io_restante > 0 <;>
    by_cases h2 : p.io_restante = 0 <;> by_cases h3 : p.io_restante - 1 = 0 <;>
    simp [hb, h1, h2, h3]

theorem pcb_tick_io_restante (t : Int) (p : PCB) :
    (pcb_tick t p).io_restante =
      if p.status = STATUS_BLOQ ∧ 0 < p.io_restante then p.io_restante - 1
      else p.io_restante := by
  unfold pcb_tick io_passo
  by_cases hb : p.status = STATUS_BLOQ <;> by_cases h1 : p.io_restante > 0 <;>
    by_cases h2 : p.io_restante = 0 <;> by_cases h3 : p.io_restante - 1 = 0 <;>
    simp [hb, h1, h2, h3]

theorem pcb_tick_fixos (t : Int) (p : PCB) :
    (pcb_tick t p).pid = p.pid ∧ (pcb_tick t p).ppid = p.ppid ∧
      (pcb_tick t p).cpu_total = p.cpu_total ∧
      (pcb_tick t p).cpu_restante = p.cpu_restante := by
  unfold pcb_tick io_passo
  by_cases hb : p.status = STATUS_BLOQ <;> by_cases h1 : p.io_restante > 0 <;>
    by_cases h2 : p.io_restante = 0 <;> by_cases h3 : p.io_restante - 1 = 0 <;>
    simp [hb, h1, h2, h3]

theorem conclui_iff (p : PCB) :
    conclui p = true ↔ p.status = STATUS_BLOQ ∧ (p.io_restante = 0 ∨ p.io_restante = 1) := by
  unfold conclui io_passo
  by_cases hb : p.status = STATUS_BLOQ <;> by_cases h1 : p.io_restante > 0 <;>
    simp [hb, h1] <;> omega

/-- At most `MAX_PROCESSOS` distinct valid pids exist. -/
theorem comprimento_le (l : List Int) (hnd : l.Nodup) (hv : ∀ i ∈ l, valido i) :
    l.length ≤ MAX_PROCESSOS := by
  have h1 : (l.map Int.toNat).Nodup := by
    apply List.Nodup.map_on _ hnd
    intro a ha b hb hab
    have := hv a ha
    have := hv b hb
    unfold valido at *
    omega
  have h2 : (l.map Int.toNat).toFinset ⊆ Finset.range MAX_PROCESSOS := by
    intro x hx
    simp only [List.mem_toFinset, List.mem_map] at hx
    obtain ⟨a, ha, rfl⟩ := hx
    have := hv a ha
    unfold valido at this
    simp only [Finset.mem_range, MAX_PROCESSOS] at this ⊢
    omega
  have h3 := Finset.card_le_card h2
  rw [List.toFinset_card_of_nodup h1, Finset.card_range, List.length_map] at h3
  exact h3


theorem count_filtro (q : Int → Bool) (a : Int) (l : List Int) :
    List.count a (l.filter q) = if q a = true then List.count a l else 0 := by
  by_cases h : q a = true
  · rw [if_pos h, List.count_filter h]
  · rw [if_neg h, List.count_eq_zero]
    intro hm
    exact h (List.mem_filter.1 hm).2

theorem Inv.nodup_bloqueados {s : State} {run : Option Int} (h : Inv s run) :
    (bloqueados s).Nodup := by
  have := h.nodup
  unfold todas at this
  exact (List.nodup_append.1 this).2.1

theorem Inv.comprimento {s : State} {run : Option Int} (h : Inv s run) :
    (conteudo s .alta).length + (conteudo s .baixa).length + (conteudo s .io_disco).length
      + (conteudo s .io_fita).length + (conteudo s .io_impr).length ≤ MAX_PROCESSOS := by
  have := comprimento_le _ h.nodup h.faixa
  simp only [todas, prontos, bloqueados, List.length_append] at this
  omega

/-- With the process `r` out of the queues, one slot is free in every queue. -/
theorem Inv.comprimento_fora {s : State} {r : Int} (h : Inv s (some r)) :
    (conteudo s .alta).length + (conteudo s .baixa).length + (conteudo s .io_disco).length
      + (conteudo s .io_fita).length + (conteudo s .io_impr).length < MAX_PROCESSOS := by
  obtain ⟨hv, hr⟩ := h.fora r rfl
  have hnd : (r :: todas s).Nodup := List.nodup_cons.2 ⟨hr, h.nodup⟩
  have := comprimento_le _ hnd (by
    intro i hi
    rcases List.mem_cons.1 hi with rfl | hi
    · exact hv
    · exact h.faixa i hi)
  simp only [todas, prontos, bloqueados, List.length_append, List.length_cons] at this
  omega

/-- What one clock tick does to the queues and the table of a state that satisfies
the invariant. -/
theorem tick_todos_resumo (s : State) (run : Option Int) (h : Inv s run) :
    WF (tick_todos s) ∧
      (todas (tick_todos s)).Perm (todas s) ∧
      (∀ i, i ∈ prontos (tick_todos s) ↔
        i ∈ prontos s ∨ (i ∈ bloqueados s ∧ conclui (getProc s i) = true)) ∧
      (∀ i, i ∈ bloqueados (tick_todos s) ↔
        i ∈ bloqueados s ∧ conclui (getProc s i) = false) ∧
      (∀ i, i ∉ bloqueados s → getProc (tick_todos s) i = getProc s i) ∧
      (∀ i, i ∈ bloqueados s → ∃ t, getProc (tick_todos s) i = pcb_tick t (getProc s i) ∧
        (t = IO_DISCO ↔ i ∈ conteudo s .io_disco)) ∧
      (tick_todos s).tempo = s.tempo ∧ (tick_todos s).N = s.N ∧
      (tick_todos s).rnd_pos = s.rnd_pos := by
  have hlen := h.comprimento
  obtain ⟨w, eD, eF, eI, eB, eA, hp, ht, hn, hr⟩ :=
    tick_todos_spec s h.wf h.nodup_bloqueados (by omega) (by omega)
  have hnd := h.nodup_bloqueados
  unfold bloqueados at hnd
  rw [List.nodup_append] at hnd
  obtain ⟨_, ndFI, disD⟩ := hnd
  refine ⟨w, ?_, ?_, ?_, ?_, ?_, ht, hn, hr⟩
  · rw [List.perm_iff_count]
    intro a
    simp only [todas, prontos, bloqueados, eD, eF, eI, eB, eA, List.count_append,
      count_filtro]
    by_cases hc : conclui (getProc s a) = true
    · simp only [hc, Bool.not_true, Bool.false_eq_true, if_true, if_false]; omega
    · simp only [hc, Bool.not_eq_true, Bool.not_false, if_true, if_false]
      have : conclui (getProc s a) = false := by simpa using hc
      simp only [this, Bool.not_false, Bool.false_eq_true, if_true, if_false]; omega
  · intro i
    simp only [prontos, bloqueados, eA, eB, List.mem_append, List.mem_filter]
    tauto
  · intro i
    simp only [bloqueados, eD, eF, eI, List.mem_append, List.mem_filter, Bool.not_eq_true',
      Bool.not_eq_eq_eq_not, Bool.not_true]
    tauto
  · intro i hi
    simp only [bloqueados, List.mem_append, not_or] at hi
    rw [hp, if_neg hi.1, if_neg hi.2.1, if_neg hi.2.2]
  · intro i hi
    rw [hp]
    by_cases hD : i ∈ conteudo s .io_disco
    · exact ⟨IO_DISCO, by rw [if_pos hD], by simp [hD]⟩
    · by_cases hF : i ∈ conteudo s .io_fita
      · exact ⟨IO_FITA, by rw [if_neg hD, if_pos hF], by simp [hD]⟩
      · have hI : i ∈ conteudo s .io_impr := by
          simp only [bloqueados, List.mem_append] at hi
          tauto
        exact ⟨IO_IMPRESSORA, by rw [if_neg hD, if_neg hF, if_pos hI], by simp [hD]⟩

/-- The invariant survives a clock tick. -/
theorem Inv_tick_todos (s : State) (run : Option Int) (h : Inv s run) :
    Inv (tick_todos s) run := by
  obtain ⟨w, hperm, hpr, hbl, hout, hin, _, hn, _⟩ := tick_todos_resumo s run h
  have hst : ∀ i, (getProc (tick_todos s) i).status =
      if i ∈ bloqueados s ∧ conclui (getProc s i) = true then STATUS_PRONTO
      else (getProc s i).status := by
    intro i
    by_cases hi : i ∈ bloqueados s
    · obtain ⟨t, e, _⟩ := hin i hi
      rw [e, pcb_tick_status]
      simp [hi]
    · rw [hout i hi]
      simp [hi]
  have hfix : ∀ i, (getProc (tick_todos s) i).pid = (getProc s i).pid ∧
      (getProc (tick_todos s) i).cpu_restante = (getProc s i).cpu_restante := by
    intro i
    by_cases hi : i ∈ bloqueados s
    · obtain ⟨t, e, _⟩ := hin i hi
      rw [e]
      exact ⟨(pcb_tick_fixos t _).1, (pcb_tick_fixos t _).2.2.2⟩
    · rw [hout i hi]
      exact ⟨rfl, rfl⟩
  refine
    { wf := w
      hN := by rw [hn]; exact h.hN
      nodup := hperm.nodup_iff.2 h.nodup
      faixa := fun i hi => h.faixa i (hperm.mem_iff.1 hi)
      pidf := fun i hv => by rw [(hfix i).1]; exact h.pidf i hv
      pronto := ?_
      bloq := ?_
      estados := ?_
      fora := fun r hr => ⟨(h.fora r hr).1, fun hm => (h.fora r hr).2 (hperm.mem_iff.1 hm)⟩
      cpu := ?_
      io := ?_ }
  · intro i hv hr
    rw [hst, hpr]
    have h1 := h.pronto i hv hr
    have h2 := h.bloq i hv hr
    by_cases hc : i ∈ bloqueados s ∧ conclui (getProc s i) = true
    · simp [hc]
    · rw [if_neg hc, h1]
      constructor
      · exact Or.inl
      · rintro (hx | hx)
        · exact hx
        · exact absurd hx hc
  · intro i hv hr
    rw [hst, hbl]
    have h2 := h.bloq i hv hr
    by_cases hc : i ∈ bloqueados s ∧ conclui (getProc s i) = true
    · rw [if_pos hc]
      simp [hc.2]
    · rw [if_neg hc, h2]
      constructor
      · intro hb
        refine ⟨hb, ?_⟩
        cases hcc : conclui (getProc s i)
        · rfl
        · exact absurd ⟨hb, hcc⟩ hc
      · exact fun hb => hb.1
  · intro i hv hr
    rw [hst]
    by_cases hc : i ∈ bloqueados s ∧ conclui (getProc s i) = true
    · simp [hc]
    · rw [if_neg hc]
      exact h.estados i hv hr
  · intro i hv hr
    rw [hst, (hfix i).2]
    by_cases hc : i ∈ bloqueados s ∧ conclui (getProc s i) = true
    · intro _
      refine h.cpu i hv hr ?_
      rw [(h.bloq i hv hr).2 hc.1]
      decide
    · rw [if_neg hc]
      exact h.cpu i hv hr
  · intro i hv hr
    rw [hst]
    by_cases hc : i ∈ bloqueados s ∧ conclui (getProc s i) = true
    · rw [if_pos hc]
      intro hx
      exact absurd hx (by decide)
    · rw [if_neg hc]
      intro hb
      have hi := (h.bloq i hv hr).1 hb
      obtain ⟨t, e, _⟩ := hin i hi
      rw [e, pcb_tick_io_restante]
      have h0 := h.io i hv hr hb
      split <;> omega


theorem getProc_congr (s s' : State) (h : s'.proc = s.proc) (i : Int) :
    getProc s' i = getProc s i := by
  simp [getProc, h]

theorem todas_congr (s s' : State) (h : ∀ g, getFila s' g = getFila s g) :
    todas s' = todas s ∧ prontos s' = prontos s ∧ bloqueados s' = bloqueados s := by
  simp [todas, prontos, bloqueados, conteudo, h]

/-- The invariant only reads the table, the queues and `N`. -/
theorem Inv_congr (s s' : State) (run : Option Int) (h : Inv s run)
    (hp : s'.proc = s.proc) (hq : ∀ g, getFila s' g = getFila s g) (hN : s'.N = s.N) :
    Inv s' run := by
  obtain ⟨e1, e2, e3⟩ := todas_congr s s' hq
  have eg := getProc_congr s s' hp
  exact
    { wf := ⟨by rw [hp]; exact h.wf.1, fun g => by rw [hq]; exact h.wf.2 g⟩
      hN := by rw [hN]; exact h.hN
      nodup := by rw [e1]; exact h.nodup
      faixa := by rw [e1]; exact h.faixa
      pidf := fun i hv => by rw [eg]; exact h.pidf i hv
      pronto := fun i hv hr => by rw [eg, e2]; exact h.pronto i hv hr
      bloq := fun i hv hr => by rw [eg, e3]; exact h.bloq i hv hr
      estados := fun i hv hr => by rw [eg]; exact h.estados i hv hr
      fora := fun r hr => by rw [e1]; exact h.fora r hr
      cpu := fun i hv hr => by rw [eg]; exact h.cpu i hv hr
      io := fun i hv hr => by rw [eg]; exact h.io i hv hr }

theorem valido_dentro (s : State) (h : WF s) (i : Int) (hv : valido i) :
    0 ≤ i ∧ i.toNat < s.proc.length := by
  have := h.1
  unfold valido at hv
  simp only [MAX_PROCESSOS] at *
  omega

/-- The PCB of the process taken out of the queues may be rewritten freely, as long
as its `pid` field is kept. -/
theorem Inv_setProc_fora (s : State) (r : Int) (p : PCB) (h : Inv s (some r))
    (hp : p.pid = r) : Inv (setProc s r p) (some r) := by
  have hv := (h.fora r rfl).1
  have hin := valido_dentro s h.wf r hv
  have e : (todas (setProc s r p) = todas s ∧ prontos (setProc s r p) = prontos s ∧
      bloqueados (setProc s r p) = bloqueados s) := todas_congr _ _ (fun g => by simp)
  obtain ⟨e1, e2, e3⟩ := e
  have eg : ∀ i, some i ≠ some r → getProc (setProc s r p) i = getProc s i := by
    intro i hi
    apply getProc_setProc_ne
    intro hx
    exact hi (by rw [hx])
  exact
    { wf := WF_setProc _ _ _ h.wf
      hN := by simpa using h.hN
      nodup := by rw [e1]; exact h.nodup
      faixa := by rw [e1]; exact h.faixa
      pidf := fun i hvi => by
        by_cases hi : i = r
        · subst hi
          rw [getProc_setProc_eq _ _ _ hin]
          exact hp
        · rw [getProc_setProc_ne _ _ _ _ hi]
          exact h.pidf i hvi
      pronto := fun i hvi hr => by rw [eg i hr, e2]; exact h.pronto i hvi hr
      bloq := fun i hvi hr => by rw [eg i hr, e3]; exact h.bloq i hvi hr
      estados := fun i hvi hr => by rw [eg i hr]; exact h.estados i hvi hr
      fora := fun r' hr => by rw [e1]; exact h.fora r' hr
      cpu := fun i hvi hr => by rw [eg i hr]; exact h.cpu i hvi hr
      io := fun i hvi hr => by rw [eg i hr]; exact h.io i hvi hr }

/-- A FINISHED process needs no queue. -/
theorem Inv_fecha_fim (s : State) (r : Int) (h : Inv s (some r))
    (hs : (getProc s r).status = STATUS_FIM) : Inv s none := by
  have hne : ∀ i, i ≠ r → some i ≠ some r := fun i hi hx => hi (Option.some.inj hx)
  exact
    { wf := h.wf
      hN := h.hN
      nodup := h.nodup
      faixa := h.faixa
      pidf := h.pidf
      pronto := fun i hv _ => by
        by_cases hi : i = r
        · subst hi
          rw [hs]
          constructor
          · intro hx; exact absurd hx (by decide)
          · intro hx
            exact absurd (List.mem_append_left _ hx) (h.fora i rfl).2
        · exact h.pronto i hv (hne i hi)
      bloq := fun i hv _ => by
        by_cases hi : i = r
        · subst hi
          rw [hs]
          constructor
          · intro hx; exact absurd hx (by decide)
          · intro hx
            exact absurd (List.mem_append_right _ hx) (h.fora i rfl).2
        · exact h.bloq i hv (hne i hi)
      estados := fun i hv _ => by
        by_cases hi : i = r
        · subst hi
          exact Or.inr (Or.inr hs)
        · exact h.estados i hv (hne i hi)
      fora := fun r' hr => by cases hr
      cpu := fun i hv _ hf => by
        by_cases hi : i = r
        · subst hi
          exact absurd hs hf
        · exact h.cpu i hv (hne i hi) hf
      io := fun i hv _ hb => by
        by_cases hi : i = r
        · subst hi
          rw [hs] at hb
          exact absurd hb (by decide)
        · exact h.io i hv (hne i hi) hb }

theorem todas_pushTo (s : State) (g : FilaId) (r : Int) (h : WF s)
    (hq : (conteudo s g).length < MAX_PROCESSOS) :
    (∀ i, i ∈ prontos (pushTo s g r) ↔ i ∈ prontos s ∨ (i = r ∧ ¬ dispositivo g)) ∧
    (∀ i, i ∈ bloqueados (pushTo s g r) ↔ i ∈ bloqueados s ∨ (i = r ∧ dispositivo g)) ∧
    (todas (pushTo s g r)).Perm (r :: todas s) := by
  obtain ⟨_, hc, hg, _⟩ := pushTo_ok s g r h hq
  have hc' : ∀ g', g' ≠ g → conteudo (pushTo s g r) g' = conteudo s g' :=
    fun g' hg' => conteudo_congr _ _ _ (hg g' hg')
  refine ⟨?_, ?_, ?_⟩
  · intro i
    cases g <;>
      simp [prontos, hc, hc', dispositivo, or_assoc]
    · tauto
  · intro i
    cases g <;>
      simp [bloqueados, hc, hc', dispositivo, or_assoc] <;> tauto
  · rw [List.perm_iff_count]
    intro a
    cases g <;>
      simp only [todas, prontos, bloqueados, hc, List.count_append, List.count_cons,
        List.count_nil] <;>
      (repeat rw [hc' _ (by decide)]) <;> omega


/-- Putting the process taken out back on a queue that matches its status restores
the invariant of an iteration boundary. -/
theorem Inv_fecha_push (s : State) (r : Int) (g : FilaId) (h : Inv s (some r))
    (hs : ((getProc s r).status = STATUS_PRONTO ∧ ¬ dispositivo g) ∨
      ((getProc s r).status = STATUS_BLOQ ∧ dispositivo g ∧ 0 ≤ (getProc s r).io_restante))
    (hc : 0 < (getProc s r).cpu_restante) :
    Inv (pushTo s g r) none := by
  have hlen := h.comprimento_fora
  have hq : (conteudo s g).length < MAX_PROCESSOS := by
    cases g <;> omega
  obtain ⟨hw, _, _, hproc, _, hN, _⟩ := pushTo_ok s g r h.wf hq
  obtain ⟨mp, mb, hperm⟩ := todas_pushTo s g r h.wf hq
  obtain ⟨hv, hr⟩ := h.fora r rfl
  have hne : ∀ i, i ≠ r → some i ≠ some r := fun i hi hx => hi (Option.some.inj hx)
  have hnp : r ∉ prontos s := fun hx => hr (List.mem_append_left _ hx)
  have hnb : r ∉ bloqueados s := fun hx => hr (List.mem_append_right _ hx)
  exact
    { wf := hw
      hN := by rw [hN]; exact h.hN
      nodup := hperm.nodup_iff.2 (List.nodup_cons.2 ⟨hr, h.nodup⟩)
      faixa := fun i hi => by
        rcases List.mem_cons.1 (hperm.mem_iff.1 hi) with rfl | hi
        · exact hv
        · exact h.faixa i hi
      pidf := fun i hvi => by rw [getProc_pushTo]; exact h.pidf i hvi
      pronto := fun i hvi _ => by
        rw [getProc_pushTo, mp]
        by_cases hi : i = r
        · subst hi
          rcases hs with ⟨h1, h2⟩ | ⟨h1, h2, _⟩
          · simp [h1, h2]
          · rw [h1]
            constructor
            · intro hx; exact absurd hx (by decide)
            · rintro (hx | ⟨_, hx⟩)
              · exact absurd hx hnp
              · exact absurd h2 hx
        · rw [h.pronto i hvi (hne i hi)]
          simp [hi]
      bloq := fun i hvi _ => by
        rw [getProc_pushTo, mb]
        by_cases hi : i = r
        · subst hi
          rcases hs with ⟨h1, h2⟩ | ⟨h1, h2, _⟩
          · rw [h1]
            constructor
            · intro hx; exact absurd hx (by decide)
            · rintro (hx | ⟨_, hx⟩)
              · exact absurd hx hnb
              · exact absurd hx h2
          · simp [h1, h2]
        · rw [h.bloq i hvi (hne i hi)]
          simp [hi]
      estados := fun i hvi _ => by
        rw [getProc_pushTo]
        by_cases hi : i = r
        · subst hi
          rcases hs with ⟨h1, _⟩ | ⟨h1, _⟩
          · exact Or.inl h1
          · exact Or.inr (Or.inl h1)
        · exact h.estados i hvi (hne i hi)
      fora := fun r' hr' => by cases hr'
      cpu := fun i hvi _ => by
        rw [getProc_pushTo]
        by_cases hi : i = r
        · subst hi
          exact fun _ => hc
        · exact h.cpu i hvi (hne i hi)
      io := fun i hvi _ => by
        rw [getProc_pushTo]
        by_cases hi : i = r
        · subst hi
          intro hb
          rcases hs with ⟨h1, _⟩ | ⟨_, _, h3⟩
          · rw [h1] at hb
            exact absurd hb (by decide)
          · exact h3
        · exact h.io i hvi (hne i hi) }

/-- Selection, on a consistent state: the head of `fila_alta` if there is one,
else the head of `fila_baixa`, else nothing. -/
theorem selecionar_spec (s : State) (h : WF s) :
    (∀ a t, conteudo s .alta = a :: t →
      ∃ s1, selecionar s = some (a, s1) ∧ s1.proc = s.proc ∧ s1.N = s.N ∧
        s1.tempo = s.tempo ∧ s1.rnd_pos = s.rnd_pos ∧ WF s1 ∧ conteudo s1 .alta = t ∧
        ∀ g, g ≠ .alta → getFila s1 g = getFila s g) ∧
    (conteudo s .alta = [] → ∀ a t, conteudo s .baixa = a :: t →
      ∃ s1, selecionar s = some (a, s1) ∧ s1.proc = s.proc ∧ s1.N = s.N ∧
        s1.tempo = s.tempo ∧ s1.rnd_pos = s.rnd_pos ∧ WF s1 ∧ conteudo s1 .baixa = t ∧
        ∀ g, g ≠ .baixa → getFila s1 g = getFila s g) ∧
    (conteudo s .alta = [] → conteudo s .baixa = [] → selecionar s = none) := by
  have vazia_iff : ∀ q : Fila, fila_vazia q = true ↔ q.toList = [] := by
    intro q
    rw [← List.length_eq_zero, Fila.length_toList]
    simp [fila_vazia]
  refine ⟨?_, ?_, ?_⟩
  · intro a t hl
    have hl' : s.fila_alta.toList = a :: t := hl
    have hv : fila_vazia s.fila_alta = false := by
      cases hx : fila_vazia s.fila_alta
      · rfl
      · rw [(vazia_iff _).1 hx] at hl'
        cases hl'
    obtain ⟨_, hp, hw, ht⟩ := fila_pop_ok s.fila_alta (-1) a t (h.2 .alta) hl'
    refine ⟨{ s with fila_alta := (fila_pop s.fila_alta (-1)).2.1 }, ?_, rfl, rfl, rfl, rfl,
      WF_setFila s .alta _ h hw, ht, ?_⟩
    · simp [selecionar, hv, hp]
    · intro g hg
      cases g <;> first | rfl | exact absurd rfl hg
  · intro ha a t hl
    have hl' : s.fila_baixa.toList = a :: t := hl
    have hva : fila_vazia s.fila_alta = true := (vazia_iff _).2 ha
    have hv : fila_vazia s.fila_baixa = false := by
      cases hx : fila_vazia s.fila_baixa
      · rfl
      · rw [(vazia_iff _).1 hx] at hl'
        cases hl'
    obtain ⟨_, hp, hw, ht⟩ := fila_pop_ok s.fila_baixa (-1) a t (h.2 .baixa) hl'
    refine ⟨{ s with fila_baixa := (fila_pop s.fila_baixa (-1)).2.1 }, ?_, rfl, rfl, rfl, rfl,
      WF_setFila s .baixa _ h hw, ht, ?_⟩
    · simp [selecionar, hv, hva, hp]
    · intro g hg
      cases g <;> first | rfl | exact absurd rfl hg
  · intro ha hb
    have hva : fila_vazia s.fila_alta = true := (vazia_iff _).2 ha
    have hvb : fila_vazia s.fila_baixa = true := (vazia_iff _).2 hb
    simp [selecionar, hva, hvb]

/-- Taking the selected process out of its ready queue. -/
theorem Inv_selecionar (s s1 : State) (pid : Int) (h : Inv s none)
    (hsel : selecionar s = some (pid, s1)) :
    Inv s1 (some pid) ∧ s1.proc = s.proc ∧ s1.tempo = s.tempo ∧ s1.rnd_pos = s.rnd_pos ∧
      (getProc s pid).status = STATUS_PRONTO ∧ pid ∈ prontos s ∧
      (todas s).Perm (pid :: todas s1) ∧
      bloqueados s1 = bloqueados s ∧
      (∀ g i, i ≠ pid → (i ∈ conteudo s1 g ↔ i ∈ conteudo s g)) := by
  obtain ⟨hA, hB, hN⟩ := selecionar_spec s h.wf
  have key : ∀ g : FilaId, ¬ dispositivo g → ∀ t, conteudo s g = pid :: t →
      ∀ s1', s1'.proc = s.proc → s1'.N = s.N → WF s1' → conteudo s1' g = t →
      (∀ g', g' ≠ g → getFila s1' g' = getFila s g') →
      Inv s1' (some pid) ∧ (getProc s pid).status = STATUS_PRONTO ∧ pid ∈ prontos s ∧
        (todas s).Perm (pid :: todas s1') ∧ bloqueados s1' = bloqueados s ∧
        (∀ g' i, i ≠ pid → (i ∈ conteudo s1' g' ↔ i ∈ conteudo s g')) := by
    intro g hg t hl s1' hp hn hw ht hg'
    have hc : ∀ g', g' ≠ g → conteudo s1' g' = conteudo s g' :=
      fun g' hx => conteudo_congr _ _ _ (hg' g' hx)
    have hperm : (todas s).Perm (pid :: todas s1') := by
      rw [List.perm_iff_count]
      intro a
      cases g
      · simp only [todas, prontos, bloqueados, ht, hl, List.count_append, List.count_cons]
        (repeat rw [hc _ (by decide)]); omega
      · simp only [todas, prontos, bloqueados, ht, hl, List.count_append, List.count_cons]
        (repeat rw [hc _ (by decide)]); omega
      · exact absurd (Or.inl rfl) hg
      · exact absurd (Or.inr (Or.inl rfl)) hg
      · exact absurd (Or.inr (Or.inr rfl)) hg
    have hbl : bloqueados s1' = bloqueados s := by
      cases g
      · simp only [bloqueados]; (repeat rw [hc _ (by decide)])
      · simp only [bloqueados]; (repeat rw [hc _ (by decide)])
      · exact absurd (Or.inl rfl) hg
      · exact absurd (Or.inr (Or.inl rfl)) hg
      · exact absurd (Or.inr (Or.inr rfl)) hg
    have hpr : ∀ i, i ∈ prontos s ↔ i = pid ∨ i ∈ prontos s1' := by
      intro i
      cases g
      · simp only [prontos, hl, ht, List.mem_append, List.mem_cons]
        rw [hc _ (by decide)]; tauto
      · simp only [prontos, hl, ht, List.mem_append, List.mem_cons]
        rw [hc _ (by decide)]; tauto
      · exact absurd (Or.inl rfl) hg
      · exact absurd (Or.inr (Or.inl rfl)) hg
      · exact absurd (Or.inr (Or.inr rfl)) hg
    have hmem : pid ∈ prontos s := (hpr pid).2 (Or.inl rfl)
    have hnd : (pid :: todas s1').Nodup := hperm.nodup_iff.1 h.nodup
    have hvp : valido pid := h.faixa pid (List.mem_append_left _ hmem)
    have eg := getProc_congr s s1' hp
    have hne : ∀ i, some i ≠ some pid → i ≠ pid := fun i hi hx => hi (by rw [hx])
    refine ⟨?_, (h.pronto pid hvp (by simp)).2 hmem, hmem, hperm, hbl, ?_⟩
    swap
    · intro g' i hi
      by_cases hgg : g' = g
      · subst hgg
        rw [ht, hl]
        simp [hi]
      · rw [hc g' hgg]
    exact
      { wf := hw
        hN := by rw [hn]; exact h.hN
        nodup := (List.nodup_cons.1 hnd).2
        faixa := fun i hi => h.faixa i (hperm.mem_iff.2 (List.mem_cons_of_mem _ hi))
        pidf := fun i hv => by rw [eg]; exact h.pidf i hv
        pronto := fun i hv hr => by
          rw [eg, h.pronto i hv (by simp), hpr]
          simp [hne i hr]
        bloq := fun i hv _ => by rw [eg, hbl]; exact h.bloq i hv (by simp)
        estados := fun i hv _ => by rw [eg]; exact h.estados i hv (by simp)
        fora := fun r hr => by
          cases hr
          exact ⟨hvp, (List.nodup_cons.1 hnd).1⟩
        cpu := fun i hv _ => by rw [eg]; exact h.cpu i hv (by simp)
        io := fun i hv _ => by rw [eg]; exact h.io i hv (by simp) }
  cases hla : conteudo s .alta with
  | cons a t =>
    obtain ⟨s1', e, hp, hn, ht, hr, hw, hc, hg⟩ := hA a t hla
    rw [e] at hsel
    cases hsel
    obtain ⟨k1, k2, k3, k4, k5, k6⟩ :=
      key .alta (by decide) t hla s1 hp hn hw hc hg
    exact ⟨k1, hp, ht, hr, k2, k3, k4, k5, k6⟩
  | nil =>
    cases hlb : conteudo s .baixa with
    | cons a t =>
      obtain ⟨s1', e, hp, hn, ht, hr, hw, hc, hg⟩ := hB hla a t hlb
      rw [e] at hsel
      cases hsel
      obtain ⟨k1, k2, k3, k4, k5, k6⟩ :=
        key .baixa (by decide) t hlb s1 hp hn hw hc hg
      exact ⟨k1, hp, ht, hr, k2, k3, k4, k5, k6⟩
    | nil =>
      rw [hN hla hlb] at hsel
      cases hsel


/-! ## Lemmas: the random helpers -/

/-- A value in the range of `int` is its own 32-bit value. -/
theorem int32_id (x : Int) (h0 : INT_MIN ≤ x) (h1 : x ≤ INT_MAX) : int32 x = x := by
  unfold int32
  rw [if_pos ⟨h0, h1⟩]

/-- The in-range case of `int32` agrees with the wrap-around formula, so `int32` is
reduction modulo `2^32` into the range of `int`. -/
theorem int32_wrap (x : Int) : int32 x = (x + 2147483648) % 4294967296 - 2147483648 := by
  unfold int32
  split
  · rename_i h
    simp only [INT_MIN, INT_MAX] at h
    omega
  · rfl

/-- Function `rnd_range` on `int` bounds whose span does not overflow: no operation
wraps, and the result is `a + r mod (b - a + 1)`. -/
theorem rnd_range_exato (r : Nat) (a b : Int) (h : a ≤ b) (ha : INT_MIN ≤ a)
    (hb : b ≤ INT_MAX) (hs : b - a < INT_MAX) :
    rnd_range r a b = a + (r : Int) % (b - a + 1) := by
  simp only [INT_MIN, INT_MAX] at ha hb hs
  have hpos : (0 : Int) < b - a + 1 := by omega
  have h1 := Int.emod_nonneg (r : Int) (ne_of_gt hpos)
  have h2 := Int.emod_lt_of_pos (r : Int) hpos
  unfold rnd_range
  rw [int32_id (b - a) (by simp only [INT_MIN]; omega) (by simp only [INT_MAX]; omega),
    int32_id (b - a + 1) (by simp only [INT_MIN]; omega) (by simp only [INT_MAX]; omega),
    Int.tmod_eq_emod (Int.ofNat_nonneg r) (le_of_lt hpos),
    int32_id _ (by simp only [INT_MIN]; omega) (by simp only [INT_MAX]; omega)]

theorem rnd_range_limites (r : Nat) (a b : Int) (h : a ≤ b) (ha : INT_MIN ≤ a)
    (hb : b ≤ INT_MAX) (hs : b - a < INT_MAX) :
    a ≤ rnd_range r a b ∧ rnd_range r a b ≤ b := by
  rw [rnd_range_exato r a b h ha hb hs]
  have hpos : (0 : Int) < b - a + 1 := by omega
  have h1 := Int.emod_nonneg (r : Int) (ne_of_gt hpos)
  have h2 := Int.emod_lt_of_pos (r : Int) hpos
  omega

/-- Function `rnd_range` on `int` bounds whose span overflows, except the full range
(whose modulus wraps to 0): the modulus wraps to the negative value
`b - a + 1 - 2^32`, the remainder is below `2^32 - (b - a + 1)`, and the result is
still within the bounds. -/
theorem rnd_range_limites_geral (r : Nat) (a b : Int) (h : a ≤ b) (ha : INT_MIN ≤ a)
    (hb : b ≤ INT_MAX) (hz : ¬ (a = INT_MIN ∧ b = INT_MAX)) :
    a ≤ rnd_range r a b ∧ rnd_range r a b ≤ b := by
  by_cases hs : b - a < INT_MAX
  · exact rnd_range_limites r a b h ha hb hs
  · simp only [INT_MIN, INT_MAX] at ha hb hz hs
    have hm : int32 (int32 (b - a) + 1) = -(4294967296 - (b - a + 1)) := by
      rw [int32_wrap (b - a), int32_wrap]
      omega
    have hpos : (0 : Int) < 4294967296 - (b - a + 1) := by omega
    have h1 : 0 ≤ Int.tmod (r : Int) (4294967296 - (b - a + 1)) :=
      Int.tmod_nonneg _ (Int.ofNat_nonneg r)
    have h2 : Int.tmod (r : Int) (4294967296 - (b - a + 1)) < 4294967296 - (b - a + 1) :=
      Int.tmod_lt_of_pos _ hpos
    unfold rnd_range
    rw [hm, Int.tmod_neg,
      int32_id _ (by simp only [INT_MIN]; omega) (by simp only [INT_MAX]; omega)]
    omega

theorem duracao_io_limites (rnd : Nat → Nat) (pos : Nat) (tipo : Int)
    (ht : tipo = IO_DISCO ∨ tipo = IO_FITA ∨ tipo = IO_IMPRESSORA) :
    (duracao_io rnd pos tipo).2 = pos + 1 ∧
    (tipo = IO_DISCO → DUR_DISCO_MIN ≤ (duracao_io rnd pos tipo).1 ∧
      (duracao_io rnd pos tipo).1 ≤ DUR_DISCO_MAX) ∧
    (tipo = IO_FITA → DUR_FITA_MIN ≤ (duracao_io rnd pos tipo).1 ∧
      (duracao_io rnd pos tipo).1 ≤ DUR_FITA_MAX) ∧
    (tipo = IO_IMPRESSORA → DUR_IMPR_MIN ≤ (duracao_io rnd pos tipo).1 ∧
      (duracao_io rnd pos tipo).1 ≤ DUR_IMPR_MAX) := by
  rcases ht with rfl | rfl | rfl
  · refine ⟨rfl, fun _ => rnd_range_limites _ _ _ (by decide) (by decide) (by decide) (by decide), fun h => absurd h (by decide),
      fun h => absurd h (by decide)⟩
  · refine ⟨rfl, fun h => absurd h (by decide), fun _ => rnd_range_limites _ _ _ (by decide) (by decide) (by decide) (by decide),
      fun h => absurd h (by decide)⟩
  · refine ⟨rfl, fun h => absurd h (by decide), fun h => absurd h (by decide),
      fun _ => rnd_range_limites _ _ _ (by decide) (by decide) (by decide) (by decide)⟩

theorem tipo_sorteado (r : Nat) :
    rnd_range r IO_DISCO IO_IMPRESSORA = IO_DISCO ∨ rnd_range r IO_DISCO IO_IMPRESSORA = IO_FITA ∨
      rnd_range r IO_DISCO IO_IMPRESSORA = IO_IMPRESSORA := by
  have := rnd_range_limites r IO_DISCO IO_IMPRESSORA (by decide) (by decide) (by decide) (by decide)
  simp only [IO_DISCO, IO_FITA, IO_IMPRESSORA] at *
  omega

theorem fila_do_tipo_dispositivo (tipo : Int) : dispositivo (fila_do_tipo tipo) := by
  unfold fila_do_tipo dispositivo
  split_ifs <;> simp

/-- The I/O-request branch, phrased with `fila_do_tipo`. -/
theorem pedir_io_eq (rnd : Nat → Nat) (s : State) (pid : Int) :
    pedir_io rnd s pid =
      pushTo
        (setProc { s with rnd_pos := (duracao_io rnd (s.rnd_pos + 1)
            (rnd_range (rnd s.rnd_pos) IO_DISCO IO_IMPRESSORA)).2 } pid
          { getProc s pid with
            status := STATUS_BLOQ
            tipo_io := rnd_range (rnd s.rnd_pos) IO_DISCO IO_IMPRESSORA
            io_restante := (duracao_io rnd (s.rnd_pos + 1)
              (rnd_range (rnd s.rnd_pos) IO_DISCO IO_IMPRESSORA)).1 })
        (fila_do_tipo (rnd_range (rnd s.rnd_pos) IO_DISCO IO_IMPRESSORA))
        (getProc (setProc { s with rnd_pos := (duracao_io rnd (s.rnd_pos + 1)
            (rnd_range (rnd s.rnd_pos) IO_DISCO IO_IMPRESSORA)).2 } pid
          { getProc s pid with
            status := STATUS_BLOQ
            tipo_io := rnd_range (rnd s.rnd_pos) IO_DISCO IO_IMPRESSORA
            io_restante := (duracao_io rnd (s.rnd_pos + 1)
              (rnd_range (rnd s.rnd_pos) IO_DISCO IO_IMPRESSORA)).1 }) pid).pid := by
  unfold pedir_io fila_do_tipo
  simp only []
  split_ifs <;> rfl

/-- Hoare-style rule for the `while` loop of `executar_quantum`: `P k` is the loop
invariant with `k` ticks of the quantum left, `Q` the postcondition of the
`return 2`. -/
theorem quantum_loop_regra (rnd : Nat → Nat) (pid : Int) (P : Nat → State → Prop)
    (Q : State → Prop)
    (hpasso : ∀ k s, P (k + 1) s → 0 < (getProc s pid).cpu_restante →
      (0 < (getProc (quantum_tick s pid) pid).cpu_restante →
        processo_pede_io (rnd (quantum_tick s pid).rnd_pos) = true →
        Q (pedir_io rnd { quantum_tick s pid with
          rnd_pos := (quantum_tick s pid).rnd_pos + 1 } pid)) ∧
      (0 < (getProc (quantum_tick s pid) pid).cpu_restante →
        processo_pede_io (rnd (quantum_tick s pid).rnd_pos) = false →
        P k { quantum_tick s pid with rnd_pos := (quantum_tick s pid).rnd_pos + 1 }) ∧
      (¬ 0 < (getProc (quantum_tick s pid) pid).cpu_restante → P k (quantum_tick s pid))) :
    ∀ k s, P k s →
      (∀ s', quantum_loop rnd k s pid = (none, s') →
        ∃ k', k' ≤ k ∧ P k' s' ∧ (k' = 0 ∨ ¬ 0 < (getProc s' pid).cpu_restante)) ∧
      (∀ r s', quantum_loop rnd k s pid = (some r, s') → r = 2 ∧ Q s') := by
  intro k
  induction k with
  | zero =>
    intro s hP
    refine ⟨fun s' hs => ?_, fun r s' hs => ?_⟩
    · simp only [quantum_loop, Prod.mk.injEq, true_and] at hs
      subst hs
      exact ⟨0, le_refl _, hP, Or.inl rfl⟩
    · simp [quantum_loop] at hs
  | succ k ih =>
    intro s hP
    by_cases hc : 0 < (getProc s pid).cpu_restante
    · obtain ⟨h1, h2, h3⟩ := hpasso k s hP hc
      by_cases hc3 : 0 < (getProc (quantum_tick s pid) pid).cpu_restante
      · cases hpe : processo_pede_io (rnd (quantum_tick s pid).rnd_pos)
        · have e : quantum_loop rnd (k + 1) s pid = quantum_loop rnd k
              { quantum_tick s pid with rnd_pos := (quantum_tick s pid).rnd_pos + 1 } pid := by
            simp [quantum_loop, hc, hc3, hpe]
          rw [e]
          obtain ⟨a, b⟩ := ih _ (h2 hc3 hpe)
          refine ⟨fun s' hs => ?_, b⟩
          obtain ⟨k', hk, hx⟩ := a s' hs
          exact ⟨k', Nat.le_succ_of_le hk, hx⟩
        · have e : quantum_loop rnd (k + 1) s pid = (some 2, pedir_io rnd
              { quantum_tick s pid with rnd_pos := (quantum_tick s pid).rnd_pos + 1 } pid) := by
            simp [quantum_loop, hc, hc3, hpe]
          rw [e]
          refine ⟨fun s' hs => (by cases hs), fun r s' hs => ?_⟩
          cases hs
          exact ⟨rfl, h1 hc3 hpe⟩
      · have e : quantum_loop rnd (k + 1) s pid = quantum_loop rnd k (quantum_tick s pid) pid := by
          simp [quantum_loop, hc, hc3]
        rw [e]
        obtain ⟨a, b⟩ := ih _ (h3 hc3)
        refine ⟨fun s' hs => ?_, b⟩
        obtain ⟨k', hk, hx⟩ := a s' hs
        exact ⟨k', Nat.le_succ_of_le hk, hx⟩
    · have e : quantum_loop rnd (k + 1) s pid = (none, s) := by
        simp [quantum_loop, hc]
      rw [e]
      refine ⟨fun s' hs => ?_, fun r s' hs => (by cases hs)⟩
      cases hs
      exact ⟨k + 1, le_refl _, hP, Or.inr hc⟩


/-! ## Lemmas: evolution of the processes that are not dispatched -/

theorem Ev_refl_of (s s' : State) (i : Int) (hp : getProc s' i = getProc s i)
    (hq : ∀ g, i ∈ conteudo s' g ↔ i ∈ conteudo s g) : Ev s s' i := by
  refine ⟨by rw [hp], by rw [hp], by rw [hp], by rw [hp], Or.inl ⟨hp, hq⟩⟩

theorem Ev_trans (s s1 s2 : State) (i : Int) (h1 : Ev s s1 i) (h2 : Ev s1 s2 i) :
    Ev s s2 i := by
  obtain ⟨a1, a2, a3, a4, ha⟩ := h1
  obtain ⟨b1, b2, b3, b4, hb⟩ := h2
  refine ⟨b1.trans a1, b2.trans a2, b3.trans a3, b4.trans a4, ?_⟩
  rcases ha with ⟨e, m⟩ | ⟨x1, x2, x3, x4, x5, x6, m⟩ | ⟨x1, x2, x3, x4, x5, x6, x7⟩ |
      ⟨x1, x2, x3, x4, x5, x6, x7⟩
  · rcases hb with ⟨e', m'⟩ | ⟨y1, y2, y3, y4, y5, y6, m'⟩ | ⟨y1, y2, y3, y4, y5, y6, y7⟩ |
        ⟨y1, y2, y3, y4, y5, y6, y7⟩
    · exact Or.inl ⟨e'.trans e, fun g => (m' g).trans (m g)⟩
    · rw [e] at y1 y3 y4 y5
      exact Or.inr (Or.inl ⟨y1, y2, y3, y4, y5, y6, fun g => (m' g).trans (m g)⟩)
    · rw [e] at y1
      exact Or.inr (Or.inr (Or.inl ⟨y1, (m _).1 y2, y3, y4, y5, y6, y7⟩))
    · rw [e] at y1
      refine Or.inr (Or.inr (Or.inr ⟨y1, ?_, y3, y4, y5, y6, y7⟩))
      rcases y2 with y2 | y2
      · exact Or.inl ((m _).1 y2)
      · exact Or.inr ((m _).1 y2)
  · rcases hb with ⟨e', m'⟩ | ⟨y1, y2, y3, y4, y5, y6, m'⟩ | ⟨y1, y2, y3, y4, y5, y6, y7⟩ |
        ⟨y1, y2, y3, y4, y5, y6, y7⟩
    · rw [← e'] at x2 x3 x4 x5 x6
      exact Or.inr (Or.inl ⟨x1, x2, x3, x4, x5, x6, fun g => (m' g).trans (m g)⟩)
    · exact Or.inr (Or.inl ⟨x1, y2, y3.trans x3, y4.trans x4, lt_trans y5 x5, y6,
        fun g => (m' g).trans (m g)⟩)
    · exact Or.inr (Or.inr (Or.inl ⟨x1, (m _).1 y2, y3, y4, y5, y6, y7⟩))
    · refine Or.inr (Or.inr (Or.inr ⟨x1, ?_, y3, y4, y5, y6, y7⟩))
      rcases y2 with y2 | y2
      · exact Or.inl ((m _).1 y2)
      · exact Or.inr ((m _).1 y2)
  · rcases hb with ⟨e', m'⟩ | ⟨y1, _⟩ | ⟨y1, _⟩ | ⟨y1, _⟩
    · rw [← e'] at x3 x4 x5 x6
      exact Or.inr (Or.inr (Or.inl ⟨x1, x2, x3, x4, x5, x6, (m' _).2 x7⟩))
    · rw [x3] at y1; exact absurd y1 (by decide)
    · rw [x3] at y1; exact absurd y1 (by decide)
    · rw [x3] at y1; exact absurd y1 (by decide)
  · rcases hb with ⟨e', m'⟩ | ⟨y1, _⟩ | ⟨y1, _⟩ | ⟨y1, _⟩
    · rw [← e'] at x3 x4 x5 x6
      exact Or.inr (Or.inr (Or.inr ⟨x1, x2, x3, x4, x5, x6, (m' _).2 x7⟩))
    · rw [x3] at y1; exact absurd y1 (by decide)
    · rw [x3] at y1; exact absurd y1 (by decide)
    · rw [x3] at y1; exact absurd y1 (by decide)

/-- A pid occurs in at most one queue. -/
theorem Inv.unico {s : State} {run : Option Int} (h : Inv s run) (i : Int) (g g' : FilaId)
    (hne : g ≠ g') (hi : i ∈ conteudo s g) : i ∉ conteudo s g' := by
  have hc := List.nodup_iff_count_le_one.1 h.nodup i
  simp only [todas, prontos, bloqueados, List.count_append] at hc
  intro hi'
  have p1 := List.count_pos_iff.2 hi
  have p2 := List.count_pos_iff.2 hi'
  cases g <;> cases g' <;> first | exact absurd rfl hne | omega

theorem Inv.mem_valido {s : State} {run : Option Int} (h : Inv s run) (i : Int) (g : FilaId)
    (hi : i ∈ conteudo s g) : valido i ∧ some i ≠ run := by
  have hm : i ∈ todas s := by
    cases g <;> simp [todas, prontos, bloqueados, hi]
  refine ⟨h.faixa i hm, fun hr => ?_⟩
  exact (h.fora i hr.symm).2 hm

theorem Inv.mem_bloq {s : State} {run : Option Int} (h : Inv s run) (i : Int) (g : FilaId)
    (hg : dispositivo g) (hi : i ∈ conteudo s g) :
    (getProc s i).status = STATUS_BLOQ ∧ 0 ≤ (getProc s i).io_restante := by
  obtain ⟨hv, hr⟩ := h.mem_valido i g hi
  have hm : i ∈ bloqueados s := by
    rcases hg with rfl | rfl | rfl <;> simp [bloqueados, hi]
  have hb := (h.bloq i hv hr).2 hm
  exact ⟨hb, h.io i hv hr hb⟩

/-- One clock tick, seen from a single process. -/
theorem Ev_tick_todos (s : State) (run : Option Int) (h : Inv s run) (i : Int) :
    Ev s (tick_todos s) i := by
  have hlen := h.comprimento
  obtain ⟨w, eD, eF, eI, eB, eA, hp, ht, hn, hr⟩ :=
    tick_todos_spec s h.wf h.nodup_bloqueados (by omega) (by omega)
  have hfix : ∀ t, (pcb_tick t (getProc s i)).pid = (getProc s i).pid ∧
      (pcb_tick t (getProc s i)).ppid = (getProc s i).ppid ∧
      (pcb_tick t (getProc s i)).cpu_total = (getProc s i).cpu_total ∧
      (pcb_tick t (getProc s i)).cpu_restante = (getProc s i).cpu_restante :=
    fun t => pcb_tick_fixos t _
  -- a resident of a device queue
  have residente : ∀ (g : FilaId) (t : Int), dispositivo g → i ∈ conteudo s g →
      getProc (tick_todos s) i = pcb_tick t (getProc s i) →
      (∀ g', i ∈ conteudo (tick_todos s) g' ↔
        (g' = g ∧ conclui (getProc s i) = false) ∨
        (g' = destino t ∧ conclui (getProc s i) = true)) →
      (t = IO_DISCO ↔ g = .io_disco) →
      Ev s (tick_todos s) i := by
    intro g t hg hi e hm htg
    obtain ⟨hb, hio⟩ := h.mem_bloq i g hg hi
    rw [Ev, e]
    refine ⟨(hfix t).1, (hfix t).2.1, (hfix t).2.2.1, (hfix t).2.2.2, ?_⟩
    cases hc : conclui (getProc s i)
    · have hnc : ¬ ((getProc s i).io_restante = 0 ∨ (getProc s i).io_restante = 1) := by
        intro hx
        have := (conclui_iff _).2 ⟨hb, hx⟩
        rw [hc] at this
        cases this
      refine Or.inr (Or.inl ⟨hb, ?_, ?_, ?_, ?_, ?_, ?_⟩)
      · rw [pcb_tick_status, hc]; exact hb
      · rw [pcb_tick_prioridade, hc]; rfl
      · rw [pcb_tick_tipo_io, hc]; rfl
      · rw [pcb_tick_io_restante]; split <;> omega
      · rw [pcb_tick_io_restante]; split <;> omega
      · intro g'
        rw [hm g', hc]
        constructor
        · rintro (⟨rfl, _⟩ | ⟨_, hx⟩)
          · exact hi
          · cases hx
        · intro hx
          left
          refine ⟨?_, rfl⟩
          by_contra hne
          exact h.unico i g' g hne hx hi
    · have hio2 := ((conclui_iff _).1 hc).2
      have hmd : i ∈ conteudo (tick_todos s) (destino t) := (hm _).2 (Or.inr ⟨rfl, hc⟩)
      have hst : (pcb_tick t (getProc s i)).status = STATUS_PRONTO := by
        rw [pcb_tick_status, hc]; rfl
      have hti : (pcb_tick t (getProc s i)).tipo_io = IO_NENHUM := by
        rw [pcb_tick_tipo_io, hc]; rfl
      have hir : (pcb_tick t (getProc s i)).io_restante = 0 := by
        rw [pcb_tick_io_restante]; split <;> omega
      by_cases htd : t = IO_DISCO
      · have hgd : g = .io_disco := htg.1 htd
        subst hgd
        refine Or.inr (Or.inr (Or.inl ⟨hb, hi, hst, ?_, hti, hir, ?_⟩))
        · rw [pcb_tick_prioridade, hc]; simp [htd]
        · simpa [destino, htd] using hmd
      · have hgd : g ≠ .io_disco := fun hx => htd (htg.2 hx)
        refine Or.inr (Or.inr (Or.inr ⟨hb, ?_, hst, ?_, hti, hir, ?_⟩))
        · rcases hg with rfl | rfl | rfl
          · exact absurd rfl hgd
          · exact Or.inl hi
          · exact Or.inr hi
        · rw [pcb_tick_prioridade, hc]; simp [htd]
        · simpa [destino, htd] using hmd
  by_cases hD : i ∈ conteudo s .io_disco
  · have nF := h.unico i .io_disco .io_fita (by decide) hD
    have nI := h.unico i .io_disco .io_impr (by decide) hD
    have nA := h.unico i .io_disco .alta (by decide) hD
    have nB := h.unico i .io_disco .baixa (by decide) hD
    refine residente .io_disco IO_DISCO (Or.inl rfl) hD (by rw [hp, if_pos hD]) ?_ (by simp)
    intro g'
    cases hc : conclui (getProc s i) <;> cases g' <;>
      simp [eD, eF, eI, eA, eB, hD, nF, nI, nA, nB, hc, destino]
  · by_cases hF : i ∈ conteudo s .io_fita
    · have nI := h.unico i .io_fita .io_impr (by decide) hF
      have nA := h.unico i .io_fita .alta (by decide) hF
      have nB := h.unico i .io_fita .baixa (by decide) hF
      refine residente .io_fita IO_FITA (Or.inr (Or.inl rfl)) hF
        (by rw [hp, if_neg hD, if_pos hF]) ?_ (by simp)
      intro g'
      cases hc : conclui (getProc s i) <;> cases g' <;>
        simp [eD, eF, eI, eA, eB, hD, hF, nI, nA, nB, hc, destino]
    · by_cases hI : i ∈ conteudo s .io_impr
      · have nA := h.unico i .io_impr .alta (by decide) hI
        have nB := h.unico i .io_impr .baixa (by decide) hI
        refine residente .io_impr IO_IMPRESSORA (Or.inr (Or.inr rfl)) hI
          (by rw [hp, if_neg hD, if_neg hF, if_pos hI]) ?_ (by simp)
        intro g'
        cases hc : conclui (getProc s i) <;> cases g' <;>
          simp [eD, eF, eI, eA, eB, hD, hF, hI, nA, nB, hc, destino]
      · apply Ev_refl_of
        · rw [hp, if_neg hD, if_neg hF, if_neg hI]
        · intro g'
          cases g' <;> simp [eD, eF, eI, eA, eB, hD, hF, hI]


/-! ## Lemmas: the termination measure and the count of finished processes -/

theorem valido_cast (i : Nat) (h : i < MAX_PROCESSOS) : valido (i : Int) := by
  unfold valido
  simp only [MAX_PROCESSOS] at *
  omega

theorem valido_toNat (i : Int) (h : valido i) :
    i.toNat < MAX_PROCESSOS ∧ ((i.toNat : Nat) : Int) = i := by
  unfold valido at h
  simp only [MAX_PROCESSOS] at *
  omega

theorem medida_le (s s' : State)
    (h : ∀ i, valido i → termo (getProc s' i) ≤ termo (getProc s i)) :
    medida s' ≤ medida s := by
  unfold medida
  apply List.sum_le_sum
  intro i hi
  exact h _ (valido_cast i (List.mem_range.1 hi))

theorem medida_lt (s s' : State)
    (h : ∀ i, valido i → termo (getProc s' i) ≤ termo (getProc s i))
    (j : Int) (hj : valido j) (hlt : termo (getProc s' j) < termo (getProc s j)) :
    medida s' < medida s := by
  unfold medida
  apply List.sum_lt_sum
  · intro i hi
    exact h _ (valido_cast i (List.mem_range.1 hi))
  · obtain ⟨h1, h2⟩ := valido_toNat j hj
    exact ⟨j.toNat, List.mem_range.2 h1, by rw [h2]; exact hlt⟩

theorem termo_Ev (s s' : State) (i : Int) (h : Ev s s' i) :
    termo (getProc s' i) ≤ termo (getProc s i) := by
  obtain ⟨_, _, _, hc, hx⟩ := h
  rcases hx with ⟨e, _⟩ | ⟨x1, x2, _, _, x5, x6, _⟩ | ⟨x1, _, x3, _⟩ | ⟨x1, _, x3, _⟩
  · rw [e]
  · simp only [termo, custo_cpu, custo_io, x1, x2, hc]
    simp only [STATUS_BLOQ, STATUS_FIM]
    norm_num
    omega
  · simp only [termo, custo_cpu, custo_io, x1, x3, hc]
    simp only [STATUS_BLOQ, STATUS_FIM, STATUS_PRONTO]
    norm_num
  · simp only [termo, custo_cpu, custo_io, x1, x3, hc]
    simp only [STATUS_BLOQ, STATUS_FIM, STATUS_PRONTO]
    norm_num

/-- A clock tick lowers the contribution of every blocked process. -/
theorem termo_tick_bloq (s : State) (run : Option Int) (h : Inv s run) (i : Int)
    (hi : i ∈ bloqueados s) :
    termo (getProc (tick_todos s) i) < termo (getProc s i) := by
  obtain ⟨_, _, _, _, _, hin, _⟩ := tick_todos_resumo s run h
  obtain ⟨t, e, _⟩ := hin i hi
  have hv := h.faixa i (List.mem_append_right _ hi)
  have hr : some i ≠ run := fun hr => (h.fora i hr.symm).2 (List.mem_append_right _ hi)
  have hb := (h.bloq i hv hr).2 hi
  have hio := h.io i hv hr hb
  rw [e]
  simp only [termo, custo_cpu, custo_io, pcb_tick_status, pcb_tick_io_restante,
    (pcb_tick_fixos t _).2.2.2, hb]
  cases hc : conclui (getProc s i)
  · have hnc : ¬ ((getProc s i).io_restante = 0 ∨ (getProc s i).io_restante = 1) := by
      intro hx
      have := (conclui_iff _).2 ⟨hb, hx⟩
      rw [hc] at this
      cases this
    have hpos : 0 < (getProc s i).io_restante := by omega
    simp only [STATUS_BLOQ, STATUS_FIM, hpos]
    norm_num
    omega
  · simp only [STATUS_BLOQ, STATUS_FIM, STATUS_PRONTO]
    norm_num

theorem num_fim_le (s : State) : num_fim s ≤ s.N := by
  unfold num_fim
  have := List.countP_le_length (fun (i : Nat) => decide ((getProc s (i : Int)).status = STATUS_FIM))
    (l := List.range s.N)
  simpa using this

theorem countP_range_congr (n : Nat) (p q : Nat → Bool) (h : ∀ i, i < n → p i = q i) :
    (List.range n).countP p = (List.range n).countP q := by
  apply List.countP_congr
  intro i hi
  rw [h i (List.mem_range.1 hi)]

theorem countP_range_succ_um (n : Nat) (p q : Nat → Bool) (k : Nat) (hk : k < n)
    (hp : p k = false) (hq : q k = true) (h : ∀ i, i < n → i ≠ k → q i = p i) :
    (List.range n).countP q = (List.range n).countP p + 1 := by
  induction n with
  | zero => omega
  | succ n ih =>
    rw [List.range_succ, List.countP_append, List.countP_append]
    by_cases hkn : k = n
    · subst hkn
      have e := countP_range_congr k q p (fun i hi => h i (by omega) (by omega))
      rw [e]
      simp [List.countP_cons, hp, hq]
    · have hk' : k < n := by omega
      have := ih hk' (fun i hi hne => h i (by omega) hne)
      rw [this]
      have e : q n = p n := h n (by omega) (fun hx => hkn hx.symm)
      simp [List.countP_cons, e]
      omega

theorem num_fim_igual (s s' : State) (hN : s'.N = s.N) (hN8 : s.N = MAX_PROCESSOS)
    (h : ∀ i, valido i →
      ((getProc s' i).status = STATUS_FIM ↔ (getProc s i).status = STATUS_FIM)) :
    num_fim s' = num_fim s := by
  unfold num_fim
  rw [hN]
  apply countP_range_congr
  intro i hi
  rw [hN8] at hi
  have := h _ (valido_cast i hi)
  simp only [decide_eq_decide]
  exact this

theorem num_fim_mais_um (s s' : State) (hN : s'.N = s.N) (hN8 : s.N = MAX_PROCESSOS)
    (pid : Int) (hv : valido pid) (h0 : (getProc s pid).status ≠ STATUS_FIM)
    (h1 : (getProc s' pid).status = STATUS_FIM)
    (h : ∀ i, valido i → i ≠ pid →
      ((getProc s' i).status = STATUS_FIM ↔ (getProc s i).status = STATUS_FIM)) :
    num_fim s' = num_fim s + 1 := by
  unfold num_fim
  rw [hN]
  obtain ⟨hk, hcast⟩ := valido_toNat pid hv
  apply countP_range_succ_um _ _ _ pid.toNat (by rw [hN8]; exact hk)
  · rw [hcast]; simpa using h0
  · rw [hcast]; simpa using h1
  · intro i hi hne
    rw [hN8] at hi
    have := h _ (valido_cast i hi) (by omega)
    simp only [decide_eq_decide]
    exact this

/-- When the count of finished processes reaches `N`, every process is FINISHED. -/
theorem todos_fim (s : State) (hN8 : s.N = MAX_PROCESSOS) (h : s.N ≤ num_fim s) (i : Int)
    (hv : valido i) : (getProc s i).status = STATUS_FIM := by
  unfold num_fim at h
  have hle := List.countP_le_length (fun (i : Nat) => decide ((getProc s (i : Int)).status = STATUS_FIM))
    (l := List.range s.N)
  have heq : (List.range s.N).countP
      (fun (i : Nat) => decide ((getProc s (i : Int)).status = STATUS_FIM)) = (List.range s.N).length := by
    simp only [List.length_range] at hle ⊢
    omega
  rw [List.countP_eq_length] at heq
  obtain ⟨hk, hcast⟩ := valido_toNat i hv
  have := heq i.toNat (List.mem_range.2 (by rw [hN8]; exact hk))
  rw [hcast] at this
  simpa using this

/-- While the count is below `N`, some process is not FINISHED. -/
theorem existe_nao_fim (s : State) (hN8 : s.N = MAX_PROCESSOS) (h : num_fim s < s.N) :
    ∃ i, valido i ∧ (getProc s i).status ≠ STATUS_FIM := by
  by_contra hc
  push_neg at hc
  have : (List.range s.N).countP
      (fun (i : Nat) => decide ((getProc s (i : Int)).status = STATUS_FIM)) = (List.range s.N).length := by
    rw [List.countP_eq_length]
    intro i hi
    rw [List.mem_range, hN8] at hi
    simpa using hc _ (valido_cast i hi)
  unfold num_fim at h
  rw [this, List.length_range] at h
  omega


/-! ## Lemmas: one tick of the running process, and the I/O request -/

theorem Inv.nao_bloqueado {s : State} {r : Int} (h : Inv s (some r)) (g : FilaId) :
    r ∉ conteudo s g := by
  intro hi
  exact (h.mem_valido r g hi).2 rfl

theorem quantum_tick_resumo (s : State) (pid : Int) (h : Inv s (some pid)) :
    Inv (quantum_tick s pid) (some pid) ∧
      getProc (quantum_tick s pid) pid =
        { getProc s pid with cpu_restante := (getProc s pid).cpu_restante - 1 } ∧
      (quantum_tick s pid).tempo = s.tempo + 1 ∧
      (quantum_tick s pid).rnd_pos = s.rnd_pos ∧
      (quantum_tick s pid).N = s.N ∧
      (∀ i, i ≠ pid → Ev s (quantum_tick s pid) i) ∧
      (∀ g, pid ∉ conteudo (quantum_tick s pid) g) := by
  have hv := (h.fora pid rfl).1
  have h1 : Inv { s with tempo := s.tempo + 1 } (some pid) :=
    Inv_congr s _ _ h rfl (fun g => by cases g <;> rfl) rfl
  have hg1 : ∀ i, getProc { s with tempo := s.tempo + 1 } i = getProc s i := fun i => rfl
  have h2 := Inv_setProc_fora _ pid
    { getProc { s with tempo := s.tempo + 1 } pid with
      cpu_restante := (getProc { s with tempo := s.tempo + 1 } pid).cpu_restante - 1 } h1
    (h.pidf pid hv)
  have hin := valido_dentro _ h1.wf pid hv
  have h3 := Inv_tick_todos _ _ h2
  obtain ⟨_, _, _, _, hout, _, ht, hn, hr⟩ := tick_todos_resumo _ _ h2
  have hnb : pid ∉ bloqueados (setProc { s with tempo := s.tempo + 1 } pid
      { getProc { s with tempo := s.tempo + 1 } pid with
        cpu_restante := (getProc { s with tempo := s.tempo + 1 } pid).cpu_restante - 1 }) :=
    fun hx => (h2.fora pid rfl).2 (List.mem_append_right _ hx)
  refine ⟨h3, ?_, ?_, ?_, ?_, ?_, fun g => h3.nao_bloqueado g⟩
  · show getProc (tick_todos _) pid = _
    rw [hout pid hnb, getProc_setProc_eq _ _ _ hin]
    rfl
  · show (tick_todos _).tempo = _
    rw [ht]; simp
  · show (tick_todos _).rnd_pos = _
    rw [hr]; simp
  · show (tick_todos _).N = _
    rw [hn]; simp
  · intro i hi
    refine Ev_trans s _ _ i ?_ (Ev_tick_todos _ _ h2 i)
    apply Ev_refl_of
    · rw [getProc_setProc_ne _ _ _ _ hi]; rfl
    · intro g
      rw [conteudo_setProc]
      cases g <;> rfl

theorem pedir_io_resumo (rnd : Nat → Nat) (s : State) (pid : Int) (h : Inv s (some pid))
    (hc : 0 < (getProc s pid).cpu_restante) :
    Inv (pedir_io rnd s pid) none ∧
      getProc (pedir_io rnd s pid) pid =
        { getProc s pid with
          status := STATUS_BLOQ
          tipo_io := rnd_range (rnd s.rnd_pos) IO_DISCO IO_IMPRESSORA
          io_restante := (duracao_io rnd (s.rnd_pos + 1)
            (rnd_range (rnd s.rnd_pos) IO_DISCO IO_IMPRESSORA)).1 } ∧
      (pedir_io rnd s pid).tempo = s.tempo ∧
      (pedir_io rnd s pid).rnd_pos = s.rnd_pos + 2 ∧
      (pedir_io rnd s pid).N = s.N ∧
      (∀ i, i ≠ pid → Ev s (pedir_io rnd s pid) i) ∧
      conteudo (pedir_io rnd s pid)
          (fila_do_tipo (rnd_range (rnd s.rnd_pos) IO_DISCO IO_IMPRESSORA))
        = conteudo s (fila_do_tipo (rnd_range (rnd s.rnd_pos) IO_DISCO IO_IMPRESSORA))
          ++ [pid] ∧
      (∀ g, g ≠ fila_do_tipo (rnd_range (rnd s.rnd_pos) IO_DISCO IO_IMPRESSORA) →
        getFila (pedir_io rnd s pid) g = getFila s g) := by
  have hv := (h.fora pid rfl).1
  have ht := tipo_sorteado (rnd s.rnd_pos)
  generalize htd : rnd_range (rnd s.rnd_pos) IO_DISCO IO_IMPRESSORA = t at ht
  obtain ⟨hd2, hdD, hdF, hdI⟩ := duracao_io_limites rnd (s.rnd_pos + 1) t ht
  have hd0 : 0 ≤ (duracao_io rnd (s.rnd_pos + 1) t).1 := by
    rcases ht with e | e | e
    · have := (hdD e).1; simp only [DUR_DISCO_MIN] at this; omega
    · have := (hdF e).1; simp only [DUR_FITA_MIN] at this; omega
    · have := (hdI e).1; simp only [DUR_IMPR_MIN] at this; omega
  rw [pedir_io_eq, htd]
  have h1 : Inv { s with rnd_pos := (duracao_io rnd (s.rnd_pos + 1) t).2 } (some pid) :=
    Inv_congr s _ _ h rfl (fun g => by cases g <;> rfl) rfl
  have hin := valido_dentro _ h1.wf pid hv
  have h2 := Inv_setProc_fora _ pid
    { getProc s pid with
      status := STATUS_BLOQ
      tipo_io := t
      io_restante := (duracao_io rnd (s.rnd_pos + 1) t).1 } h1 (h.pidf pid hv)
  generalize hs2 : setProc { s with rnd_pos := (duracao_io rnd (s.rnd_pos + 1) t).2 } pid
    { getProc s pid with
      status := STATUS_BLOQ
      tipo_io := t
      io_restante := (duracao_io rnd (s.rnd_pos + 1) t).1 } = s2 at h2
  have hp2 : getProc s2 pid = { getProc s pid with
      status := STATUS_BLOQ
      tipo_io := t
      io_restante := (duracao_io rnd (s.rnd_pos + 1) t).1 } := by
    rw [← hs2, getProc_setProc_eq _ _ _ hin]
  have hpid : (getProc s2 pid).pid = pid := h2.pidf pid hv
  rw [hpid]
  have hlen := h2.comprimento_fora
  have hq : (conteudo s2 (fila_do_tipo t)).length < MAX_PROCESSOS := by
    cases (fila_do_tipo t) <;> omega
  obtain ⟨_, pc, pg, pp, pt, pn, pr⟩ := pushTo_ok s2 (fila_do_tipo t) pid h2.wf hq
  have hc2 : ∀ g, conteudo s2 g = conteudo s g := by
    intro g
    rw [← hs2, conteudo_setProc]
    cases g <;> rfl
  refine ⟨?_, ?_, ?_, ?_, ?_, ?_, ?_, ?_⟩
  · apply Inv_fecha_push _ _ _ h2
    · right
      rw [hp2]
      exact ⟨rfl, fila_do_tipo_dispositivo t, hd0⟩
    · rw [hp2]; exact hc
  · rw [getProc_pushTo, hp2]
  · rw [pt, ← hs2]; simp
  · rw [pr, ← hs2]; simp [hd2]
  · rw [pn, ← hs2]; simp
  · intro i hi
    apply Ev_refl_of
    · rw [getProc_pushTo, ← hs2, getProc_setProc_ne _ _ _ _ hi]; rfl
    · intro g
      by_cases hg : g = fila_do_tipo t
      · subst hg
        rw [pc, hc2]
        simp [hi]
      · rw [conteudo_congr _ _ _ (pg g hg), hc2]
  · rw [pc, hc2]
  · intro g hg
    rw [pg g hg, ← hs2, getFila_setProc]
    cases g <;> rfl


/-- One iteration of the `while` loop keeps `InvQuantum` or ends in `SaidaBloq`. -/
theorem InvQuantum_passo (rnd : Nat → Nat) (s : State) (pid : Int) (k : Nat) (s1 : State)
    (hP : InvQuantum rnd s pid (k + 1) s1) (hc : 0 < (getProc s1 pid).cpu_restante) :
    (0 < (getProc (quantum_tick s1 pid) pid).cpu_restante →
      processo_pede_io (rnd (quantum_tick s1 pid).rnd_pos) = true →
      SaidaBloq rnd s pid (pedir_io rnd { quantum_tick s1 pid with
        rnd_pos := (quantum_tick s1 pid).rnd_pos + 1 } pid)) ∧
    (0 < (getProc (quantum_tick s1 pid) pid).cpu_restante →
      processo_pede_io (rnd (quantum_tick s1 pid).rnd_pos) = false →
      InvQuantum rnd s pid k
        { quantum_tick s1 pid with rnd_pos := (quantum_tick s1 pid).rnd_pos + 1 }) ∧
    (¬ 0 < (getProc (quantum_tick s1 pid) pid).cpu_restante →
      InvQuantum rnd s pid k (quantum_tick s1 pid)) := by
  obtain ⟨hk, hI, hp, hle, ht, hN, hr, hneg, hev, _⟩ := hP
  obtain ⟨qI, qp, qt, qr, qN, qev, qout⟩ := quantum_tick_resumo s1 pid hI
  generalize quantum_tick s1 pid = s3 at *
  simp only [QUANTUM] at *
  -- ticks consumed before this iteration
  obtain ⟨m, hm⟩ : ∃ m : Nat, m = 3 - (k + 1) := ⟨_, rfl⟩
  have hm1 : 3 - k = m + 1 := by omega
  rw [← hm] at hp hle ht hr hneg
  rw [hp] at hc qp
  simp only at hc qp
  have hcpu3 : (getProc s3 pid).cpu_restante = (getProc s pid).cpu_restante - ((m + 1 : Nat) : Int) := by
    rw [qp]; simp only; push_cast; omega
  have hp3 : getProc s3 pid = { getProc s pid with
      status := STATUS_EXEC
      cpu_restante := (getProc s pid).cpu_restante - ((m + 1 : Nat) : Int) } := by
    rw [qp]; simp only [PCB.mk.injEq, true_and, and_true]; push_cast; omega
  have hev3 : ∀ i, i ≠ pid → Ev s s3 i := fun i hi => Ev_trans s s1 s3 i (hev i hi) (qev i hi)
  -- the state after the draw
  have hI4 : Inv { s3 with rnd_pos := s3.rnd_pos + 1 } (some pid) :=
    Inv_congr s3 _ _ qI rfl (fun g => by cases g <;> rfl) rfl
  have hev4 : ∀ i, i ≠ pid → Ev s { s3 with rnd_pos := s3.rnd_pos + 1 } i := by
    intro i hi
    refine Ev_trans s s3 _ i (hev3 i hi) (Ev_refl_of _ _ _ rfl (fun g => ?_))
    cases g <;> rfl
  refine ⟨?_, ?_, ?_⟩
  · intro hc3 hpe
    rw [hcpu3] at hc3
    have hmin : min m ((getProc s pid).cpu_restante - 1).toNat = m := by
      apply min_eq_left; omega
    obtain ⟨bI, bp, bt, br, bN, bev, bq, _⟩ :=
      pedir_io_resumo rnd { s3 with rnd_pos := s3.rnd_pos + 1 } pid hI4
        (by show 0 < (getProc s3 pid).cpu_restante; rw [hcpu3]; exact hc3)
    have e1 : s3.rnd_pos = s.rnd_pos + m := by rw [qr, hr, hmin]
    refine ⟨m, by show m < 3; omega, by push_cast at hc3; omega, ?_, by rw [← e1]; exact hpe,
      bI, ?_, ?_, ?_, ?_, ?_, ?_⟩
    · intro j hj
      exact hneg j hj (by push_cast at hc3; omega)
    · rw [bp]
      show ({ getProc s3 pid with status := STATUS_BLOQ, tipo_io := _, io_restante := _ } : PCB)
        = _
      rw [hp3]
      simp only [e1, PCB.mk.injEq, true_and, and_true]
      push_cast; omega
    · rw [bt]; show s3.tempo = _; rw [qt, ht]
    · rw [bN]; show s3.N = _; rw [qN, hN]
    · rw [br]; show s3.rnd_pos + 1 + 2 = _; rw [e1]
    · intro i hi
      exact Ev_trans s _ _ i (hev4 i hi) (bev i hi)
    · have : s.rnd_pos + m + 1 = ({ s3 with rnd_pos := s3.rnd_pos + 1 } : State).rnd_pos := by
        show _ = s3.rnd_pos + 1; rw [e1]
      rw [this]
      exact ⟨_, bq⟩
  · intro hc3 hpe
    rw [hcpu3] at hc3
    have hmin : min m ((getProc s pid).cpu_restante - 1).toNat = m := by
      apply min_eq_left; omega
    have hmin' : min (m + 1) ((getProc s pid).cpu_restante - 1).toNat = m + 1 := by
      apply min_eq_left; push_cast at hc3; omega
    have e1 : s3.rnd_pos = s.rnd_pos + m := by rw [qr, hr, hmin]
    refine ⟨by show k ≤ 3; omega, hI4, ?_, ?_, ?_, ?_, ?_, ?_, hev4, ?_⟩
    · rw [hm1]; exact hp3
    · rw [hm1]; omega
    · rw [hm1]; show s3.tempo = _; rw [qt, ht]; omega
    · show s3.N = _; rw [qN, hN]
    · rw [hm1, hmin']; show s3.rnd_pos + 1 = _; rw [e1]; omega
    · intro j hj hjc
      rw [hm1] at hj
      by_cases hjm : j = m
      · rw [hjm, ← e1]; exact hpe
      · exact hneg j (by omega) hjc
    · intro g
      exact fun hx => qout g (by cases g <;> exact hx)
  · intro hc3
    rw [hcpu3] at hc3
    have hceq : (getProc s pid).cpu_restante = ((m + 1 : Nat) : Int) := by omega
    have hmin : min m ((getProc s pid).cpu_restante - 1).toNat = m := by
      apply min_eq_left; omega
    have hx : ((getProc s pid).cpu_restante - 1).toNat = m := by omega
    have hmin' : min (m + 1) ((getProc s pid).cpu_restante - 1).toNat = m := by
      rw [hx]; exact min_eq_right (by omega)
    refine ⟨by show k ≤ 3; omega, qI, ?_, ?_, ?_, ?_, ?_, ?_, hev3, qout⟩
    · rw [hm1]; exact hp3
    · rw [hm1]; omega
    · rw [hm1, qt, ht]; omega
    · rw [qN, hN]
    · rw [hm1, hmin', qr, hr, hmin]
    · intro j hj hjc
      exact hneg j (by omega) hjc


/-- The three outcomes of `executar_quantum` on a process taken out of the queues
that still has CPU time to consume. -/
theorem executar_quantum_resumo (rnd : Nat → Nat) (s : State) (pid : Int)
    (h : Inv s (some pid)) (hc : 0 < (getProc s pid).cpu_restante) :
    ((executar_quantum rnd s pid).1 = 2 ∧ SaidaBloq rnd s pid (executar_quantum rnd s pid).2) ∨
    ((executar_quantum rnd s pid).1 = 0 ∧ SaidaFim rnd s pid (executar_quantum rnd s pid).2) ∨
    ((executar_quantum rnd s pid).1 = 1 ∧
      SaidaPreempt rnd s pid (executar_quantum rnd s pid).2) := by
  have hv := (h.fora pid rfl).1
  have hin := valido_dentro s h.wf pid hv
  have h0 := Inv_setProc_fora s pid { getProc s pid with status := STATUS_EXEC } h
    (h.pidf pid hv)
  have hp0 : getProc (setProc s pid { getProc s pid with status := STATUS_EXEC }) pid
      = { getProc s pid with status := STATUS_EXEC } := getProc_setProc_eq _ _ _ hin
  have hP : InvQuantum rnd s pid QUANTUM
      (setProc s pid { getProc s pid with status := STATUS_EXEC }) := by
    refine ⟨le_refl _, h0, ?_, ?_, by simp, by simp, by simp, ?_, ?_, fun g => h0.nao_bloqueado g⟩
    · rw [hp0]; simp
    · simp only [Nat.sub_self, Nat.cast_zero]; omega
    · intro j hj
      simp at hj
    · intro i hi
      exact Ev_refl_of _ _ _ (getProc_setProc_ne _ _ _ _ hi) (fun g => by rw [conteudo_setProc])
  obtain ⟨hnone, hsome⟩ := quantum_loop_regra rnd pid (InvQuantum rnd s pid) (SaidaBloq rnd s pid)
    (fun k s1 hk hc1 => InvQuantum_passo rnd s pid k s1 hk hc1) QUANTUM _ hP
  unfold executar_quantum
  simp only []
  generalize hres : quantum_loop rnd QUANTUM
    (setProc s pid { getProc s pid with status := STATUS_EXEC }) pid = res at hnone hsome
  obtain ⟨o, s1⟩ := res
  cases o with
  | some r =>
    obtain ⟨hr, hQ⟩ := hsome r s1 rfl
    exact Or.inl ⟨hr, hQ⟩
  | none =>
    obtain ⟨k', hk', ⟨_, hI, hp, hle, ht, hN, hr, hneg, hev, _⟩, hfim⟩ := hnone s1 rfl
    simp only [QUANTUM] at hk' hp hle ht hr hneg
    have hcpu1 : (getProc s1 pid).cpu_restante
        = (getProc s pid).cpu_restante - ((3 - k' : Nat) : Int) := by rw [hp]
    have hin1 := valido_dentro s1 hI.wf pid hv
    by_cases hz : (getProc s1 pid).cpu_restante = 0
    · right; left
      dsimp only
      rw [if_pos hz]
      rw [hcpu1] at hz
      have hI' := Inv_setProc_fora s1 pid { getProc s1 pid with status := STATUS_FIM } hI
        (hI.pidf pid hv)
      refine ⟨rfl, ?_, ?_, hI', ?_, ?_, by simpa using hN, ?_, ?_,
        fun g => hI'.nao_bloqueado g⟩
      · show (getProc s pid).cpu_restante ≤ 3
        omega
      · rintro ⟨j, hj, hjc, hpe⟩
        simp only [QUANTUM] at hj
        rw [hneg j (by omega) hjc] at hpe
        cases hpe
      · rw [getProc_setProc_eq _ _ _ hin1, hp]
        simp only [PCB.mk.injEq, true_and, and_true]
        omega
      · simp only [tempo_setProc, ht]
        omega
      · simp only [rnd_pos_setProc, hr]
        have : min (3 - k') ((getProc s pid).cpu_restante - 1).toNat
            = ((getProc s pid).cpu_restante - 1).toNat := by
          apply min_eq_right; omega
        rw [this]
      · intro i hi
        refine Ev_trans s s1 _ i (hev i hi) ?_
        exact Ev_refl_of _ _ _ (getProc_setProc_ne _ _ _ _ hi)
          (fun g => by rw [conteudo_setProc])
    · right; right
      dsimp only
      rw [if_neg hz]
      have hk0 : k' = 0 := by
        rcases hfim with hk0 | hneg0
        · exact hk0
        · rw [hcpu1] at hneg0 hz
          omega
      subst hk0
      simp only [Nat.sub_zero, Nat.cast_ofNat] at hp hle ht hr hneg hcpu1
      rw [hcpu1] at hz
      have hI' := Inv_setProc_fora s1 pid { getProc s1 pid with status := STATUS_PRONTO } hI
        (hI.pidf pid hv)
      refine ⟨rfl, ?_, ?_, hI', ?_, ?_, by simpa using hN, ?_, ?_,
        fun g => hI'.nao_bloqueado g⟩
      · show (3 : Int) < (getProc s pid).cpu_restante
        omega
      · rintro ⟨j, hj, hjc, hpe⟩
        simp only [QUANTUM] at hj
        rw [hneg j hj hjc] at hpe
        cases hpe
      · rw [getProc_setProc_eq _ _ _ hin1, hp]
        rfl
      · simp only [tempo_setProc, ht]
      · simp only [rnd_pos_setProc, hr]
        have : min 3 ((getProc s pid).cpu_restante - 1).toNat = 3 := by
          apply min_eq_left; omega
        rw [this]
      · intro i hi
        refine Ev_trans s s1 _ i (hev i hi) ?_
        exact Ev_refl_of _ _ _ (getProc_setProc_ne _ _ _ _ hi)
          (fun g => by rw [conteudo_setProc])


/-! ## Lemmas: one iteration of the scheduler -/

/-- What `despachar` does with each outcome of `executar_quantum`. -/
theorem despachar_resumo (rnd : Nat → Nat) (s1 : State) (pid : Int) (f : Nat)
    (h1 : Inv s1 (some pid)) (hc : 0 < (getProc s1 pid).cpu_restante) :
    Inv (despachar rnd s1 pid f).1 none ∧ (despachar rnd s1 pid f).1.N = s1.N ∧
    (∀ i, i ≠ pid → Ev s1 (despachar rnd s1 pid f).1 i) ∧
    (((executar_quantum rnd s1 pid).1 = 2 ∧
        SaidaBloq rnd s1 pid (executar_quantum rnd s1 pid).2 ∧
        despachar rnd s1 pid f = ((executar_quantum rnd s1 pid).2, f)) ∨
     ((executar_quantum rnd s1 pid).1 = 0 ∧
        SaidaFim rnd s1 pid (executar_quantum rnd s1 pid).2 ∧
        despachar rnd s1 pid f = ((executar_quantum rnd s1 pid).2, f + 1)) ∨
     ((executar_quantum rnd s1 pid).1 = 1 ∧
        SaidaPreempt rnd s1 pid (executar_quantum rnd s1 pid).2 ∧
        (despachar rnd s1 pid f).2 = f ∧
        getProc (despachar rnd s1 pid f).1 pid =
          { getProc (executar_quantum rnd s1 pid).2 pid with
            prioridade := PRIORIDADE_BAIXA } ∧
        conteudo (despachar rnd s1 pid f).1 .baixa =
          conteudo (executar_quantum rnd s1 pid).2 .baixa ++ [pid] ∧
        (∀ g, g ≠ .baixa → getFila (despachar rnd s1 pid f).1 g
          = getFila (executar_quantum rnd s1 pid).2 g) ∧
        (despachar rnd s1 pid f).1.tempo = (executar_quantum rnd s1 pid).2.tempo ∧
        (despachar rnd s1 pid f).1.rnd_pos = (executar_quantum rnd s1 pid).2.rnd_pos ∧
        (∀ i, i ≠ pid → getProc (despachar rnd s1 pid f).1 i
          = getProc (executar_quantum rnd s1 pid).2 i))) := by
  have hv := (h1.fora pid rfl).1
  rcases executar_quantum_resumo rnd s1 pid h1 hc with ⟨hr, hQ⟩ | ⟨hr, hQ⟩ | ⟨hr, hQ⟩
  · have e : despachar rnd s1 pid f = ((executar_quantum rnd s1 pid).2, f) := by
      simp [despachar, hr]
    obtain ⟨m, _, _, _, _, hI, _, _, hN, _, hev, _⟩ := hQ
    rw [e]
    exact ⟨hI, hN, hev, Or.inl ⟨hr, ⟨m, by assumption, by assumption, by assumption,
      by assumption, hI, by assumption, by assumption, hN, by assumption, hev,
      by assumption⟩, rfl⟩⟩
  · have e : despachar rnd s1 pid f = ((executar_quantum rnd s1 pid).2, f + 1) := by
      simp [despachar, hr]
    have hQ' := hQ
    obtain ⟨_, _, hI, hp, _, hN, _, hev, _⟩ := hQ
    rw [e]
    refine ⟨Inv_fecha_fim _ pid hI (by rw [hp]), hN, hev, Or.inr (Or.inl ⟨hr, hQ', rfl⟩)⟩
  · have e : despachar rnd s1 pid f =
        (pushTo (setProc (executar_quantum rnd s1 pid).2 pid
          { getProc (executar_quantum rnd s1 pid).2 pid with
            prioridade := PRIORIDADE_BAIXA }) .baixa pid, f) := by
      simp [despachar, hr]
    have hQ' := hQ
    obtain ⟨hc3, _, hI, hp, _, hN, _, hev, _⟩ := hQ
    rw [e]
    generalize (executar_quantum rnd s1 pid).2 = s2 at *
    have hin := valido_dentro s2 hI.wf pid hv
    have hI2 := Inv_setProc_fora s2 pid
      { getProc s2 pid with prioridade := PRIORIDADE_BAIXA } hI (hI.pidf pid hv)
    have hp2 : getProc (setProc s2 pid { getProc s2 pid with prioridade := PRIORIDADE_BAIXA })
        pid = { getProc s2 pid with prioridade := PRIORIDADE_BAIXA } :=
      getProc_setProc_eq _ _ _ hin
    have hlen := hI2.comprimento_fora
    obtain ⟨_, pc, pg, _, pt, pn, pr⟩ := pushTo_ok _ .baixa pid hI2.wf (by omega)
    have hI3 := Inv_fecha_push _ pid .baixa hI2
      (Or.inl ⟨by rw [hp2, hp], by decide⟩)
      (by rw [hp2, hp]; simp only [QUANTUM] at hc3 ⊢; omega)
    refine ⟨hI3, by rw [pn]; simpa using hN, ?_, Or.inr (Or.inr ⟨hr, hQ', rfl, ?_, ?_, ?_, ?_,
      ?_, ?_⟩)⟩
    · intro i hi
      refine Ev_trans s1 s2 _ i (hev i hi) (Ev_refl_of _ _ _ ?_ ?_)
      · rw [getProc_pushTo, getProc_setProc_ne _ _ _ _ hi]
      · intro g
        by_cases hg : g = .baixa
        · subst hg
          rw [pc, conteudo_setProc]
          simp [hi]
        · rw [conteudo_congr _ _ _ (pg g hg), conteudo_setProc]
    · rw [getProc_pushTo, hp2]
    · rw [pc, conteudo_setProc]
    · intro g hg
      rw [pg g hg, getFila_setProc]
    · rw [pt, tempo_setProc]
    · rw [pr, rnd_pos_setProc]
    · intro i hi
      rw [getProc_pushTo, getProc_setProc_ne _ _ _ _ hi]

/-- An iteration that finds both ready queues empty is one idle tick. -/
theorem sched_iter_ocioso (rnd : Nat → Nat) (s : State) (f : Nat) (h : Inv s none)
    (hp : prontos s = []) :
    sched_iter rnd s f = (atualizar_ios s, f) ∧ Inv (atualizar_ios s) none ∧
      (atualizar_ios s).N = s.N ∧ (atualizar_ios s).tempo = s.tempo + 1 ∧
      (atualizar_ios s).rnd_pos = s.rnd_pos ∧
      (∀ i, Ev s (atualizar_ios s) i) ∧
      (∀ i, i ∈ bloqueados s →
        termo (getProc (atualizar_ios s) i) < termo (getProc s i)) := by
  have ha : conteudo s .alta = [] := by
    have := hp; unfold prontos at this
    exact (List.append_eq_nil.1 this).1
  have hb : conteudo s .baixa = [] := by
    have := hp; unfold prontos at this
    exact (List.append_eq_nil.1 this).2
  have hsel := (selecionar_spec s h.wf).2.2 ha hb
  have h1 : Inv { s with tempo := s.tempo + 1 } none :=
    Inv_congr s _ _ h rfl (fun g => by cases g <;> rfl) rfl
  obtain ⟨_, _, _, _, _, _, ht, hn, hr⟩ := tick_todos_resumo _ _ h1
  refine ⟨by simp [sched_iter, hsel], Inv_tick_todos _ _ h1, hn, ht, hr, ?_, ?_⟩
  · intro i
    refine Ev_trans s { s with tempo := s.tempo + 1 } _ i
      (Ev_refl_of _ _ _ rfl (fun g => by cases g <;> rfl)) (Ev_tick_todos _ _ h1 i)
  · intro i hi
    exact termo_tick_bloq { s with tempo := s.tempo + 1 } none h1 i hi

/-- An iteration that selects `pid` dispatches it from the state left by the pop. -/
theorem sched_iter_despacho (rnd : Nat → Nat) (s s1 : State) (pid : Int) (f : Nat)
    (h : Inv s none) (hsel : selecionar s = some (pid, s1)) :
    sched_iter rnd s f = despachar rnd s1 pid f ∧ Inv s1 (some pid) ∧
      getProc s1 pid = getProc s pid ∧ (getProc s pid).status = STATUS_PRONTO ∧
      0 < (getProc s pid).cpu_restante ∧ valido pid ∧ s1.tempo = s.tempo ∧
      s1.rnd_pos = s.rnd_pos ∧ s1.N = s.N ∧
      (∀ i, i ≠ pid → Ev s s1 i) := by
  obtain ⟨hI, hp, ht, hr, hst, hmem, _, _, hq⟩ := Inv_selecionar s s1 pid h hsel
  have hv : valido pid := h.faixa pid (List.mem_append_left _ hmem)
  refine ⟨by simp [sched_iter, hsel], hI, getProc_congr _ _ hp pid, hst, ?_, hv, ht, hr, ?_, ?_⟩
  · exact h.cpu pid hv (by simp) (by rw [hst]; decide)
  · rw [hI.hN, h.hN]
  · intro i hi
    exact Ev_refl_of _ _ _ (getProc_congr _ _ hp i) (fun g => hq g i hi)

/-- Either both ready queues are empty or a pid is selected. -/
theorem selecionar_casos (s : State) (h : Inv s none) :
    (prontos s = [] ∧ selecionar s = none) ∨ ∃ pid s1, selecionar s = some (pid, s1) := by
  obtain ⟨hA, hB, hN⟩ := selecionar_spec s h.wf
  cases hla : conteudo s .alta with
  | cons a t =>
    obtain ⟨s1, e, _⟩ := hA a t hla
    exact Or.inr ⟨a, s1, e⟩
  | nil =>
    cases hlb : conteudo s .baixa with
    | cons a t =>
      obtain ⟨s1, e, _⟩ := hB hla a t hlb
      exact Or.inr ⟨a, s1, e⟩
    | nil =>
      exact Or.inl ⟨by simp [prontos, hla, hlb], hN hla hlb⟩

/-- The scheduler invariant holds again after every iteration. -/
theorem Inv_sched_iter (rnd : Nat → Nat) (s : State) (f : Nat) (h : Inv s none) :
    Inv (sched_iter rnd s f).1 none ∧ (sched_iter rnd s f).1.N = s.N := by
  rcases selecionar_casos s h with ⟨hp, _⟩ | ⟨pid, s1, hsel⟩
  · obtain ⟨e, hI, hN, _⟩ := sched_iter_ocioso rnd s f h hp
    rw [e]
    exact ⟨hI, hN⟩
  · obtain ⟨e, hI, hp, _, hc, _, _, _, hN, _⟩ := sched_iter_despacho rnd s s1 pid f h hsel
    rw [e]
    obtain ⟨a, b, _⟩ := despachar_resumo rnd s1 pid f hI (by rw [hp]; exact hc)
    exact ⟨a, by rw [b, hN]⟩


theorem Ev_fim (s s' : State) (i : Int) (h : Ev s s' i) :
    ((getProc s' i).status = STATUS_FIM ↔ (getProc s i).status = STATUS_FIM) ∧
    ((getProc s i).status = STATUS_FIM → getProc s' i = getProc s i) := by
  obtain ⟨_, _, _, _, hx⟩ := h
  rcases hx with ⟨e, _⟩ | ⟨x1, x2, _⟩ | ⟨x1, _, x3, _⟩ | ⟨x1, _, x3, _⟩
  · exact ⟨by rw [e], fun _ => e⟩
  · rw [x1, x2]
    exact ⟨by decide, fun hx => absurd hx (by decide)⟩
  · rw [x1, x3]
    exact ⟨by decide, fun hx => absurd hx (by decide)⟩
  · rw [x1, x3]
    exact ⟨by decide, fun hx => absurd hx (by decide)⟩

/-- One iteration of the scheduler, process by process: either both ready queues
are empty and the iteration is an idle tick, or one process is dispatched and all
the others only see clock ticks. -/
theorem sched_iter_geral (rnd : Nat → Nat) (s : State) (f : Nat) (h : Inv s none) :
    Inv (sched_iter rnd s f).1 none ∧ (sched_iter rnd s f).1.N = s.N ∧
    ((prontos s = [] ∧ sched_iter rnd s f = (atualizar_ios s, f) ∧
        (∀ i, Ev s (sched_iter rnd s f).1 i) ∧
        (∀ i, i ∈ bloqueados s →
          termo (getProc (sched_iter rnd s f).1 i) < termo (getProc s i))) ∨
     (∃ pid s1, selecionar s = some (pid, s1) ∧ valido pid ∧
        Despachado s (sched_iter rnd s f).1 pid ∧
        (∀ i, i ≠ pid → Ev s (sched_iter rnd s f).1 i) ∧
        (((getProc (sched_iter rnd s f).1 pid).status = STATUS_FIM ∧
            (sched_iter rnd s f).2 = f + 1 ∧ (executar_quantum rnd s1 pid).1 = 0) ∨
         ((getProc (sched_iter rnd s f).1 pid).status = STATUS_BLOQ ∧
            (sched_iter rnd s f).2 = f ∧ (executar_quantum rnd s1 pid).1 = 2) ∨
         ((getProc (sched_iter rnd s f).1 pid).status = STATUS_PRONTO ∧
            (sched_iter rnd s f).2 = f ∧ (executar_quantum rnd s1 pid).1 = 1)))) := by
  refine ⟨(Inv_sched_iter rnd s f h).1, (Inv_sched_iter rnd s f h).2, ?_⟩
  rcases selecionar_casos s h with ⟨hp, _⟩ | ⟨pid, s1, hsel⟩
  · obtain ⟨e, _, _, _, _, hev, hlt⟩ := sched_iter_ocioso rnd s f h hp
    left
    rw [e]
    exact ⟨hp, rfl, hev, hlt⟩
  · right
    obtain ⟨e, hI, hp, hst, hc, hv, _, _, _, hev1⟩ := sched_iter_despacho rnd s s1 pid f h hsel
    obtain ⟨_, _, _, _, _, hmem, _⟩ := Inv_selecionar s s1 pid h hsel
    rw [e]
    obtain ⟨hI', _, hev2, hcase⟩ := despachar_resumo rnd s1 pid f hI (by rw [hp]; exact hc)
    refine ⟨pid, s1, hsel, hv, ?_, fun i hi => Ev_trans s s1 _ i (hev1 i hi) (hev2 i hi), ?_⟩
    · refine ⟨hst, hc, hmem, ?_⟩
      rcases hcase with ⟨_, hQ, ed⟩ | ⟨_, hQ, ed⟩ | ⟨_, hQ, _, hpp, hcb, _⟩
      · rw [ed]
        obtain ⟨m, hm, hmc, _, _, hIb, hpb, _, _, _, _, l, hl⟩ := hQ
        rw [hp] at hpb hmc
        have ht := tipo_sorteado (rnd (s1.rnd_pos + m + 1))
        obtain ⟨_, dD, dF, dI⟩ := duracao_io_limites rnd (s1.rnd_pos + m + 2) _ ht
        rw [hpb]
        refine ⟨rfl, rfl, rfl, by simp only; omega, by simp only; omega,
          Or.inr (Or.inl ⟨rfl, by simp only; omega, rfl, ?_, ?_, ?_⟩)⟩
        · simp only [DUR_DISCO_MIN, DUR_FITA_MIN, DUR_IMPR_MIN] at *
          rcases ht with e | e | e
          · exact (dD e).1
          · have := (dF e).1; omega
          · have := (dI e).1; omega
        · simp only [DUR_DISCO_MAX, DUR_FITA_MAX, DUR_IMPR_MAX] at *
          rcases ht with e | e | e
          · have := (dD e).2; omega
          · have := (dF e).2; omega
          · exact (dI e).2
        · have hx : pid ∈ conteudo (executar_quantum rnd s1 pid).2
              (fila_do_tipo (rnd_range (rnd (s1.rnd_pos + m + 1)) IO_DISCO IO_IMPRESSORA)) := by
            rw [hl]; simp
          rcases fila_do_tipo_dispositivo
              (rnd_range (rnd (s1.rnd_pos + m + 1)) IO_DISCO IO_IMPRESSORA) with e | e | e <;>
            rw [e] at hx <;> simp [bloqueados, hx]
      · rw [ed]
        obtain ⟨_, _, _, hpf, _, _, _, _, hout⟩ := hQ
        rw [hp] at hpf
        rw [hpf]
        exact ⟨rfl, rfl, rfl, le_refl _, hc, Or.inl ⟨rfl, rfl, rfl, rfl, rfl, hout⟩⟩
      · obtain ⟨hc3, _, _, hpq, _⟩ := hQ
        rw [hp] at hpq hc3
        rw [hpp, hpq]
        simp only [QUANTUM] at hc3
        refine ⟨rfl, rfl, rfl, by simp only [QUANTUM]; omega, by simp only [QUANTUM]; omega,
          Or.inr (Or.inr ⟨rfl, rfl, by simp only [QUANTUM]; omega, rfl, rfl, rfl, ?_⟩)⟩
        rw [hcb]; simp
    · rcases hcase with ⟨hr, hQ, ed⟩ | ⟨hr, hQ, ed⟩ | ⟨hr, hQ, e2, hpp, _⟩
      · rw [ed]
        obtain ⟨m, _, _, _, _, _, hpb, _⟩ := hQ
        exact Or.inr (Or.inl ⟨by rw [hpb], rfl, hr⟩)
      · rw [ed]
        obtain ⟨_, _, _, hpf, _⟩ := hQ
        exact Or.inl ⟨by rw [hpf], rfl, hr⟩
      · obtain ⟨_, _, _, hpq, _⟩ := hQ
        exact Or.inr (Or.inr ⟨by rw [hpp, hpq], e2, hr⟩)


/-! ## Lemmas: process creation -/

/-- The state after `i` iterations of the creation loop started with the random
cursor at `pos`. -/
theorem gerar_loop_spec (rnd : Nat → Nat) (pos : Nat) :
    ∀ (k : Nat) (s : State), k ≤ MAX_PROCESSOS → WF s →
      conteudo s .alta = (List.range (MAX_PROCESSOS - k)).map (fun (j : Nat) => (j : Int)) →
      (∀ j : Nat, j < MAX_PROCESSOS - k → getProc s (j : Int) = pcb_inicial rnd pos j) →
      s.rnd_pos = pos + (MAX_PROCESSOS - k) →
      WF (gerar_loop rnd k s) ∧
      conteudo (gerar_loop rnd k s) .alta
        = (List.range MAX_PROCESSOS).map (fun (j : Nat) => (j : Int)) ∧
      (∀ g, g ≠ .alta → getFila (gerar_loop rnd k s) g = getFila s g) ∧
      (∀ j : Nat, j < MAX_PROCESSOS →
        getProc (gerar_loop rnd k s) (j : Int) = pcb_inicial rnd pos j) ∧
      (gerar_loop rnd k s).rnd_pos = pos + MAX_PROCESSOS ∧
      (gerar_loop rnd k s).N = s.N ∧ (gerar_loop rnd k s).tempo = s.tempo := by
  intro k
  induction k with
  | zero =>
    intro s _ hw hc hp hr
    exact ⟨hw, hc, fun _ _ => rfl, hp, hr, rfl, rfl⟩
  | succ k ih =>
    intro s hk hw hc hp hr
    simp only [gerar_loop]
    obtain ⟨i, hi⟩ : ∃ i, i = MAX_PROCESSOS - (k + 1) := ⟨_, rfl⟩
    rw [← hi] at hc hp hr ⊢
    have hi8 : i < MAX_PROCESSOS := by simp only [MAX_PROCESSOS] at *; omega
    have hik : MAX_PROCESSOS - k = i + 1 := by simp only [MAX_PROCESSOS] at *; omega
    -- the body
    have hw1 : WF { s with rnd_pos := s.rnd_pos + 1 } :=
      WF_congr s _ rfl (fun g => by cases g <;> rfl) hw
    have hin := valido_dentro _ hw1 (i : Int) (valido_cast i hi8)
    have hw2 := WF_setProc { s with rnd_pos := s.rnd_pos + 1 } (i : Int)
      (pcb_inicial rnd pos i) hw1
    have hbody : gerar_corpo rnd s i =
        pushTo (setProc { s with rnd_pos := s.rnd_pos + 1 } (i : Int) (pcb_inicial rnd pos i))
          .alta (i : Int) := by
      simp only [gerar_corpo, pcb_inicial, hr]
    have hc2 : conteudo (setProc { s with rnd_pos := s.rnd_pos + 1 } (i : Int)
        (pcb_inicial rnd pos i)) .alta = conteudo s .alta := by
      rw [conteudo_setProc]; rfl
    obtain ⟨pw, pc, pg, _, pt, pn, pr⟩ := pushTo_ok _ .alta (i : Int) hw2
      (by rw [hc2, hc]; simpa using hi8)
    rw [hbody]
    obtain ⟨a, b, c, d, e, f1, f2⟩ := ih _ (by omega) pw
      (by rw [pc, hc2, hc, hik, List.range_succ]; simp)
      (by
        intro j hj
        rw [hik] at hj
        rw [getProc_pushTo]
        by_cases hji : j = i
        · subst hji
          exact getProc_setProc_eq _ _ _ hin
        · rw [getProc_setProc_ne _ _ _ _ (by omega)]
          exact hp j (by omega))
      (by rw [pr, hik]; simp only [rnd_pos_setProc]; omega)
    refine ⟨a, b, ?_, d, e, by rw [f1, pn]; simp, by rw [f2, pt]; simp⟩
    intro g hg
    rw [c g hg, pg g hg, getFila_setProc]
    cases g <;> rfl

/-- The state built by `gerar_processos`, whatever the arrays held before. -/
theorem gerar_processos_spec (rnd : Nat → Nat) (s0 : State) (h : Dimensionado s0) :
    WF (gerar_processos rnd s0) ∧ (gerar_processos rnd s0).N = MAX_PROCESSOS ∧
      conteudo (gerar_processos rnd s0) .alta = [0, 1, 2, 3, 4, 5, 6, 7] ∧
      (∀ g, g ≠ .alta → conteudo (gerar_processos rnd s0) g = []) ∧
      (∀ j : Nat, j < MAX_PROCESSOS →
        getProc (gerar_processos rnd s0) (j : Int) = pcb_inicial rnd s0.rnd_pos j) ∧
      (gerar_processos rnd s0).rnd_pos = s0.rnd_pos + MAX_PROCESSOS ∧
      (gerar_processos rnd s0).tempo = s0.tempo := by
  unfold gerar_processos
  simp only []
  generalize hs1 : ({ s0 with
      fila_alta := fila_init s0.fila_alta
      fila_baixa := fila_init s0.fila_baixa
      fila_io_disco := fila_init s0.fila_io_disco
      fila_io_fita := fila_init s0.fila_io_fita
      fila_io_impr := fila_init s0.fila_io_impr
      N := MAX_PROCESSOS } : State) = s1
  have hg : ∀ g, getFila s1 g = fila_init (getFila s0 g) := by
    intro g; rw [← hs1]; cases g <;> rfl
  have hw : WF s1 := by
    refine ⟨by rw [← hs1]; exact h.1, fun g => ?_⟩
    rw [hg]
    exact (fila_init_ok _ (h.2 g)).1
  have hc : ∀ g, conteudo s1 g = [] := by
    intro g
    rw [conteudo, hg]
    exact (fila_init_ok _ (h.2 g)).2
  obtain ⟨a, b, c, d, e, f1, f2⟩ := gerar_loop_spec rnd s0.rnd_pos MAX_PROCESSOS s1 (le_refl _) hw
    (by rw [hc]; simp) (by intro j hj; simp at hj) (by rw [← hs1]; simp)
  refine ⟨a, by rw [f1, ← hs1], by rw [b]; rfl, ?_, d, e, by rw [f2, ← hs1]⟩
  intro g hg'
  rw [conteudo_congr _ _ _ (c g hg'), hc]


/-! ## Lemmas: the boundary invariant, the counter and termination -/

theorem valido_casos (i : Int) (h : valido i) :
    ∃ j : Nat, j < MAX_PROCESSOS ∧ i = (j : Int) :=
  ⟨i.toNat, (valido_toNat i h).1, (valido_toNat i h).2.symm⟩

/-- The state built by `gerar_processos` satisfies the boundary invariant with the
counter at 0. -/
theorem InvF_inicial (rnd : Nat → Nat) (s0 : State) (h : Dimensionado s0) :
    InvF (gerar_processos rnd s0) 0 := by
  obtain ⟨hw, hN, hA, hO, hP, _, _⟩ := gerar_processos_spec rnd s0 h
  generalize gerar_processos rnd s0 = s at *
  have hB : conteudo s .baixa = [] := hO _ (by decide)
  have hD : conteudo s .io_disco = [] := hO _ (by decide)
  have hF : conteudo s .io_fita = [] := hO _ (by decide)
  have hI : conteudo s .io_impr = [] := hO _ (by decide)
  have htodas : todas s = [0, 1, 2, 3, 4, 5, 6, 7] := by
    simp [todas, prontos, bloqueados, hA, hB, hD, hF, hI]
  have hpr : prontos s = [0, 1, 2, 3, 4, 5, 6, 7] := by simp [prontos, hA, hB]
  have hbl : bloqueados s = [] := by simp [bloqueados, hD, hF, hI]
  have hmem : ∀ i : Int, valido i ↔ i ∈ ([0, 1, 2, 3, 4, 5, 6, 7] : List Int) := by
    intro i
    unfold valido
    simp only [MAX_PROCESSOS, List.mem_cons, List.mem_singleton, List.not_mem_nil, or_false]
    omega
  have hpcb : ∀ i, valido i → ∃ j : Nat, j < MAX_PROCESSOS ∧ i = (j : Int) ∧
      getProc s i = pcb_inicial rnd s0.rnd_pos j := by
    intro i hv
    obtain ⟨j, hj, rfl⟩ := valido_casos i hv
    exact ⟨j, hj, rfl, hP j hj⟩
  have hstat : ∀ i, valido i → (getProc s i).status = STATUS_PRONTO := by
    intro i hv
    obtain ⟨j, _, _, e⟩ := hpcb i hv
    rw [e]; rfl
  have hcpu : ∀ i, valido i → 0 < (getProc s i).cpu_restante := by
    intro i hv
    obtain ⟨j, _, _, e⟩ := hpcb i hv
    rw [e]
    have := (rnd_range_limites (rnd (s0.rnd_pos + j)) CPU_MIN CPU_MAX (by decide) (by decide) (by decide) (by decide)).1
    simp only [pcb_inicial, CPU_MIN] at this ⊢
    omega
  refine ⟨?_, ?_, ?_⟩
  · exact
      { wf := hw
        hN := hN
        nodup := by rw [htodas]; decide
        faixa := fun i hi => by rw [htodas] at hi; exact (hmem i).2 hi
        pidf := fun i hv => by
          obtain ⟨j, _, e1, e⟩ := hpcb i hv
          rw [e, e1]; rfl
        pronto := fun i hv _ => by
          rw [hpr]
          exact ⟨fun _ => (hmem i).1 hv, fun _ => hstat i hv⟩
        bloq := fun i hv _ => by
          rw [hbl, hstat i hv]
          simp
        estados := fun i hv _ => Or.inl (hstat i hv)
        fora := fun r hr => by cases hr
        cpu := fun i hv _ _ => hcpu i hv
        io := fun i hv _ hb => by
          rw [hstat i hv] at hb
          exact absurd hb (by decide) }
  · unfold num_fim
    symm
    rw [List.countP_eq_zero]
    intro j hj
    rw [List.mem_range, hN] at hj
    rw [hstat _ (valido_cast j hj)]
    decide
  · intro i hv hf
    rw [hstat i hv] at hf
    exact absurd hf (by decide)

/-- The counter moves exactly as the number of FINISHED processes does. -/
theorem contador_sched_iter (rnd : Nat → Nat) (s : State) (f : Nat) (hI : Inv s none) :
    (sched_iter rnd s f).2 + num_fim s = f + num_fim (sched_iter rnd s f).1 := by
  obtain ⟨hI', hN, hcase⟩ := sched_iter_geral rnd s f hI
  rcases hcase with ⟨_, e, hev, _⟩ | ⟨pid, s1, _, hv, hd, hev, hout⟩
  · have e2 : (sched_iter rnd s f).2 = f := by rw [e]
    rw [e2, num_fim_igual s _ hN hI.hN (fun i _ => (Ev_fim s _ i (hev i)).1)]
  · have hst := hd.1
    rcases hout with ⟨h1, h2, _⟩ | ⟨h1, h2, _⟩ | ⟨h1, h2, _⟩
    · rw [h2, num_fim_mais_um s _ hN hI.hN pid hv (by rw [hst]; decide) h1
        (fun i _ hi => (Ev_fim s _ i (hev i hi)).1)]
      omega
    · have : num_fim (sched_iter rnd s f).1 = num_fim s := by
        refine num_fim_igual s _ hN hI.hN (fun i _ => ?_)
        by_cases hi : i = pid
        · subst hi
          rw [h1, hst]
          decide
        · exact (Ev_fim s _ i (hev i hi)).1
      rw [h2, this]
    · have : num_fim (sched_iter rnd s f).1 = num_fim s := by
        refine num_fim_igual s _ hN hI.hN (fun i _ => ?_)
        by_cases hi : i = pid
        · subst hi
          rw [h1, hst]
        · exact (Ev_fim s _ i (hev i hi)).1
      rw [h2, this]

/-- The boundary invariant is kept by every iteration. -/
theorem InvF_sched_iter (rnd : Nat → Nat) (s : State) (f : Nat) (h : InvF s f) :
    InvF (sched_iter rnd s f).1 (sched_iter rnd s f).2 := by
  obtain ⟨hI, hf, hz⟩ := h
  obtain ⟨hI', hN, hcase⟩ := sched_iter_geral rnd s f hI
  refine ⟨hI', ?_, ?_⟩
  · have := contador_sched_iter rnd s f hI
    omega
  · intro i hv hfim
    have viaEv : Ev s (sched_iter rnd s f).1 i → (getProc (sched_iter rnd s f).1 i).cpu_restante = 0 := by
      intro hev
      have h1 := (Ev_fim s _ i hev).1.1 hfim
      rw [(Ev_fim s _ i hev).2 h1]
      exact hz i hv h1
    rcases hcase with ⟨_, _, hev, _⟩ | ⟨pid, s1, _, _, hd, hev, _⟩
    · exact viaEv (hev i)
    · by_cases hi : i = pid
      · subst hi
        obtain ⟨_, _, _, _, _, _, _, _, hx⟩ := hd
        rcases hx with ⟨_, h0, _⟩ | ⟨hb, _⟩ | ⟨hb, _⟩
        · exact h0
        · rw [hb] at hfim; exact absurd hfim (by decide)
        · rw [hb] at hfim; exact absurd hfim (by decide)
      · exact viaEv (hev i hi)

/-- Every iteration that runs (counter below `N`) lowers the termination measure. -/
theorem medida_sched_iter (rnd : Nat → Nat) (s : State) (f : Nat) (h : Inv s none)
    (hf : f = num_fim s) (hlt : f < s.N) :
    medida (sched_iter rnd s f).1 < medida s := by
  obtain ⟨_, _, hcase⟩ := sched_iter_geral rnd s f h
  rcases hcase with ⟨hp, _, hev, hbl⟩ | ⟨pid, s1, _, hv, hd, hev, _⟩
  · obtain ⟨i, hvi, hnf⟩ := existe_nao_fim s h.hN (by rw [← hf]; exact hlt)
    have hib : i ∈ bloqueados s := by
      rcases h.estados i hvi (by simp) with h1 | h1 | h1
      · have := (h.pronto i hvi (by simp)).1 h1
        rw [hp] at this
        cases this
      · exact (h.bloq i hvi (by simp)).1 h1
      · exact absurd h1 hnf
    exact medida_lt s _ (fun j _ => termo_Ev s _ j (hev j)) i hvi (hbl i hib)
  · refine medida_lt s _ (fun j _ => ?_) pid hv ?_
    · by_cases hj : j = pid
      · subst hj
        obtain ⟨hst, hc, _, _, _, _, h0, hlt', hx⟩ := hd
        simp only [termo, custo_cpu, custo_io, hst]
        rcases hx with ⟨h1, h2, _⟩ | ⟨h1, h2, _, _, h5, _⟩ | ⟨h1, _, h3, _⟩
        · simp [h1]
        · simp only [h1, DUR_IMPR_MAX] at h5 ⊢
          simp only [STATUS_BLOQ, STATUS_FIM, STATUS_PRONTO]
          norm_num
          omega
        · simp only [h1]
          simp only [STATUS_BLOQ, STATUS_FIM, STATUS_PRONTO]
          norm_num
          omega
      · exact termo_Ev s _ j (hev j hj)
    · obtain ⟨hst, hc, _, _, _, _, h0, hlt', hx⟩ := hd
      simp only [termo, custo_cpu, custo_io, hst]
      rcases hx with ⟨h1, h2, _⟩ | ⟨h1, h2, _, _, h5, _⟩ | ⟨h1, _, h3, _⟩
      · simp only [h1, h2]
        simp only [STATUS_BLOQ, STATUS_FIM, STATUS_PRONTO]
        norm_num
        omega
      · simp only [h1, DUR_IMPR_MAX] at h5 ⊢
        simp only [STATUS_BLOQ, STATUS_FIM, STATUS_PRONTO]
        norm_num
        omega
      · simp only [h1]
        simp only [STATUS_BLOQ, STATUS_FIM, STATUS_PRONTO]
        norm_num
        omega

/-- From every state that satisfies the scheduler invariant, with the counter equal
to the number of FINISHED processes, the scheduler loop halts. -/
theorem escalonador_loop_termina (rnd : Nat → Nat) :
    ∀ (n : Nat) (s : State) (f : Nat), medida s ≤ n → Inv s none → f = num_fim s →
      ∃ r, escalonador_loop rnd n s f = some r := by
  intro n
  induction n with
  | zero =>
    intro s f hm h hf
    by_cases hlt : f < s.N
    · have := medida_sched_iter rnd s f h hf hlt
      omega
    · exact ⟨(s, f), by simp [escalonador_loop, hlt]⟩
  | succ n ih =>
    intro s f hm h hf
    by_cases hlt : f < s.N
    · have hdec := medida_sched_iter rnd s f h hf hlt
      obtain ⟨hI', hN, _⟩ := sched_iter_geral rnd s f h
      have hf' : (sched_iter rnd s f).2 = num_fim (sched_iter rnd s f).1 := by
        have := contador_sched_iter rnd s f h
        omega
      obtain ⟨r, hr⟩ := ih _ _ (by omega) hI' hf'
      exact ⟨r, by simp [escalonador_loop, hlt, hr]⟩
    · exact ⟨(s, f), by simp [escalonador_loop, hlt]⟩


/-! ## Lemmas: iteration boundaries -/

theorem fronteira_InvF (rnd : Nat → Nat) (s0 : State) (f0 : Nat) (h0 : InvF s0 f0) :
    ∀ (n : Nat) (s : State) (f : Nat), fronteira rnd n s0 f0 = some (s, f) → InvF s f := by
  intro n
  induction n with
  | zero =>
    intro s f h
    simp only [fronteira, Option.some.injEq, Prod.mk.injEq] at h
    obtain ⟨rfl, rfl⟩ := h
    exact h0
  | succ n ih =>
    intro s f h
    simp only [fronteira] at h
    cases hprev : fronteira rnd n s0 f0 with
    | none => rw [hprev] at h; cases h
    | some p =>
      obtain ⟨s1, f1⟩ := p
      rw [hprev] at h
      simp only at h
      by_cases hlt : f1 < s1.N
      · rw [if_pos hlt] at h
        have e := Option.some.inj h
        have h3 := InvF_sched_iter rnd s1 f1 (ih s1 f1 hprev)
        rw [e] at h3
        exact h3
      · rw [if_neg hlt] at h
        cases h

/-- Unfolding the boundaries from the first iteration. -/
theorem fronteira_succ (rnd : Nat → Nat) :
    ∀ (n : Nat) (s : State) (f : Nat),
      fronteira rnd (n + 1) s f =
        if f < s.N then fronteira rnd n (sched_iter rnd s f).1 (sched_iter rnd s f).2
        else none := by
  intro n
  induction n with
  | zero =>
    intro s f
    simp [fronteira]
  | succ n ih =>
    intro s f
    rw [fronteira, ih]
    by_cases hlt : f < s.N
    · simp only [hlt, if_true]
      rfl
    · simp only [hlt, if_false]

/-- When the loop halts, it halts at an iteration boundary at which the loop
condition is false. -/
theorem escalonador_loop_fronteira (rnd : Nat → Nat) :
    ∀ (fuel : Nat) (s : State) (f : Nat) (s' : State) (f' : Nat),
      escalonador_loop rnd fuel s f = some (s', f') →
      ∃ n, n ≤ fuel ∧ fronteira rnd n s f = some (s', f') ∧ ¬ f' < s'.N := by
  intro fuel
  induction fuel with
  | zero =>
    intro s f s' f' h
    simp only [escalonador_loop] at h
    by_cases hlt : f < s.N
    · rw [if_pos hlt] at h; cases h
    · rw [if_neg hlt] at h
      cases h
      exact ⟨0, le_refl _, rfl, hlt⟩
  | succ fuel ih =>
    intro s f s' f' h
    simp only [escalonador_loop] at h
    by_cases hlt : f < s.N
    · rw [if_pos hlt] at h
      obtain ⟨n, hn, hfr, hex⟩ := ih _ _ _ _ h
      refine ⟨n + 1, by omega, ?_, hex⟩
      rw [fronteira_succ, if_pos hlt]
      exact hfr
    · rw [if_neg hlt] at h
      cases h
      exact ⟨0, by omega, rfl, hlt⟩

/-- The loop invariant of `executar_quantum` seen from any number of iterations:
the dispatched process stays RUNNING and out of the queues. -/
theorem quantum_loop_exec (rnd : Nat → Nat) (pid : Int) :
    ∀ (k : Nat) (s s' : State), Inv s (some pid) → (getProc s pid).status = STATUS_EXEC →
      quantum_loop rnd k s pid = (none, s') →
      Inv s' (some pid) ∧ (getProc s' pid).status = STATUS_EXEC := by
  intro k s s' hI hst hq
  have := quantum_loop_regra rnd pid
    (fun _ s1 => Inv s1 (some pid) ∧ (getProc s1 pid).status = STATUS_EXEC) (fun _ => True)
    (by
      intro k s1 ⟨h1, h2⟩ _
      obtain ⟨qI, qp, _⟩ := quantum_tick_resumo s1 pid h1
      refine ⟨fun _ _ => trivial, fun _ _ => ⟨?_, ?_⟩, fun _ => ⟨qI, by rw [qp]; exact h2⟩⟩
      · exact Inv_congr _ _ _ qI rfl (fun g => by cases g <;> rfl) rfl
      · show (getProc (quantum_tick s1 pid) pid).status = _
        rw [qp]; exact h2)
    k s ⟨hI, hst⟩
  obtain ⟨_, _, hP, _⟩ := this.1 s' hq
  exact hP


/-! ## Lemmas: a state from which the loop never halts -/

theorem InvFilas_iff (s : State) :
    InvFilas s ↔ InvFilasSemPid s ∧ ∀ i, valido i → (getProc s i).pid = i := by
  unfold InvFilas InvFilasSemPid
  constructor
  · rintro ⟨a, b, c, d, e, f, g, h, i⟩
    exact ⟨⟨a, b, c, d, f, g, h, i⟩, e⟩
  · rintro ⟨⟨a, b, c, d, f, g, h, i⟩, e⟩
    exact ⟨a, b, c, d, e, f, g, h, i⟩

theorem valido_of_lt (s : State) (hN : s.N = MAX_PROCESSOS) (i : Int) (h0 : 0 ≤ i)
    (h1 : i < (s.N : Int)) : valido i := by
  rw [hN] at h1
  exact ⟨h0, h1⟩

/-- C1. Queue-membership invariant. At every iteration boundary of
`escalonador_rr_feedback` reached from `gerar_processos` (any random stream, any
previous content of the arrays): a READY process occurs exactly once in the two
ready queues and in no device queue; a BLOCKED process occurs exactly once in the
three device queues and in no ready queue; a FINISHED process occurs in no queue;
no process is RUNNING. Inside `executar_quantum`, at the head of the `while` loop
after any number `k` of iterations, the dispatched process is RUNNING, no other
process is, and the dispatched process is in no queue. -/
theorem C1_invariante_filas (rnd : Nat → Nat) (s0 : State) (hd : Dimensionado s0)
    (n : Nat) (s : State) (f : Nat)
    (hfr : fronteira rnd n (gerar_processos rnd s0) 0 = some (s, f)) :
    (∀ i : Int, 0 ≤ i → i < (s.N : Int) →
      ((getProc s i).status = STATUS_PRONTO →
        (prontos s).count i = 1 ∧ (bloqueados s).count i = 0) ∧
      ((getProc s i).status = STATUS_BLOQ →
        (bloqueados s).count i = 1 ∧ (prontos s).count i = 0) ∧
      ((getProc s i).status = STATUS_FIM → (todas s).count i = 0) ∧
      (getProc s i).status ≠ STATUS_EXEC) ∧
    (∀ pid s1, selecionar s = some (pid, s1) → ∀ k s2,
      quantum_loop rnd k (setProc s1 pid { getProc s1 pid with status := STATUS_EXEC }) pid
        = (none, s2) →
      (getProc s2 pid).status = STATUS_EXEC ∧
      (∀ i : Int, 0 ≤ i → i < (s2.N : Int) → i ≠ pid → (getProc s2 i).status ≠ STATUS_EXEC) ∧
      (todas s2).count pid = 0) := by
  obtain ⟨hI, _, _⟩ := fronteira_InvF rnd _ 0 (InvF_inicial rnd s0 hd) n s f hfr
  have hcount : ∀ i, (prontos s).count i + (bloqueados s).count i ≤ 1 := by
    intro i
    have := List.nodup_iff_count_le_one.1 hI.nodup i
    simpa [todas, List.count_append] using this
  constructor
  · intro i h0 h1
    have hv := valido_of_lt s hI.hN i h0 h1
    have hc := hcount i
    refine ⟨fun hs => ?_, fun hs => ?_, fun hs => ?_, fun hs => ?_⟩
    · have hm := (hI.pronto i hv (by simp)).1 hs
      have := List.count_pos_iff.2 hm
      omega
    · have hm := (hI.bloq i hv (by simp)).1 hs
      have := List.count_pos_iff.2 hm
      omega
    · rw [List.count_eq_zero]
      intro hm
      rcases List.mem_append.1 hm with hm | hm
      · have := (hI.pronto i hv (by simp)).2 hm
        rw [hs] at this
        exact absurd this (by decide)
      · have := (hI.bloq i hv (by simp)).2 hm
        rw [hs] at this
        exact absurd this (by decide)
    · rcases hI.estados i hv (by simp) with h | h | h <;> rw [hs] at h <;>
        exact absurd h (by decide)
  · intro pid s1 hsel k s2 hq
    obtain ⟨hI1, _⟩ := Inv_selecionar s s1 pid hI hsel
    have hv := (hI1.fora pid rfl).1
    have hin := valido_dentro s1 hI1.wf pid hv
    have hI0 := Inv_setProc_fora s1 pid { getProc s1 pid with status := STATUS_EXEC } hI1
      (hI1.pidf pid hv)
    obtain ⟨hI2, hst⟩ := quantum_loop_exec rnd pid k _ s2 hI0
      (by rw [getProc_setProc_eq _ _ _ hin]) hq
    refine ⟨hst, ?_, ?_⟩
    · intro i h0 h1 hne hs
      have hvi := valido_of_lt s2 hI2.hN i h0 h1
      rcases hI2.estados i hvi (fun hx => hne (Option.some.inj hx)) with h | h | h <;>
        rw [hs] at h <;> exact absurd h (by decide)
    · rw [List.count_eq_zero]
      exact (hI2.fora pid rfl).2

/-- C1, instance: the state built from the zero store, before the first iteration. -/
theorem C1_invariante_filas_witness :
    Dimensionado estado_zero ∧
    fronteira (fun _ => 0) 0 (gerar_processos (fun _ => 0) estado_zero) 0
      = some (gerar_processos (fun _ => 0) estado_zero, 0) ∧
    ((∀ i : Int, 0 ≤ i → i < ((gerar_processos (fun _ => 0) estado_zero).N : Int) →
      ((getProc (gerar_processos (fun _ => 0) estado_zero) i).status = STATUS_PRONTO →
        (prontos (gerar_processos (fun _ => 0) estado_zero)).count i = 1 ∧
        (bloqueados (gerar_processos (fun _ => 0) estado_zero)).count i = 0) ∧
      ((getProc (gerar_processos (fun _ => 0) estado_zero) i).status = STATUS_BLOQ →
        (bloqueados (gerar_processos (fun _ => 0) estado_zero)).count i = 1 ∧
        (prontos (gerar_processos (fun _ => 0) estado_zero)).count i = 0) ∧
      ((getProc (gerar_processos (fun _ => 0) estado_zero) i).status = STATUS_FIM →
        (todas (gerar_processos (fun _ => 0) estado_zero)).count i = 0) ∧
      (getProc (gerar_processos (fun _ => 0) estado_zero) i).status ≠ STATUS_EXEC) ∧
    (∀ pid s1, selecionar (gerar_processos (fun _ => 0) estado_zero) = some (pid, s1) →
      ∀ k s2,
      quantum_loop (fun _ => 0) k
        (setProc s1 pid { getProc s1 pid with status := STATUS_EXEC }) pid = (none, s2) →
      (getProc s2 pid).status = STATUS_EXEC ∧
      (∀ i : Int, 0 ≤ i → i < (s2.N : Int) → i ≠ pid → (getProc s2 i).status ≠ STATUS_EXEC) ∧
      (todas s2).count pid = 0)) :=
  ⟨by decide, rfl,
    C1_invariante_filas (fun _ => 0) estado_zero (by decide) 0 _ 0 rfl⟩

/-- C3. Finished counter and halt state. At every iteration boundary reached from
`gerar_processos` the counter equals the number of FINISHED processes and is at
most `N`; and when the loop has exited, the counter is exactly `N`, every process
is FINISHED with `cpu_restante = 0`, and the five queues are empty. -/
theorem C3_contador (rnd : Nat → Nat) (s0 : State) (hd : Dimensionado s0) :
    (∀ n s f, fronteira rnd n (gerar_processos rnd s0) 0 = some (s, f) →
      f = num_fim s ∧ f ≤ s.N) ∧
    (∀ fuel s f, escalonador_rr_feedback rnd fuel (gerar_processos rnd s0) = some (s, f) →
      f = s.N ∧
      (∀ i : Int, 0 ≤ i → i < (s.N : Int) →
        (getProc s i).status = STATUS_FIM ∧ (getProc s i).cpu_restante = 0) ∧
      (∀ g, fila_vazia (getFila s g) = true ∧ conteudo s g = [])) := by
  constructor
  · intro n s f hfr
    obtain ⟨_, hf, _⟩ := fronteira_InvF rnd _ 0 (InvF_inicial rnd s0 hd) n s f hfr
    exact ⟨hf, by rw [hf]; exact num_fim_le s⟩
  · intro fuel s f hr
    obtain ⟨n, _, hfr, hex⟩ := escalonador_loop_fronteira rnd fuel _ 0 s f hr
    obtain ⟨hI, hf, hz⟩ := fronteira_InvF rnd _ 0 (InvF_inicial rnd s0 hd) n s f hfr
    have hle := num_fim_le s
    have hall : ∀ i, valido i → (getProc s i).status = STATUS_FIM :=
      fun i hv => todos_fim s hI.hN (by omega) i hv
    have hvazio : ∀ g, conteudo s g = [] := by
      intro g
      rw [List.eq_nil_iff_forall_not_mem]
      intro i hi
      obtain ⟨hv, _⟩ := hI.mem_valido i g hi
      have hs := hall i hv
      have hm : i ∈ todas s := by
        cases g <;> simp [todas, prontos, bloqueados, hi]
      rcases List.mem_append.1 hm with hm | hm
      · have := (hI.pronto i hv (by simp)).2 hm
        rw [hs] at this
        exact absurd this (by decide)
      · have := (hI.bloq i hv (by simp)).2 hm
        rw [hs] at this
        exact absurd this (by decide)
    refine ⟨by omega, ?_, ?_⟩
    · intro i h0 h1
      have hv := valido_of_lt s hI.hN i h0 h1
      exact ⟨hall i hv, hz i hv (hall i hv)⟩
    · intro g
      refine ⟨?_, hvazio g⟩
      have := (getFila s g).length_toList
      have e : (getFila s g).toList = [] := hvazio g
      rw [e] at this
      simp only [List.length_nil] at this
      simp [fila_vazia, ← this]


/-- C3, instance: the run from the zero store with the stream that requests I/O at
every opportunity. -/
theorem C3_contador_witness :
    Dimensionado estado_zero ∧
    ∃ s f, escalonador_rr_feedback (fun _ => 0)
        (medida (gerar_processos (fun _ => 0) estado_zero))
        (gerar_processos (fun _ => 0) estado_zero) = some (s, f) ∧
      f = s.N ∧
      (∀ i : Int, 0 ≤ i → i < (s.N : Int) →
        (getProc s i).status = STATUS_FIM ∧ (getProc s i).cpu_restante = 0) ∧
      (∀ g, fila_vazia (getFila s g) = true ∧ conteudo s g = []) := by
  refine ⟨by decide, ?_⟩
  obtain ⟨r, hr⟩ := escalonador_loop_termina (fun _ => 0) _
    (gerar_processos (fun _ => 0) estado_zero) 0 (le_refl _)
    (InvF_inicial (fun _ => 0) estado_zero (by decide)).1
    (InvF_inicial (fun _ => 0) estado_zero (by decide)).2.1
  exact ⟨r.1, r.2, hr, (C3_contador (fun _ => 0) estado_zero (by decide)).2 _ r.1 r.2 hr⟩

/-- The first dispatch of the run from the zero store satisfies the precondition of
`executar_quantum`. -/
theorem Inv_estado_despacho (rnd : Nat → Nat)
    (hsel : selecionar (gerar_processos rnd estado_zero) = some (0, estado_despacho rnd)) :
    Inv (estado_despacho rnd) (some 0) ∧ 0 < (getProc (estado_despacho rnd) 0).cpu_restante := by
  have hd : Dimensionado estado_zero := by decide
  obtain ⟨hI, _, _⟩ := InvF_inicial rnd estado_zero hd
  obtain ⟨_, hI1, hp, _, hc, _⟩ := sched_iter_despacho rnd _ _ 0 0 hI hsel
  exact ⟨hI1, by rw [hp]; exact hc⟩

/-- C4. `executar_quantum`, DONE and PREEMPTED outcomes. For a process `pid` that
the scheduler has taken out of the ready queues (`Inv s (some pid)`) with
`cpu_restante = c > 0`: if the call returns 0 then `cpu_restante = 0`, the status
is FINISHED and the process is in no queue; if it returns 1 then exactly `QUANTUM`
ticks went by, `cpu_restante = c - QUANTUM > 0`, the status is READY and the process
is in no queue. The call returns 0 or 1 exactly when no I/O request is triggered
during the quantum, and then it returns 0 iff `c <= QUANTUM`. -/
theorem C4_done_preempt (rnd : Nat → Nat) (s : State) (pid : Int) (h : Inv s (some pid))
    (hc : 0 < (getProc s pid).cpu_restante) :
    ((executar_quantum rnd s pid).1 = 0 →
      (getProc (executar_quantum rnd s pid).2 pid).cpu_restante = 0 ∧
      (getProc (executar_quantum rnd s pid).2 pid).status = STATUS_FIM ∧
      ∀ g, pid ∉ conteudo (executar_quantum rnd s pid).2 g) ∧
    ((executar_quantum rnd s pid).1 = 1 →
      (executar_quantum rnd s pid).2.tempo = s.tempo + QUANTUM ∧
      (getProc (executar_quantum rnd s pid).2 pid).cpu_restante
        = (getProc s pid).cpu_restante - QUANTUM ∧
      0 < (getProc (executar_quantum rnd s pid).2 pid).cpu_restante ∧
      (getProc (executar_quantum rnd s pid).2 pid).status = STATUS_PRONTO ∧
      ∀ g, pid ∉ conteudo (executar_quantum rnd s pid).2 g) ∧
    (((executar_quantum rnd s pid).1 = 0 ∨ (executar_quantum rnd s pid).1 = 1) ↔
      ¬ gatilho rnd s.rnd_pos (getProc s pid).cpu_restante) ∧
    (¬ gatilho rnd s.rnd_pos (getProc s pid).cpu_restante →
      ((executar_quantum rnd s pid).1 = 0 ↔ (getProc s pid).cpu_restante ≤ QUANTUM)) := by
  rcases executar_quantum_resumo rnd s pid h hc with ⟨hr, hQ⟩ | ⟨hr, hQ⟩ | ⟨hr, hQ⟩
  · obtain ⟨m, hm, hmc, _, hpe, _⟩ := hQ
    have hg : gatilho rnd s.rnd_pos (getProc s pid).cpu_restante := ⟨m, hm, hmc, hpe⟩
    rw [hr]
    refine ⟨fun h0 => absurd h0 (by decide), fun h0 => absurd h0 (by decide), ?_,
      fun hn => absurd hg hn⟩
    constructor
    · rintro (h0 | h0) <;> exact absurd h0 (by decide)
    · intro hn; exact absurd hg hn
  · obtain ⟨hle, hng, _, hp, _, _, _, _, hout⟩ := hQ
    rw [hr]
    refine ⟨fun _ => ⟨by rw [hp], by rw [hp], hout⟩, fun h0 => absurd h0 (by decide),
      ⟨fun _ => hng, fun _ => Or.inl rfl⟩, fun _ => ⟨fun _ => hle, fun _ => rfl⟩⟩
  · obtain ⟨hlt, hng, _, hp, ht, _, _, _, hout⟩ := hQ
    rw [hr]
    refine ⟨fun h0 => absurd h0 (by decide),
      fun _ => ⟨ht, by rw [hp], by rw [hp]; simp only; omega, by rw [hp], hout⟩,
      ⟨fun _ => hng, fun _ => Or.inr rfl⟩,
      fun _ => ⟨fun h0 => absurd h0 (by decide), fun hle => ?_⟩⟩
    omega

/-- C4, instance: the first dispatch of the run from the zero store, with a random
stream that never triggers an I/O request. -/
theorem C4_done_preempt_witness :
    Inv (estado_despacho (fun _ => 99)) (some 0) ∧
    0 < (getProc (estado_despacho (fun _ => 99)) 0).cpu_restante ∧
    (((executar_quantum (fun _ => 99) (estado_despacho (fun _ => 99)) 0).1 = 0 →
      (getProc (executar_quantum (fun _ => 99) (estado_despacho (fun _ => 99)) 0).2
        0).cpu_restante = 0 ∧
      (getProc (executar_quantum (fun _ => 99) (estado_despacho (fun _ => 99)) 0).2
        0).status = STATUS_FIM ∧
      ∀ g, (0 : Int) ∉
        conteudo (executar_quantum (fun _ => 99) (estado_despacho (fun _ => 99)) 0).2 g) ∧
    ((executar_quantum (fun _ => 99) (estado_despacho (fun _ => 99)) 0).1 = 1 →
      (executar_quantum (fun _ => 99) (estado_despacho (fun _ => 99)) 0).2.tempo
        = (estado_despacho (fun _ => 99)).tempo + QUANTUM ∧
      (getProc (executar_quantum (fun _ => 99) (estado_despacho (fun _ => 99)) 0).2
        0).cpu_restante = (getProc (estado_despacho (fun _ => 99)) 0).cpu_restante - QUANTUM ∧
      0 < (getProc (executar_quantum (fun _ => 99) (estado_despacho (fun _ => 99)) 0).2
        0).cpu_restante ∧
      (getProc (executar_quantum (fun _ => 99) (estado_despacho (fun _ => 99)) 0).2
        0).status = STATUS_PRONTO ∧
      ∀ g, (0 : Int) ∉
        conteudo (executar_quantum (fun _ => 99) (estado_despacho (fun _ => 99)) 0).2 g) ∧
    (((executar_quantum (fun _ => 99) (estado_despacho (fun _ => 99)) 0).1 = 0 ∨
        (executar_quantum (fun _ => 99) (estado_despacho (fun _ => 99)) 0).1 = 1) ↔
      ¬ gatilho (fun _ => 99) (estado_despacho (fun _ => 99)).rnd_pos
        (getProc (estado_despacho (fun _ => 99)) 0).cpu_restante) ∧
    (¬ gatilho (fun _ => 99) (estado_despacho (fun _ => 99)).rnd_pos
        (getProc (estado_despacho (fun _ => 99)) 0).cpu_restante →
      ((executar_quantum (fun _ => 99) (estado_despacho (fun _ => 99)) 0).1 = 0 ↔
        (getProc (estado_despacho (fun _ => 99)) 0).cpu_restante ≤ QUANTUM))) :=
  ⟨(Inv_estado_despacho (fun _ => 99) (by decide)).1,
    (Inv_estado_despacho (fun _ => 99) (by decide)).2,
    C4_done_preempt (fun _ => 99) (estado_despacho (fun _ => 99)) 0
      (Inv_estado_despacho (fun _ => 99) (by decide)).1
      (Inv_estado_despacho (fun _ => 99) (by decide)).2⟩


/-- C5. `executar_quantum`, BLOCKED outcome. For a process `pid` that the scheduler
has taken out of the ready queues with `cpu_restante = c > 0`: whenever the call
returns 2 the process is BLOCKED with `cpu_restante > 0`, its `tipo_io` is DISK, TAPE
or PRINTER, its `io_restante` lies in that device's range, its pid is the last entry
of the device queue of `tipo_io`, occurs there once and in no other queue, and the
call returned at the first tick `m + 1` whose draw fired: the `m` earlier draws did
not fire, `m + 1` ticks went by and `m + 1` units of CPU were consumed. -/
theorem C5_bloqueio (rnd : Nat → Nat) (s : State) (pid : Int) (h : Inv s (some pid))
    (hc : 0 < (getProc s pid).cpu_restante) (hr : (executar_quantum rnd s pid).1 = 2) :
    (getProc (executar_quantum rnd s pid).2 pid).status = STATUS_BLOQ ∧
    0 < (getProc (executar_quantum rnd s pid).2 pid).cpu_restante ∧
    ((getProc (executar_quantum rnd s pid).2 pid).tipo_io = IO_DISCO ∨
      (getProc (executar_quantum rnd s pid).2 pid).tipo_io = IO_FITA ∨
      (getProc (executar_quantum rnd s pid).2 pid).tipo_io = IO_IMPRESSORA) ∧
    ((getProc (executar_quantum rnd s pid).2 pid).tipo_io = IO_DISCO →
      DUR_DISCO_MIN ≤ (getProc (executar_quantum rnd s pid).2 pid).io_restante ∧
      (getProc (executar_quantum rnd s pid).2 pid).io_restante ≤ DUR_DISCO_MAX) ∧
    ((getProc (executar_quantum rnd s pid).2 pid).tipo_io = IO_FITA →
      DUR_FITA_MIN ≤ (getProc (executar_quantum rnd s pid).2 pid).io_restante ∧
      (getProc (executar_quantum rnd s pid).2 pid).io_restante ≤ DUR_FITA_MAX) ∧
    ((getProc (executar_quantum rnd s pid).2 pid).tipo_io = IO_IMPRESSORA →
      DUR_IMPR_MIN ≤ (getProc (executar_quantum rnd s pid).2 pid).io_restante ∧
      (getProc (executar_quantum rnd s pid).2 pid).io_restante ≤ DUR_IMPR_MAX) ∧
    (∃ l, conteudo (executar_quantum rnd s pid).2
        (fila_do_tipo (getProc (executar_quantum rnd s pid).2 pid).tipo_io) = l ++ [pid]) ∧
    (conteudo (executar_quantum rnd s pid).2
        (fila_do_tipo (getProc (executar_quantum rnd s pid).2 pid).tipo_io)).count pid = 1 ∧
    (∀ g, g ≠ fila_do_tipo (getProc (executar_quantum rnd s pid).2 pid).tipo_io →
      pid ∉ conteudo (executar_quantum rnd s pid).2 g) ∧
    (∃ m : Nat, m < QUANTUM ∧
      (∀ j : Nat, j < m → processo_pede_io (rnd (s.rnd_pos + j)) = false) ∧
      processo_pede_io (rnd (s.rnd_pos + m)) = true ∧
      (executar_quantum rnd s pid).2.tempo = s.tempo + (m + 1) ∧
      (getProc (executar_quantum rnd s pid).2 pid).cpu_restante
        = (getProc s pid).cpu_restante - ((m : Int) + 1)) := by
  rcases executar_quantum_resumo rnd s pid h hc with ⟨_, hQ⟩ | ⟨h0, _⟩ | ⟨h1, _⟩
  · obtain ⟨m, hm, hmc, hneg, hpe, hI, hp, ht, _, _, _, l, hl⟩ := hQ
    have htp := tipo_sorteado (rnd (s.rnd_pos + m + 1))
    obtain ⟨_, dD, dF, dI⟩ := duracao_io_limites rnd (s.rnd_pos + m + 2) _ htp
    have htipo : (getProc (executar_quantum rnd s pid).2 pid).tipo_io
        = rnd_range (rnd (s.rnd_pos + m + 1)) IO_DISCO IO_IMPRESSORA := by rw [hp]
    have hio : (getProc (executar_quantum rnd s pid).2 pid).io_restante
        = (duracao_io rnd (s.rnd_pos + m + 2)
            (rnd_range (rnd (s.rnd_pos + m + 1)) IO_DISCO IO_IMPRESSORA)).1 := by rw [hp]
    rw [htipo, hio]
    have hmem : pid ∈ conteudo (executar_quantum rnd s pid).2
        (fila_do_tipo (rnd_range (rnd (s.rnd_pos + m + 1)) IO_DISCO IO_IMPRESSORA)) := by
      rw [hl]; simp
    refine ⟨by rw [hp], by rw [hp]; simp only; omega, htp, dD, dF, dI, ⟨l, hl⟩, ?_, ?_,
      ⟨m, hm, hneg, hpe, by rw [ht]; omega, by rw [hp]⟩⟩
    · have hle := List.nodup_iff_count_le_one.1 hI.nodup pid
      have hpos := List.count_pos_iff.2 hmem
      have hsub : (conteudo (executar_quantum rnd s pid).2
          (fila_do_tipo (rnd_range (rnd (s.rnd_pos + m + 1)) IO_DISCO IO_IMPRESSORA))).count pid
          ≤ (todas (executar_quantum rnd s pid).2).count pid := by
        simp only [todas, prontos, bloqueados, List.count_append]
        cases (fila_do_tipo (rnd_range (rnd (s.rnd_pos + m + 1)) IO_DISCO IO_IMPRESSORA)) <;>
          omega
      omega
    · intro g hg
      exact hI.unico pid _ g (Ne.symm hg) hmem
  · rw [h0] at hr; exact absurd hr (by decide)
  · rw [h1] at hr; exact absurd hr (by decide)

/-- C5, instance: the first dispatch of the run from the zero store, with the
random stream that requests I/O at every opportunity. -/
theorem C5_bloqueio_witness :
    Inv (estado_despacho (fun _ => 0)) (some 0) ∧
    0 < (getProc (estado_despacho (fun _ => 0)) 0).cpu_restante ∧
    (executar_quantum (fun _ => 0) (estado_despacho (fun _ => 0)) 0).1 = 2 ∧
    (getProc (executar_quantum (fun _ => 0) (estado_despacho (fun _ => 0)) 0).2 0).status
      = STATUS_BLOQ ∧
    0 < (getProc (executar_quantum (fun _ => 0) (estado_despacho (fun _ => 0)) 0).2
      0).cpu_restante :=
  ⟨(Inv_estado_despacho (fun _ => 0) (by decide)).1,
    (Inv_estado_despacho (fun _ => 0) (by decide)).2, by decide,
    (C5_bloqueio (fun _ => 0) (estado_despacho (fun _ => 0)) 0
      (Inv_estado_despacho (fun _ => 0) (by decide)).1
      (Inv_estado_despacho (fun _ => 0) (by decide)).2 (by decide)).1,
    (C5_bloqueio (fun _ => 0) (estado_despacho (fun _ => 0)) 0
      (Inv_estado_despacho (fun _ => 0) (by decide)).1
      (Inv_estado_despacho (fun _ => 0) (by decide)).2 (by decide)).2.1⟩

/-- C6, as stated, fails in two ways.
(a) A pid stored twice in the device queue. In `estado_duplicado 1` the queues are
consistent, the disk queue holds the valid pid 0 twice, process 0 is BLOCKED with
`io_restante = 1` and `fila_baixa` is empty. The disk pass completes the process at
its first visit and pushes the second copy back: afterwards the process is READY
and pid 0 is still in the disk queue.
(b) A ready queue that is not full but has no room for every completion. In
`estado_baixa_quase_cheia` the disk queue holds the distinct valid pids 0 and 1,
both BLOCKED with `io_restante = 1`, and `fila_baixa` holds 7 entries, one less than
its capacity. The disk pass appends pid 0, which fills `fila_baixa`, and the push
of pid 1 is discarded: afterwards process 1 is READY with priority LOW, is no
longer in the disk queue, and its pid is not in `fila_baixa`. -/
theorem C6_contraexemplo :
    (WF (estado_duplicado 1) ∧ conteudo (estado_duplicado 1) .io_disco = [0, 0] ∧ valido 0 ∧
      (getProc (estado_duplicado 1) 0).status = STATUS_BLOQ ∧
      (getProc (estado_duplicado 1) 0).io_restante = 1 ∧
      conteudo (estado_duplicado 1) .baixa = [] ∧
      (getProc (tick_io_de_fila (estado_duplicado 1) .io_disco IO_DISCO) 0).status
        = STATUS_PRONTO ∧
      (0 : Int) ∈ conteudo (tick_io_de_fila (estado_duplicado 1) .io_disco IO_DISCO) .io_disco) ∧
    (WF estado_baixa_quase_cheia ∧ conteudo estado_baixa_quase_cheia .io_disco = [0, 1] ∧
      (conteudo estado_baixa_quase_cheia .io_disco).Nodup ∧ valido 0 ∧ valido 1 ∧
      (getProc estado_baixa_quase_cheia 1).status = STATUS_BLOQ ∧
      (getProc estado_baixa_quase_cheia 1).io_restante = 1 ∧
      conteudo estado_baixa_quase_cheia .baixa = [2, 3, 4, 5, 6, 7, 2] ∧
      (conteudo estado_baixa_quase_cheia .baixa).length < MAX_PROCESSOS ∧
      (getProc (tick_io_de_fila estado_baixa_quase_cheia .io_disco IO_DISCO) 1).status
        = STATUS_PRONTO ∧
      (getProc (tick_io_de_fila estado_baixa_quase_cheia .io_disco IO_DISCO) 1).prioridade
        = PRIORIDADE_BAIXA ∧
      conteudo (tick_io_de_fila estado_baixa_quase_cheia .io_disco IO_DISCO) .io_disco = [] ∧
      conteudo (tick_io_de_fila estado_baixa_quase_cheia .io_disco IO_DISCO) .baixa
        = [2, 3, 4, 5, 6, 7, 2, 0] ∧
      (1 : Int) ∉ conteudo (tick_io_de_fila estado_baixa_quase_cheia .io_disco IO_DISCO) .baixa) ∧
    ¬ (∀ (s : State) (f : FilaId) (tipo : Int), WF s → dispositivo f →
        (conteudo s (destino tipo)).length < MAX_PROCESSOS →
        ∀ p ∈ conteudo s f, valido p → (getProc s p).status = STATUS_BLOQ →
          (getProc s p).io_restante = 0 ∨ (getProc s p).io_restante = 1 →
          p ∉ conteudo (tick_io_de_fila s f tipo) f ∧
          p ∈ conteudo (tick_io_de_fila s f tipo) (destino tipo)) := by
  refine ⟨by decide, by decide, ?_⟩
  intro hx
  have := (hx (estado_duplicado 1) .io_disco IO_DISCO (by decide) (by decide) (by decide) 0
    (by decide) (by decide) (by decide) (by decide)).1
  exact absurd this (by decide)

/-- C6, amended. I/O completion routing in `tick_io_de_fila`. For a pass over a
device queue `f` whose entries are pairwise distinct pids of the process table, in a
state with consistent queues, when the target ready queue has room for the residents
that complete during the pass (its length plus the number of BLOCKED residents with
`io_restante` 0 or 1 is at most `MAX_PROCESSOS`): every BLOCKED resident whose
`io_restante` is 0 or 1 has, after the pass, `io_restante = 0`, `tipo_io = NONE`,
status READY, and is no longer in `f`; if the pass is for DISK its priority is LOW
and its pid is among the entries appended to `fila_baixa`; if the pass is for TAPE or
PRINTER its priority is HIGH and its pid is among the entries appended to
`fila_alta`. -/
theorem C6_conclusao_io (s : State) (f : FilaId) (tipo : Int) (hf : dispositivo f)
    (h : WF s) (hnd : (conteudo s f).Nodup) (hv : ∀ i ∈ conteudo s f, valido i)
    (hcap : (conteudo s (destino tipo)).length
      + ((conteudo s f).filter (fun q => conclui (getProc s q))).length ≤ MAX_PROCESSOS)
    (p : Int) (hp : p ∈ conteudo s f) (hb : (getProc s p).status = STATUS_BLOQ)
    (hio : (getProc s p).io_restante = 0 ∨ (getProc s p).io_restante = 1) :
    (getProc (tick_io_de_fila s f tipo) p).io_restante = 0 ∧
    (getProc (tick_io_de_fila s f tipo) p).tipo_io = IO_NENHUM ∧
    (getProc (tick_io_de_fila s f tipo) p).status = STATUS_PRONTO ∧
    p ∉ conteudo (tick_io_de_fila s f tipo) f ∧
    (tipo = IO_DISCO →
      (getProc (tick_io_de_fila s f tipo) p).prioridade = PRIORIDADE_BAIXA ∧
      ∃ novos, conteudo (tick_io_de_fila s f tipo) .baixa = conteudo s .baixa ++ novos ∧
        p ∈ novos) ∧
    (tipo = IO_FITA ∨ tipo = IO_IMPRESSORA →
      (getProc (tick_io_de_fila s f tipo) p).prioridade = PRIORIDADE_ALTA ∧
      ∃ novos, conteudo (tick_io_de_fila s f tipo) .alta = conteudo s .alta ++ novos ∧
        p ∈ novos) := by
  have _hval : valido p := hv p hp
  obtain ⟨_, eF, hD, _, hpp, _⟩ := tick_io_de_fila_geral s f tipo hf h hnd
  have eD := hD hcap
  have hc : conclui (getProc s p) = true := (conclui_iff _).2 ⟨hb, hio⟩
  have hnovo : p ∈ (conteudo s f).filter (fun q => conclui (getProc s q)) :=
    List.mem_filter.2 ⟨hp, hc⟩
  rw [hpp, if_pos hp]
  refine ⟨?_, ?_, ?_, ?_, ?_, ?_⟩
  · rw [pcb_tick_io_restante]
    split <;> omega
  · rw [pcb_tick_tipo_io, hc]; rfl
  · rw [pcb_tick_status, hc]; rfl
  · rw [eF]
    intro hm
    have := (List.mem_filter.1 hm).2
    rw [hc] at this
    cases this
  · intro ht
    refine ⟨by rw [pcb_tick_prioridade, hc]; simp [ht], _, ?_, hnovo⟩
    have hd : destino tipo = .baixa := by simp [destino, ht]
    rw [hd] at eD
    exact eD
  · intro ht
    have hne : tipo ≠ IO_DISCO := by
      rcases ht with e | e <;> rw [e] <;> decide
    refine ⟨by rw [pcb_tick_prioridade, hc]; simp [hne], _, ?_, hnovo⟩
    have hd : destino tipo = .alta := by simp [destino, hne]
    rw [hd] at eD
    exact eD

/-- C6, instance: a disk pass over eight residents that all have one tick of I/O
left, with `fila_baixa` empty; resident 3. -/
theorem C6_conclusao_io_witness :
    dispositivo .io_disco ∧ WF (estado_no_disco 1 0) ∧
    (conteudo (estado_no_disco 1 0) .io_disco).Nodup ∧
    (∀ i ∈ conteudo (estado_no_disco 1 0) .io_disco, valido i) ∧
    (conteudo (estado_no_disco 1 0) (destino IO_DISCO)).length
      + ((conteudo (estado_no_disco 1 0) .io_disco).filter
          (fun q => conclui (getProc (estado_no_disco 1 0) q))).length ≤ MAX_PROCESSOS ∧
    (3 : Int) ∈ conteudo (estado_no_disco 1 0) .io_disco ∧
    (getProc (estado_no_disco 1 0) 3).status = STATUS_BLOQ ∧
    ((getProc (estado_no_disco 1 0) 3).io_restante = 0 ∨
      (getProc (estado_no_disco 1 0) 3).io_restante = 1) ∧
    (getProc (tick_io_de_fila (estado_no_disco 1 0) .io_disco IO_DISCO) 3).io_restante = 0 ∧
    (getProc (tick_io_de_fila (estado_no_disco 1 0) .io_disco IO_DISCO) 3).tipo_io
      = IO_NENHUM ∧
    (getProc (tick_io_de_fila (estado_no_disco 1 0) .io_disco IO_DISCO) 3).status
      = STATUS_PRONTO ∧
    (3 : Int) ∉ conteudo (tick_io_de_fila (estado_no_disco 1 0) .io_disco IO_DISCO) .io_disco ∧
    (IO_DISCO = IO_DISCO →
      (getProc (tick_io_de_fila (estado_no_disco 1 0) .io_disco IO_DISCO) 3).prioridade
        = PRIORIDADE_BAIXA ∧
      ∃ novos, conteudo (tick_io_de_fila (estado_no_disco 1 0) .io_disco IO_DISCO) .baixa
          = conteudo (estado_no_disco 1 0) .baixa ++ novos ∧ (3 : Int) ∈ novos) ∧
    (IO_DISCO = IO_FITA ∨ IO_DISCO = IO_IMPRESSORA →
      (getProc (tick_io_de_fila (estado_no_disco 1 0) .io_disco IO_DISCO) 3).prioridade
        = PRIORIDADE_ALTA ∧
      ∃ novos, conteudo (tick_io_de_fila (estado_no_disco 1 0) .io_disco IO_DISCO) .alta
          = conteudo (estado_no_disco 1 0) .alta ++ novos ∧ (3 : Int) ∈ novos) :=
  ⟨by decide, by decide, by decide, by decide, by decide, by decide, by decide, by decide,
    C6_conclusao_io (estado_no_disco 1 0) .io_disco IO_DISCO (by decide)
      (by decide) (by decide) (by decide) (by decide) 3 (by decide) (by decide) (by decide)⟩

theorem tick_loop_frame (f : FilaId) (tipo : Int) :
    ∀ (n : Nat) (s : State), (tick_loop n s f tipo).tempo = s.tempo ∧
      (tick_loop n s f tipo).N = s.N ∧ (tick_loop n s f tipo).rnd_pos = s.rnd_pos := by
  intro n
  induction n with
  | zero => intro s; exact ⟨rfl, rfl, rfl⟩
  | succ n ih =>
    intro s
    obtain ⟨a, b, c⟩ := ih (tick_corpo s f tipo)
    obtain ⟨x, y, z, _⟩ := tick_corpo_frame s f tipo
    simp only [tick_loop]
    exact ⟨a.trans x, b.trans y, c.trans z⟩

theorem tick_todos_frame (s : State) :
    (tick_todos s).tempo = s.tempo ∧ (tick_todos s).N = s.N ∧
      (tick_todos s).rnd_pos = s.rnd_pos := by
  unfold tick_todos tick_io_de_fila
  obtain ⟨a1, b1, c1⟩ := tick_loop_frame .io_disco IO_DISCO (getFila s .io_disco).qtd s
  generalize tick_loop (getFila s .io_disco).qtd s .io_disco IO_DISCO = s1 at *
  obtain ⟨a2, b2, c2⟩ := tick_loop_frame .io_fita IO_FITA (getFila s1 .io_fita).qtd s1
  generalize tick_loop (getFila s1 .io_fita).qtd s1 .io_fita IO_FITA = s2 at *
  obtain ⟨a3, b3, c3⟩ := tick_loop_frame .io_impr IO_IMPRESSORA (getFila s2 .io_impr).qtd s2
  exact ⟨a3.trans (a2.trans a1), b3.trans (b2.trans b1), c3.trans (c2.trans c1)⟩

/-- C7. Scheduler selection order. On a state with consistent queues, an iteration
of `escalonador_rr_feedback` dispatches the head of `fila_alta` whenever `fila_alta`
is not empty; it dispatches the head of `fila_baixa` when `fila_alta` is empty and
`fila_baixa` is not; and when both are empty it dispatches nothing and performs one
idle tick: the clock advances by 1 and one pass runs on the disk queue, then on the
tape queue, then on the printer queue. -/
theorem C7_selecao (rnd : Nat → Nat) (s : State) (f : Nat) (h : WF s) :
    (∀ a t, conteudo s .alta = a :: t →
      ∃ s1, selecionar s = some (a, s1) ∧ conteudo s1 .alta = t ∧
        (∀ g, g ≠ .alta → getFila s1 g = getFila s g) ∧ s1.proc = s.proc ∧
        sched_iter rnd s f = despachar rnd s1 a f) ∧
    (conteudo s .alta = [] → ∀ a t, conteudo s .baixa = a :: t →
      ∃ s1, selecionar s = some (a, s1) ∧ conteudo s1 .baixa = t ∧
        (∀ g, g ≠ .baixa → getFila s1 g = getFila s g) ∧ s1.proc = s.proc ∧
        sched_iter rnd s f = despachar rnd s1 a f) ∧
    (conteudo s .alta = [] → conteudo s .baixa = [] →
      selecionar s = none ∧ sched_iter rnd s f = (atualizar_ios s, f) ∧
      (atualizar_ios s).tempo = s.tempo + 1 ∧
      atualizar_ios s =
        tick_io_de_fila
          (tick_io_de_fila
            (tick_io_de_fila { s with tempo := s.tempo + 1 } .io_disco IO_DISCO)
            .io_fita IO_FITA)
          .io_impr IO_IMPRESSORA) := by
  obtain ⟨hA, hB, hN⟩ := selecionar_spec s h
  refine ⟨?_, ?_, ?_⟩
  · intro a t hl
    obtain ⟨s1, e, hp, _, _, _, _, hc, hg⟩ := hA a t hl
    exact ⟨s1, e, hc, hg, hp, by simp [sched_iter, e]⟩
  · intro ha a t hl
    obtain ⟨s1, e, hp, _, _, _, _, hc, hg⟩ := hB ha a t hl
    exact ⟨s1, e, hc, hg, hp, by simp [sched_iter, e]⟩
  · intro ha hb
    have e := hN ha hb
    refine ⟨e, by simp [sched_iter, e], ?_, rfl⟩
    show (tick_todos _).tempo = _
    rw [(tick_todos_frame _).1]

/-- C7, instance: the state built from the zero store, whose `fila_alta` starts
with pid 0. -/
theorem C7_selecao_witness :
    WF (gerar_processos (fun _ => 0) estado_zero) ∧
    conteudo (gerar_processos (fun _ => 0) estado_zero) .alta = 0 :: [1, 2, 3, 4, 5, 6, 7] ∧
    ∃ s1, selecionar (gerar_processos (fun _ => 0) estado_zero) = some (0, s1) ∧
      conteudo s1 .alta = [1, 2, 3, 4, 5, 6, 7] ∧
      (∀ g, g ≠ .alta → getFila s1 g = getFila (gerar_processos (fun _ => 0) estado_zero) g) ∧
      s1.proc = (gerar_processos (fun _ => 0) estado_zero).proc ∧
      sched_iter (fun _ => 0) (gerar_processos (fun _ => 0) estado_zero) 0
        = despachar (fun _ => 0) s1 0 0 :=
  ⟨(gerar_processos_spec (fun _ => 0) estado_zero (by decide)).1, by decide,
    (C7_selecao (fun _ => 0) (gerar_processos (fun _ => 0) estado_zero) 0
      (gerar_processos_spec (fun _ => 0) estado_zero (by decide)).1).1 0 _ (by decide)⟩

/-- C8. Scheduler outcome routing. For a process `pid` that the scheduler has taken
out of the ready queues with CPU time to consume, after `executar_quantum` returns:
(a) on PREEMPTED the scheduler sets the priority to LOW, touches no other field of
the PCB, appends the pid at the tail of `fila_baixa`, changes no other queue and
leaves the counter alone; (b) on DONE the counter grows by exactly 1 and the state is
the one `executar_quantum` left (no push); (c) on BLOCKED the state and the counter
are the ones `executar_quantum` left. -/
theorem C8_roteamento (rnd : Nat → Nat) (s1 : State) (pid : Int) (f : Nat)
    (h1 : Inv s1 (some pid)) (hc : 0 < (getProc s1 pid).cpu_restante) :
    ((executar_quantum rnd s1 pid).1 = 1 →
      getProc (despachar rnd s1 pid f).1 pid =
        { getProc (executar_quantum rnd s1 pid).2 pid with prioridade := PRIORIDADE_BAIXA } ∧
      conteudo (despachar rnd s1 pid f).1 .baixa =
        conteudo (executar_quantum rnd s1 pid).2 .baixa ++ [pid] ∧
      (∀ g, g ≠ .baixa → getFila (despachar rnd s1 pid f).1 g
        = getFila (executar_quantum rnd s1 pid).2 g) ∧
      (∀ i, i ≠ pid → getProc (despachar rnd s1 pid f).1 i
        = getProc (executar_quantum rnd s1 pid).2 i) ∧
      (despachar rnd s1 pid f).2 = f) ∧
    ((executar_quantum rnd s1 pid).1 = 0 →
      despachar rnd s1 pid f = ((executar_quantum rnd s1 pid).2, f + 1)) ∧
    ((executar_quantum rnd s1 pid).1 = 2 →
      despachar rnd s1 pid f = ((executar_quantum rnd s1 pid).2, f)) := by
  obtain ⟨_, _, _, hcase⟩ := despachar_resumo rnd s1 pid f h1 hc
  rcases hcase with ⟨hr, _, e⟩ | ⟨hr, _, e⟩ | ⟨hr, _, e2, hp, hb, hg, _, _, ho⟩
  · rw [hr]
    exact ⟨fun h => absurd h (by decide), fun h => absurd h (by decide), fun _ => e⟩
  · rw [hr]
    exact ⟨fun h => absurd h (by decide), fun _ => e, fun h => absurd h (by decide)⟩
  · rw [hr]
    exact ⟨fun _ => ⟨hp, hb, hg, ho, e2⟩, fun h => absurd h (by decide),
      fun h => absurd h (by decide)⟩

/-- C8, instance: the first dispatch of the run from the zero store, with a random
stream that never triggers an I/O request; the process is preempted. -/
theorem C8_roteamento_witness :
    Inv (estado_despacho (fun _ => 99)) (some 0) ∧
    0 < (getProc (estado_despacho (fun _ => 99)) 0).cpu_restante ∧
    (executar_quantum (fun _ => 99) (estado_despacho (fun _ => 99)) 0).1 = 1 ∧
    getProc (despachar (fun _ => 99) (estado_despacho (fun _ => 99)) 0 0).1 0 =
      { getProc (executar_quantum (fun _ => 99) (estado_despacho (fun _ => 99)) 0).2 0 with
        prioridade := PRIORIDADE_BAIXA } ∧
    conteudo (despachar (fun _ => 99) (estado_despacho (fun _ => 99)) 0 0).1 .baixa =
      conteudo (executar_quantum (fun _ => 99) (estado_despacho (fun _ => 99)) 0).2 .baixa
        ++ [0] :=
  ⟨(Inv_estado_despacho (fun _ => 99) (by decide)).1,
    (Inv_estado_despacho (fun _ => 99) (by decide)).2, by decide,
    ((C8_roteamento (fun _ => 99) (estado_despacho (fun _ => 99)) 0 0
      (Inv_estado_despacho (fun _ => 99) (by decide)).1
      (Inv_estado_despacho (fun _ => 99) (by decide)).2).1 (by decide)).1,
    ((C8_roteamento (fun _ => 99) (estado_despacho (fun _ => 99)) 0 0
      (Inv_estado_despacho (fun _ => 99) (by decide)).1
      (Inv_estado_despacho (fun _ => 99) (by decide)).2).1 (by decide)).2.1⟩


/-- C9. Priority transitions. Across one iteration of `escalonador_rr_feedback`
started at an iteration boundary, if the priority of a process changes then either
it was the dispatched process and was preempted (new value LOW), or it was BLOCKED in
the disk queue and its I/O completed (it is READY in `fila_baixa`, new value LOW), or
it was BLOCKED in the tape or printer queue and its I/O completed (it is READY in
`fila_alta`, new value HIGH). In particular a process that is BLOCKED or FINISHED
after the iteration, or that was READY, was not dispatched and is still READY, has
kept its priority, and a change from LOW to HIGH is a tape or printer completion. -/
theorem C9_prioridade (rnd : Nat → Nat) (s : State) (f : Nat) (h : Inv s none) (i : Int) :
    ((getProc (sched_iter rnd s f).1 i).prioridade ≠ (getProc s i).prioridade →
      ((∃ s1, selecionar s = some (i, s1) ∧ (executar_quantum rnd s1 i).1 = 1) ∧
        (getProc (sched_iter rnd s f).1 i).prioridade = PRIORIDADE_BAIXA) ∨
      ((getProc s i).status = STATUS_BLOQ ∧ i ∈ conteudo s .io_disco ∧
        (getProc (sched_iter rnd s f).1 i).status = STATUS_PRONTO ∧
        i ∈ conteudo (sched_iter rnd s f).1 .baixa ∧
        (getProc (sched_iter rnd s f).1 i).prioridade = PRIORIDADE_BAIXA) ∨
      ((getProc s i).status = STATUS_BLOQ ∧
        (i ∈ conteudo s .io_fita ∨ i ∈ conteudo s .io_impr) ∧
        (getProc (sched_iter rnd s f).1 i).status = STATUS_PRONTO ∧
        i ∈ conteudo (sched_iter rnd s f).1 .alta ∧
        (getProc (sched_iter rnd s f).1 i).prioridade = PRIORIDADE_ALTA)) ∧
    ((getProc (sched_iter rnd s f).1 i).status = STATUS_BLOQ →
      (getProc (sched_iter rnd s f).1 i).prioridade = (getProc s i).prioridade) ∧
    ((getProc (sched_iter rnd s f).1 i).status = STATUS_FIM →
      (getProc (sched_iter rnd s f).1 i).prioridade = (getProc s i).prioridade) ∧
    ((getProc s i).status = STATUS_PRONTO →
      (getProc (sched_iter rnd s f).1 i).status = STATUS_PRONTO →
      (∀ s1, selecionar s ≠ some (i, s1)) →
      (getProc (sched_iter rnd s f).1 i).prioridade = (getProc s i).prioridade) ∧
    ((getProc s i).prioridade = PRIORIDADE_BAIXA →
      (getProc (sched_iter rnd s f).1 i).prioridade = PRIORIDADE_ALTA →
      (getProc s i).status = STATUS_BLOQ ∧
        (i ∈ conteudo s .io_fita ∨ i ∈ conteudo s .io_impr) ∧
        (getProc (sched_iter rnd s f).1 i).status = STATUS_PRONTO ∧
        i ∈ conteudo (sched_iter rnd s f).1 .alta) := by
  obtain ⟨_, _, hcase⟩ := sched_iter_geral rnd s f h
  -- a process that only saw clock ticks
  have viaEv : Ev s (sched_iter rnd s f).1 i →
      ((getProc (sched_iter rnd s f).1 i).prioridade ≠ (getProc s i).prioridade →
        ((getProc s i).status = STATUS_BLOQ ∧ i ∈ conteudo s .io_disco ∧
          (getProc (sched_iter rnd s f).1 i).status = STATUS_PRONTO ∧
          i ∈ conteudo (sched_iter rnd s f).1 .baixa ∧
          (getProc (sched_iter rnd s f).1 i).prioridade = PRIORIDADE_BAIXA) ∨
        ((getProc s i).status = STATUS_BLOQ ∧
          (i ∈ conteudo s .io_fita ∨ i ∈ conteudo s .io_impr) ∧
          (getProc (sched_iter rnd s f).1 i).status = STATUS_PRONTO ∧
          i ∈ conteudo (sched_iter rnd s f).1 .alta ∧
          (getProc (sched_iter rnd s f).1 i).prioridade = PRIORIDADE_ALTA)) ∧
      ((getProc (sched_iter rnd s f).1 i).status = STATUS_BLOQ →
        (getProc (sched_iter rnd s f).1 i).prioridade = (getProc s i).prioridade) ∧
      ((getProc (sched_iter rnd s f).1 i).status = STATUS_FIM →
        (getProc (sched_iter rnd s f).1 i).prioridade = (getProc s i).prioridade) ∧
      ((getProc s i).status = STATUS_PRONTO →
        (getProc (sched_iter rnd s f).1 i).status = STATUS_PRONTO →
        (getProc (sched_iter rnd s f).1 i).prioridade = (getProc s i).prioridade) := by
    rintro ⟨_, _, _, _, hx⟩
    rcases hx with ⟨e, _⟩ | ⟨x1, x2, x3, _⟩ | ⟨x1, x2, x3, x4, _, _, x7⟩ |
        ⟨x1, x2, x3, x4, _, _, x7⟩
    · refine ⟨fun hne => absurd (by rw [e]) hne, fun _ => by rw [e], fun _ => by rw [e],
        fun _ _ => by rw [e]⟩
    · refine ⟨fun hne => absurd x3 hne, fun _ => x3, fun _ => x3, fun _ _ => x3⟩
    · refine ⟨fun _ => Or.inl ⟨x1, x2, x3, x7, x4⟩, fun hb => ?_, fun hb => ?_, fun hp => ?_⟩
      · rw [x3] at hb; exact absurd hb (by decide)
      · rw [x3] at hb; exact absurd hb (by decide)
      · rw [x1] at hp; exact absurd hp (by decide)
    · refine ⟨fun _ => Or.inr ⟨x1, x2, x3, x7, x4⟩, fun hb => ?_, fun hb => ?_, fun hp => ?_⟩
      · rw [x3] at hb; exact absurd hb (by decide)
      · rw [x3] at hb; exact absurd hb (by decide)
      · rw [x1] at hp; exact absurd hp (by decide)
  have principal :
      ((getProc (sched_iter rnd s f).1 i).prioridade ≠ (getProc s i).prioridade →
        ((∃ s1, selecionar s = some (i, s1) ∧ (executar_quantum rnd s1 i).1 = 1) ∧
          (getProc (sched_iter rnd s f).1 i).prioridade = PRIORIDADE_BAIXA) ∨
        ((getProc s i).status = STATUS_BLOQ ∧ i ∈ conteudo s .io_disco ∧
          (getProc (sched_iter rnd s f).1 i).status = STATUS_PRONTO ∧
          i ∈ conteudo (sched_iter rnd s f).1 .baixa ∧
          (getProc (sched_iter rnd s f).1 i).prioridade = PRIORIDADE_BAIXA) ∨
        ((getProc s i).status = STATUS_BLOQ ∧
          (i ∈ conteudo s .io_fita ∨ i ∈ conteudo s .io_impr) ∧
          (getProc (sched_iter rnd s f).1 i).status = STATUS_PRONTO ∧
          i ∈ conteudo (sched_iter rnd s f).1 .alta ∧
          (getProc (sched_iter rnd s f).1 i).prioridade = PRIORIDADE_ALTA)) ∧
      ((getProc (sched_iter rnd s f).1 i).status = STATUS_BLOQ →
        (getProc (sched_iter rnd s f).1 i).prioridade = (getProc s i).prioridade) ∧
      ((getProc (sched_iter rnd s f).1 i).status = STATUS_FIM →
        (getProc (sched_iter rnd s f).1 i).prioridade = (getProc s i).prioridade) ∧
      ((getProc s i).status = STATUS_PRONTO →
        (getProc (sched_iter rnd s f).1 i).status = STATUS_PRONTO →
        (∀ s1, selecionar s ≠ some (i, s1)) →
        (getProc (sched_iter rnd s f).1 i).prioridade = (getProc s i).prioridade) := by
    rcases hcase with ⟨_, _, hev, _⟩ | ⟨pid, s1, hsel, _, hd, hev, hout⟩
    · have hv := viaEv (hev i)
      exact ⟨fun hne => Or.inr (hv.1 hne), hv.2.1, hv.2.2.1, fun hp hp' _ => hv.2.2.2 hp hp'⟩
    · by_cases hi : i = pid
      · subst hi
        obtain ⟨_, _, _, _, _, _, _, _, hx⟩ := hd
        rcases hx with ⟨y1, _, y3, _⟩ | ⟨y1, _, y3, _⟩ | ⟨y1, _, _, y4, _⟩
        · refine ⟨fun hne => absurd y3 hne, fun _ => y3, fun _ => y3,
            fun _ _ hn => absurd hsel (hn s1)⟩
        · refine ⟨fun hne => absurd y3 hne, fun _ => y3, fun _ => y3,
            fun _ _ hn => absurd hsel (hn s1)⟩
        · have hret : (executar_quantum rnd s1 i).1 = 1 := by
            rcases hout with ⟨z1, _⟩ | ⟨z1, _⟩ | ⟨_, _, z3⟩
            · rw [y1] at z1; exact absurd z1 (by decide)
            · rw [y1] at z1; exact absurd z1 (by decide)
            · exact z3
          refine ⟨fun _ => Or.inl ⟨⟨s1, hsel, hret⟩, y4⟩, fun hb => ?_, fun hb => ?_,
            fun _ _ hn => absurd hsel (hn s1)⟩
          · rw [y1] at hb; exact absurd hb (by decide)
          · rw [y1] at hb; exact absurd hb (by decide)
      · have hv := viaEv (hev i hi)
        exact ⟨fun hne => Or.inr (hv.1 hne), hv.2.1, hv.2.2.1,
          fun hp hp' _ => hv.2.2.2 hp hp'⟩
  refine ⟨principal.1, principal.2.1, principal.2.2.1, principal.2.2.2, ?_⟩
  intro hlow hhigh
  have hne : (getProc (sched_iter rnd s f).1 i).prioridade ≠ (getProc s i).prioridade := by
    rw [hlow, hhigh]; decide
  rcases principal.1 hne with ⟨_, hb⟩ | ⟨_, _, _, _, hb⟩ | ⟨a, b, c, d, _⟩
  · rw [hhigh] at hb; exact absurd hb (by decide)
  · rw [hhigh] at hb; exact absurd hb (by decide)
  · exact ⟨a, b, c, d⟩

/-- C9, instance: the first iteration of the run from the zero store, with a random
stream that never triggers an I/O request; process 0 is preempted and demoted. -/
theorem C9_prioridade_witness :
    Inv (gerar_processos (fun _ => 99) estado_zero) none ∧
    (getProc (sched_iter (fun _ => 99) (gerar_processos (fun _ => 99) estado_zero) 0).1
      0).prioridade ≠ (getProc (gerar_processos (fun _ => 99) estado_zero) 0).prioridade ∧
    (((∃ s1, selecionar (gerar_processos (fun _ => 99) estado_zero) = some (0, s1) ∧
        (executar_quantum (fun _ => 99) s1 0).1 = 1) ∧
      (getProc (sched_iter (fun _ => 99) (gerar_processos (fun _ => 99) estado_zero) 0).1
        0).prioridade = PRIORIDADE_BAIXA) ∨
    ((getProc (gerar_processos (fun _ => 99) estado_zero) 0).status = STATUS_BLOQ ∧
      (0 : Int) ∈ conteudo (gerar_processos (fun _ => 99) estado_zero) .io_disco ∧
      (getProc (sched_iter (fun _ => 99) (gerar_processos (fun _ => 99) estado_zero) 0).1
        0).status = STATUS_PRONTO ∧
      (0 : Int) ∈ conteudo
        (sched_iter (fun _ => 99) (gerar_processos (fun _ => 99) estado_zero) 0).1 .baixa ∧
      (getProc (sched_iter (fun _ => 99) (gerar_processos (fun _ => 99) estado_zero) 0).1
        0).prioridade = PRIORIDADE_BAIXA) ∨
    ((getProc (gerar_processos (fun _ => 99) estado_zero) 0).status = STATUS_BLOQ ∧
      ((0 : Int) ∈ conteudo (gerar_processos (fun _ => 99) estado_zero) .io_fita ∨
        (0 : Int) ∈ conteudo (gerar_processos (fun _ => 99) estado_zero) .io_impr) ∧
      (getProc (sched_iter (fun _ => 99) (gerar_processos (fun _ => 99) estado_zero) 0).1
        0).status = STATUS_PRONTO ∧
      (0 : Int) ∈ conteudo
        (sched_iter (fun _ => 99) (gerar_processos (fun _ => 99) estado_zero) 0).1 .alta ∧
      (getProc (sched_iter (fun _ => 99) (gerar_processos (fun _ => 99) estado_zero) 0).1
        0).prioridade = PRIORIDADE_ALTA)) :=
  ⟨(InvF_inicial (fun _ => 99) estado_zero (by decide)).1, by decide,
    (C9_prioridade (fun _ => 99) (gerar_processos (fun _ => 99) estado_zero) 0
      (InvF_inicial (fun _ => 99) estado_zero (by decide)).1 0).1 (by decide)⟩


/-- Boundaries compose: the boundary `n + m` of a run is the boundary `m` of the run
continued from its boundary `n`. -/
theorem fronteira_soma (rnd : Nat → Nat) (s0 : State) (f0 : Nat) (n : Nat) :
    ∀ m, fronteira rnd (n + m) s0 f0 =
      match fronteira rnd n s0 f0 with
      | some (s, f) => fronteira rnd m s f
      | none => none := by
  intro m
  induction m with
  | zero =>
    simp only [Nat.add_zero]
    cases fronteira rnd n s0 f0 with
    | none => rfl
    | some p => rfl
  | succ m ih =>
    rw [← Nat.add_assoc, fronteira, ih]
    cases fronteira rnd n s0 f0 with
    | none => rfl
    | some p => rfl

/-- Along the iterations, `cpu_restante` does not grow and the PCB of a FINISHED
process does not change. -/
theorem fronteira_mono (rnd : Nat → Nat) (s : State) (f : Nat) (h : InvF s f) :
    ∀ (m : Nat) (s' : State) (f' : Nat), fronteira rnd m s f = some (s', f') →
      ∀ i, (getProc s' i).cpu_restante ≤ (getProc s i).cpu_restante ∧
        ((getProc s i).status = STATUS_FIM → getProc s' i = getProc s i) := by
  intro m
  induction m with
  | zero =>
    intro s' f' hfr i
    simp only [fronteira, Option.some.injEq, Prod.mk.injEq] at hfr
    obtain ⟨rfl, rfl⟩ := hfr
    exact ⟨le_refl _, fun _ => rfl⟩
  | succ m ih =>
    intro s' f' hfr i
    simp only [fronteira] at hfr
    cases hprev : fronteira rnd m s f with
    | none => rw [hprev] at hfr; cases hfr
    | some p =>
      obtain ⟨s1, f1⟩ := p
      rw [hprev] at hfr
      simp only at hfr
      by_cases hlt : f1 < s1.N
      · rw [if_pos hlt] at hfr
        have e := Option.some.inj hfr
        obtain ⟨a1, a2⟩ := ih s1 f1 hprev i
        have hI1 := (fronteira_InvF rnd s f h m s1 f1 hprev).1
        obtain ⟨_, _, hcase⟩ := sched_iter_geral rnd s1 f1 hI1
        have e1 : (sched_iter rnd s1 f1).1 = s' := by rw [e]
        rw [e1] at hcase
        have viaEv : Ev s1 s' i → (getProc s' i).cpu_restante ≤ (getProc s i).cpu_restante ∧
            ((getProc s i).status = STATUS_FIM → getProc s' i = getProc s i) := by
          intro hev
          refine ⟨by rw [hev.2.2.2.1]; exact a1, fun hf => ?_⟩
          have h1 := a2 hf
          rw [(Ev_fim s1 s' i hev).2 (by rw [h1]; exact hf), h1]
        rcases hcase with ⟨_, _, hev, _⟩ | ⟨pid, _, _, _, hd, hev, _⟩
        · exact viaEv (hev i)
        · by_cases hi : i = pid
          · subst hi
            obtain ⟨hst, _, _, _, _, _, _, hltc, _⟩ := hd
            refine ⟨by omega, fun hf => ?_⟩
            have h1 := a2 hf
            rw [h1, hf] at hst
            exact absurd hst (by decide)
          · exact viaEv (hev i hi)
      · rw [if_neg hlt] at hfr
        cases hfr

/-- C10. `cpu_restante` and FINISHED. Along every run from `gerar_processos`: at
every iteration boundary each process has `cpu_restante >= 0` and is FINISHED if and
only if `cpu_restante = 0`, so that a READY or BLOCKED process has
`cpu_restante > 0` and the process dispatched by the next iteration ends it with
strictly less `cpu_restante`; and between a boundary and any later one no
`cpu_restante` grows and the PCB of a process that was FINISHED is unchanged. -/
theorem C10_cpu_restante (rnd : Nat → Nat) (s0 : State) (hd : Dimensionado s0)
    (n m : Nat) (s : State) (f : Nat) (s' : State) (f' : Nat)
    (h1 : fronteira rnd n (gerar_processos rnd s0) 0 = some (s, f))
    (h2 : fronteira rnd (n + m) (gerar_processos rnd s0) 0 = some (s', f')) :
    (∀ i : Int, 0 ≤ i → i < (s.N : Int) →
      0 ≤ (getProc s i).cpu_restante ∧
      ((getProc s i).status = STATUS_FIM ↔ (getProc s i).cpu_restante = 0) ∧
      ((getProc s i).status = STATUS_PRONTO ∨ (getProc s i).status = STATUS_BLOQ →
        0 < (getProc s i).cpu_restante) ∧
      (getProc s' i).cpu_restante ≤ (getProc s i).cpu_restante ∧
      ((getProc s i).status = STATUS_FIM → getProc s' i = getProc s i)) ∧
    (∀ pid s1, selecionar s = some (pid, s1) →
      0 ≤ (getProc (sched_iter rnd s f).1 pid).cpu_restante ∧
      (getProc (sched_iter rnd s f).1 pid).cpu_restante < (getProc s pid).cpu_restante) := by
  have hF := fronteira_InvF rnd _ 0 (InvF_inicial rnd s0 hd) n s f h1
  have hI := hF.1
  have hz := hF.2.2
  have h3 : fronteira rnd m s f = some (s', f') := by
    rw [fronteira_soma, h1] at h2
    exact h2
  constructor
  · intro i h0 hlt
    have hv := valido_of_lt s hI.hN i h0 hlt
    obtain ⟨m1, m2⟩ := fronteira_mono rnd s f hF m s' f' h3 i
    have hpos : (getProc s i).status ≠ STATUS_FIM → 0 < (getProc s i).cpu_restante :=
      hI.cpu i hv (by simp)
    by_cases hf : (getProc s i).status = STATUS_FIM
    · have := hz i hv hf
      refine ⟨by omega, ⟨fun _ => this, fun _ => hf⟩, ?_, m1, m2⟩
      rintro (hx | hx) <;> rw [hf] at hx <;> exact absurd hx (by decide)
    · have := hpos hf
      refine ⟨by omega, ⟨fun hx => absurd hx hf, fun hx => by omega⟩, fun _ => this, m1, m2⟩
  · intro pid s1 hsel
    obtain ⟨_, _, hcase⟩ := sched_iter_geral rnd s f hI
    rcases hcase with ⟨hp, _⟩ | ⟨pid', s1', hsel', _, hdd, _⟩
    · have ha : conteudo s .alta = [] := (List.append_eq_nil.1 hp).1
      have hb : conteudo s .baixa = [] := (List.append_eq_nil.1 hp).2
      rw [(selecionar_spec s hI.wf).2.2 ha hb] at hsel
      cases hsel
    · rw [hsel'] at hsel
      have e := Option.some.inj hsel
      have e1 : pid' = pid := congrArg Prod.fst e
      subst e1
      obtain ⟨_, _, _, _, _, _, hge, hltc, _⟩ := hdd
      exact ⟨hge, hltc⟩

/-- C10, instance: the run from the zero store with the stream that requests I/O at
every opportunity, between its start and the boundary after the first iteration. -/
theorem C10_cpu_restante_witness :
    Dimensionado estado_zero ∧
    fronteira (fun _ => 0) 0 (gerar_processos (fun _ => 0) estado_zero) 0
      = some (gerar_processos (fun _ => 0) estado_zero, 0) ∧
    fronteira (fun _ => 0) (0 + 1) (gerar_processos (fun _ => 0) estado_zero) 0
      = some (sched_iter (fun _ => 0) (gerar_processos (fun _ => 0) estado_zero) 0) ∧
    (∀ i : Int, 0 ≤ i → i < ((gerar_processos (fun _ => 0) estado_zero).N : Int) →
      0 ≤ (getProc (gerar_processos (fun _ => 0) estado_zero) i).cpu_restante ∧
      ((getProc (gerar_processos (fun _ => 0) estado_zero) i).status = STATUS_FIM ↔
        (getProc (gerar_processos (fun _ => 0) estado_zero) i).cpu_restante = 0) ∧
      ((getProc (gerar_processos (fun _ => 0) estado_zero) i).status = STATUS_PRONTO ∨
        (getProc (gerar_processos (fun _ => 0) estado_zero) i).status = STATUS_BLOQ →
        0 < (getProc (gerar_processos (fun _ => 0) estado_zero) i).cpu_restante) ∧
      (getProc (sched_iter (fun _ => 0) (gerar_processos (fun _ => 0) estado_zero) 0).1
        i).cpu_restante ≤ (getProc (gerar_processos (fun _ => 0) estado_zero) i).cpu_restante ∧
      ((getProc (gerar_processos (fun _ => 0) estado_zero) i).status = STATUS_FIM →
        getProc (sched_iter (fun _ => 0) (gerar_processos (fun _ => 0) estado_zero) 0).1 i
          = getProc (gerar_processos (fun _ => 0) estado_zero) i)) :=
  ⟨by decide, rfl, by decide,
    (C10_cpu_restante (fun _ => 0) estado_zero (by decide) 0 1
      (gerar_processos (fun _ => 0) estado_zero) 0
      (sched_iter (fun _ => 0) (gerar_processos (fun _ => 0) estado_zero) 0).1
      (sched_iter (fun _ => 0) (gerar_processos (fun _ => 0) estado_zero) 0).2
      rfl (by decide)).1⟩


/-! ## Lemmas: clock accounting -/

theorem soma_range_um (n : Nat) (g h : Nat → Int) (k : Nat) (d : Int) (hk : k < n)
    (hd : g k = h k + d) (he : ∀ i, i < n → i ≠ k → g i = h i) :
    ((List.range n).map g).sum = ((List.range n).map h).sum + d := by
  induction n with
  | zero => omega
  | succ n ih =>
    rw [List.range_succ, List.map_append, List.map_append, List.sum_append, List.sum_append]
    simp only [List.map_cons, List.map_nil, List.sum_cons, List.sum_nil, add_zero]
    by_cases hkn : k = n
    · subst hkn
      have : (List.range k).map g = (List.range k).map h := by
        apply List.map_congr_left
        intro i hi
        have := List.mem_range.1 hi
        exact he i (by omega) (by omega)
      rw [this, hd]; ring
    · have := ih (by omega) (fun i hi hne => he i (by omega) hne)
      rw [this, he n (by omega) (fun e => hkn e.symm)]; ring

theorem soma_range_congr (n : Nat) (g h : Nat → Int) (he : ∀ i, i < n → g i = h i) :
    ((List.range n).map g).sum = ((List.range n).map h).sum := by
  congr 1
  apply List.map_congr_left
  intro i hi
  exact he i (List.mem_range.1 hi)

/-- The clock after a dispatch: it advanced by the CPU time the dispatched process
consumed. -/
theorem tempo_despacho (rnd : Nat → Nat) (s s1 : State) (pid : Int) (f : Nat)
    (h : Inv s none) (hsel : selecionar s = some (pid, s1)) :
    ((sched_iter rnd s f).1.tempo : Int) =
      s.tempo + ((getProc s pid).cpu_restante - (getProc (sched_iter rnd s f).1 pid).cpu_restante) ∧
    (getProc (sched_iter rnd s f).1 pid).cpu_total = (getProc s pid).cpu_total ∧
    (s.tempo < (sched_iter rnd s f).1.tempo) := by
  obtain ⟨e, hI, hp, hst, hc, hv, ht, _, _, _⟩ := sched_iter_despacho rnd s s1 pid f h hsel
  rw [e]
  obtain ⟨_, _, _, hcase⟩ := despachar_resumo rnd s1 pid f hI (by rw [hp]; exact hc)
  rcases hcase with ⟨_, hQ, ed⟩ | ⟨_, hQ, ed⟩ | ⟨_, hQ, _, hpp, _, _, htt, _⟩
  · rw [ed]
    obtain ⟨m, _, _, _, _, _, hpb, htb, _⟩ := hQ
    rw [hp] at hpb
    rw [hpb, htb, ht]
    refine ⟨?_, rfl, by omega⟩
    simp only
    push_cast
    omega
  · rw [ed]
    obtain ⟨_, _, _, hpf, htf, _⟩ := hQ
    rw [hp] at hpf htf
    rw [hpf, htf, ht]
    refine ⟨?_, rfl, by omega⟩
    simp only
    push_cast
    omega
  · obtain ⟨_, _, _, hpq, htq, _⟩ := hQ
    rw [hp] at hpq
    rw [htt, hpp, hpq, htq, ht]
    refine ⟨?_, rfl, by simp only [QUANTUM]; omega⟩
    simp only [QUANTUM]
    push_cast
    omega

/-- One iteration of the scheduler keeps the clock equation: the clock advances by
the CPU time consumed in the iteration, plus one if the iteration is an idle tick. -/
theorem relogio_sched_iter (rnd : Nat → Nat) (s : State) (f : Nat) (h : Inv s none) :
    ((sched_iter rnd s f).1.tempo : Int) + cpu_consumida s
      = s.tempo + cpu_consumida (sched_iter rnd s f).1 + (if ocioso s = true then 1 else 0) ∧
    soma_cpu_total (sched_iter rnd s f).1 = soma_cpu_total s ∧
    s.tempo < (sched_iter rnd s f).1.tempo := by
  obtain ⟨hI', hN', hcase⟩ := sched_iter_geral rnd s f h
  unfold cpu_consumida soma_cpu_total
  rw [hN', h.hN]
  rcases hcase with ⟨hp, e, hev, _⟩ | ⟨pid, s1, hsel, hv, hD, hev, _⟩
  · obtain ⟨_, _, _, ht, _⟩ := sched_iter_ocioso rnd s f h hp
    have hoc : ocioso s = true := by
      rcases selecionar_casos s h with ⟨_, hn⟩ | ⟨pid, s1, hsel⟩
      · simp [ocioso, hn]
      · obtain ⟨_, _, _, _, _, hm, _⟩ := Inv_selecionar s s1 pid h hsel
        rw [hp] at hm; cases hm
    rw [hoc, if_pos rfl]
    have e1 : (sched_iter rnd s f).1.tempo = s.tempo + 1 := by rw [e]; exact ht
    rw [e1]
    refine ⟨?_, ?_, by omega⟩
    · rw [soma_range_congr MAX_PROCESSOS _ _ (fun i _ => by
        obtain ⟨_, _, a, b, _⟩ := hev (i : Int)
        show (getProc s i).cpu_total - (getProc s i).cpu_restante =
          (getProc (sched_iter rnd s f).1 i).cpu_total
            - (getProc (sched_iter rnd s f).1 i).cpu_restante
        rw [a, b])]
      push_cast; ring
    · exact soma_range_congr MAX_PROCESSOS _ _ (fun i _ => (hev (i : Int)).2.2.1)
  · have hoc : ocioso s = false := by simp [ocioso, hsel]
    rw [hoc]
    simp only [Bool.false_eq_true, if_false, add_zero]
    obtain ⟨ht, hct, hlt⟩ := tempo_despacho rnd s s1 pid f h hsel
    obtain ⟨k, hk, rfl⟩ := valido_casos pid hv
    refine ⟨?_, ?_, hlt⟩
    · rw [soma_range_um MAX_PROCESSOS
        (fun (i : Nat) => (getProc (sched_iter rnd s f).1 (i : Int)).cpu_total
          - (getProc (sched_iter rnd s f).1 (i : Int)).cpu_restante)
        (fun (i : Nat) => (getProc s (i : Int)).cpu_total - (getProc s (i : Int)).cpu_restante)
        k ((getProc s (k : Int)).cpu_restante
          - (getProc (sched_iter rnd s f).1 (k : Int)).cpu_restante) hk
        (by simp only; rw [hct]; ring)
        (fun i _ hne => by
          obtain ⟨_, _, a, b, _⟩ := hev (i : Int) (by intro e; exact hne (by exact_mod_cast e))
          simp only; rw [a, b])]
      rw [ht]; ring
    · exact soma_range_congr MAX_PROCESSOS _ _ (fun i _ => by
        by_cases hik : i = k
        · subst hik; exact hct
        · exact (hev (i : Int) (by intro e; exact hik (by exact_mod_cast e))).2.2.1)

/-- The clock equation at every iteration boundary of a run that starts in a state
satisfying the boundary invariant. -/
theorem relogio_fronteira (rnd : Nat → Nat) (s0 : State) (f0 : Nat) (h0 : InvF s0 f0) :
    ∀ (n : Nat) (s : State) (f : Nat), fronteira rnd n s0 f0 = some (s, f) →
      (s.tempo : Int) + cpu_consumida s0
        = s0.tempo + cpu_consumida s + ociosos rnd n s0 f0 ∧
      soma_cpu_total s = soma_cpu_total s0 ∧ s0.tempo ≤ s.tempo := by
  intro n
  induction n with
  | zero =>
    intro s f hfr
    simp only [fronteira, Option.some.injEq, Prod.mk.injEq] at hfr
    obtain ⟨rfl, rfl⟩ := hfr
    simp [ociosos]
  | succ n ih =>
    intro s f hfr
    simp only [fronteira] at hfr
    cases hprev : fronteira rnd n s0 f0 with
    | none => rw [hprev] at hfr; cases hfr
    | some p =>
      obtain ⟨s1, f1⟩ := p
      rw [hprev] at hfr
      simp only at hfr
      by_cases hlt : f1 < s1.N
      · rw [if_pos hlt] at hfr
        have hfr := Option.some.inj hfr
        obtain ⟨a, b, c⟩ := ih s1 f1 hprev
        have hI := (fronteira_InvF rnd s0 f0 h0 n s1 f1 hprev).1
        obtain ⟨x, y, z⟩ := relogio_sched_iter rnd s1 f1 hI
        have es : s = (sched_iter rnd s1 f1).1 := by rw [hfr]
        rw [es]
        refine ⟨?_, by rw [y, b], by omega⟩
        simp only [ociosos, hprev, hlt, true_and]
        by_cases ho : ocioso s1 = true
        · rw [if_pos ho] at x ⊢
          push_cast
          omega
        · rw [if_neg ho] at x ⊢
          push_cast
          omega
      · rw [if_neg hlt] at hfr; cases hfr

/-- With a stream that never triggers an I/O request, an iteration started with no
BLOCKED process and an unfinished one is a dispatch and blocks no process. -/
theorem sem_pedido_sched_iter (rnd : Nat → Nat) (hno : SemPedido rnd) (s : State) (f : Nat)
    (h : Inv s none) (hnb : ∀ i, valido i → (getProc s i).status ≠ STATUS_BLOQ)
    (hlt : num_fim s < s.N) :
    ocioso s = false ∧
      ∀ i, valido i → (getProc (sched_iter rnd s f).1 i).status ≠ STATUS_BLOQ := by
  obtain ⟨j, hvj, hj⟩ := existe_nao_fim s h.hN hlt
  have hjp : j ∈ prontos s := by
    rcases h.estados j hvj (by simp) with e | e | e
    · exact (h.pronto j hvj (by simp)).1 e
    · exact absurd e (hnb j hvj)
    · exact absurd e hj
  obtain ⟨_, _, hcase⟩ := sched_iter_geral rnd s f h
  rcases hcase with ⟨hp, _⟩ | ⟨pid, s1, hsel, hv, _, hev, hst⟩
  · rw [hp] at hjp; cases hjp
  · refine ⟨by simp [ocioso, hsel], ?_⟩
    intro i hvi
    by_cases hi : i = pid
    · subst hi
      rcases hst with ⟨e, _⟩ | ⟨_, _, e2⟩ | ⟨e, _⟩
      · rw [e]; decide
      · exfalso
        obtain ⟨_, hI, hp, _, hc, _⟩ := sched_iter_despacho rnd s s1 i f h hsel
        rcases executar_quantum_resumo rnd s1 i hI (by rw [hp]; exact hc) with
          ⟨_, hQ⟩ | ⟨hr, _⟩ | ⟨hr, _⟩
        · obtain ⟨m, _, _, _, ht, _⟩ := hQ
          rw [hno _] at ht; cases ht
        · rw [e2] at hr; cases hr
        · rw [e2] at hr; cases hr
      · rw [e]; decide
    · obtain ⟨_, _, _, _, hx⟩ := hev i hi
      rcases hx with ⟨e, _⟩ | ⟨x1, _⟩ | ⟨x1, _⟩ | ⟨x1, _⟩
      · rw [e]; exact hnb i hvi
      · exact absurd x1 (hnb i hvi)
      · exact absurd x1 (hnb i hvi)
      · exact absurd x1 (hnb i hvi)

/-- With a stream that never triggers an I/O request, a run that starts with no
BLOCKED process never blocks one and never performs an idle tick. -/
theorem sem_pedido_fronteira (rnd : Nat → Nat) (hno : SemPedido rnd) (s0 : State) (f0 : Nat)
    (h0 : InvF s0 f0) (hnb : ∀ i, valido i → (getProc s0 i).status ≠ STATUS_BLOQ) :
    ∀ (n : Nat), ociosos rnd n s0 f0 = 0 ∧
      ∀ (s : State) (f : Nat), fronteira rnd n s0 f0 = some (s, f) →
        ∀ i, valido i → (getProc s i).status ≠ STATUS_BLOQ := by
  intro n
  induction n with
  | zero =>
    refine ⟨rfl, ?_⟩
    intro s f hfr
    simp only [fronteira, Option.some.injEq, Prod.mk.injEq] at hfr
    obtain ⟨rfl, rfl⟩ := hfr
    exact hnb
  | succ n ih =>
    obtain ⟨io, ib⟩ := ih
    cases hprev : fronteira rnd n s0 f0 with
    | none =>
      refine ⟨by simp [ociosos, hprev, io], ?_⟩
      intro s f hfr
      simp [fronteira, hprev] at hfr
    | some p =>
      obtain ⟨s1, f1⟩ := p
      obtain ⟨hI, hf, _⟩ := fronteira_InvF rnd s0 f0 h0 n s1 f1 hprev
      by_cases hlt : f1 < s1.N
      · obtain ⟨a, b⟩ := sem_pedido_sched_iter rnd hno s1 f1 hI (ib s1 f1 hprev)
          (by rw [← hf]; exact hlt)
        refine ⟨by simp [ociosos, hprev, io, a], ?_⟩
        intro s f hfr
        simp only [fronteira, hprev, if_pos hlt] at hfr
        have hfr := Option.some.inj hfr
        have es : s = (sched_iter rnd s1 f1).1 := by rw [hfr]
        rw [es]
        exact b
      · refine ⟨by simp [ociosos, hprev, io, hlt], ?_⟩
        intro s f hfr
        simp [fronteira, hprev, hlt] at hfr

/-- Two streams that never trigger an I/O request drive the `while` loop of
`executar_quantum` the same way. -/
theorem quantum_loop_sem_pedido (rnd rnd' : Nat → Nat) (h : SemPedido rnd)
    (h' : SemPedido rnd') (pid : Int) :
    ∀ (k : Nat) (s : State), quantum_loop rnd k s pid = quantum_loop rnd' k s pid := by
  intro k
  induction k with
  | zero => intro s; rfl
  | succ k ih =>
    intro s
    simp only [quantum_loop, h _, h' _, Bool.false_eq_true, if_false, ih]

/-- Two streams that never trigger an I/O request drive an iteration of the scheduler
the same way. -/
theorem sched_iter_sem_pedido (rnd rnd' : Nat → Nat) (h : SemPedido rnd)
    (h' : SemPedido rnd') (s : State) (f : Nat) :
    sched_iter rnd s f = sched_iter rnd' s f ∧
      ∀ pid, executar_quantum rnd s pid = executar_quantum rnd' s pid := by
  have e : ∀ s pid, executar_quantum rnd s pid = executar_quantum rnd' s pid := by
    intro s pid
    simp only [executar_quantum, quantum_loop_sem_pedido rnd rnd' h h']
  refine ⟨?_, e s⟩
  simp only [sched_iter, despachar, e]

/-- Two streams that never trigger an I/O request drive the scheduler loop the same way. -/
theorem escalonador_loop_sem_pedido (rnd rnd' : Nat → Nat) (h : SemPedido rnd)
    (h' : SemPedido rnd') :
    ∀ (fuel : Nat) (s : State) (f : Nat),
      escalonador_loop rnd fuel s f = escalonador_loop rnd' fuel s f := by
  intro fuel
  induction fuel with
  | zero => intro s f; rfl
  | succ n ih =>
    intro s f
    simp only [escalonador_loop, (sched_iter_sem_pedido rnd rnd' h h' s f).1, ih]

/-- The state built by `gerar_processos` has consumed no CPU time and blocks no process. -/
theorem cpu_consumida_inicial (rnd : Nat → Nat) (s0 : State) (h : Dimensionado s0) :
    cpu_consumida (gerar_processos rnd s0) = 0 ∧
      ∀ i, valido i → (getProc (gerar_processos rnd s0) i).status ≠ STATUS_BLOQ := by
  obtain ⟨_, hN, _, _, hp, _⟩ := gerar_processos_spec rnd s0 h
  constructor
  · unfold cpu_consumida
    rw [hN]
    rw [soma_range_congr MAX_PROCESSOS _ (fun _ => 0) (fun i hi => by
      simp only [hp i hi, pcb_inicial]; ring)]
    simp
  · intro i hv
    obtain ⟨j, hj, rfl⟩ := valido_casos i hv
    rw [hp j hj]
    simp [pcb_inicial]

/-- The lone-process scenario with the stream that is constantly 99, by evaluation. -/
theorem exemplo_um_99 :
    selecionar (estado_um 5) = some (0,
      { estado_um 5 with fila_alta := (fila_pop (estado_um 5).fila_alta (-1)).2.1 }) ∧
    (executar_quantum (fun _ => 99)
      { estado_um 5 with fila_alta := (fila_pop (estado_um 5).fila_alta (-1)).2.1 } 0).1 = 1 ∧
    (sched_iter (fun _ => 99) (estado_um 5) 0).1.tempo = 3 ∧
    (getProc (sched_iter (fun _ => 99) (estado_um 5) 0).1 0).cpu_restante = 2 ∧
    selecionar (sched_iter (fun _ => 99) (estado_um 5) 0).1 = some (0,
      { (sched_iter (fun _ => 99) (estado_um 5) 0).1 with
        fila_baixa :=
          (fila_pop (sched_iter (fun _ => 99) (estado_um 5) 0).1.fila_baixa (-1)).2.1 }) ∧
    (executar_quantum (fun _ => 99)
      { (sched_iter (fun _ => 99) (estado_um 5) 0).1 with
        fila_baixa :=
          (fila_pop (sched_iter (fun _ => 99) (estado_um 5) 0).1.fila_baixa (-1)).2.1 } 0).1
      = 0 ∧
    escalonador_rr_feedback (fun _ => 99) 2 (estado_um 5) =
      some ((sched_iter (fun _ => 99) (sched_iter (fun _ => 99) (estado_um 5) 0).1 0).1, 1) ∧
    (sched_iter (fun _ => 99) (sched_iter (fun _ => 99) (estado_um 5) 0).1 0).1.tempo = 5 ∧
    (getProc (sched_iter (fun _ => 99) (sched_iter (fun _ => 99) (estado_um 5) 0).1 0).1
      0).status = STATUS_FIM := by
  decide

/-- C11. Clock accounting. In a run from the state built by `gerar_processos` at
program start (the clock is 0), for every random stream: at every iteration
boundary of `escalonador_rr_feedback` the clock `tempo` equals the sum over the
processes of `cpu_total - cpu_restante` plus the number of idle ticks performed so
far, and the clock at a later boundary is not smaller. When the stream never
triggers an I/O request, the scheduler halts with `tempo` equal to the sum of all
`cpu_total` and no iteration is an idle tick. For a population of one process with
`cpu_total = 5` and such a stream: the first dispatch returns 1 (PREEMPTED) and
leaves the clock at 3 and `cpu_restante = 2`, the second dispatch returns 0 (DONE),
and the loop halts after these two iterations with the clock at 5. -/
theorem C11_relogio (rnd : Nat → Nat) (s0 : State) (hd : Dimensionado s0)
    (ht : s0.tempo = 0) :
    (∀ n s f, fronteira rnd n (gerar_processos rnd s0) 0 = some (s, f) →
      (s.tempo : Int) = cpu_consumida s + ociosos rnd n (gerar_processos rnd s0) 0) ∧
    (∀ n m s f s' f', n ≤ m →
      fronteira rnd n (gerar_processos rnd s0) 0 = some (s, f) →
      fronteira rnd m (gerar_processos rnd s0) 0 = some (s', f') → s.tempo ≤ s'.tempo) ∧
    (SemPedido rnd →
      (∃ s f, escalonador_rr_feedback rnd (medida (gerar_processos rnd s0))
          (gerar_processos rnd s0) = some (s, f) ∧
        (s.tempo : Int) = soma_cpu_total (gerar_processos rnd s0)) ∧
      (∀ n, ociosos rnd n (gerar_processos rnd s0) 0 = 0) ∧
      (∀ n s f, fronteira rnd n (gerar_processos rnd s0) 0 = some (s, f) → f < s.N →
        ocioso s = false)) ∧
    (SemPedido rnd →
      (∃ s1, selecionar (estado_um 5) = some (0, s1) ∧ (executar_quantum rnd s1 0).1 = 1) ∧
      (sched_iter rnd (estado_um 5) 0).1.tempo = 3 ∧
      (getProc (sched_iter rnd (estado_um 5) 0).1 0).cpu_restante = 2 ∧
      (∃ s2, selecionar (sched_iter rnd (estado_um 5) 0).1 = some (0, s2) ∧
        (executar_quantum rnd s2 0).1 = 0) ∧
      ∃ s, escalonador_rr_feedback rnd 2 (estado_um 5) = some (s, 1) ∧ s.tempo = 5 ∧
        (getProc s 0).status = STATUS_FIM) := by
  have h0 := InvF_inicial rnd s0 hd
  obtain ⟨hc0, hnb0⟩ := cpu_consumida_inicial rnd s0 hd
  have ht0 : (gerar_processos rnd s0).tempo = 0 := by
    rw [(gerar_processos_spec rnd s0 hd).2.2.2.2.2.2, ht]
  refine ⟨?_, ?_, ?_, ?_⟩
  · intro n s f hfr
    obtain ⟨a, _, _⟩ := relogio_fronteira rnd _ 0 h0 n s f hfr
    rw [hc0, ht0] at a
    push_cast at a
    omega
  · intro n m s f s' f' hnm hfn hfm
    obtain ⟨k, rfl⟩ := Nat.exists_eq_add_of_le hnm
    have := fronteira_soma rnd (gerar_processos rnd s0) 0 n k
    rw [hfn] at this
    simp only at this
    rw [this] at hfm
    exact (relogio_fronteira rnd s f (fronteira_InvF rnd _ 0 h0 n s f hfn) k s' f' hfm).2.2
  · intro hno
    have hsp := sem_pedido_fronteira rnd hno _ 0 h0 hnb0
    refine ⟨?_, fun n => (hsp n).1, ?_⟩
    · obtain ⟨r, hr⟩ := escalonador_loop_termina rnd (medida (gerar_processos rnd s0)) _ 0
        (le_refl _) h0.1 h0.2.1
      obtain ⟨s, f⟩ := r
      refine ⟨s, f, hr, ?_⟩
      obtain ⟨n, _, hfr, hnl⟩ := escalonador_loop_fronteira rnd _ _ 0 s f hr
      obtain ⟨hI, hf, hz⟩ := fronteira_InvF rnd _ 0 h0 n s f hfr
      obtain ⟨a, b, _⟩ := relogio_fronteira rnd _ 0 h0 n s f hfr
      rw [hc0, ht0, (hsp n).1] at a
      rw [← b]
      have hcs : cpu_consumida s = soma_cpu_total s := by
        unfold cpu_consumida soma_cpu_total
        rw [hI.hN]
        refine soma_range_congr MAX_PROCESSOS _ _ (fun i hi => ?_)
        have hv := valido_cast i hi
        have hfim := todos_fim s hI.hN (by rw [← hf]; omega) (i : Int) hv
        simp only [hz (i : Int) hv hfim, sub_zero]
      rw [← hcs]
      push_cast at a
      omega
    · intro n s f hfr hlt
      obtain ⟨hI, hf, _⟩ := fronteira_InvF rnd _ 0 h0 n s f hfr
      exact (sem_pedido_sched_iter rnd hno s f hI ((hsp n).2 s f hfr) (by rw [← hf]; exact hlt)).1
  · intro hno
    have h99 : SemPedido (fun _ => 99) := fun _ => rfl
    obtain ⟨e1, e2, e3, e4, e5, e6, e7, e8, e9⟩ := exemplo_um_99
    have c1 := (sched_iter_sem_pedido rnd (fun _ => 99) hno h99 (estado_um 5) 0).1
    refine ⟨⟨_, e1, ?_⟩, by rw [c1]; exact e3, by rw [c1]; exact e4, ⟨_, by rw [c1]; exact e5, ?_⟩,
      ⟨_, ?_, e8, e9⟩⟩
    · rw [(sched_iter_sem_pedido rnd (fun _ => 99) hno h99 _ 0).2]; exact e2
    · rw [(sched_iter_sem_pedido rnd (fun _ => 99) hno h99 _ 0).2]; exact e6
    · unfold escalonador_rr_feedback at e7 ⊢
      rw [escalonador_loop_sem_pedido rnd (fun _ => 99) hno h99]; exact e7

/-- C11, instance: the run from the zero store with the stream that is constantly
99, which never triggers an I/O request: the scheduler halts with the clock equal
to the sum of the generated `cpu_total`. -/
theorem C11_relogio_witness :
    Dimensionado estado_zero ∧ estado_zero.tempo = 0 ∧ SemPedido (fun _ => 99) ∧
    ∃ s f, escalonador_rr_feedback (fun _ => 99)
        (medida (gerar_processos (fun _ => 99) estado_zero))
        (gerar_processos (fun _ => 99) estado_zero) = some (s, f) ∧
      (s.tempo : Int) = soma_cpu_total (gerar_processos (fun _ => 99) estado_zero) :=
  ⟨by decide, rfl, fun _ => rfl,
    ((C11_relogio (fun _ => 99) estado_zero (by decide) rfl).2.2.1 (fun _ => rfl)).1⟩

/-! ## Lemmas: the clock-tick trace -/

theorem Quieto_refl (a : State) : Quieto a a := ⟨rfl, fun _ _ _ => rfl⟩

theorem Quieto_trans (a b c : State) (h1 : Quieto a b) (h2 : Quieto b c) : Quieto a c := by
  refine ⟨by rw [h2.1, h1.1], fun i hv hb => ?_⟩
  have e := h1.2 i hv hb
  rw [h2.2 i hv (by rw [e]; exact hb), e]

theorem Tique_de_Quieto (a b c : State) (h1 : Quieto a b) (h2 : Tique b c) : Tique a c := by
  refine ⟨by rw [h2.1, h1.1], fun i hv hb => ?_⟩
  have e := h1.2 i hv hb
  have := h2.2 i hv (by rw [e]; exact hb)
  rw [e] at this
  exact this

theorem Encadeado_de_Quieto (a b : State) (l : List State) (h1 : Quieto a b)
    (h2 : Encadeado b l) : Encadeado a l := by
  cases l with
  | nil => trivial
  | cons x l => exact ⟨Tique_de_Quieto a b x h1 h2.1, h2.2⟩

theorem ultimo_de_Quieto (a b c : State) (l : List State) (h1 : Quieto a b)
    (h2 : Quieto (ultimo b l) c) : Quieto (ultimo a l) c := by
  cases l with
  | nil => exact Quieto_trans a b c h1 h2
  | cons x l => exact h2

theorem ultimo_append (l1 l2 : List State) :
    ∀ a, ultimo a (l1 ++ l2) = ultimo (ultimo a l1) l2 := by
  induction l1 with
  | nil => intro a; rfl
  | cons x l ih => intro a; exact ih x

theorem Encadeado_append (l1 l2 : List State) :
    ∀ a, Encadeado a l1 → Encadeado (ultimo a l1) l2 → Encadeado a (l1 ++ l2) := by
  induction l1 with
  | nil => intro a _ h; exact h
  | cons x l ih => intro a h1 h2; exact ⟨h1.1, ih x h1.2 h2⟩

/-- One advancement pass on the three device queues, seen from a BLOCKED process
that is not the one being dispatched. -/
theorem tick_todos_bloq (s : State) (run : Option Int) (h : Inv s run) (i : Int)
    (hv : valido i) (hr : some i ≠ run) (hb : (getProc s i).status = STATUS_BLOQ) :
    (2 ≤ (getProc s i).io_restante →
      (getProc (tick_todos s) i).status = STATUS_BLOQ ∧
      (getProc (tick_todos s) i).tipo_io = (getProc s i).tipo_io ∧
      (getProc (tick_todos s) i).io_restante = (getProc s i).io_restante - 1) ∧
    ((getProc s i).io_restante ≤ 1 → (getProc (tick_todos s) i).status = STATUS_PRONTO) := by
  have hm := (h.bloq i hv hr).1 hb
  have hio := h.io i hv hr hb
  obtain ⟨_, _, _, _, _, hin, _⟩ := tick_todos_resumo s run h
  obtain ⟨t, ht, _⟩ := hin i hm
  rw [ht, pcb_tick_status, pcb_tick_tipo_io, pcb_tick_io_restante]
  constructor
  · intro h2
    have hc : conclui (getProc s i) = false := by
      cases hx : conclui (getProc s i) with
      | false => rfl
      | true =>
        have := (conclui_iff _).1 hx
        omega
    rw [hc]
    simp only [Bool.false_eq_true, if_false]
    refine ⟨hb, trivial, ?_⟩
    rw [if_pos ⟨hb, by omega⟩]
  · intro h1
    have hc : conclui (getProc s i) = true := (conclui_iff _).2 ⟨hb, by omega⟩
    rw [hc]
    simp

/-- An idle tick is one clock tick. -/
theorem Tique_atualizar_ios (s : State) (h : Inv s none) : Tique s (atualizar_ios s) := by
  have h1 : Inv { s with tempo := s.tempo + 1 } none :=
    Inv_congr s _ _ h rfl (fun g => by cases g <;> rfl) rfl
  obtain ⟨_, _, _, _, _, _, ht, _⟩ := tick_todos_resumo _ _ h1
  refine ⟨ht, fun i hv hb => ?_⟩
  exact tick_todos_bloq _ none h1 i hv (by simp) hb

/-- A CPU tick of the dispatched process is one clock tick. -/
theorem Tique_quantum_tick (s : State) (pid : Int) (h : Inv s (some pid))
    (hs : (getProc s pid).status = STATUS_EXEC) :
    Tique s (quantum_tick s pid) ∧ Inv (quantum_tick s pid) (some pid) ∧
      (getProc (quantum_tick s pid) pid).status = STATUS_EXEC := by
  obtain ⟨hI, hp, ht, _⟩ := quantum_tick_resumo s pid h
  refine ⟨⟨ht, fun i hv hb => ?_⟩, hI, by rw [hp]; exact hs⟩
  have hv' := (h.fora pid rfl).1
  have hne : i ≠ pid := by
    intro e; rw [e, hs] at hb; exact absurd hb (by decide)
  have h1 : Inv { s with tempo := s.tempo + 1 } (some pid) :=
    Inv_congr s _ _ h rfl (fun g => by cases g <;> rfl) rfl
  have h2 := Inv_setProc_fora _ pid
    { getProc { s with tempo := s.tempo + 1 } pid with
      cpu_restante := (getProc { s with tempo := s.tempo + 1 } pid).cpu_restante - 1 } h1
    (h.pidf pid hv')
  have e : getProc (setProc { s with tempo := s.tempo + 1 } pid
      { getProc { s with tempo := s.tempo + 1 } pid with
        cpu_restante := (getProc { s with tempo := s.tempo + 1 } pid).cpu_restante - 1 }) i
      = getProc s i := by
    rw [getProc_setProc_ne _ _ _ _ hne]; rfl
  have := tick_todos_bloq _ _ h2 i hv (fun x => hne (Option.some.inj x)) (by rw [e]; exact hb)
  rw [e] at this
  exact this

/-- The I/O request changes the PCB of no other process, and not the clock. -/
theorem pedir_io_outros (rnd : Nat → Nat) (s : State) (pid : Int) (i : Int) (hne : i ≠ pid) :
    getProc (pedir_io rnd s pid) i = getProc s i := by
  rw [pedir_io_eq, getProc_pushTo, getProc_setProc_ne _ _ _ _ hne]
  rfl

/-- The `while` loop leaves only through `return 2`. -/
theorem quantum_loop_dois (rnd : Nat → Nat) (pid : Int) :
    ∀ (k : Nat) (s : State) (r : Int) (s' : State),
      quantum_loop rnd k s pid = (some r, s') → r = 2 := by
  intro k
  induction k with
  | zero => intro s r s' h; simp [quantum_loop] at h
  | succ k ih =>
    intro s r s' h
    simp only [quantum_loop] at h
    split_ifs at h with h1 h2 h3
    · simp only [Prod.mk.injEq, Option.some.injEq] at h
      exact h.1.symm
    · exact ih _ r s' h
    · exact ih _ r s' h
    · simp at h

/-- The ticks of a quantum form a chain, and nothing happens to a BLOCKED process
between the last tick and the exit of the `while` loop. -/
theorem quantum_traco_cadeia (rnd : Nat → Nat) (pid : Int) :
    ∀ (k : Nat) (s : State), Inv s (some pid) → (getProc s pid).status = STATUS_EXEC →
      Encadeado s (quantum_traco rnd k s pid) ∧
      Quieto (ultimo s (quantum_traco rnd k s pid)) (quantum_loop rnd k s pid).2 := by
  intro k
  induction k with
  | zero =>
    intro s _ _
    exact ⟨trivial, Quieto_refl s⟩
  | succ k ih =>
    intro s h hs
    obtain ⟨hT, hI, hs3⟩ := Tique_quantum_tick s pid h hs
    simp only [quantum_traco, quantum_loop]
    split_ifs with h1 h2 h3
    · have hT' : Tique s (pedir_io rnd
          { quantum_tick s pid with rnd_pos := (quantum_tick s pid).rnd_pos + 1 } pid) := by
        refine ⟨((pedir_io_resumo rnd
          { quantum_tick s pid with rnd_pos := (quantum_tick s pid).rnd_pos + 1 } pid
          (Inv_congr _ _ _ hI rfl (fun g => by cases g <;> rfl) rfl) h2).2.2.1).trans hT.1,
          fun i hv hb => ?_⟩
        have hne : i ≠ pid := by
          intro e; rw [e, hs] at hb; exact absurd hb (by decide)
        rw [pedir_io_outros rnd _ pid i hne]
        exact hT.2 i hv hb
      exact ⟨⟨hT', trivial⟩, Quieto_refl _⟩
    · have hI4 : Inv { quantum_tick s pid with rnd_pos := (quantum_tick s pid).rnd_pos + 1 }
          (some pid) := Inv_congr _ _ _ hI rfl (fun g => by cases g <;> rfl) rfl
      obtain ⟨a, b⟩ := ih _ hI4 hs3
      exact ⟨⟨⟨hT.1, hT.2⟩, a⟩, b⟩
    · obtain ⟨a, b⟩ := ih _ hI hs3
      exact ⟨⟨hT, a⟩, b⟩
    · exact ⟨trivial, Quieto_refl s⟩

/-- The ticks of one iteration of the scheduler form a chain that starts at the
boundary before it, and nothing happens to a BLOCKED process between the last tick
and the boundary after it. -/
theorem iter_traco_cadeia (rnd : Nat → Nat) (s : State) (f : Nat) (h : Inv s none) :
    Encadeado s (iter_traco rnd s) ∧
      Quieto (ultimo s (iter_traco rnd s)) (sched_iter rnd s f).1 := by
  cases hsel : selecionar s with
  | none =>
    have e1 : iter_traco rnd s = [atualizar_ios s] := by simp [iter_traco, hsel]
    have e2 : sched_iter rnd s f = (atualizar_ios s, f) := by simp [sched_iter, hsel]
    rw [e1, e2]
    exact ⟨⟨Tique_atualizar_ios s h, trivial⟩, Quieto_refl _⟩
  | some p =>
    obtain ⟨pid, s1⟩ := p
    obtain ⟨e2, hI1, hp1, hst, hc, hv, ht1, _, _, _⟩ := sched_iter_despacho rnd s s1 pid f h hsel
    obtain ⟨_, hpr, _⟩ := Inv_selecionar s s1 pid h hsel
    have hin := valido_dentro s1 hI1.wf pid hv
    have e1 : iter_traco rnd s = quantum_traco rnd QUANTUM
        (setProc s1 pid { getProc s1 pid with status := STATUS_EXEC }) pid := by
      simp [iter_traco, hsel]
    generalize hs0 : setProc s1 pid { getProc s1 pid with status := STATUS_EXEC } = s0 at e1
    have hI0 : Inv s0 (some pid) := by
      rw [← hs0]; exact Inv_setProc_fora s1 pid _ hI1 (hI1.pidf pid hv)
    have hp0 : getProc s0 pid = { getProc s1 pid with status := STATUS_EXEC } := by
      rw [← hs0, getProc_setProc_eq _ _ _ hin]
    have hq0 : Quieto s s0 := by
      refine ⟨by rw [← hs0, tempo_setProc, ht1], fun i hvi hb => ?_⟩
      have hne : i ≠ pid := by
        intro e; rw [e, hst] at hb; exact absurd hb (by decide)
      rw [← hs0, getProc_setProc_ne _ _ _ _ hne, getProc_congr _ _ hpr]
    obtain ⟨a, b⟩ := quantum_traco_cadeia rnd pid QUANTUM s0 hI0 (by rw [hp0])
    rw [e1, e2]
    refine ⟨Encadeado_de_Quieto s s0 _ hq0 a, ultimo_de_Quieto s s0 _ _ hq0 ?_⟩
    refine Quieto_trans _ _ _ b ?_
    have hdef : despachar rnd s1 pid f =
        (if (executar_quantum rnd s1 pid).1 = 0 then ((executar_quantum rnd s1 pid).2, f + 1)
         else if (executar_quantum rnd s1 pid).1 = 2 then ((executar_quantum rnd s1 pid).2, f)
         else (pushTo (setProc (executar_quantum rnd s1 pid).2 pid
            { getProc (executar_quantum rnd s1 pid).2 pid with
              prioridade := PRIORIDADE_BAIXA }) .baixa pid, f)) := rfl
    have hex : executar_quantum rnd s1 pid =
        (match quantum_loop rnd QUANTUM s0 pid with
         | (some r, s2) => (r, s2)
         | (none, s2) =>
           if (getProc s2 pid).cpu_restante = 0 then
             (0, setProc s2 pid { getProc s2 pid with status := STATUS_FIM })
           else
             (1, setProc s2 pid { getProc s2 pid with status := STATUS_PRONTO })) := by
      rw [← hs0]; rfl
    rw [hdef, hex]
    cases hql : quantum_loop rnd QUANTUM s0 pid with
    | mk o s2 =>
      cases o with
      | some r =>
        have hr := quantum_loop_dois rnd pid _ _ _ _ hql
        subst hr
        simp only
        exact Quieto_refl _
      | none =>
        obtain ⟨hI2, hs2⟩ := quantum_loop_exec rnd pid QUANTUM s0 s2 hI0 (by rw [hp0]) hql
        have hq : ∀ (p : PCB) (q : PCB), Quieto s2
            (pushTo (setProc (setProc s2 pid p) pid q) .baixa pid) ∧
            Quieto s2 (setProc s2 pid p) := by
          intro p q
          have key : ∀ i, valido i → (getProc s2 i).status = STATUS_BLOQ → i ≠ pid := by
            intro i _ hb e
            rw [e, hs2] at hb; exact absurd hb (by decide)
          constructor
          · refine ⟨?_, fun i hvi hb => ?_⟩
            · have hw : WF (setProc (setProc s2 pid p) pid q) :=
                WF_setProc _ _ _ (WF_setProc _ _ _ hI2.wf)
              unfold pushTo
              cases hfc : fila_cheia (getFila (setProc (setProc s2 pid p) pid q) .baixa) <;>
                simp [fila_push, hfc, setFila, tempo_setProc]
            · rw [getProc_pushTo, getProc_setProc_ne _ _ _ _ (key i hvi hb),
                getProc_setProc_ne _ _ _ _ (key i hvi hb)]
          · exact ⟨by rw [tempo_setProc], fun i hvi hb => by
              rw [getProc_setProc_ne _ _ _ _ (key i hvi hb)]⟩
        simp only
        by_cases hz : (getProc s2 pid).cpu_restante = 0
        · rw [if_pos hz]
          simp only
          rw [if_pos trivial]
          exact (hq _ default).2
        · rw [if_neg hz]
          simp only
          rw [if_neg (by decide), if_neg (by decide)]
          simp only
          exact (hq _ _).1

/-- The ticks of a run form a chain that starts at the first boundary, and nothing
happens to a BLOCKED process between the last tick and the exit of the loop. -/
theorem traco_cadeia (rnd : Nat → Nat) :
    ∀ (fuel : Nat) (s : State) (f : Nat), Inv s none →
      Encadeado s (traco rnd fuel s f) ∧
      ∀ r, escalonador_loop rnd fuel s f = some r →
        Quieto (ultimo s (traco rnd fuel s f)) r.1 := by
  intro fuel
  induction fuel with
  | zero =>
    intro s f _
    refine ⟨trivial, fun r hr => ?_⟩
    simp only [escalonador_loop] at hr
    split_ifs at hr
    cases hr
    exact Quieto_refl s
  | succ n ih =>
    intro s f h
    simp only [traco, escalonador_loop]
    by_cases hlt : f < s.N
    · rw [if_pos hlt, if_pos hlt]
      obtain ⟨a, b⟩ := iter_traco_cadeia rnd s f h
      obtain ⟨c, d⟩ := ih (sched_iter rnd s f).1 (sched_iter rnd s f).2 (Inv_sched_iter rnd s f h).1
      refine ⟨Encadeado_append _ _ s a (Encadeado_de_Quieto _ _ _ b c), fun r hr => ?_⟩
      rw [ultimo_append]
      exact ultimo_de_Quieto _ _ _ _ b (d r hr)
    · rw [if_neg hlt, if_neg hlt]
      refine ⟨trivial, fun r hr => ?_⟩
      cases hr
      exact Quieto_refl s

/-- Along a chain the clock advances by one per state. -/
theorem Encadeado_tempo :
    ∀ (l : List State) (a : State), Encadeado a l →
      ∀ (k : Nat) (x : State), l[k]? = some x → x.tempo = a.tempo + k + 1 := by
  intro l
  induction l with
  | nil => intro a _ k x hx; simp at hx
  | cons b l ih =>
    intro a h k x hx
    cases k with
    | zero =>
      simp only [List.getElem?_cons_zero, Option.some.injEq] at hx
      subst hx
      exact h.1.1
    | succ k =>
      simp only [List.getElem?_cons_succ] at hx
      rw [ih b h.2 k x hx, h.1.1]
      omega

/-- The part of a chain after one of its states is a chain that starts there, with
the same last state. -/
theorem Encadeado_drop :
    ∀ (l : List State) (a : State), Encadeado a l →
      ∀ (j : Nat) (x : State), l[j]? = some x →
        Encadeado x (l.drop (j + 1)) ∧ ultimo x (l.drop (j + 1)) = ultimo a l := by
  intro l
  induction l with
  | nil => intro a _ j x hx; simp at hx
  | cons b l ih =>
    intro a h j x hx
    cases j with
    | zero =>
      simp only [List.getElem?_cons_zero, Option.some.injEq] at hx
      subst hx
      exact ⟨h.2, rfl⟩
    | succ j =>
      simp only [List.getElem?_cons_succ] at hx
      exact ih b h.2 j x hx

/-- I/O latency along a chain: a process BLOCKED with `d ≥ 1` ticks of I/O left is
still BLOCKED, with `d - (k + 1)` ticks left, in the state `k + 1` ticks later for
`k + 1 < d`, is READY in the state `d` ticks later, and is BLOCKED in the last
state of a chain that has fewer than `d` states. -/
theorem Encadeado_latencia (i : Int) (hv : valido i) :
    ∀ (l : List State) (a : State) (d : Nat), Encadeado a l →
      (getProc a i).status = STATUS_BLOQ → (getProc a i).io_restante = (d : Int) → 1 ≤ d →
      (∀ (k : Nat) (x : State), l[k]? = some x → k + 1 < d →
        (getProc x i).status = STATUS_BLOQ ∧
        (getProc x i).tipo_io = (getProc a i).tipo_io ∧
        (getProc x i).io_restante = (d : Int) - ((k : Int) + 1)) ∧
      (∀ (x : State), l[d - 1]? = some x → (getProc x i).status = STATUS_PRONTO) ∧
      (l.length < d → (getProc (ultimo a l) i).status = STATUS_BLOQ) := by
  intro l
  induction l with
  | nil =>
    intro a d _ hb _ _
    exact ⟨fun k x hx => by simp at hx, fun x hx => by simp at hx, fun _ => hb⟩
  | cons b l ih =>
    intro a d h hb hio hd
    obtain ⟨h2, h1⟩ := h.1.2 i hv hb
    by_cases hd1 : d = 1
    · subst hd1
      refine ⟨fun k x _ hk => by omega, fun x hx => ?_, fun hl => ?_⟩
      · simp only [Nat.sub_self, List.getElem?_cons_zero, Option.some.injEq] at hx
        subst hx
        exact h1 (by rw [hio]; simp)
      · simp only [List.length_cons] at hl
        omega
    · obtain ⟨b1, b2, b3⟩ := h2 (by rw [hio]; omega)
      have hio' : (getProc b i).io_restante = ((d - 1 : Nat) : Int) := by
        rw [b3, hio]; omega
      obtain ⟨r1, r2, r3⟩ := ih b (d - 1) h.2 b1 hio' (by omega)
      refine ⟨fun k x hx hk => ?_, fun x hx => ?_, fun hl => ?_⟩
      · cases k with
        | zero =>
          simp only [List.getElem?_cons_zero, Option.some.injEq] at hx
          subst hx
          exact ⟨b1, b2, by rw [b3, hio]; simp⟩
        | succ k =>
          simp only [List.getElem?_cons_succ] at hx
          obtain ⟨x1, x2, x3⟩ := r1 k x hx (by omega)
          refine ⟨x1, by rw [x2, b2], ?_⟩
          rw [x3]
          push_cast
          omega
      · have e : d - 1 = (d - 1 - 1) + 1 := by omega
        rw [e, List.getElem?_cons_succ] at hx
        exact r2 x hx
      · simp only [List.length_cons] at hl
        exact r3 (by omega)

/-- The first pass through the body of the `while` loop when the draw of
`processo_pede_io` triggers: the I/O request is made on the state left by the
advancement passes of this tick. -/
theorem quantum_loop_pedido (rnd : Nat → Nat) (k : Nat) (s : State) (pid : Int)
    (h1 : (getProc s pid).cpu_restante > 0)
    (h2 : (getProc (quantum_tick s pid) pid).cpu_restante > 0)
    (h3 : processo_pede_io (rnd (quantum_tick s pid).rnd_pos) = true) :
    quantum_loop rnd (k + 1) s pid =
      (some 2, pedir_io rnd
        { quantum_tick s pid with rnd_pos := (quantum_tick s pid).rnd_pos + 1 } pid) := by
  simp only [quantum_loop, h1, h2, h3, if_true]

/-- Function `pedir_io` reads the stream at two positions only, through the device
kind and the duration drawn. -/
theorem pedir_io_congr (rnd rnd' : Nat → Nat) (s : State) (pid : Int)
    (ht : rnd_range (rnd s.rnd_pos) IO_DISCO IO_IMPRESSORA
      = rnd_range (rnd' s.rnd_pos) IO_DISCO IO_IMPRESSORA)
    (hd : duracao_io rnd (s.rnd_pos + 1) (rnd_range (rnd' s.rnd_pos) IO_DISCO IO_IMPRESSORA)
      = duracao_io rnd' (s.rnd_pos + 1) (rnd_range (rnd' s.rnd_pos) IO_DISCO IO_IMPRESSORA)) :
    pedir_io rnd s pid = pedir_io rnd' s pid := by
  simp only [pedir_io, ht, hd]

/-- The lone-process scenario: a stream whose first draw triggers a request, whose
second draw selects the disk and whose third draw gives duration 3 drives the first
iteration like the stream that is constantly 0. -/
theorem exemplo_um_pedido (rnd : Nat → Nat) (h0 : processo_pede_io (rnd 0) = true)
    (h1 : rnd_range (rnd 1) IO_DISCO IO_IMPRESSORA = IO_DISCO)
    (h2 : rnd_range (rnd 2) DUR_DISCO_MIN DUR_DISCO_MAX = 3) :
    sched_iter rnd (estado_um 5) 0 = sched_iter (fun _ => 0) (estado_um 5) 0 ∧
    iter_traco rnd (estado_um 5) = iter_traco (fun _ => 0) (estado_um 5) := by
  have hsel : selecionar (estado_um 5) = some (0,
      { estado_um 5 with fila_alta := (fila_pop (estado_um 5).fila_alta (-1)).2.1 }) := by
    decide
  generalize hsP : ({ estado_um 5 with
    fila_alta := (fila_pop (estado_um 5).fila_alta (-1)).2.1 } : State) = sP at hsel
  generalize hs0 : setProc sP 0 { getProc sP 0 with status := STATUS_EXEC } = s0
  have c1 : (getProc s0 0).cpu_restante > 0 := by rw [← hs0, ← hsP]; decide
  have c2 : (getProc (quantum_tick s0 0) 0).cpu_restante > 0 := by rw [← hs0, ← hsP]; decide
  have c3 : (quantum_tick s0 0).rnd_pos = 0 := by rw [← hs0, ← hsP]; decide
  have e : ∀ r : Nat → Nat, processo_pede_io (r 0) = true →
      quantum_loop r QUANTUM s0 0 = (some 2, pedir_io r
        { quantum_tick s0 0 with rnd_pos := (quantum_tick s0 0).rnd_pos + 1 } 0) ∧
      quantum_traco r QUANTUM s0 0 = [pedir_io r
        { quantum_tick s0 0 with rnd_pos := (quantum_tick s0 0).rnd_pos + 1 } 0] := by
    intro r hr
    refine ⟨quantum_loop_pedido r 2 s0 0 c1 c2 (by rw [c3]; exact hr), ?_⟩
    have hr' : processo_pede_io (r (quantum_tick s0 0).rnd_pos) = true := by rw [c3]; exact hr
    simp only [quantum_traco, c1, c2, hr', if_true]
  have ep : pedir_io rnd
      { quantum_tick s0 0 with rnd_pos := (quantum_tick s0 0).rnd_pos + 1 } 0 =
      pedir_io (fun _ => 0)
      { quantum_tick s0 0 with rnd_pos := (quantum_tick s0 0).rnd_pos + 1 } 0 := by
    apply pedir_io_congr
    · show rnd_range (rnd ((quantum_tick s0 0).rnd_pos + 1)) IO_DISCO IO_IMPRESSORA = _
      rw [c3, h1]; rfl
    · show duracao_io rnd ((quantum_tick s0 0).rnd_pos + 1 + 1)
        (rnd_range 0 IO_DISCO IO_IMPRESSORA) = duracao_io (fun _ => 0) _ _
      rw [c3]
      simp only [duracao_io]
      rw [if_pos (by decide), if_pos (by decide), h2]
      rfl
  have hz : processo_pede_io ((fun _ => 0 : Nat → Nat) 0) = true := rfl
  constructor
  · simp only [sched_iter, hsel, despachar, executar_quantum, hs0, (e rnd h0).1,
      (e (fun _ => 0) hz).1, ep]
  · simp only [iter_traco, hsel, hs0, (e rnd h0).2, (e (fun _ => 0) hz).2, ep]

/-- An iteration that finds both ready queues empty does not read the stream. -/
theorem passo_ocioso (rnd : Nat → Nat) (s : State) (f : Nat) (h : ocioso s = true) :
    sched_iter rnd s f = (atualizar_ios s, f) ∧ iter_traco rnd s = [atualizar_ios s] := by
  unfold ocioso at h
  cases hsel : selecionar s with
  | none => simp [sched_iter, iter_traco, hsel]
  | some p => rw [hsel] at h; cases h

/-- Two streams that drive every iteration up to the `n`-th the same way give the
same boundaries and the same trace of ticks. -/
theorem fronteira_traco_congr (rnd rnd' : Nat → Nat) :
    ∀ (n : Nat) (s : State) (f : Nat),
      (∀ k s' f', k < n → fronteira rnd' k s f = some (s', f') →
        sched_iter rnd s' f' = sched_iter rnd' s' f' ∧ iter_traco rnd s' = iter_traco rnd' s') →
      fronteira rnd n s f = fronteira rnd' n s f ∧ traco rnd n s f = traco rnd' n s f := by
  intro n
  induction n with
  | zero => intro s f _; exact ⟨rfl, rfl⟩
  | succ n ih =>
    intro s f h
    obtain ⟨e1, e2⟩ := h 0 s f (by omega) rfl
    rw [fronteira_succ, fronteira_succ]
    simp only [traco]
    by_cases hlt : f < s.N
    · simp only [if_pos hlt, e1, e2]
      have := ih (sched_iter rnd' s f).1 (sched_iter rnd' s f).2 (fun k s' f' hk hfr =>
        h (k + 1) s' f' (by omega) (by rw [fronteira_succ, if_pos hlt]; exact hfr))
      rw [this.1, this.2]
      exact ⟨rfl, rfl⟩
    · simp [if_neg hlt]

/-- The lone-process scenario with the stream that is constantly 0, by evaluation:
the request is made on the first tick, three idle ticks follow, and the third one
completes the I/O. -/
theorem exemplo_um_0 :
    fronteira (fun _ => 0) 1 (estado_um 5) 0
      = some ((sched_iter (fun _ => 0) (estado_um 5) 0).1, 0) ∧
    fronteira (fun _ => 0) 2 (estado_um 5) 0
      = some (atualizar_ios (sched_iter (fun _ => 0) (estado_um 5) 0).1, 0) ∧
    fronteira (fun _ => 0) 3 (estado_um 5) 0
      = some (atualizar_ios (atualizar_ios (sched_iter (fun _ => 0) (estado_um 5) 0).1), 0) ∧
    fronteira (fun _ => 0) 4 (estado_um 5) 0
      = some (atualizar_ios (atualizar_ios (atualizar_ios
          (sched_iter (fun _ => 0) (estado_um 5) 0).1)), 0) ∧
    traco (fun _ => 0) 4 (estado_um 5) 0 =
      [(sched_iter (fun _ => 0) (estado_um 5) 0).1,
       atualizar_ios (sched_iter (fun _ => 0) (estado_um 5) 0).1,
       atualizar_ios (atualizar_ios (sched_iter (fun _ => 0) (estado_um 5) 0).1),
       atualizar_ios (atualizar_ios (atualizar_ios
          (sched_iter (fun _ => 0) (estado_um 5) 0).1))] ∧
    ocioso (estado_um 5) = false ∧
    ocioso (sched_iter (fun _ => 0) (estado_um 5) 0).1 = true ∧
    ocioso (atualizar_ios (sched_iter (fun _ => 0) (estado_um 5) 0).1) = true ∧
    ocioso (atualizar_ios (atualizar_ios (sched_iter (fun _ => 0) (estado_um 5) 0).1)) = true ∧
    ocioso (atualizar_ios (atualizar_ios (atualizar_ios
      (sched_iter (fun _ => 0) (estado_um 5) 0).1))) = false := by
  decide

/-- The lone-process scenario with the stream that is constantly 0, by evaluation:
the PCB of the process at the four boundaries. -/
theorem exemplo_um_0_pcb :
    ((sched_iter (fun _ => 0) (estado_um 5) 0).1.tempo = 1 ∧
      getProc (sched_iter (fun _ => 0) (estado_um 5) 0).1 0 =
        { pid := 0, ppid := -1, prioridade := PRIORIDADE_ALTA, status := STATUS_BLOQ,
          cpu_total := 5, cpu_restante := 4, tipo_io := IO_DISCO, io_restante := 3 } ∧
      conteudo (sched_iter (fun _ => 0) (estado_um 5) 0).1 .io_disco = [0]) ∧
    ((atualizar_ios (sched_iter (fun _ => 0) (estado_um 5) 0).1).tempo = 2 ∧
      (getProc (atualizar_ios (sched_iter (fun _ => 0) (estado_um 5) 0).1) 0).status
        = STATUS_BLOQ) ∧
    ((atualizar_ios (atualizar_ios (sched_iter (fun _ => 0) (estado_um 5) 0).1)).tempo = 3 ∧
      (getProc (atualizar_ios (atualizar_ios (sched_iter (fun _ => 0) (estado_um 5) 0).1))
        0).status = STATUS_BLOQ) ∧
    ((atualizar_ios (atualizar_ios (atualizar_ios
        (sched_iter (fun _ => 0) (estado_um 5) 0).1))).tempo = 4 ∧
      getProc (atualizar_ios (atualizar_ios (atualizar_ios
        (sched_iter (fun _ => 0) (estado_um 5) 0).1))) 0 =
        { pid := 0, ppid := -1, prioridade := PRIORIDADE_BAIXA, status := STATUS_PRONTO,
          cpu_total := 5, cpu_restante := 4, tipo_io := IO_NENHUM, io_restante := 0 } ∧
      conteudo (atualizar_ios (atualizar_ios (atualizar_ios
        (sched_iter (fun _ => 0) (estado_um 5) 0).1))) .baixa = [0] ∧
      conteudo (atualizar_ios (atualizar_ios (atualizar_ios
        (sched_iter (fun _ => 0) (estado_um 5) 0).1))) .io_disco = []) := by
  decide

/-- The lone-process scenario for every stream that realises it: the boundaries and
the ticks are those of the stream that is constantly 0. -/
theorem exemplo_um_disco (rnd : Nat → Nat) (h0 : processo_pede_io (rnd 0) = true)
    (h1 : rnd_range (rnd 1) IO_DISCO IO_IMPRESSORA = IO_DISCO)
    (h2 : rnd_range (rnd 2) DUR_DISCO_MIN DUR_DISCO_MAX = 3) (n : Nat) (hn : n ≤ 4) :
    fronteira rnd n (estado_um 5) 0 = fronteira (fun _ => 0) n (estado_um 5) 0 ∧
      traco rnd n (estado_um 5) 0 = traco (fun _ => 0) n (estado_um 5) 0 := by
  obtain ⟨f1, f2, f3, _, _, _, o1, o2, o3, _⟩ := exemplo_um_0
  apply fronteira_traco_congr
  intro k s' f' hk hfr
  have hid : ∀ s, ocioso s = true →
      sched_iter rnd s f' = sched_iter (fun _ => 0) s f' ∧
        iter_traco rnd s = iter_traco (fun _ => 0) s := by
    intro s ho
    rw [(passo_ocioso rnd s f' ho).1, (passo_ocioso rnd s f' ho).2,
      (passo_ocioso (fun _ => 0) s f' ho).1, (passo_ocioso (fun _ => 0) s f' ho).2]
    exact ⟨rfl, rfl⟩
  have hk4 : k < 4 := by omega
  interval_cases k
  · simp only [fronteira, Option.some.injEq, Prod.mk.injEq] at hfr
    obtain ⟨rfl, rfl⟩ := hfr
    exact exemplo_um_pedido rnd h0 h1 h2
  · rw [f1] at hfr
    simp only [Option.some.injEq, Prod.mk.injEq] at hfr
    obtain ⟨rfl, rfl⟩ := hfr
    exact hid _ o1
  · rw [f2] at hfr
    simp only [Option.some.injEq, Prod.mk.injEq] at hfr
    obtain ⟨rfl, rfl⟩ := hfr
    exact hid _ o2
  · rw [f3] at hfr
    simp only [Option.some.injEq, Prod.mk.injEq] at hfr
    obtain ⟨rfl, rfl⟩ := hfr
    exact hid _ o3

/-- C12. I/O latency. (1) A CPU tick (`quantum_tick`) and an idle tick
(`atualizar_ios`) each advance the clock by one and run the three advancement
passes once, disk then tape then printer; when a request is triggered, `pedir_io`
works on the state these passes left, so the pass of the blocking tick does not see
the new request. (2) In the run from `gerar_processos`, for every stream and every
number of iterations, the trace of the states at the end of each clock tick is a
chain: the clock of its `k`-th state is the initial clock plus `k + 1`, and from one
state to the next every BLOCKED process with two or more ticks left loses exactly
one and every BLOCKED process with one tick left becomes READY. Hence a process
that is BLOCKED with `io_restante = d ≥ 1` in the state of clock `t` is BLOCKED in
the state of every clock value strictly between `t` and `t + d`, is READY in the
state of clock `t + d`, and a run that halts does reach that state; the state in
which a run halts has the clock of the last tick, and the PCB of every process that
was BLOCKED there. (3) For a lone
process with 5 units of CPU and a stream whose first three draws trigger a request,
select the disk and give duration 3: the request is made at clock 1, the next three
iterations are idle ticks (clock 2, 3, 4), the process is BLOCKED after the first
two and after the third it is READY with priority LOW in `fila_baixa`, and the
following iteration is not idle. -/
theorem C12_latencia (rnd : Nat → Nat) (s0 : State) (hd : Dimensionado s0) :
    (∀ s pid, quantum_tick s pid =
      tick_todos (setProc { s with tempo := s.tempo + 1 } pid
        { getProc s pid with cpu_restante := (getProc s pid).cpu_restante - 1 })) ∧
    (∀ s, atualizar_ios s = tick_todos { s with tempo := s.tempo + 1 }) ∧
    (∀ s, tick_todos s =
      tick_io_de_fila
        (tick_io_de_fila (tick_io_de_fila s .io_disco IO_DISCO) .io_fita IO_FITA)
        .io_impr IO_IMPRESSORA) ∧
    (∀ k s pid, (getProc s pid).cpu_restante > 0 →
      (getProc (quantum_tick s pid) pid).cpu_restante > 0 →
      processo_pede_io (rnd (quantum_tick s pid).rnd_pos) = true →
      quantum_loop rnd (k + 1) s pid =
        (some 2, pedir_io rnd
          { quantum_tick s pid with rnd_pos := (quantum_tick s pid).rnd_pos + 1 } pid)) ∧
    (∀ fuel,
      Encadeado (gerar_processos rnd s0) (traco rnd fuel (gerar_processos rnd s0) 0) ∧
      (∀ k x, (traco rnd fuel (gerar_processos rnd s0) 0)[k]? = some x →
        x.tempo = (gerar_processos rnd s0).tempo + k + 1) ∧
      (∀ (j : Nat) (x : State) (i : Int) (d : Nat),
        (traco rnd fuel (gerar_processos rnd s0) 0)[j]? = some x → valido i →
        (getProc x i).status = STATUS_BLOQ → (getProc x i).io_restante = (d : Int) → 1 ≤ d →
        (∀ k y, j < k → k < j + d →
          (traco rnd fuel (gerar_processos rnd s0) 0)[k]? = some y →
          (getProc y i).status = STATUS_BLOQ ∧ y.tempo = x.tempo + (k - j)) ∧
        (∀ y, (traco rnd fuel (gerar_processos rnd s0) 0)[j + d]? = some y →
          (getProc y i).status = STATUS_PRONTO ∧ y.tempo = x.tempo + d) ∧
        (∀ r, escalonador_rr_feedback rnd fuel (gerar_processos rnd s0) = some r →
          ∃ y, (traco rnd fuel (gerar_processos rnd s0) 0)[j + d]? = some y)) ∧
      (∀ r, escalonador_rr_feedback rnd fuel (gerar_processos rnd s0) = some r →
        Quieto (ultimo (gerar_processos rnd s0) (traco rnd fuel (gerar_processos rnd s0) 0))
          r.1)) ∧
    (processo_pede_io (rnd 0) = true →
      rnd_range (rnd 1) IO_DISCO IO_IMPRESSORA = IO_DISCO →
      rnd_range (rnd 2) DUR_DISCO_MIN DUR_DISCO_MAX = 3 →
      ∃ sA sB sC sD,
        traco rnd 4 (estado_um 5) 0 = [sA, sB, sC, sD] ∧
        fronteira rnd 1 (estado_um 5) 0 = some (sA, 0) ∧
        fronteira rnd 2 (estado_um 5) 0 = some (sB, 0) ∧
        fronteira rnd 3 (estado_um 5) 0 = some (sC, 0) ∧
        fronteira rnd 4 (estado_um 5) 0 = some (sD, 0) ∧
        ocioso (estado_um 5) = false ∧ ocioso sA = true ∧ ocioso sB = true ∧
        ocioso sC = true ∧ ocioso sD = false ∧
        sA.tempo = 1 ∧ (getProc sA 0).status = STATUS_BLOQ ∧
        (getProc sA 0).tipo_io = IO_DISCO ∧ (getProc sA 0).io_restante = 3 ∧
        conteudo sA .io_disco = [0] ∧
        sB.tempo = 2 ∧ (getProc sB 0).status = STATUS_BLOQ ∧
        sC.tempo = 3 ∧ (getProc sC 0).status = STATUS_BLOQ ∧
        sD.tempo = 4 ∧ (getProc sD 0).status = STATUS_PRONTO ∧
        (getProc sD 0).prioridade = PRIORIDADE_BAIXA ∧
        conteudo sD .baixa = [0] ∧ conteudo sD .io_disco = []) := by
  refine ⟨fun _ _ => rfl, fun _ => rfl, fun _ => rfl,
    fun k s pid h1 h2 h3 => quantum_loop_pedido rnd k s pid h1 h2 h3, ?_, ?_⟩
  · intro fuel
    have h0 := InvF_inicial rnd s0 hd
    generalize gerar_processos rnd s0 = s1 at h0 ⊢
    obtain ⟨hc, hq⟩ := traco_cadeia rnd fuel s1 0 h0.1
    generalize htr : traco rnd fuel s1 0 = tr at hc hq
    refine ⟨hc, Encadeado_tempo tr s1 hc, ?_, hq⟩
    intro j x i d hx hv hb hio hd1
    obtain ⟨hcx, hux⟩ := Encadeado_drop tr s1 hc j x hx
    obtain ⟨l1, l2, l3⟩ := Encadeado_latencia i hv (tr.drop (j + 1)) x d hcx hb hio hd1
    have htx := Encadeado_tempo tr s1 hc j x hx
    refine ⟨fun k y hjk hkd hy => ?_, fun y hy => ?_, fun r hr => ?_⟩
    · have hy' : (tr.drop (j + 1))[k - j - 1]? = some y := by
        rw [List.getElem?_drop]
        have : j + 1 + (k - j - 1) = k := by omega
        rw [this]; exact hy
      refine ⟨(l1 (k - j - 1) y hy' (by omega)).1, ?_⟩
      rw [Encadeado_tempo tr s1 hc k y hy, htx]
      omega
    · have hy' : (tr.drop (j + 1))[d - 1]? = some y := by
        rw [List.getElem?_drop]
        have : j + 1 + (d - 1) = j + d := by omega
        rw [this]; exact hy
      refine ⟨l2 y hy', ?_⟩
      rw [Encadeado_tempo tr s1 hc (j + d) y hy, htx]
      omega
    · by_cases hlen : j + d < tr.length
      · exact ⟨tr[j + d], List.getElem?_eq_getElem hlen⟩
      · exfalso
        have hlt : (tr.drop (j + 1)).length < d := by
          rw [List.length_drop]
          have := (List.getElem?_eq_some_iff.1 hx).1
          omega
        have hbl := l3 hlt
        rw [hux] at hbl
        have hqr := hq r hr
        have hbr : (getProc r.1 i).status = STATUS_BLOQ := by
          rw [hqr.2 i hv hbl]; exact hbl
        obtain ⟨s', f'⟩ := r
        obtain ⟨n, _, hfr, hnl⟩ := escalonador_loop_fronteira rnd fuel s1 0 s' f' hr
        obtain ⟨hI, hf, _⟩ := fronteira_InvF rnd s1 0 h0 n s' f' hfr
        have hfim := todos_fim s' hI.hN (by rw [← hf]; omega) i hv
        simp only at hbr
        rw [hfim] at hbr
        exact absurd hbr (by decide)
  · intro h0 h1 h2
    obtain ⟨f1, f2, f3, f4, ft, o0, o1, o2, o3, o4⟩ := exemplo_um_0
    obtain ⟨⟨a1, a2, a3⟩, ⟨b1, b2⟩, ⟨c1, c2⟩, d1, d2, d3, d4⟩ := exemplo_um_0_pcb
    have e := exemplo_um_disco rnd h0 h1 h2
    refine ⟨_, _, _, _, by rw [(e 4 (by omega)).2]; exact ft,
      by rw [(e 1 (by omega)).1]; exact f1, by rw [(e 2 (by omega)).1]; exact f2,
      by rw [(e 3 (by omega)).1]; exact f3, by rw [(e 4 (by omega)).1]; exact f4,
      o0, o1, o2, o3, o4, a1, by rw [a2], by rw [a2], by rw [a2], a3, b1, b2, c1, c2,
      d1, by rw [d2], by rw [d2], d3, d4⟩

/-- C12, instance: the run from the zero store with the stream that is constantly 0,
which requests I/O at every opportunity. Process 0 is BLOCKED with 3 ticks of disk
I/O left at the end of the first tick, and READY at the end of the fourth, three
clock values later. -/
theorem C12_latencia_witness :
    Dimensionado estado_zero ∧
    (traco (fun _ => 0) 4 (gerar_processos (fun _ => 0) estado_zero) 0)[0]?
      = some (ultimo estado_zero
          (traco (fun _ => 0) 1 (gerar_processos (fun _ => 0) estado_zero) 0)) ∧
    valido 0 ∧
    (getProc (ultimo estado_zero
      (traco (fun _ => 0) 1 (gerar_processos (fun _ => 0) estado_zero) 0)) 0).status
      = STATUS_BLOQ ∧
    (getProc (ultimo estado_zero
      (traco (fun _ => 0) 1 (gerar_processos (fun _ => 0) estado_zero) 0)) 0).io_restante
      = ((3 : Nat) : Int) ∧
    (traco (fun _ => 0) 4 (gerar_processos (fun _ => 0) estado_zero) 0)[0 + 3]?
      = some (ultimo estado_zero
          (traco (fun _ => 0) 4 (gerar_processos (fun _ => 0) estado_zero) 0)) ∧
    (getProc (ultimo estado_zero
      (traco (fun _ => 0) 4 (gerar_processos (fun _ => 0) estado_zero) 0)) 0).status
      = STATUS_PRONTO ∧
    (ultimo estado_zero
      (traco (fun _ => 0) 4 (gerar_processos (fun _ => 0) estado_zero) 0)).tempo
      = (ultimo estado_zero
          (traco (fun _ => 0) 1 (gerar_processos (fun _ => 0) estado_zero) 0)).tempo + 3 :=
  ⟨by decide, by decide, by decide, by decide, by decide, by decide,
    ((((C12_latencia (fun _ => 0) estado_zero (by decide)).2.2.2.2.1 4).2.2.1 0
      (ultimo estado_zero
        (traco (fun _ => 0) 1 (gerar_processos (fun _ => 0) estado_zero) 0)) 0 3
      (by decide) (by decide) (by decide) (by decide) (by decide)).2.1
      (ultimo estado_zero
        (traco (fun _ => 0) 4 (gerar_processos (fun _ => 0) estado_zero) 0)) (by decide)).1,
    ((((C12_latencia (fun _ => 0) estado_zero (by decide)).2.2.2.2.1 4).2.2.1 0
      (ultimo estado_zero
        (traco (fun _ => 0) 1 (gerar_processos (fun _ => 0) estado_zero) 0)) 0 3
      (by decide) (by decide) (by decide) (by decide) (by decide)).2.1
      (ultimo estado_zero
        (traco (fun _ => 0) 4 (gerar_processos (fun _ => 0) estado_zero) 0)) (by decide)).2⟩

/-! ## Lemmas: the queue refines a bounded FIFO -/

/-- Function `fila_push` on a consistent queue does what `fifo_push` does on its content. -/
theorem fila_push_refina (q : Fila) (x : Int) (hw : q.wf) :
    (fila_push q x).2.wf ∧ (fila_push q x).1 = (fifo_push q.toList x).1 ∧
      (fila_push q x).2.toList = (fifo_push q.toList x).2 := by
  have hq := ((Fila.wf_iff q).1 hw).2.2.1
  by_cases hc : q.qtd = MAX_PROCESSOS
  · rw [fila_push_cheia q x hc]
    simp [fifo_push, Fila.length_toList, hc, hw]
  · obtain ⟨a, b, c⟩ := fila_push_ok q x hw (by simp only [MAX_PROCESSOS] at hc ⊢; omega)
    simp [fifo_push, Fila.length_toList, hc, a, b, c]

/-- Function `fila_pop` on a consistent queue does what `fifo_pop` does on its content. -/
theorem fila_pop_refina (q : Fila) (d : Int) (hw : q.wf) :
    (fila_pop q d).2.1.wf ∧ (fila_pop q d).1 = (fifo_pop q.toList d).1 ∧
      (fila_pop q d).2.1.toList = (fifo_pop q.toList d).2.1 ∧
      (fila_pop q d).2.2 = (fifo_pop q.toList d).2.2 := by
  cases hl : q.toList with
  | nil =>
    have hq : q.qtd = 0 := by
      have := Fila.length_toList q
      rw [hl] at this
      simpa using this.symm
    rw [fila_pop_vazia q d hq]
    simp [fifo_pop, hw, hl]
  | cons a t =>
    obtain ⟨x1, x2, x3, x4⟩ := fila_pop_ok q d a t hw hl
    simp [fifo_pop, x1, x2, x3, x4]

/-- A client sees the same results on a consistent circular queue and on the
specification, call by call. -/
theorem fila_exec_refina :
    ∀ (ops : List Op) (q : Fila), q.wf →
      (fila_exec ops q).2.2.wf ∧ (fila_exec ops q).1 = (fifo_exec ops q.toList).1 ∧
        (fila_exec ops q).2.1 = (fifo_exec ops q.toList).2.1 ∧
        (fila_exec ops q).2.2.toList = (fifo_exec ops q.toList).2.2 := by
  intro ops
  induction ops with
  | nil => intro q hw; exact ⟨hw, rfl, rfl, rfl⟩
  | cons o ops ih =>
    intro q hw
    cases o with
    | push x =>
      obtain ⟨a, b, c⟩ := fila_push_refina q x hw
      obtain ⟨i1, i2, i3, i4⟩ := ih _ a
      simp only [fila_exec, fifo_exec]
      rw [← c, ← b]
      exact ⟨i1, i2, by rw [i3], i4⟩
    | pop =>
      obtain ⟨a, b, c, d⟩ := fila_pop_refina q 0 hw
      obtain ⟨i1, i2, i3, i4⟩ := ih _ a
      simp only [fila_exec, fifo_exec]
      rw [← c, ← b, ← d]
      exact ⟨i1, by rw [i2], i3, i4⟩

/-- First in, first out, on the specification side: what was in the list followed by
what was stored is what came out followed by what is left. -/
theorem fifo_exec_ordem :
    ∀ (ops : List Op) (l : List Int),
      l ++ (fifo_exec ops l).2.1 = (fifo_exec ops l).1 ++ (fifo_exec ops l).2.2 ∧
      (l.length ≤ MAX_PROCESSOS → (fifo_exec ops l).2.2.length ≤ MAX_PROCESSOS) := by
  intro ops
  induction ops with
  | nil => intro l; simp [fifo_exec]
  | cons o ops ih =>
    intro l
    cases o with
    | push x =>
      simp only [fifo_exec, fifo_push]
      by_cases hc : l.length = MAX_PROCESSOS
      · simp only [if_pos hc]
        rw [if_neg (by decide)]
        exact ih l
      · simp only [if_neg hc]
        rw [if_pos trivial]
        obtain ⟨a, b⟩ := ih (l ++ [x])
        refine ⟨by rw [← a]; simp, fun hl => b ?_⟩
        simp only [List.length_append, List.length_singleton]
        omega
    | pop =>
      cases l with
      | nil =>
        simp only [fifo_exec, fifo_pop]
        rw [if_neg (by decide)]
        exact ih []
      | cons a t =>
        simp only [fifo_exec, fifo_pop]
        rw [if_pos trivial]
        obtain ⟨x, y⟩ := ih t
        refine ⟨by simp only [List.cons_append]; rw [x], fun hl => y ?_⟩
        simp only [List.length_cons] at hl
        omega

/-- C13. The queue is a bounded FIFO. With `Fila.toList` as abstraction function
and `Fila.wf` as representation invariant (the array has `MAX_PROCESSOS` cells,
`inicio` is an index, `qtd` is at most `MAX_PROCESSOS` and `fim` is `inicio + qtd`
modulo `MAX_PROCESSOS`): `fila_init` gives a consistent queue whose content is the
empty list; `fila_push` and `fila_pop` keep the queue consistent and act on its
content as `fifo_push` and `fifo_pop` do, so a successful push appends at the end
and a successful pop returns and removes the first element; the content never has
more than `MAX_PROCESSOS` elements; `fila_vazia` and `fila_cheia` hold iff the
content has length 0 and `MAX_PROCESSOS`. Hence for every sequence of calls made on
a queue after `fila_init`, the results are those of the same calls on the empty
list, and the pids stored by the successful pushes are, in the same order, the pids
returned by the successful pops followed by the content left. The sequence
`ops_volta`, which makes `fim` and `inicio` wrap around, returns its twelve pids in
pushing order. -/
theorem C13_fifo (q : Fila) (hl : q.idx.length = MAX_PROCESSOS) :
    ((fila_init q).wf ∧ (fila_init q).toList = []) ∧
    (∀ (p : Fila) (x : Int), p.wf →
      (fila_push p x).2.wf ∧
      ((fila_push p x).1, (fila_push p x).2.toList) = fifo_push p.toList x) ∧
    (∀ (p : Fila) (x : Int), p.wf → (fila_push p x).1 = 1 →
      (fila_push p x).2.toList = p.toList ++ [x]) ∧
    (∀ (p : Fila) (d : Int), p.wf →
      (fila_pop p d).2.1.wf ∧
      ((fila_pop p d).1, (fila_pop p d).2.1.toList, (fila_pop p d).2.2)
        = fifo_pop p.toList d) ∧
    (∀ (p : Fila) (d : Int), p.wf → (fila_pop p d).1 = 1 →
      p.toList = (fila_pop p d).2.2 :: (fila_pop p d).2.1.toList) ∧
    (∀ (p : Fila), p.wf → p.toList.length ≤ MAX_PROCESSOS) ∧
    (∀ (p : Fila), (fila_vazia p = true ↔ p.toList.length = 0) ∧
      (fila_cheia p = true ↔ p.toList.length = MAX_PROCESSOS)) ∧
    (∀ ops : List Op,
      (fila_exec ops (fila_init q)).2.2.wf ∧
      (fila_exec ops (fila_init q)).1 = (fifo_exec ops []).1 ∧
      (fila_exec ops (fila_init q)).2.1 = (fifo_exec ops []).2.1 ∧
      (fila_exec ops (fila_init q)).2.2.toList = (fifo_exec ops []).2.2 ∧
      (fila_exec ops (fila_init q)).2.1 =
        (fila_exec ops (fila_init q)).1 ++ (fila_exec ops (fila_init q)).2.2.toList) ∧
    ((fila_exec ops_volta (fila_init q)).1 = [10, 11, 12, 13, 14, 15, 16, 17, 18, 19, 20, 21] ∧
      (fila_exec ops_volta (fila_init q)).2.1
        = [10, 11, 12, 13, 14, 15, 16, 17, 18, 19, 20, 21] ∧
      (fila_exec ops_volta (fila_init q)).2.2.toList = [] ∧
      (fila_exec (ops_volta.take 8) (fila_init estado_zero.fila_alta)).2.2.fim = 0 ∧
      (fila_exec (ops_volta.take 16) (fila_init estado_zero.fila_alta)).2.2.fim = 4 ∧
      (fila_exec (ops_volta.take 20) (fila_init estado_zero.fila_alta)).2.2.inicio = 0 ∧
      (fila_exec ops_volta (fila_init estado_zero.fila_alta)).2.2.inicio = 4) := by
  obtain ⟨hw0, ht0⟩ := fila_init_ok q hl
  have hexec : ∀ ops : List Op,
      (fila_exec ops (fila_init q)).2.2.wf ∧
      (fila_exec ops (fila_init q)).1 = (fifo_exec ops []).1 ∧
      (fila_exec ops (fila_init q)).2.1 = (fifo_exec ops []).2.1 ∧
      (fila_exec ops (fila_init q)).2.2.toList = (fifo_exec ops []).2.2 := by
    intro ops
    have := fila_exec_refina ops (fila_init q) hw0
    rw [ht0] at this
    exact this
  refine ⟨⟨hw0, ht0⟩, ?_, ?_, ?_, ?_, ?_, ?_, ?_, ?_⟩
  · intro p x hw
    obtain ⟨a, b, c⟩ := fila_push_refina p x hw
    exact ⟨a, by rw [b, c]⟩
  · intro p x hw h1
    obtain ⟨_, b, c⟩ := fila_push_refina p x hw
    rw [c]
    rw [b] at h1
    unfold fifo_push at h1 ⊢
    split_ifs at h1 ⊢ with hc
    · cases h1
    · rfl
  · intro p d hw
    obtain ⟨a, b, c, e⟩ := fila_pop_refina p d hw
    exact ⟨a, by rw [b, c, e]⟩
  · intro p d hw h1
    obtain ⟨_, b, c, e⟩ := fila_pop_refina p d hw
    rw [c, e]
    rw [b] at h1
    cases hp : p.toList with
    | nil => rw [hp] at h1; simp [fifo_pop] at h1
    | cons a t => simp [fifo_pop]
  · intro p hw
    rw [Fila.length_toList]
    exact ((Fila.wf_iff p).1 hw).2.2.1
  · intro p
    rw [Fila.length_toList]
    simp [fila_vazia, fila_cheia]
  · intro ops
    obtain ⟨a, b, c, d⟩ := hexec ops
    refine ⟨a, b, c, d, ?_⟩
    rw [b, c, d]
    have := (fifo_exec_ordem ops []).1
    simpa using this
  · obtain ⟨_, b, c, d⟩ := hexec ops_volta
    refine ⟨by rw [b]; decide, by rw [c]; decide, by rw [d]; decide, by decide, by decide,
      by decide, by decide⟩

/-- C13, instance: the queue `fila_alta` of the zero store and the sequence
`ops_volta`. -/
theorem C13_fifo_witness :
    estado_zero.fila_alta.idx.length = MAX_PROCESSOS ∧
    (fila_exec ops_volta (fila_init estado_zero.fila_alta)).1
      = [10, 11, 12, 13, 14, 15, 16, 17, 18, 19, 20, 21] :=
  ⟨by decide, (C13_fifo estado_zero.fila_alta (by decide)).2.2.2.2.2.2.2.2.1⟩

/-- C14. Queue failure cases. For every queue, every pid and every previous content
`pid_out` of the output cell: `fila_push` returns 0 or 1, and 0 iff the queue
already holds `MAX_PROCESSOS` entries (`qtd`, which is the length of the content);
`fila_pop` returns 0 or 1, and 0 iff the queue is empty; a failing push leaves the
queue (array, `inicio`, `fim`, `qtd`) as it was, and a failing pop leaves the queue
and the output cell as they were. -/
theorem C14_falhas (q : Fila) (pid pid_out : Int) :
    ((fila_push q pid).1 = 0 ∨ (fila_push q pid).1 = 1) ∧
    ((fila_push q pid).1 = 0 ↔ q.qtd = MAX_PROCESSOS) ∧
    ((fila_push q pid).1 = 0 ↔ q.toList.length = MAX_PROCESSOS) ∧
    ((fila_push q pid).1 = 0 → (fila_push q pid).2 = q) ∧
    ((fila_pop q pid_out).1 = 0 ∨ (fila_pop q pid_out).1 = 1) ∧
    ((fila_pop q pid_out).1 = 0 ↔ q.qtd = 0) ∧
    ((fila_pop q pid_out).1 = 0 ↔ q.toList = []) ∧
    ((fila_pop q pid_out).1 = 0 →
      (fila_pop q pid_out).2.1 = q ∧ (fila_pop q pid_out).2.2 = pid_out) := by
  have hpush : ((fila_push q pid).1 = 0 ∨ (fila_push q pid).1 = 1) ∧
      ((fila_push q pid).1 = 0 ↔ q.qtd = MAX_PROCESSOS) ∧
      ((fila_push q pid).1 = 0 → (fila_push q pid).2 = q) := by
    by_cases hc : q.qtd = MAX_PROCESSOS
    · rw [fila_push_cheia q pid hc]
      exact ⟨Or.inl rfl, ⟨fun _ => hc, fun _ => rfl⟩, fun _ => rfl⟩
    · have e : (fila_push q pid).1 = 1 := by
        simp [fila_push, fila_cheia, hc]
      rw [e]
      exact ⟨Or.inr rfl, ⟨fun h => absurd h (by decide), fun h => absurd h hc⟩,
        fun h => absurd h (by decide)⟩
  have hpop : ((fila_pop q pid_out).1 = 0 ∨ (fila_pop q pid_out).1 = 1) ∧
      ((fila_pop q pid_out).1 = 0 ↔ q.qtd = 0) ∧
      ((fila_pop q pid_out).1 = 0 →
        (fila_pop q pid_out).2.1 = q ∧ (fila_pop q pid_out).2.2 = pid_out) := by
    by_cases hc : q.qtd = 0
    · rw [fila_pop_vazia q pid_out hc]
      exact ⟨Or.inl rfl, ⟨fun _ => hc, fun _ => rfl⟩, fun _ => ⟨rfl, rfl⟩⟩
    · have e : (fila_pop q pid_out).1 = 1 := by
        simp [fila_pop, fila_vazia, hc]
      rw [e]
      exact ⟨Or.inr rfl, ⟨fun h => absurd h (by decide), fun h => absurd h hc⟩,
        fun h => absurd h (by decide)⟩
  have hlen := Fila.length_toList q
  refine ⟨hpush.1, hpush.2.1, ?_, hpush.2.2, hpop.1, hpop.2.1, ?_, hpop.2.2⟩
  · rw [hpush.2.1, hlen]
  · rw [hpop.2.1, ← List.length_eq_zero, hlen]

/-- C14, instance: a push on the full disk queue of `estado_no_disco 0 0` and a pop
on the empty `fila_alta` of the zero store. -/
theorem C14_falhas_witness :
    (fila_push (estado_no_disco 0 0).fila_io_disco 9).1 = 0 ∧
    (fila_push (estado_no_disco 0 0).fila_io_disco 9).2 = (estado_no_disco 0 0).fila_io_disco ∧
    (fila_pop estado_zero.fila_alta 7).1 = 0 ∧
    (fila_pop estado_zero.fila_alta 7).2.1 = estado_zero.fila_alta ∧
    (fila_pop estado_zero.fila_alta 7).2.2 = 7 :=
  ⟨by decide, (C14_falhas (estado_no_disco 0 0).fila_io_disco 9 0).2.2.2.1 (by decide),
    by decide, (C14_falhas estado_zero.fila_alta 0 7).2.2.2.2.2.2.2 (by decide)⟩

/-- C15. Process generation postcondition. After `gerar_processos`, for every random
stream and whatever the arrays held before: `N = MAX_PROCESSOS`; for each `i` below
`N`, `proc[i]` has `pid = i`, `ppid = -1` if `i = 0` and `0` otherwise, priority
HIGH, status READY, `cpu_total` in `[CPU_MIN, CPU_MAX] = [8, 25]` (the value drawn
at the `i`-th call of `rand`), `cpu_restante = cpu_total`, `tipo_io = IO_NENHUM` and
`io_restante = 0`; `fila_alta` holds exactly the pids `0, 1, ..., 7` in that order;
`fila_baixa` and the three device queues are empty; the queues are consistent. -/
theorem C15_gerar (rnd : Nat → Nat) (s0 : State) (hd : Dimensionado s0) :
    (gerar_processos rnd s0).N = MAX_PROCESSOS ∧
    (∀ i : Nat, i < (gerar_processos rnd s0).N →
      (getProc (gerar_processos rnd s0) (i : Int)).pid = (i : Int) ∧
      (getProc (gerar_processos rnd s0) (i : Int)).ppid = (if i = 0 then -1 else 0) ∧
      (getProc (gerar_processos rnd s0) (i : Int)).prioridade = PRIORIDADE_ALTA ∧
      (getProc (gerar_processos rnd s0) (i : Int)).status = STATUS_PRONTO ∧
      (getProc (gerar_processos rnd s0) (i : Int)).cpu_total
        = rnd_range (rnd (s0.rnd_pos + i)) CPU_MIN CPU_MAX ∧
      8 ≤ (getProc (gerar_processos rnd s0) (i : Int)).cpu_total ∧
      (getProc (gerar_processos rnd s0) (i : Int)).cpu_total ≤ 25 ∧
      (getProc (gerar_processos rnd s0) (i : Int)).cpu_restante
        = (getProc (gerar_processos rnd s0) (i : Int)).cpu_total ∧
      (getProc (gerar_processos rnd s0) (i : Int)).tipo_io = IO_NENHUM ∧
      (getProc (gerar_processos rnd s0) (i : Int)).io_restante = 0) ∧
    conteudo (gerar_processos rnd s0) .alta = [0, 1, 2, 3, 4, 5, 6, 7] ∧
    conteudo (gerar_processos rnd s0) .alta
      = (List.range (gerar_processos rnd s0).N).map (fun (i : Nat) => (i : Int)) ∧
    conteudo (gerar_processos rnd s0) .baixa = [] ∧
    conteudo (gerar_processos rnd s0) .io_disco = [] ∧
    conteudo (gerar_processos rnd s0) .io_fita = [] ∧
    conteudo (gerar_processos rnd s0) .io_impr = [] ∧
    fila_vazia (gerar_processos rnd s0).fila_baixa = true ∧
    fila_vazia (gerar_processos rnd s0).fila_io_disco = true ∧
    fila_vazia (gerar_processos rnd s0).fila_io_fita = true ∧
    fila_vazia (gerar_processos rnd s0).fila_io_impr = true ∧
    WF (gerar_processos rnd s0) := by
  obtain ⟨hw, hN, ha, hg, hp, _, _⟩ := gerar_processos_spec rnd s0 hd
  have hvz : ∀ g, g ≠ FilaId.alta → fila_vazia (getFila (gerar_processos rnd s0) g) = true := by
    intro g hne
    have := hg g hne
    have hl := Fila.length_toList (getFila (gerar_processos rnd s0) g)
    unfold conteudo at this
    rw [this] at hl
    simp only [List.length_nil] at hl
    simp [fila_vazia, ← hl]
  refine ⟨hN, ?_, ha, by rw [ha, hN]; decide, hg _ (by decide), hg _ (by decide),
    hg _ (by decide), hg _ (by decide), hvz .baixa (by decide), hvz .io_disco (by decide),
    hvz .io_fita (by decide), hvz .io_impr (by decide), hw⟩
  intro i hi
  rw [hN] at hi
  rw [hp i hi]
  obtain ⟨l1, l2⟩ := rnd_range_limites (rnd (s0.rnd_pos + i)) CPU_MIN CPU_MAX (by decide) (by decide) (by decide) (by decide)
  exact ⟨rfl, rfl, rfl, rfl, rfl, l1, l2, rfl, rfl, rfl⟩

/-- C15, instance: the zero store and the stream that is constantly 0. -/
theorem C15_gerar_witness :
    Dimensionado estado_zero ∧
    (gerar_processos (fun _ => 0) estado_zero).N = MAX_PROCESSOS ∧
    conteudo (gerar_processos (fun _ => 0) estado_zero) .alta = [0, 1, 2, 3, 4, 5, 6, 7] ∧
    conteudo (gerar_processos (fun _ => 0) estado_zero) .baixa = [] :=
  ⟨by decide, (C15_gerar (fun _ => 0) estado_zero (by decide)).1,
    (C15_gerar (fun _ => 0) estado_zero (by decide)).2.2.1,
    (C15_gerar (fun _ => 0) estado_zero (by decide)).2.2.2.2.1⟩

/-- C16, counterexample. The equation of the claim fails for integers `min ≤ max`
whose span does not fit an `int`. With the draw 7 and the bounds -2147483646 and
2147483644 (both are `int` values, and `min ≤ max`) the expression
`duracao_max - duracao_min + 1` of line 101 is 4294967291 mathematically and wraps
to -5, so `rand() % -5` is 2 and the code returns -2147483644, whereas
`min + r mod (max - min + 1)` is -2147483639. (The value returned is still within
the bounds.) -/
theorem C16_contraexemplo :
    INT_MIN ≤ (-2147483646 : Int) ∧ (2147483644 : Int) ≤ INT_MAX ∧
    (-2147483646 : Int) ≤ 2147483644 ∧
    int32 (2147483644 - (-2147483646) + 1) = -5 ∧
    rnd_range 7 (-2147483646) 2147483644 = -2147483644 ∧
    (-2147483646 : Int) + ((7 : Nat) : Int) % (2147483644 - (-2147483646) + 1) = -2147483639 ∧
    ¬ (∀ (r : Nat) (a b : Int), a ≤ b →
        rnd_range r a b = a + (r : Int) % (b - a + 1)) := by
  refine ⟨by decide, by decide, by decide, by decide, by decide, by decide, ?_⟩
  intro hall
  exact absurd (hall 7 (-2147483646) 2147483644 (by decide)) (by decide)

/-- C16, amended. Random ranges. For every value `r` returned by `rand()` (a natural
number) and all `int` values `a ≤ b` (that is, `INT_MIN ≤ a` and `b ≤ INT_MAX`, `int`
being 32 bits wide with wrap-around arithmetic): if the span does not overflow
(`b - a + 1 ≤ INT_MAX`), `rnd_range` with bounds `a`, `b` returns
`a + r mod (b - a + 1)`; and unless `a = INT_MIN` and `b = INT_MAX` (where the
modulus wraps to 0 and the remainder is undefined), the value it returns lies in
`[a, b]`.
Consequently, whatever the stream and the cursor: `duracao_io` returns a value in
`[3, 7]` for the disk, `[4, 9]` for the tape and `[5, 10]` for the printer, having
consumed one draw, and returns 0 with no draw for any other kind; the device kind
drawn by `rnd_range` with bounds `IO_DISCO`, `IO_IMPRESSORA` is DISK, TAPE or
PRINTER; and that drawn kind is what `pedir_io` (lines 227-230 of
`executar_quantum`) stores in `tipo_io` of the requesting process. -/
theorem C16_faixas (rnd : Nat → Nat) (r pos : Nat) (a b : Int) (h : a ≤ b)
    (ha : INT_MIN ≤ a) (hb : b ≤ INT_MAX) :
    (b - a + 1 ≤ INT_MAX → rnd_range r a b = a + (r : Int) % (b - a + 1)) ∧
    (¬ (a = INT_MIN ∧ b = INT_MAX) → a ≤ rnd_range r a b ∧ rnd_range r a b ≤ b) ∧
    (3 ≤ (duracao_io rnd pos IO_DISCO).1 ∧ (duracao_io rnd pos IO_DISCO).1 ≤ 7 ∧
      (duracao_io rnd pos IO_DISCO).2 = pos + 1) ∧
    (4 ≤ (duracao_io rnd pos IO_FITA).1 ∧ (duracao_io rnd pos IO_FITA).1 ≤ 9 ∧
      (duracao_io rnd pos IO_FITA).2 = pos + 1) ∧
    (5 ≤ (duracao_io rnd pos IO_IMPRESSORA).1 ∧ (duracao_io rnd pos IO_IMPRESSORA).1 ≤ 10 ∧
      (duracao_io rnd pos IO_IMPRESSORA).2 = pos + 1) ∧
    (∀ tipo : Int, tipo ≠ IO_DISCO → tipo ≠ IO_FITA → tipo ≠ IO_IMPRESSORA →
      duracao_io rnd pos tipo = (0, pos)) ∧
    (rnd_range r IO_DISCO IO_IMPRESSORA = IO_DISCO ∨
      rnd_range r IO_DISCO IO_IMPRESSORA = IO_FITA ∨
      rnd_range r IO_DISCO IO_IMPRESSORA = IO_IMPRESSORA) ∧
    (∀ (s : State) (pid : Int), WF s → valido pid →
      (getProc (pedir_io rnd s pid) pid).tipo_io
        = rnd_range (rnd s.rnd_pos) IO_DISCO IO_IMPRESSORA ∧
      ((getProc (pedir_io rnd s pid) pid).tipo_io = IO_DISCO ∨
        (getProc (pedir_io rnd s pid) pid).tipo_io = IO_FITA ∨
        (getProc (pedir_io rnd s pid) pid).tipo_io = IO_IMPRESSORA) ∧
      (getProc (pedir_io rnd s pid) pid).io_restante
        = (duracao_io rnd (s.rnd_pos + 1) (getProc (pedir_io rnd s pid) pid).tipo_io).1) := by
  have hD := duracao_io_limites rnd pos IO_DISCO (Or.inl rfl)
  have hF := duracao_io_limites rnd pos IO_FITA (Or.inr (Or.inl rfl))
  have hI := duracao_io_limites rnd pos IO_IMPRESSORA (Or.inr (Or.inr rfl))
  refine ⟨fun hs => rnd_range_exato r a b h ha hb (by omega),
    fun hz => rnd_range_limites_geral r a b h ha hb hz,
    ⟨(hD.2.1 rfl).1, (hD.2.1 rfl).2, hD.1⟩, ⟨(hF.2.2.1 rfl).1, (hF.2.2.1 rfl).2, hF.1⟩,
    ⟨(hI.2.2.2 rfl).1, (hI.2.2.2 rfl).2, hI.1⟩, ?_, tipo_sorteado r, ?_⟩
  · intro tipo h1 h2 h3
    simp [duracao_io, h1, h2, h3]
  · intro s pid hw hv
    have hin := valido_dentro s hw pid hv
    have e : getProc (pedir_io rnd s pid) pid =
        { getProc s pid with
          status := STATUS_BLOQ
          tipo_io := rnd_range (rnd s.rnd_pos) IO_DISCO IO_IMPRESSORA
          io_restante := (duracao_io rnd (s.rnd_pos + 1)
            (rnd_range (rnd s.rnd_pos) IO_DISCO IO_IMPRESSORA)).1 } := by
      rw [pedir_io_eq, getProc_pushTo]
      exact getProc_setProc_eq _ _ _ hin
    rw [e]
    exact ⟨rfl, tipo_sorteado _, rfl⟩

/-- C16, instance: the draw 9 with the disk bounds 3 and 7 gives `3 + 9 mod 5 = 7`. -/
theorem C16_faixas_witness :
    (3 : Int) ≤ 7 ∧ INT_MIN ≤ (3 : Int) ∧ (7 : Int) ≤ INT_MAX ∧ (7 : Int) - 3 + 1 ≤ INT_MAX ∧
    ¬ ((3 : Int) = INT_MIN ∧ (7 : Int) = INT_MAX) ∧
    rnd_range 9 3 7 = 3 + ((9 : Nat) : Int) % (7 - 3 + 1) ∧ rnd_range 9 3 7 = 7 ∧
    (3 : Int) ≤ rnd_range 9 3 7 ∧ rnd_range 9 3 7 ≤ 7 :=
  ⟨by decide, by decide, by decide, by decide, by decide,
    (C16_faixas (fun _ => 0) 9 0 3 7 (by decide) (by decide) (by decide)).1 (by decide),
    by decide,
    (C16_faixas (fun _ => 0) 9 0 3 7 (by decide) (by decide) (by decide)).2.1 (by decide)⟩

/-! ## Lemmas: every queue call of a run returns 1 -/

theorem push_ok_setProc (s : State) (i : Int) (p : PCB) (g : FilaId) (x : Int) :
    push_ok (setProc s i p) g x = push_ok s g x := by
  simp [push_ok]

theorem push_ok_of (s : State) (g : FilaId) (x : Int) (h : WF s)
    (hq : (conteudo s g).length < MAX_PROCESSOS) : push_ok s g x = true := by
  unfold push_ok
  rw [conteudo, Fila.length_toList] at hq
  simp [(fila_push_ok (getFila s g) x (h.2 g) hq).1]

/-- The checks of one iteration of the `for` loop, phrased with `conclui` and `destino`. -/
theorem tick_corpo_ok_eq (s : State) (f : FilaId) (tipo : Int) :
    tick_corpo_ok s f tipo =
      (decide ((fila_pop (getFila s f) 0).1 = 1) &&
        decide (0 ≤ (fila_pop (getFila s f) 0).2.2 ∧
          (fila_pop (getFila s f) 0).2.2 < (s.N : Int)) &&
        push_ok (setFila s f (fila_pop (getFila s f) 0).2.1)
          (if conclui (getProc s (fila_pop (getFila s f) 0).2.2) then destino tipo else f)
          (fila_pop (getFila s f) 0).2.2) := by
  unfold tick_corpo_ok
  simp only [getProc_setFila, push_ok_setProc]
  generalize (fila_pop (getFila s f) 0).2.2 = pid
  generalize setFila s f (fila_pop (getFila s f) 0).2.1 = s1
  congr 1
  generalize getProc s pid = p
  unfold conclui io_passo destino
  by_cases hb : p.status = STATUS_BLOQ
  · by_cases h1 : p.io_restante > 0
    · by_cases h3 : p.io_restante - 1 = 0
      · by_cases ht : tipo = IO_DISCO
        · simp [hb, h1, h3, ht]
        · simp [hb, h1, h3, ht]
      · simp [hb, h1, h3]
    · by_cases h2 : p.io_restante = 0
      · by_cases ht : tipo = IO_DISCO
        · simp [hb, h1, h2, ht]
        · simp [hb, h1, h2, ht]
      · simp [hb, h1, h2]
  · simp [hb]

/-- One pass over a device queue whose first `l.length` entries are the valid pids
`l`, when the ready queue has room for them: every call returns 1. -/
theorem tick_loop_ok_spec (tipo : Int) (f : FilaId) (hf : dispositivo f) :
    ∀ (l : List Int) (s : State) (acc : List Int),
      WF s → s.N = MAX_PROCESSOS → conteudo s f = l ++ acc → (∀ i ∈ l, valido i) →
      (conteudo s (destino tipo)).length + l.length ≤ MAX_PROCESSOS →
      tick_loop_ok l.length s f tipo = true := by
  intro l
  induction l with
  | nil => intro s acc _ _ _ _ _; rfl
  | cons p l ih =>
    intro s acc h hN hl hv hcap
    have hl' : conteudo s f = p :: (l ++ acc) := by simpa using hl
    have hcap1 : (conteudo s (destino tipo)).length < MAX_PROCESSOS := by
      simp only [List.length_cons] at hcap; omega
    obtain ⟨hw1, hf1, hd1, _⟩ := tick_corpo_filas s f tipo p (l ++ acc) h hf hl' hcap1
    obtain ⟨hr, hpid, hwq, hlq⟩ := fila_pop_ok (getFila s f) 0 p (l ++ acc) (h.2 f) hl'
    obtain ⟨_, hN1, _, _⟩ := tick_corpo_frame s f tipo
    have hfd : destino tipo ≠ f := fun e => destino_nao_dispositivo tipo (e ▸ hf)
    have hw' : WF (setFila s f (fila_pop (getFila s f) 0).2.1) := WF_setFila _ _ _ h hwq
    have hrest : (l ++ acc).length < MAX_PROCESSOS := by
      have := (h.2 f).2.2.1
      have h2 := (getFila s f).length_toList
      have h3 : (getFila s f).toList = p :: (l ++ acc) := hl'
      rw [h3] at h2
      simp only [List.length_cons] at h2
      omega
    have hpush : push_ok (setFila s f (fila_pop (getFila s f) 0).2.1)
        (if conclui (getProc s p) then destino tipo else f) p = true := by
      apply push_ok_of _ _ _ hw'
      by_cases hc : conclui (getProc s p) = true
      · rw [if_pos hc, conteudo_setFila, if_neg hfd]
        exact hcap1
      · rw [if_neg hc, conteudo_setFila, if_pos rfl, hlq]
        exact hrest
    have hvp := hv p (List.mem_cons_self _ _)
    have hcorpo : tick_corpo_ok s f tipo = true := by
      rw [tick_corpo_ok_eq, hpid, hr, hpush, hN]
      simp only [decide_True, Bool.and_true, Bool.true_and, decide_eq_true_eq]
      exact hvp
    have hcap2 : (conteudo (tick_corpo s f tipo) (destino tipo)).length + l.length
        ≤ MAX_PROCESSOS := by
      rw [hd1]
      simp only [List.length_cons, List.length_append] at hcap ⊢
      split <;> simp <;> omega
    simp only [List.length_cons, tick_loop_ok, hcorpo, Bool.true_and]
    exact ih (tick_corpo s f tipo) (acc ++ (if conclui (getProc s p) then [] else [p])) hw1
      (by rw [hN1, hN]) (by rw [hf1]; simp) (fun i hi => hv i (List.mem_cons_of_mem _ hi)) hcap2

/-- Function `tick_io_de_fila` on a device queue of valid pids, when the ready queue
has room for them: every call returns 1. -/
theorem tick_io_de_fila_ok_spec (s : State) (f : FilaId) (tipo : Int) (hf : dispositivo f)
    (h : WF s) (hN : s.N = MAX_PROCESSOS) (hv : ∀ i ∈ conteudo s f, valido i)
    (hcap : (conteudo s (destino tipo)).length + (conteudo s f).length ≤ MAX_PROCESSOS) :
    tick_io_de_fila_ok s f tipo = true := by
  have hq : (getFila s f).qtd = (conteudo s f).length := by
    rw [conteudo, Fila.length_toList]
  have := tick_loop_ok_spec tipo f hf (conteudo s f) s [] h hN (by simp) hv hcap
  simpa only [tick_io_de_fila_ok, hq] using this

/-- The three passes of one clock tick, from a state that satisfies the scheduler
invariant: every call returns 1. -/
theorem tick_todos_ok_spec (s : State) (run : Option Int) (h : Inv s run) :
    tick_todos_ok s = true := by
  have hlen := h.comprimento
  have hnd := h.nodup_bloqueados
  unfold bloqueados at hnd
  rw [List.nodup_append] at hnd
  obtain ⟨ndD, ndFI, _⟩ := hnd
  rw [List.nodup_append] at ndFI
  obtain ⟨ndF, ndI, _⟩ := ndFI
  have hvD : ∀ i ∈ conteudo s .io_disco, valido i := fun i hi => (h.mem_valido i _ hi).1
  have hvF : ∀ i ∈ conteudo s .io_fita, valido i := fun i hi => (h.mem_valido i _ hi).1
  have hvI : ∀ i ∈ conteudo s .io_impr, valido i := fun i hi => (h.mem_valido i _ hi).1
  have dD : destino IO_DISCO = .baixa := rfl
  have dF : destino IO_FITA = .alta := rfl
  have dI : destino IO_IMPRESSORA = .alta := rfl
  have k1 := tick_io_de_fila_ok_spec s .io_disco IO_DISCO (Or.inl rfl) h.wf h.hN hvD
    (by rw [dD]; omega)
  obtain ⟨w1, _, _, c1, _, _, n1, _⟩ :=
    tick_io_de_fila_spec s .io_disco IO_DISCO (Or.inl rfl) h.wf ndD (by rw [dD]; omega)
  rw [dD] at c1
  unfold tick_todos_ok
  rw [k1]
  generalize tick_io_de_fila s .io_disco IO_DISCO = s1 at *
  have eF1 : conteudo s1 .io_fita = conteudo s .io_fita :=
    conteudo_congr _ _ _ (c1 _ (by decide) (by decide))
  have eI1 : conteudo s1 .io_impr = conteudo s .io_impr :=
    conteudo_congr _ _ _ (c1 _ (by decide) (by decide))
  have eA1 : conteudo s1 .alta = conteudo s .alta :=
    conteudo_congr _ _ _ (c1 _ (by decide) (by decide))
  have k2 := tick_io_de_fila_ok_spec s1 .io_fita IO_FITA (Or.inr (Or.inl rfl)) w1
    (by rw [n1, h.hN]) (by rw [eF1]; exact hvF) (by rw [dF, eA1, eF1]; omega)
  obtain ⟨w2, _, b2, c2, _, _, n2, _⟩ :=
    tick_io_de_fila_spec s1 .io_fita IO_FITA (Or.inr (Or.inl rfl)) w1 (by rw [eF1]; exact ndF)
      (by rw [dF, eA1, eF1]; omega)
  rw [dF] at b2 c2
  rw [k2]
  generalize tick_io_de_fila s1 .io_fita IO_FITA = s2 at *
  have eI2 : conteudo s2 .io_impr = conteudo s1 .io_impr :=
    conteudo_congr _ _ _ (c2 _ (by decide) (by decide))
  have hlenF : ((conteudo s .io_fita).filter (fun p => conclui (getProc s1 p))).length
      ≤ (conteudo s .io_fita).length := List.length_filter_le _ _
  have k3 := tick_io_de_fila_ok_spec s2 .io_impr IO_IMPRESSORA (Or.inr (Or.inr rfl)) w2
    (by rw [n2, n1, h.hN]) (by rw [eI2, eI1]; exact hvI)
    (by rw [dI, b2, eA1, eF1, eI2, eI1, List.length_append]; omega)
  rw [k3]
  rfl

/-- The push of the I/O request returns 1. -/
theorem pedir_io_ok_spec (rnd : Nat → Nat) (s : State) (pid : Int) (h : Inv s (some pid)) :
    pedir_io_ok rnd s pid = true := by
  have hv := (h.fora pid rfl).1
  have h1 : Inv { s with rnd_pos := (duracao_io rnd (s.rnd_pos + 1)
      (rnd_range (rnd s.rnd_pos) IO_DISCO IO_IMPRESSORA)).2 } (some pid) :=
    Inv_congr s _ _ h rfl (fun g => by cases g <;> rfl) rfl
  have hlen := h1.comprimento_fora
  have hw := h1.wf
  unfold pedir_io_ok
  simp only [push_ok_setProc]
  split_ifs
  · exact push_ok_of _ _ _ hw (by omega)
  · exact push_ok_of _ _ _ hw (by omega)
  · exact push_ok_of _ _ _ hw (by omega)

/-- The three passes of a CPU tick return 1 at every call. -/
theorem quantum_tick_ok_spec (s : State) (pid : Int) (h : Inv s (some pid)) :
    quantum_tick_ok s pid = true := by
  have hv := (h.fora pid rfl).1
  have h1 : Inv { s with tempo := s.tempo + 1 } (some pid) :=
    Inv_congr s _ _ h rfl (fun g => by cases g <;> rfl) rfl
  have h2 := Inv_setProc_fora _ pid
    { getProc { s with tempo := s.tempo + 1 } pid with
      cpu_restante := (getProc { s with tempo := s.tempo + 1 } pid).cpu_restante - 1 } h1
    (h.pidf pid hv)
  exact tick_todos_ok_spec _ _ h2

/-- Every queue call of the `while` loop of `executar_quantum` returns 1. -/
theorem quantum_loop_ok_spec (rnd : Nat → Nat) (pid : Int) :
    ∀ (k : Nat) (s : State), Inv s (some pid) → quantum_loop_ok rnd k s pid = true := by
  intro k
  induction k with
  | zero => intro s _; rfl
  | succ k ih =>
    intro s h
    obtain ⟨hI, _⟩ := quantum_tick_resumo s pid h
    have hI4 : Inv { quantum_tick s pid with rnd_pos := (quantum_tick s pid).rnd_pos + 1 }
        (some pid) := Inv_congr _ _ _ hI rfl (fun g => by cases g <;> rfl) rfl
    simp only [quantum_loop_ok, quantum_tick_ok_spec s pid h, Bool.true_and]
    split_ifs
    · exact pedir_io_ok_spec rnd _ pid hI4
    · exact ih _ hI4
    · exact ih _ hI
    · rfl

/-- Every queue call of a dispatch returns 1. -/
theorem despachar_ok_spec (rnd : Nat → Nat) (s1 : State) (pid : Int)
    (h1 : Inv s1 (some pid)) (hc : 0 < (getProc s1 pid).cpu_restante) :
    despachar_ok rnd s1 pid = true := by
  have hv := (h1.fora pid rfl).1
  have hex : executar_quantum_ok rnd s1 pid = true :=
    quantum_loop_ok_spec rnd pid QUANTUM _
      (Inv_setProc_fora s1 pid _ h1 (h1.pidf pid hv))
  unfold despachar_ok
  rw [hex, Bool.true_and]
  rcases executar_quantum_resumo rnd s1 pid h1 hc with ⟨hr, _⟩ | ⟨hr, _⟩ | ⟨hr, hQ⟩
  · rw [hr]; rfl
  · rw [hr]; rfl
  · rw [hr, if_neg (by decide), if_neg (by decide), push_ok_setProc]
    obtain ⟨_, _, hI, _⟩ := hQ
    have hlen := hI.comprimento_fora
    exact push_ok_of _ _ _ hI.wf (by omega)

/-- The pop of the selection returns 1 and the popped pid indexes the table. -/
theorem selecionar_ok_spec (s : State) (h : Inv s none) : selecionar_ok s = true := by
  have hqa : s.fila_alta.qtd = (conteudo s .alta).length := by
    rw [conteudo, Fila.length_toList]; rfl
  have hqb : s.fila_baixa.qtd = (conteudo s .baixa).length := by
    rw [conteudo, Fila.length_toList]; rfl
  unfold selecionar_ok fila_vazia
  cases hla : conteudo s .alta with
  | cons a t =>
    obtain ⟨x1, x2, _⟩ := fila_pop_ok (getFila s .alta) (-1) a t (h.wf.2 _) hla
    have hva := (h.mem_valido a .alta (by rw [hla]; simp)).1
    have : (s.fila_alta.qtd == 0) = false := by rw [hqa, hla]; rfl
    change (fila_pop s.fila_alta (-1)).1 = 1 at x1
    change (fila_pop s.fila_alta (-1)).2.2 = a at x2
    simp only [this, Bool.not_false, if_true, x1, x2, h.hN]
    simp only [decide_True, Bool.true_and, decide_eq_true_eq]
    exact hva
  | nil =>
    have ha : (s.fila_alta.qtd == 0) = true := by rw [hqa, hla]; rfl
    cases hlb : conteudo s .baixa with
    | cons a t =>
      obtain ⟨x1, x2, _⟩ := fila_pop_ok (getFila s .baixa) (-1) a t (h.wf.2 _) hlb
      have hva := (h.mem_valido a .baixa (by rw [hlb]; simp)).1
      have : (s.fila_baixa.qtd == 0) = false := by rw [hqb, hlb]; rfl
      change (fila_pop s.fila_baixa (-1)).1 = 1 at x1
      change (fila_pop s.fila_baixa (-1)).2.2 = a at x2
      simp only [ha, this, Bool.not_true, Bool.not_false, if_true, x1, x2, h.hN]
      simp only [Bool.false_eq_true, if_false, decide_True, Bool.true_and, decide_eq_true_eq]
      exact hva
    | nil =>
      have hb : (s.fila_baixa.qtd == 0) = true := by rw [hqb, hlb]; rfl
      simp [ha, hb]

/-- Every queue call of one iteration of the scheduler returns 1. -/
theorem sched_iter_ok_spec (rnd : Nat → Nat) (s : State) (h : Inv s none) :
    sched_iter_ok rnd s = true := by
  unfold sched_iter_ok
  rw [selecionar_ok_spec s h, Bool.true_and]
  cases hsel : selecionar s with
  | none =>
    exact tick_todos_ok_spec _ none
      (Inv_congr s _ _ h rfl (fun g => by cases g <;> rfl) rfl)
  | some p =>
    obtain ⟨pid, s1⟩ := p
    obtain ⟨_, hI, hp, _, hc, _⟩ := sched_iter_despacho rnd s s1 pid 0 h hsel
    exact despachar_ok_spec rnd s1 pid hI (by rw [hp]; exact hc)

/-- Every queue call of the scheduler loop returns 1, for any number of iterations. -/
theorem escalonador_loop_ok_spec (rnd : Nat → Nat) :
    ∀ (fuel : Nat) (s : State) (f : Nat), Inv s none →
      escalonador_loop_ok rnd fuel s f = true := by
  intro fuel
  induction fuel with
  | zero => intro s f _; rfl
  | succ n ih =>
    intro s f h
    simp only [escalonador_loop_ok, sched_iter_ok_spec rnd s h, Bool.true_and]
    split_ifs
    · exact ih _ _ (Inv_sched_iter rnd s f h).1
    · rfl

/-- Every push of the creation loop returns 1. -/
theorem gerar_loop_ok_spec (rnd : Nat → Nat) :
    ∀ (k : Nat) (s : State), k ≤ MAX_PROCESSOS → WF s →
      (conteudo s .alta).length = MAX_PROCESSOS - k → gerar_loop_ok rnd k s = true := by
  intro k
  induction k with
  | zero => intro s _ _ _; rfl
  | succ k ih =>
    intro s hk hw hc
    generalize hi : MAX_PROCESSOS - (k + 1) = i at hc
    have hw1 : WF { s with rnd_pos := s.rnd_pos + 1 } :=
      WF_congr s _ rfl (fun g => by cases g <;> rfl) hw
    have hc1 : ∀ p : PCB, conteudo (setProc { s with rnd_pos := s.rnd_pos + 1 } (i : Int) p)
        .alta = conteudo s .alta := by
      intro p; rw [conteudo_setProc]; rfl
    have hlt : (conteudo s .alta).length < MAX_PROCESSOS := by
      simp only [MAX_PROCESSOS] at *; omega
    have hcorpo : gerar_corpo_ok rnd s i = true := by
      unfold gerar_corpo_ok
      simp only [push_ok_setProc]
      exact push_ok_of _ _ _ hw1 hlt
    simp only [gerar_loop_ok, hi, hcorpo, Bool.true_and]
    have hbody : gerar_corpo rnd s i =
        pushTo (setProc { s with rnd_pos := s.rnd_pos + 1 } (i : Int)
          { pid := (i : Int)
            ppid := if i = 0 then -1 else 0
            prioridade := PRIORIDADE_ALTA
            status := STATUS_PRONTO
            cpu_total := rnd_range (rnd s.rnd_pos) CPU_MIN CPU_MAX
            cpu_restante := rnd_range (rnd s.rnd_pos) CPU_MIN CPU_MAX
            tipo_io := IO_NENHUM
            io_restante := 0 }) .alta (i : Int) := rfl
    rw [hbody]
    have key : ∀ p0 : PCB,
        WF (pushTo (setProc { s with rnd_pos := s.rnd_pos + 1 } (i : Int) p0) .alta (i : Int)) ∧
        (conteudo (pushTo (setProc { s with rnd_pos := s.rnd_pos + 1 } (i : Int) p0) .alta
          (i : Int)) .alta).length = i + 1 := by
      intro p0
      obtain ⟨pw, pc, _⟩ := pushTo_ok (setProc { s with rnd_pos := s.rnd_pos + 1 } (i : Int) p0)
        .alta (i : Int) (WF_setProc _ (i : Int) p0 hw1) (by rw [hc1]; exact hlt)
      refine ⟨pw, ?_⟩
      rw [pc, hc1, List.length_append, hc]
      rfl
    refine ih _ (by omega) (key _).1 ?_
    rw [(key _).2]
    simp only [MAX_PROCESSOS] at *
    omega

/-- Every push of `gerar_processos` returns 1, whatever the arrays held before. -/
theorem gerar_processos_ok_spec (rnd : Nat → Nat) (s0 : State) (h : Dimensionado s0) :
    gerar_processos_ok rnd s0 = true := by
  unfold gerar_processos_ok
  generalize hs1 : ({ s0 with
      fila_alta := fila_init s0.fila_alta
      fila_baixa := fila_init s0.fila_baixa
      fila_io_disco := fila_init s0.fila_io_disco
      fila_io_fita := fila_init s0.fila_io_fita
      fila_io_impr := fila_init s0.fila_io_impr
      N := MAX_PROCESSOS } : State) = s1
  have hg : ∀ g, getFila s1 g = fila_init (getFila s0 g) := by
    intro g; rw [← hs1]; cases g <;> rfl
  have hw : WF s1 := by
    refine ⟨by rw [← hs1]; exact h.1, fun g => ?_⟩
    rw [hg]
    exact (fila_init_ok _ (h.2 g)).1
  have hc : conteudo s1 .alta = [] := by
    rw [conteudo, hg]
    exact (fila_init_ok _ (h.2 _)).2
  exact gerar_loop_ok_spec rnd MAX_PROCESSOS s1 (le_refl _) hw (by rw [hc]; rfl)

/-- The checks do detect a failing call: in `estado_baixa_cheia` the push of the disk
pass on the full `fila_baixa` returns 0, and in `estado_tudo_fim` the pass has
nothing to pop and passes. -/
theorem tick_io_de_fila_ok_detecta :
    tick_io_de_fila_ok estado_baixa_cheia .io_disco IO_DISCO = false ∧
    tick_todos_ok estado_baixa_cheia = false ∧
    tick_todos_ok estado_tudo_fim = true := by
  decide

/-- C17. No overflow or underflow in a run. For every random stream and whatever the
arrays held before: every `fila_push` executed by `gerar_processos` returns 1; and
in the scheduler loop started in the state that `gerar_processos` built, for any
number of iterations, every `fila_push` executed by `tick_io_de_fila`,
`executar_quantum` and `escalonador_rr_feedback` returns 1, every `fila_pop`
executed by `tick_io_de_fila` and `escalonador_rr_feedback` returns 1, and every
popped pid satisfies `0 ≤ pid < N` (these are the checks of `gerar_processos_ok` and
`escalonador_loop_ok`). In particular, at every iteration boundary that the run
reaches, the checks of the next iteration hold, and a selected pid is the head of
its ready queue and indexes the table. -/
theorem C17_sem_overflow (rnd : Nat → Nat) (s0 : State) (hd : Dimensionado s0) :
    gerar_processos_ok rnd s0 = true ∧
    (∀ fuel, escalonador_loop_ok rnd fuel (gerar_processos rnd s0) 0 = true) ∧
    (∀ n s f, fronteira rnd n (gerar_processos rnd s0) 0 = some (s, f) →
      sched_iter_ok rnd s = true ∧
      (∀ pid s1, selecionar s = some (pid, s1) →
        0 ≤ pid ∧ pid < (s.N : Int) ∧
        (pid = (fila_pop s.fila_alta (-1)).2.2 ∧ (fila_pop s.fila_alta (-1)).1 = 1 ∨
         pid = (fila_pop s.fila_baixa (-1)).2.2 ∧ (fila_pop s.fila_baixa (-1)).1 = 1))) := by
  have h0 := InvF_inicial rnd s0 hd
  refine ⟨gerar_processos_ok_spec rnd s0 hd,
    fun fuel => escalonador_loop_ok_spec rnd fuel _ 0 h0.1, ?_⟩
  intro n s f hfr
  have hI := (fronteira_InvF rnd _ 0 h0 n s f hfr).1
  refine ⟨sched_iter_ok_spec rnd s hI, ?_⟩
  intro pid s1 hsel
  obtain ⟨_, _, _, _, _, hv, _⟩ := sched_iter_despacho rnd s s1 pid 0 hI hsel
  refine ⟨hv.1, by rw [hI.hN]; exact hv.2, ?_⟩
  have hok := selecionar_ok_spec s hI
  unfold selecionar at hsel
  unfold selecionar_ok at hok
  split_ifs at hsel hok with ha hb
  · simp only [Option.some.injEq, Prod.mk.injEq] at hsel
    simp only [Bool.and_eq_true, decide_eq_true_eq] at hok
    exact Or.inl ⟨hsel.1.symm, hok.1⟩
  · simp only [Option.some.injEq, Prod.mk.injEq] at hsel
    simp only [Bool.and_eq_true, decide_eq_true_eq] at hok
    exact Or.inr ⟨hsel.1.symm, hok.1⟩

/-- C17, instance: the run from the zero store with the stream that is constantly 0,
which requests I/O at every opportunity, for 200 iterations. -/
theorem C17_sem_overflow_witness :
    Dimensionado estado_zero ∧ gerar_processos_ok (fun _ => 0) estado_zero = true ∧
    escalonador_loop_ok (fun _ => 0) 200 (gerar_processos (fun _ => 0) estado_zero) 0 = true :=
  ⟨by decide, (C17_sem_overflow (fun _ => 0) estado_zero (by decide)).1,
    (C17_sem_overflow (fun _ => 0) estado_zero (by decide)).2.1 200⟩
/-- One iteration of the scheduler keeps the agreement between the ready queues and
the priority field. -/
theorem prioridade_sched_iter (rnd : Nat → Nat) (s : State) (f : Nat) (h : Inv s none)
    (ha : ∀ i ∈ conteudo s .alta, (getProc s i).prioridade = PRIORIDADE_ALTA)
    (hb : ∀ i ∈ conteudo s .baixa, (getProc s i).prioridade = PRIORIDADE_BAIXA) :
    (∀ i ∈ conteudo (sched_iter rnd s f).1 .alta,
      (getProc (sched_iter rnd s f).1 i).prioridade = PRIORIDADE_ALTA) ∧
    (∀ i ∈ conteudo (sched_iter rnd s f).1 .baixa,
      (getProc (sched_iter rnd s f).1 i).prioridade = PRIORIDADE_BAIXA) := by
  obtain ⟨hI, _, hcase⟩ := sched_iter_geral rnd s f h
  generalize (sched_iter rnd s f).1 = s' at *
  -- a process that only saw clock ticks
  have hev : ∀ i, Ev s s' i →
      (i ∈ conteudo s' .alta → (getProc s' i).prioridade = PRIORIDADE_ALTA) ∧
      (i ∈ conteudo s' .baixa → (getProc s' i).prioridade = PRIORIDADE_BAIXA) := by
    intro i he
    obtain ⟨_, _, _, _, hx⟩ := he
    rcases hx with ⟨e, hm⟩ | ⟨_, _, ep, _, _, _, hm⟩ | ⟨_, _, _, ep, _, _, hm⟩ |
      ⟨_, _, _, ep, _, _, hm⟩
    · exact ⟨fun hi => by rw [e]; exact ha i ((hm _).1 hi),
        fun hi => by rw [e]; exact hb i ((hm _).1 hi)⟩
    · exact ⟨fun hi => by rw [ep]; exact ha i ((hm _).1 hi),
        fun hi => by rw [ep]; exact hb i ((hm _).1 hi)⟩
    · exact ⟨fun hi => absurd hi (hI.unico i .baixa .alta (by decide) hm), fun _ => ep⟩
    · exact ⟨fun _ => ep, fun hi => absurd hi (hI.unico i .alta .baixa (by decide) hm)⟩
  rcases hcase with ⟨_, _, hall, _⟩ | ⟨pid, s1, _, _, hD, hout, _⟩
  · exact ⟨fun i hi => (hev i (hall i)).1 hi, fun i hi => (hev i (hall i)).2 hi⟩
  · have hpid : (pid ∈ conteudo s' .alta → (getProc s' pid).prioridade = PRIORIDADE_ALTA) ∧
        (pid ∈ conteudo s' .baixa → (getProc s' pid).prioridade = PRIORIDADE_BAIXA) := by
      obtain ⟨_, _, _, _, _, _, _, _, hx⟩ := hD
      rcases hx with ⟨_, _, _, _, _, hno⟩ | ⟨_, _, _, _, _, hm⟩ | ⟨_, _, _, ep, _, _, hm⟩
      · exact ⟨fun hi => absurd hi (hno _), fun hi => absurd hi (hno _)⟩
      · have hdev : pid ∈ conteudo s' .io_disco ∨ pid ∈ conteudo s' .io_fita ∨
            pid ∈ conteudo s' .io_impr := by
          simpa [bloqueados] using hm
        constructor
        · intro hi
          rcases hdev with hd | hd | hd
          · exact absurd hi (hI.unico pid _ .alta (by decide) hd)
          · exact absurd hi (hI.unico pid _ .alta (by decide) hd)
          · exact absurd hi (hI.unico pid _ .alta (by decide) hd)
        · intro hi
          rcases hdev with hd | hd | hd
          · exact absurd hi (hI.unico pid _ .baixa (by decide) hd)
          · exact absurd hi (hI.unico pid _ .baixa (by decide) hd)
          · exact absurd hi (hI.unico pid _ .baixa (by decide) hd)
      · exact ⟨fun hi => absurd hi (hI.unico pid .baixa .alta (by decide) hm), fun _ => ep⟩
    constructor
    · intro i hi
      by_cases hip : i = pid
      · subst hip; exact hpid.1 hi
      · exact (hev i (hout i hip)).1 hi
    · intro i hi
      by_cases hip : i = pid
      · subst hip; exact hpid.2 hi
      · exact (hev i (hout i hip)).2 hi

/-- C20. Ready queues agree with the priority field. In every state reached from
`gerar_processos` at an iteration boundary of `escalonador_rr_feedback`, for every
random stream: every pid stored in `fila_alta` belongs to a process whose
`prioridade` is HIGH, and every pid stored in `fila_baixa` belongs to a process
whose `prioridade` is LOW. -/
theorem C20_filas_prioridade (rnd : Nat → Nat) (s0 : State) (hd : Dimensionado s0)
    (n : Nat) (s : State) (f : Nat)
    (hfr : fronteira rnd n (gerar_processos rnd s0) 0 = some (s, f)) :
    (∀ i ∈ conteudo s .alta, (getProc s i).prioridade = PRIORIDADE_ALTA) ∧
    (∀ i ∈ conteudo s .baixa, (getProc s i).prioridade = PRIORIDADE_BAIXA) := by
  have h0 := InvF_inicial rnd s0 hd
  induction n generalizing s f with
  | zero =>
    simp only [fronteira, Option.some.injEq, Prod.mk.injEq] at hfr
    obtain ⟨rfl, rfl⟩ := hfr
    obtain ⟨_, _, ha, hg, hp, _⟩ := gerar_processos_spec rnd s0 hd
    constructor
    · intro i hi
      have hv := (h0.1.mem_valido i .alta hi).1
      obtain ⟨j, hj, rfl⟩ := valido_casos i hv
      rw [hp j hj]
      rfl
    · intro i hi
      rw [hg .baixa (by decide)] at hi
      cases hi
  | succ n ih =>
    simp only [fronteira] at hfr
    cases hprev : fronteira rnd n (gerar_processos rnd s0) 0 with
    | none => rw [hprev] at hfr; cases hfr
    | some p =>
      obtain ⟨s1, f1⟩ := p
      rw [hprev] at hfr
      simp only at hfr
      by_cases hlt : f1 < s1.N
      · rw [if_pos hlt] at hfr
        have hfr := Option.some.inj hfr
        have es : s = (sched_iter rnd s1 f1).1 := by rw [hfr]
        obtain ⟨a, b⟩ := ih s1 f1 hprev
        have hI := (fronteira_InvF rnd _ 0 h0 n s1 f1 hprev).1
        rw [es]
        exact prioridade_sched_iter rnd s1 f1 hI a b
      · rw [if_neg hlt] at hfr; cases hfr

/-- C20, instance: the run from the zero store with the stream that is constantly 0,
which requests I/O at every opportunity, after 4 iterations: `fila_alta` holds the
pids 4 to 7 and `fila_baixa` holds pid 0, back from the disk. -/
theorem C20_filas_prioridade_witness :
    Dimensionado estado_zero ∧
    fronteira (fun _ => 0) 4 (gerar_processos (fun _ => 0) estado_zero) 0
      = some (((fronteira (fun _ => 0) 4 (gerar_processos (fun _ => 0) estado_zero) 0).getD
          (estado_zero, 0)).1,
        ((fronteira (fun _ => 0) 4 (gerar_processos (fun _ => 0) estado_zero) 0).getD
          (estado_zero, 0)).2) ∧
    conteudo ((fronteira (fun _ => 0) 4 (gerar_processos (fun _ => 0) estado_zero) 0).getD
      (estado_zero, 0)).1 .alta = [4, 5, 6, 7] ∧
    conteudo ((fronteira (fun _ => 0) 4 (gerar_processos (fun _ => 0) estado_zero) 0).getD
      (estado_zero, 0)).1 .baixa = [0] ∧
    ((∀ i ∈ conteudo ((fronteira (fun _ => 0) 4
        (gerar_processos (fun _ => 0) estado_zero) 0).getD (estado_zero, 0)).1 .alta,
      (getProc ((fronteira (fun _ => 0) 4
        (gerar_processos (fun _ => 0) estado_zero) 0).getD (estado_zero, 0)).1 i).prioridade
        = PRIORIDADE_ALTA) ∧
    (∀ i ∈ conteudo ((fronteira (fun _ => 0) 4
        (gerar_processos (fun _ => 0) estado_zero) 0).getD (estado_zero, 0)).1 .baixa,
      (getProc ((fronteira (fun _ => 0) 4
        (gerar_processos (fun _ => 0) estado_zero) 0).getD (estado_zero, 0)).1 i).prioridade
        = PRIORIDADE_BAIXA)) :=
  ⟨by decide, by decide, by decide, by decide,
    C20_filas_prioridade (fun _ => 0) estado_zero (by decide) 4
      ((fronteira (fun _ => 0) 4 (gerar_processos (fun _ => 0) estado_zero) 0).getD
        (estado_zero, 0)).1
      ((fronteira (fun _ => 0) 4 (gerar_processos (fun _ => 0) estado_zero) 0).getD
        (estado_zero, 0)).2 (by decide)⟩

end Escalonador
